import Mathlib

/-! GoalOS backend: nested aggregate documents.

A shallow embedding of the controllers and schemas of the GoalOS backend
(`challengeController.js`, `challengeModel.js`, `specialScheduleController.js`,
`specialScheduleModel.js`, `studyStructureController.js`, `studyStructureModel.js`,
`transactionController.js`, `lifePlanController.js`, `diaryController.js`,
`studyMaterialController.js`, `timeTableController.js` and their models, and the balance
of `dashboardController.js`).

Conventions of the embedding

* A collection of the document store is a list of documents; `findOne` returns the
  first document that satisfies the filter and `save` validates the whole document
  against its schema and then overwrites the stored document that has the same `_id`.
* Identifiers are strings (the textual form of an ObjectId). Fresh identifiers and the
  clock are inputs of the handlers.
* A handler returns an `Outcome`: the store after the request and either the data of the
  response or the `Failure` that ended the request.
* Dates are epoch milliseconds (`Int`); numbers of a request body are integers.
-/

namespace GoalOS

/-! ## Request values and string helpers -/

/-- A value read from a JSON request body. `undefined` is an absent field and `obj` is a
plain object literal. -/
inductive JsVal where
  | undefined
  | null
  | bool (b : Bool)
  | num (n : Int)
  | str (s : String)
  | obj
  deriving DecidableEq, Repr

/-- JavaScript truthiness, as tested by `if (x)` and `!x`. -/
def JsVal.truthy : JsVal → Bool
  | .undefined => false
  | .null => false
  | .bool b => b
  | .num n => n != 0
  | .str s => s != ""
  | .obj => true

/-- The characters removed by `String.prototype.trim`: ECMAScript WhiteSpace and
LineTerminator code points. -/
def isJsWhiteSpace (c : Char) : Bool :=
  let n := c.toNat
  n == 0x09 || n == 0x0A || n == 0x0B || n == 0x0C || n == 0x0D || n == 0x20 ||
  n == 0xA0 || n == 0x1680 || (0x2000 ≤ n && n ≤ 0x200A) || n == 0x2028 ||
  n == 0x2029 || n == 0x202F || n == 0x205F || n == 0x3000 || n == 0xFEFF

/-- Trimming of a character list at both ends. -/
def trimChars (cs : List Char) : List Char :=
  ((cs.dropWhile isJsWhiteSpace).reverse.dropWhile isJsWhiteSpace).reverse

/-- `String.prototype.trim`. -/
def jsTrim (s : String) : String := ⟨trimChars s.data⟩

/-- `String.prototype.length`: the number of UTF-16 code units. -/
def jsLength (s : String) : Nat :=
  (s.data.map (fun c => if c.toNat < 0x10000 then 1 else 2)).sum

/-- The way a request ends when it does not succeed. -/
inductive Failure where
  /-- an error response with an explicit status: `res.status(s)` followed by a throw or a
  JSON error body, or `next(new ErrorResponse(message, s))` -/
  | response (status : Nat) (message : String)
  /-- `throw new Error(message)` with no status set by the controller -/
  | thrown (message : String)
  /-- `save()` rejected the document: the schema validator named by `message` failed -/
  | validation (message : String)
  /-- a value of the request could not be cast to the type of the schema path -/
  | castError (path : String)
  /-- a string method was called on a value that is not a string -/
  | typeError
  deriving DecidableEq, Repr

/-- The text of `error.message`. -/
def Failure.message : Failure → String
  | .response _ m => m
  | .thrown m => m
  | .validation m => m
  | .castError path => "Cast failed for path " ++ path
  | .typeError => "TypeError"

/-- The store after a request, and the response data or the failure. -/
structure Outcome (σ α : Type) where
  db : σ
  result : Except Failure α

/-- Mongoose cast of a request value to a `String` path. -/
def castString : JsVal → Option String
  | .str s => some s
  | .num n => some (toString n)
  | .bool b => some (if b then "true" else "false")
  | _ => none

/-- The 24-digit hexadecimal form accepted by `mongoose.Types.ObjectId.isValid`. -/
def objectIdIsValid (s : String) : Bool :=
  s.data.length == 24 && s.data.all (fun c => c.isDigit || ('a' ≤ c && c ≤ 'f') || ('A' ≤ c && c ≤ 'F'))

/-- Mongoose cast of a string to an `ObjectId`, the id being given by its text: a string
of 24 hexadecimal digits is read without regard to the case of its letters, and the text
of the id has them in lower case; another string is not cast. -/
def castObjectId (s : String) : Option String :=
  if objectIdIsValid s then some ⟨s.data.map Char.toLower⟩ else none

/-- A date field of a request body, as `if (x)` and `new Date(x)` read it: `undefined`
when the field is absent, `null`, `falsy` for the other falsy values (the empty string,
0, false), `invalid` when the value is truthy and `new Date(x)` is an Invalid Date,
`valid ms` when it is truthy and `new Date(x)` is the instant `ms`. -/
inductive DateField where
  | undefined
  | null
  | falsy
  | invalid
  | valid (ms : Int)
  deriving DecidableEq, Repr

/-- Truthiness of the raw date field. -/
def DateField.truthy : DateField → Bool
  | .invalid => true
  | .valid _ => true
  | _ => false

/-- A value assigned to a `Number` path, as the schema cast reads it: `undefined` when the
field is absent, `null` when the cast gives null (null or the empty string), `num n`
when it gives the number `n`, `notNumber` when the cast fails. -/
inductive NumArg where
  | undefined
  | null
  | num (n : Int)
  | notNumber
  deriving DecidableEq, Repr

/-- A value assigned to a `Boolean` path, as the schema cast reads it: `undefined` when
the field is absent, `null`, `bool b` when the cast gives `b`, `notBoolean` when the cast
fails. -/
inductive BoolArg where
  | undefined
  | null
  | bool (b : Bool)
  | notBoolean
  deriving DecidableEq, Repr

/-! ## Challenges (`challengeModel.js`, `challengeController.js`) -/

namespace ChallengeModel

/-- A document of `subjectSchema` (without `resources` and the two date stamps, which the
handlers modelled here never read or write). The paths that are not required may hold
null: `description`, `progress`, `startDate`, `endDate`. -/
structure Subject where
  _id : String
  name : String
  description : Option String
  status : String
  progress : Option Int
  startDate : Option Int
  endDate : Option Int
  deriving DecidableEq, Repr

/-- A document of `sectionSchema`. The `_id` is optional because the handlers guard
against a section without one (`s._id ? s._id.toString() : null`). -/
structure Section where
  _id : Option String
  name : String
  description : Option String
  order : Int
  progress : Int
  subjects : List Subject
  deriving DecidableEq, Repr

/-- A document of `challengeSchema` (without `startDate`, `endDate` and the timestamps,
which the handlers modelled here never read or write). -/
structure Challenge where
  _id : String
  userId : String
  name : String
  description : Option String
  sections : List Section
  status : String
  isDeleted : Bool
  deriving DecidableEq, Repr

/-- Validators of `subjectSchema`: `name` required, `status` in its enum, `progress`
between 0 and 100 (the `min` and `max` validators accept a null value: the path is not
required). -/
def validateSubject (s : Subject) : Except Failure Unit :=
  if s.name == "" then .error (.validation "sections.subjects.name is required")
  else if !(s.status == "not_started" || s.status == "in_progress" || s.status == "completed") then
    .error (.validation "sections.subjects.status is not a valid enum value")
  else
    match s.progress with
    | none => .ok ()
    | some p =>
      if p < 0 then
        .error (.validation "sections.subjects.progress is less than minimum allowed value (0)")
      else if p > 100 then
        .error (.validation "sections.subjects.progress is more than maximum allowed value (100)")
      else .ok ()

/-- Validators of `sectionSchema`: `name` required, `progress` between 0 and 100,
and every subject valid. -/
def validateSection (s : Section) : Except Failure Unit :=
  if s.name == "" then .error (.validation "sections.name is required")
  else if s.progress < 0 then .error (.validation "sections.progress is less than minimum allowed value (0)")
  else if s.progress > 100 then .error (.validation "sections.progress is more than maximum allowed value (100)")
  else s.subjects.forM validateSubject

/-- Validators of `challengeSchema`: `userId` and `name` required, `status` in its enum,
and every section valid. -/
def validateChallenge (c : Challenge) : Except Failure Unit :=
  if c.userId == "" then .error (.validation "userId is required")
  else if c.name == "" then .error (.validation "name is required")
  else if !(c.status == "active" || c.status == "completed" || c.status == "paused") then
    .error (.validation "status is not a valid enum value")
  else c.sections.forM validateSection

/-- The challenges collection. -/
abbrev Store := List Challenge

/-- The query `Challenge.findOne(filter)`. -/
def findOne (db : Store) (filter : Challenge → Bool) : Option Challenge :=
  db.find? filter

/-- Overwrite the stored document that has the `_id` of `c`. -/
def replaceDoc (db : Store) (c : Challenge) : Store :=
  db.map (fun d => if d._id == c._id then c else d)

/-- The call `challenge.save()` on a document loaded from the store: validate, then write. -/
def save (db : Store) (c : Challenge) : Except Failure Store :=
  match validateChallenge c with
  | .error e => .error e
  | .ok _ => .ok (replaceDoc db c)

/-- Body of `POST /api/challenges`. -/
structure CreateChallengeBody where
  name : JsVal
  description : JsVal

/-- Cast of an optional `String` path: an absent or null value stores nothing. -/
def castOptString (path : String) : JsVal → Except Failure (Option String)
  | .undefined => .ok none
  | .null => .ok none
  | v => match castString v with
    | some s => .ok (some s)
    | none => .error (.castError path)

/-- The handler `createChallenge`: `Challenge.create` stores a document with the trimmed
name, no sections, status `active` and `isDeleted` false. -/
def createChallenge (db : Store) (userId newId : String) (body : CreateChallengeBody) :
    Outcome Store Challenge :=
  if !body.name.truthy then
    ⟨db, .error (.response 400 "Please provide a name for the challenge")⟩
  else
    match castString body.name, castOptString "description" body.description with
    | none, _ => ⟨db, .error (.castError "name")⟩
    | _, .error e => ⟨db, .error e⟩
    | some name, .ok description =>
      let challenge : Challenge :=
        { _id := newId, userId := userId, name := jsTrim name, description := description,
          sections := [], status := "active", isDeleted := false }
      match validateChallenge challenge with
      | .error e => ⟨db, .error e⟩
      | .ok _ => ⟨db ++ [challenge], .ok challenge⟩

/-- Request of `POST /api/challenges/:id/sections`. -/
structure AddSectionReq where
  challengeId : String
  userId : Option String
  name : JsVal

/-- The handler `addSectionToChallenge`. A failure of `save` is caught by the inner
`try` and answered with status 500. -/
def addSectionToChallenge (db : Store) (newId : String) (req : AddSectionReq) :
    Outcome Store Section :=
  if !req.name.truthy then
    ⟨db, .error (.response 400 "Section name is required")⟩
  else if req.challengeId == "" then
    ⟨db, .error (.response 400 "Challenge ID is required")⟩
  else
    match req.userId with
    | none => ⟨db, .error (.response 401 "Not authenticated")⟩
    | some userId =>
      match req.name with
      | .str name =>
        if jsTrim name == "" then
          ⟨db, .error (.response 400 "Please provide a valid name for the section")⟩
        else if !objectIdIsValid req.challengeId then
          ⟨db, .error (.response 400 "Invalid challenge ID format")⟩
        else
          match findOne db (fun c => c._id == req.challengeId && c.userId == userId) with
          | none =>
            ⟨db, .error (.response 404
              "Challenge not found or you do not have permission to modify it")⟩
          | some challenge =>
            let newSection : Section :=
              { _id := some newId, name := jsTrim name, description := none,
                order := (challenge.sections.length : Int) + 1, progress := 0, subjects := [] }
            let challenge := { challenge with sections := challenge.sections ++ [newSection] }
            match save db challenge with
            | .error e => ⟨db, .error (.response 500 e.message)⟩
            | .ok db' => ⟨db', .ok newSection⟩
      | _ => ⟨db, .error (.response 400 "Please provide a valid name for the section")⟩

/-- Request of `PUT /api/challenges/:id/sections/:sectionId`. -/
structure UpdateSectionReq where
  challengeId : String
  sectionId : String
  userId : String
  name : JsVal
  description : JsVal

/-- The index search `challenge.sections.findIndex(s => s._id.toString() === sectionId)`;
a section without `_id` never matches. -/
def findSectionIndex (sections : List Section) (sectionId : String) : Option Nat :=
  sections.findIdx? (fun s => s._id == some sectionId)

/-- The handler `updateSectionInChallenge`: sets the name, and the description when the
body has one. -/
def updateSectionInChallenge (db : Store) (req : UpdateSectionReq) :
    Outcome Store (Option Section) :=
  if !req.name.truthy then
    ⟨db, .error (.response 400 "Section name is required")⟩
  else
    match findOne db (fun c => c._id == req.challengeId && c.userId == req.userId) with
    | none => ⟨db, .error (.response 404 "Challenge not found")⟩
    | some challenge =>
      match findSectionIndex challenge.sections req.sectionId with
      | none => ⟨db, .error (.response 404 "Section not found")⟩
      | some sectionIndex =>
        match castString req.name, castOptString "sections.description" req.description with
        | none, _ => ⟨db, .error (.castError "sections.name")⟩
        | _, .error e => ⟨db, .error e⟩
        | some name, .ok description =>
          let update (s : Section) : Section :=
            { s with
              name := name
              description := if req.description == .undefined then s.description else description }
          let challenge := { challenge with sections := challenge.sections.modify update sectionIndex }
          match save db challenge with
          | .error e => ⟨db, .error e⟩
          | .ok db' => ⟨db', .ok (challenge.sections.get? sectionIndex)⟩

/-- The loop `challenge.sections.forEach((section, index) => section.order = index + 1)`,
started at position `index`. -/
def renumberFrom (index : Nat) : List Section → List Section
  | [] => []
  | s :: rest => { s with order := (index : Int) + 1 } :: renumberFrom (index + 1) rest

/-- The handler `deleteSectionFromChallenge`: splice the section out, renumber the rest,
save. -/
def deleteSectionFromChallenge (db : Store) (userId challengeId sectionId : String) :
    Outcome Store Unit :=
  match findOne db (fun c => c._id == challengeId && c.userId == userId) with
  | none => ⟨db, .error (.response 404 "Challenge not found")⟩
  | some challenge =>
    match findSectionIndex challenge.sections sectionId with
    | none => ⟨db, .error (.response 404 "Section not found")⟩
    | some sectionIndex =>
      let spliced := challenge.sections.eraseIdx sectionIndex
      let challenge := { challenge with sections := renumberFrom 0 spliced }
      match save db challenge with
      | .error e => ⟨db, .error e⟩
      | .ok db' => ⟨db', .ok ()⟩

/-! ### Challenge reads, update and soft delete -/

/-- The handler `getChallenge`: the query filters on `_id`, `userId` and
`isDeleted: false`. -/
def getChallenge (db : Store) (userId id : String) : Outcome Store Challenge :=
  match findOne db (fun c => c._id == id && c.userId == userId && !c.isDeleted) with
  | none => ⟨db, .error (.response 404 "Challenge not found")⟩
  | some challenge => ⟨db, .ok challenge⟩

/-- The handler `getChallenges`. The store keeps the documents in creation order, so the
sort on `createdAt` descending is a reversal. -/
def getChallenges (db : Store) (userId : String) : Outcome Store (List Challenge) :=
  ⟨db, .ok (db.filter (fun c => c.userId == userId && !c.isDeleted)).reverse⟩

/-- Request of `PUT /api/challenges/:id`. -/
structure UpdateChallengeReq where
  id : String
  userId : String
  name : JsVal
  description : JsVal
  status : JsVal

/-- The value of a `String` path after `if (x) doc.path = x`: the old value when `x` is
falsy, the cast of `x` otherwise. -/
def assignIfTruthy (path : String) (old : String) (x : JsVal) : Except Failure String :=
  if x.truthy then
    match castString x with
    | some s => .ok s
    | none => .error (.castError path)
  else .ok old

/-- The value of an optional `String` path after `if (x !== undefined) doc.path = x`. -/
def assignIfDefined (path : String) (old : Option String) (x : JsVal) :
    Except Failure (Option String) :=
  if x == .undefined then .ok old else castOptString path x

/-- The handler `updateChallenge`; the schema trims the name. -/
def updateChallenge (db : Store) (req : UpdateChallengeReq) : Outcome Store Challenge :=
  match findOne db (fun c => c._id == req.id && c.userId == req.userId && !c.isDeleted) with
  | none => ⟨db, .error (.response 404 "Challenge not found")⟩
  | some challenge =>
    match assignIfTruthy "name" challenge.name req.name,
          assignIfDefined "description" challenge.description req.description,
          assignIfTruthy "status" challenge.status req.status with
    | .error e, _, _ => ⟨db, .error e⟩
    | _, .error e, _ => ⟨db, .error e⟩
    | _, _, .error e => ⟨db, .error e⟩
    | .ok name, .ok description, .ok status =>
      let challenge :=
        { challenge with
          name := if req.name.truthy then jsTrim name else name
          description := description
          status := status }
      match save db challenge with
      | .error e => ⟨db, .error e⟩
      | .ok db' => ⟨db', .ok challenge⟩

/-- The handler `deleteChallenge` (soft delete). Its query filters on `_id` and `userId`
only; a failure of `save` is caught and answered with status 500. -/
def deleteChallenge (db : Store) (userId id : String) : Outcome Store Unit :=
  match findOne db (fun c => c._id == id && c.userId == userId) with
  | none => ⟨db, .error (.response 404 "Challenge not found or already deleted")⟩
  | some challenge =>
    match save db { challenge with isDeleted := true } with
    | .error e => ⟨db, .error (.response 500 e.message)⟩
    | .ok db' => ⟨db', .ok ()⟩

/-! ### Subjects of a section -/

/-- The mutation of the subdocument returned by `array.id(id)`: the first element that
satisfies `p` is replaced by its image under `f`. -/
def modifyFirst {α : Type} (p : α → Bool) (f : α → α) : List α → List α
  | [] => []
  | a :: rest => if p a then f a :: rest else a :: modifyFirst p f rest

/-- The lookup `challenge.sections.id(sectionId)`. -/
def findSection (sections : List Section) (sectionId : String) : Option Section :=
  sections.find? (fun s => s._id == some sectionId)

/-- The lookup `section.subjects.id(subjectId)`. -/
def findSubject (subjects : List Subject) (subjectId : String) : Option Subject :=
  subjects.find? (fun s => s._id == subjectId)

/-- The value stored for `x ? new Date(x) : null`; an Invalid Date fails the cast of the
`Date` path. -/
def dateOrNull (path : String) : DateField → Except Failure (Option Int)
  | .valid ms => .ok (some ms)
  | .invalid => .error (.castError path)
  | _ => .ok none

/-- The fields of a subject in a request body. -/
structure SubjectInput where
  name : JsVal
  description : JsVal
  startDate : DateField
  endDate : DateField

/-- The object `newSubject` of `addSubjectToSection` and of the `map` callback of
`addMultipleSubjectsToSection`, cast by `subjectSchema` when it is pushed. -/
def buildSubject (newId : String) (input : SubjectInput) : Except Failure Subject :=
  match (match input.name with
         | .undefined => .error (.validation "sections.subjects.name is required")
         | .null => .error (.validation "sections.subjects.name is required")
         | v => match castString v with
           | some s => .ok s
           | none => .error (.castError "sections.subjects.name") : Except Failure String),
        (if input.description.truthy then castOptString "sections.subjects.description"
            input.description
         else .ok (some "")),
        dateOrNull "sections.subjects.startDate" input.startDate,
        dateOrNull "sections.subjects.endDate" input.endDate with
  | .error e, _, _, _ => .error e
  | _, .error e, _, _ => .error e
  | _, _, .error e, _ => .error e
  | _, _, _, .error e => .error e
  | .ok name, .ok description, .ok startDate, .ok endDate =>
    .ok { _id := newId, name := name, description := description, status := "not_started",
          progress := some 0, startDate := startDate, endDate := endDate }

/-- Request of `POST /api/challenges/:id/sections/:sectionId/subjects`. -/
structure AddSubjectReq where
  challengeId : String
  sectionId : String
  userId : String
  subject : SubjectInput

/-- The handler `addSubjectToSection`. Every error raised after the lookups is caught and
answered with status 500. -/
def addSubjectToSection (db : Store) (newId : String) (req : AddSubjectReq) :
    Outcome Store Subject :=
  if !req.subject.name.truthy then
    ⟨db, .error (.response 400 "Subject name is required")⟩
  else
    match findOne db
        (fun c => c._id == req.challengeId && c.userId == req.userId && !c.isDeleted) with
    | none => ⟨db, .error (.response 404 "Challenge not found or access denied")⟩
    | some challenge =>
      match findSection challenge.sections req.sectionId with
      | none => ⟨db, .error (.response 404 "Section not found")⟩
      | some _ =>
        match buildSubject newId req.subject with
        | .error _ => ⟨db, .error (.response 500 "Failed to add subject")⟩
        | .ok newSubject =>
          let push (sec : Section) : Section :=
            { sec with subjects := sec.subjects ++ [newSubject] }
          let challenge := { challenge with
            sections := modifyFirst (fun s => s._id == some req.sectionId) push challenge.sections }
          match save db challenge with
          | .error _ => ⟨db, .error (.response 500 "Failed to add subject")⟩
          | .ok db' => ⟨db', .ok newSubject⟩

/-- The callback of `subjects.map(...)` applied from position `k` on; a null element makes
`subject.name` raise a TypeError. -/
def buildSubjects (newIds : Nat → String) (k : Nat) :
    List (Option SubjectInput) → Except Failure (List Subject)
  | [] => .ok []
  | none :: _ => .error .typeError
  | some input :: rest =>
    match buildSubject (newIds k) input, buildSubjects newIds (k + 1) rest with
    | .error e, _ => .error e
    | _, .error e => .error e
    | .ok subject, .ok built => .ok (subject :: built)

/-- Request of `POST /api/challenges/:id/sections/:sectionId/subjects/batch`; `subjects`
is `none` unless the body field is an array. -/
structure AddMultipleSubjectsReq where
  challengeId : String
  sectionId : String
  userId : String
  subjects : Option (List (Option SubjectInput))

/-- The handler `addMultipleSubjectsToSection`. -/
def addMultipleSubjectsToSection (db : Store) (newIds : Nat → String)
    (req : AddMultipleSubjectsReq) : Outcome Store (List Subject) :=
  match req.subjects with
  | none => ⟨db, .error (.response 400 "Subjects array is required and must not be empty")⟩
  | some [] => ⟨db, .error (.response 400 "Subjects array is required and must not be empty")⟩
  | some (first :: more) =>
    match findOne db
        (fun c => c._id == req.challengeId && c.userId == req.userId && !c.isDeleted) with
    | none => ⟨db, .error (.response 404 "Challenge not found or access denied")⟩
    | some challenge =>
      match findSection challenge.sections req.sectionId with
      | none => ⟨db, .error (.response 404 "Section not found")⟩
      | some _ =>
        match buildSubjects newIds 0 (first :: more) with
        | .error _ => ⟨db, .error (.response 500 "Failed to add subjects")⟩
        | .ok newSubjects =>
          let push (sec : Section) : Section :=
            { sec with subjects := sec.subjects ++ newSubjects }
          let challenge := { challenge with
            sections := modifyFirst (fun s => s._id == some req.sectionId) push challenge.sections }
          match save db challenge with
          | .error _ => ⟨db, .error (.response 500 "Failed to add subjects")⟩
          | .ok db' => ⟨db', .ok newSubjects⟩

/-- Request of `PUT /api/challenges/:id/sections/:sectionId/subjects/:subjectId`. -/
structure UpdateSubjectReq where
  challengeId : String
  sectionId : String
  subjectId : String
  userId : String
  name : JsVal
  description : JsVal
  startDate : DateField
  endDate : DateField
  status : JsVal
  progress : NumArg

/-- The value of a `Date` path after `if (x) doc.path = new Date(x)`. -/
def assignDate (path : String) (old : Option Int) : DateField → Except Failure (Option Int)
  | .valid ms => .ok (some ms)
  | .invalid => .error (.castError path)
  | _ => .ok old

/-- The value of `progress` after `if (progress !== undefined) subject.progress = progress`. -/
def assignProgress (old : Option Int) : NumArg → Except Failure (Option Int)
  | .undefined => .ok old
  | .null => .ok none
  | .num n => .ok (some n)
  | .notNumber => .error (.castError "sections.subjects.progress")

/-- The six conditional assignments of `updateSubjectInSection` on one subject. -/
def patchSubject (req : UpdateSubjectReq) (subject : Subject) : Except Failure Subject :=
  match assignIfTruthy "sections.subjects.name" subject.name req.name,
        assignIfDefined "sections.subjects.description" subject.description req.description,
        assignDate "sections.subjects.startDate" subject.startDate req.startDate,
        assignDate "sections.subjects.endDate" subject.endDate req.endDate,
        assignIfTruthy "sections.subjects.status" subject.status req.status,
        assignProgress subject.progress req.progress with
  | .ok name, .ok description, .ok startDate, .ok endDate, .ok status, .ok progress =>
    .ok { subject with name := name, description := description, startDate := startDate,
                       endDate := endDate, status := status, progress := progress }
  | .error e, _, _, _, _, _ => .error e
  | _, .error e, _, _, _, _ => .error e
  | _, _, .error e, _, _, _ => .error e
  | _, _, _, .error e, _, _ => .error e
  | _, _, _, _, .error e, _ => .error e
  | _, _, _, _, _, .error e => .error e

/-- The handler `updateSubjectInSection`. Every error raised after the lookups is caught
and answered with status 500. -/
def updateSubjectInSection (db : Store) (req : UpdateSubjectReq) : Outcome Store Subject :=
  match findOne db
      (fun c => c._id == req.challengeId && c.userId == req.userId && !c.isDeleted) with
  | none => ⟨db, .error (.response 404 "Challenge not found or access denied")⟩
  | some challenge =>
    match findSection challenge.sections req.sectionId with
    | none => ⟨db, .error (.response 404 "Section not found")⟩
    | some sec =>
      match findSubject sec.subjects req.subjectId with
      | none => ⟨db, .error (.response 404 "Subject not found")⟩
      | some subject =>
        match patchSubject req subject with
        | .error _ => ⟨db, .error (.response 500 "Failed to update subject")⟩
        | .ok patched =>
          let update (sec : Section) : Section :=
            { sec with
              subjects := modifyFirst (fun s => s._id == req.subjectId) (fun _ => patched)
                sec.subjects }
          let challenge := { challenge with
            sections := modifyFirst (fun s => s._id == some req.sectionId) update
              challenge.sections }
          match save db challenge with
          | .error _ => ⟨db, .error (.response 500 "Failed to update subject")⟩
          | .ok db' => ⟨db', .ok patched⟩

/-- The handler `deleteSubjectFromSection`: `section.subjects.pull(subjectId)` removes the
subdocuments that have the id. -/
def deleteSubjectFromSection (db : Store) (userId challengeId sectionId subjectId : String) :
    Outcome Store Unit :=
  match findOne db (fun c => c._id == challengeId && c.userId == userId && !c.isDeleted) with
  | none => ⟨db, .error (.response 404 "Challenge not found or access denied")⟩
  | some challenge =>
    match findSection challenge.sections sectionId with
    | none => ⟨db, .error (.response 404 "Section not found")⟩
    | some sec =>
      match findSubject sec.subjects subjectId with
      | none => ⟨db, .error (.response 404 "Subject not found")⟩
      | some _ =>
        let pull (sec : Section) : Section :=
          { sec with subjects := sec.subjects.filter (fun s => s._id != subjectId) }
        let challenge := { challenge with
          sections := modifyFirst (fun s => s._id == some sectionId) pull challenge.sections }
        match save db challenge with
        | .error _ => ⟨db, .error (.response 500 "Failed to delete subject")⟩
        | .ok db' => ⟨db', .ok ()⟩

/-! ### All challenge requests -/

/-- The data of a successful response of a challenge handler. -/
inductive Reply where
  | challenge (c : Challenge)
  | challenges (cs : List Challenge)
  | section (s : Option Section)
  | subject (s : Subject)
  | subjects (ss : List Subject)
  | empty

/-- A request to one of the handlers of `challengeController.js`, with the fresh ids that
the store hands out while it is served. -/
inductive Request where
  | createChallenge (userId newId : String) (body : CreateChallengeBody)
  | getChallenges (userId : String)
  | getChallenge (userId id : String)
  | updateChallenge (req : UpdateChallengeReq)
  | deleteChallenge (userId id : String)
  | addSection (newId : String) (req : AddSectionReq)
  | updateSection (req : UpdateSectionReq)
  | deleteSection (userId challengeId sectionId : String)
  | addSubject (newId : String) (req : AddSubjectReq)
  | addMultipleSubjects (newIds : Nat → String) (req : AddMultipleSubjectsReq)
  | updateSubject (req : UpdateSubjectReq)
  | deleteSubject (userId challengeId sectionId subjectId : String)

/-- The authenticated user of a request (`req.user._id`). -/
def Request.caller : Request → Option String
  | .createChallenge userId _ _ => some userId
  | .getChallenges userId => some userId
  | .getChallenge userId _ => some userId
  | .updateChallenge req => some req.userId
  | .deleteChallenge userId _ => some userId
  | .addSection _ req => req.userId
  | .updateSection req => some req.userId
  | .deleteSection userId _ _ => some userId
  | .addSubject _ req => some req.userId
  | .addMultipleSubjects _ req => some req.userId
  | .updateSubject req => some req.userId
  | .deleteSubject userId _ _ _ => some userId

/-- The challenge id in the route of a request (`req.params.id`), when it has one. -/
def Request.challengeId : Request → Option String
  | .createChallenge _ _ _ => none
  | .getChallenges _ => none
  | .getChallenge _ id => some id
  | .updateChallenge req => some req.id
  | .deleteChallenge _ id => some id
  | .addSection _ req => some req.challengeId
  | .updateSection req => some req.challengeId
  | .deleteSection _ challengeId _ => some challengeId
  | .addSubject _ req => some req.challengeId
  | .addMultipleSubjects _ req => some req.challengeId
  | .updateSubject req => some req.challengeId
  | .deleteSubject _ challengeId _ _ => some challengeId

/-- Relabel the data of an outcome. -/
def relabel {σ α β : Type} (f : α → β) (o : Outcome σ α) : Outcome σ β :=
  ⟨o.db, match o.result with
         | .ok a => .ok (f a)
         | .error e => .error e⟩

/-- Serve one request with its handler. -/
def handle (db : Store) : Request → Outcome Store Reply
  | .createChallenge userId newId body =>
    relabel Reply.challenge (createChallenge db userId newId body)
  | .getChallenges userId => relabel Reply.challenges (getChallenges db userId)
  | .getChallenge userId id => relabel Reply.challenge (getChallenge db userId id)
  | .updateChallenge req => relabel Reply.challenge (updateChallenge db req)
  | .deleteChallenge userId id => relabel (fun _ => Reply.empty) (deleteChallenge db userId id)
  | .addSection newId req =>
    relabel (fun s => Reply.section (some s)) (addSectionToChallenge db newId req)
  | .updateSection req => relabel Reply.section (updateSectionInChallenge db req)
  | .deleteSection userId challengeId sectionId =>
    relabel (fun _ => Reply.empty) (deleteSectionFromChallenge db userId challengeId sectionId)
  | .addSubject newId req => relabel Reply.subject (addSubjectToSection db newId req)
  | .addMultipleSubjects newIds req =>
    relabel Reply.subjects (addMultipleSubjectsToSection db newIds req)
  | .updateSubject req => relabel Reply.subject (updateSubjectInSection db req)
  | .deleteSubject userId challengeId sectionId subjectId =>
    relabel (fun _ => Reply.empty)
      (deleteSubjectFromSection db userId challengeId sectionId subjectId)

/-- The store after a sequence of requests, served one after the other. -/
def serveAll (db : Store) (reqs : List Request) : Store :=
  reqs.foldl (fun db req => (handle db req).db) db

/-- The failure, if any, that the handler raises on the fields of the request before it
loads the challenge. -/
def Request.fieldCheck : Request → Option Failure
  | .addSection _ req =>
    if !req.name.truthy then some (.response 400 "Section name is required")
    else if req.challengeId == "" then some (.response 400 "Challenge ID is required")
    else match req.userId with
      | none => some (.response 401 "Not authenticated")
      | some _ =>
        match req.name with
        | .str name =>
          if jsTrim name == "" then
            some (.response 400 "Please provide a valid name for the section")
          else if !objectIdIsValid req.challengeId then
            some (.response 400 "Invalid challenge ID format")
          else none
        | _ => some (.response 400 "Please provide a valid name for the section")
  | .updateSection req =>
    if !req.name.truthy then some (.response 400 "Section name is required") else none
  | .addSubject _ req =>
    if !req.subject.name.truthy then some (.response 400 "Subject name is required") else none
  | .addMultipleSubjects _ req =>
    match req.subjects with
    | some (_ :: _) => none
    | _ => some (.response 400 "Subjects array is required and must not be empty")
  | _ => none

/-- The response of the handler when its query finds no challenge. -/
def Request.notFound : Request → Failure
  | .deleteChallenge _ _ => .response 404 "Challenge not found or already deleted"
  | .addSection _ _ =>
    .response 404 "Challenge not found or you do not have permission to modify it"
  | .addSubject _ _ => .response 404 "Challenge not found or access denied"
  | .addMultipleSubjects _ _ => .response 404 "Challenge not found or access denied"
  | .updateSubject _ => .response 404 "Challenge not found or access denied"
  | .deleteSubject _ _ _ _ => .response 404 "Challenge not found or access denied"
  | _ => .response 404 "Challenge not found"

/-- Every stored progress of a subject is null or a number between 0 and 100. -/
def ProgressInRange (c : Challenge) : Prop :=
  ∀ sec ∈ c.sections, ∀ s ∈ sec.subjects,
    s.progress = none ∨ ∃ p, s.progress = some p ∧ 0 ≤ p ∧ p ≤ 100

/-- Erasing the `order` field of a section, to compare sections up to `order`. -/
def withoutOrder (s : Section) : Section := { s with order := 0 }

/-- The `order` values of the sections, read in array position, are 1, 2, ..., N. -/
def OrdersGapless (c : Challenge) : Prop :=
  c.sections.map (·.order) = (List.range' 1 c.sections.length).map Int.ofNat

/-- A request to one of the four handlers that create a challenge or change its sections. -/
inductive SectionOp where
  | create (userId newId : String) (body : CreateChallengeBody)
  | add (newId : String) (req : AddSectionReq)
  | update (req : UpdateSectionReq)
  | delete (userId challengeId sectionId : String)

/-- The store after one request (a request that fails leaves the store as it was). -/
def applyOp (db : Store) : SectionOp → Store
  | .create userId newId body => (createChallenge db userId newId body).db
  | .add newId req => (addSectionToChallenge db newId req).db
  | .update req => (updateSectionInChallenge db req).db
  | .delete userId challengeId sectionId =>
    (deleteSectionFromChallenge db userId challengeId sectionId).db

/-- The store after a sequence of requests, served one after the other. -/
def runOps (db : Store) (ops : List SectionOp) : Store :=
  ops.foldl applyOp db

/-- Example: create a challenge, add the sections A and B, delete A, add C. -/
def exOps : List SectionOp :=
  [.create "u1" "64b7f0c2a1d3e4f5a6b7c8d9" ⟨.str " Exam ", .undefined⟩,
   .add "s1" ⟨"64b7f0c2a1d3e4f5a6b7c8d9", some "u1", .str "A"⟩,
   .add "s2" ⟨"64b7f0c2a1d3e4f5a6b7c8d9", some "u1", .str "B"⟩,
   .delete "u1" "64b7f0c2a1d3e4f5a6b7c8d9" "s1",
   .add "s3" ⟨"64b7f0c2a1d3e4f5a6b7c8d9", some "u1", .str "C"⟩]

/-- Example: a section named `name` with the given id and order. -/
def exSection (id name : String) (order : Int) : Section :=
  { _id := some id, name := name, description := none, order := order, progress := 0,
    subjects := [] }

/-- Example: the challenge stored after the requests `exOps`. -/
def exAfterOps : Challenge :=
  { _id := "64b7f0c2a1d3e4f5a6b7c8d9", userId := "u1", name := "Exam", description := none,
    sections := [exSection "s2" "B" 1, exSection "s3" "C" 2],
    status := "active", isDeleted := false }

/-- Example: a challenge of user `u1` whose three sections carry arbitrary order values. -/
def exChallenge : Challenge :=
  { _id := "64b7f0c2a1d3e4f5a6b7c8d9", userId := "u1", name := "Exam", description := none,
    sections := [exSection "s1" "Algebra" 7, exSection "s2" "Geometry" 7, exSection "s3" "Logic" (-2)],
    status := "active", isDeleted := false }

/-- Example: a store that holds `exChallenge` after a challenge of another user. -/
def exStore : Store :=
  [{ _id := "64b7f0c2a1d3e4f5a6b7c8d0", userId := "u2", name := "Other", description := none,
     sections := [], status := "paused", isDeleted := false },
   exChallenge]

/-- Example: `exStore` after user `u1` soft-deleted `exChallenge`. -/
def exSoftDeleted : Store :=
  (deleteChallenge exStore "u1" "64b7f0c2a1d3e4f5a6b7c8d9").db

/-- Example: a subject with the given id and name, not started. -/
def exSubject (id name : String) : Subject :=
  { _id := id, name := name, description := some "", status := "not_started",
    progress := some 0, startDate := none, endDate := none }

/-- Example: a section with progress 40 that holds three subjects. -/
def exCore : Section :=
  { _id := some "s1", name := "Core", description := none, order := 1, progress := 40,
    subjects := [exSubject "j1" "Sets", exSubject "j2" "Maps", exSubject "j3" "Orders"] }

/-- Example: a challenge of `u1` with one section that holds three subjects, followed by
an empty section. -/
def exThree : Challenge :=
  { _id := "64b7f0c2a1d3e4f5a6b7c8d1", userId := "u1", name := "Term", description := none,
    sections := [exCore, exSection "s2" "Extra" 2],
    status := "active", isDeleted := false }

/-- Example: a request on the subject `j2` of `exThree` with no field in its body. -/
def exEmptyPatch : UpdateSubjectReq :=
  { challengeId := "64b7f0c2a1d3e4f5a6b7c8d1", sectionId := "s1", subjectId := "j2",
    userId := "u1", name := .undefined, description := .undefined, startDate := .undefined,
    endDate := .undefined, status := .undefined, progress := .undefined }

/-- Example: a subject that starts on 2025-01-01. -/
def exDatedSubject : Subject :=
  { _id := "j1", name := "Sets", description := some "", status := "in_progress",
    progress := some 10, startDate := some 1735689600000, endDate := none }

/-- Example: a challenge of `u1` whose only section holds `exDatedSubject`. -/
def exDated : Challenge :=
  { _id := "64b7f0c2a1d3e4f5a6b7c8d2", userId := "u1", name := "Dated", description := none,
    sections := [{ _id := some "s1", name := "Core", description := none, order := 1,
                   progress := 0, subjects := [exDatedSubject] }],
    status := "active", isDeleted := false }

/-- Example: `exDatedSubject` with an empty description, an end date and progress 55. -/
def exMerged : Subject :=
  { exDatedSubject with description := some "", endDate := some 1736467200000,
                        progress := some 55 }

/-- Example: create a challenge, add a section, add two subjects in a batch, then set the
progress of the first one to 70 and of the second one to null. -/
def exSubjectOps : List Request :=
  [.createChallenge "u1" "64b7f0c2a1d3e4f5a6b7c8d3" ⟨.str "Plan", .undefined⟩,
   .addSection "s1" ⟨"64b7f0c2a1d3e4f5a6b7c8d3", some "u1", .str "Core"⟩,
   .addMultipleSubjects (fun k => if k = 0 then "j1" else "j2")
     ⟨"64b7f0c2a1d3e4f5a6b7c8d3", "s1", "u1",
      some [some ⟨.str "Sets", .undefined, .undefined, .undefined⟩,
            some ⟨.str "Maps", .undefined, .undefined, .undefined⟩]⟩,
   .updateSubject
     { challengeId := "64b7f0c2a1d3e4f5a6b7c8d3", sectionId := "s1", subjectId := "j1",
       userId := "u1", name := .undefined, description := .undefined,
       startDate := .undefined, endDate := .undefined, status := .undefined,
       progress := .num 70 },
   .updateSubject
     { challengeId := "64b7f0c2a1d3e4f5a6b7c8d3", sectionId := "s1", subjectId := "j2",
       userId := "u1", name := .undefined, description := .undefined,
       startDate := .undefined, endDate := .undefined, status := .undefined,
       progress := .null }]

/-- Example: the challenge stored after the requests `exSubjectOps`. -/
def exAfterSubjectOps : Challenge :=
  { _id := "64b7f0c2a1d3e4f5a6b7c8d3", userId := "u1", name := "Plan", description := none,
    sections :=
      [{ _id := some "s1", name := "Core", description := none, order := 1, progress := 0,
         subjects := [{ exSubject "j1" "Sets" with progress := some 70 },
                      { exSubject "j2" "Maps" with progress := none }] }],
    status := "active", isDeleted := false }

/-- Example: a request on `exDatedSubject` with no field in its body. -/
def exDatedPatch : UpdateSubjectReq :=
  { challengeId := "64b7f0c2a1d3e4f5a6b7c8d2", sectionId := "s1", subjectId := "j1",
    userId := "u1", name := .undefined, description := .undefined, startDate := .undefined,
    endDate := .undefined, status := .undefined, progress := .undefined }

end ChallengeModel

/-! ## Special schedules (`specialScheduleModel.js`, `specialScheduleController.js`) -/

namespace SpecialScheduleModel

/-- A date field of a request, as the controller reads it: `falsy` when `!x` holds,
`invalid` when `new Date(x)` is an Invalid Date, `valid ms` when `new Date(x)` is the
instant `ms`. -/
inductive DateArg where
  | falsy
  | invalid
  | valid (ms : Int)
  deriving DecidableEq, Repr

/-- Truthiness of the raw date field. -/
def DateArg.truthy : DateArg → Bool
  | .falsy => false
  | _ => true

/-- A document of `specialTaskSchema`. -/
structure SpecialTask where
  _id : String
  date : Int
  description : String
  deriving DecidableEq, Repr

/-- A document of `specialScheduleSchema` (without the timestamps). -/
structure SpecialSchedule where
  _id : String
  userId : String
  startDate : Int
  endDate : Int
  tasks : List SpecialTask
  deriving DecidableEq, Repr

/-- Validators of `specialTaskSchema`: description required and at most 1000 long. -/
def validateTask (t : SpecialTask) : Except Failure Unit :=
  if t.description == "" then .error (.validation "Please add a task description")
  else if jsLength t.description > 1000 then
    .error (.validation "Description cannot be more than 1000 characters")
  else .ok ()

/-- Validators of `specialScheduleSchema`: `userId` required, the `endDate` validator
`v >= this.startDate`, and every task valid. -/
def validateSchedule (s : SpecialSchedule) : Except Failure Unit :=
  if s.userId == "" then .error (.validation "userId is required")
  else if !(s.endDate ≥ s.startDate) then
    .error (.validation "End date cannot be before start date")
  else s.tasks.forM validateTask

/-- The special schedules collection. -/
abbrev Store := List SpecialSchedule

/-- The query `SpecialSchedule.findOne({ _id: id, userId })`. -/
def findOne (db : Store) (id userId : String) : Option SpecialSchedule :=
  db.find? (fun s => s._id == id && s.userId == userId)

/-- Overwrite the stored document that has the `_id` of `s`. -/
def replaceDoc (db : Store) (s : SpecialSchedule) : Store :=
  db.map (fun d => if d._id == s._id then s else d)

/-- The call `schedule.save()`: validate, then write. -/
def save (db : Store) (s : SpecialSchedule) : Except Failure Store :=
  match validateSchedule s with
  | .error e => .error e
  | .ok _ => .ok (replaceDoc db s)

/-- A task of a request body. -/
structure TaskInput where
  date : DateArg
  description : JsVal

/-- The conversion `String(x)` of a truthy request value. -/
def jsString : JsVal → String
  | .str s => s
  | .num n => toString n
  | .bool b => if b then "true" else "false"
  | .null => "null"
  | .undefined => "undefined"
  | .obj => "[object Object]"

/-- The callback of `tasks.map(...)` in `createSpecialSchedule`, applied from position `k`
on; the first task that fails ends the request. The description is trimmed by the
controller and again by the schema setter. -/
def buildTasks (start stop : Int) (taskIds : Nat → String) (k : Nat) :
    List (Option TaskInput) → Except Failure (List SpecialTask)
  | [] => .ok []
  | none :: _ => .error (.response 400 "Each task must include date and description")
  | some task :: rest =>
    if !task.date.truthy || !task.description.truthy then
      .error (.response 400 "Each task must include date and description")
    else
      match task.date with
      | .valid taskDate =>
        if taskDate < start || taskDate > stop then
          .error (.response 400 "Task date must be within the special schedule range")
        else
          match buildTasks start stop taskIds (k + 1) rest with
          | .error e => .error e
          | .ok built =>
            .ok ({ _id := taskIds k, date := taskDate,
                   description := jsTrim (jsTrim (jsString task.description)) } :: built)
      | _ => .error (.response 400 "Invalid task date format. Please use YYYY-MM-DD")

/-- Body of `POST /api/special-schedules`; `tasks` is `none` unless it is an array. -/
structure CreateBody where
  startDate : DateArg
  endDate : DateArg
  tasks : Option (List (Option TaskInput))

/-- The handler `createSpecialSchedule`. -/
def createSpecialSchedule (db : Store) (userId newId : String) (taskIds : Nat → String)
    (body : CreateBody) : Outcome Store SpecialSchedule :=
  if !body.startDate.truthy || !body.endDate.truthy then
    ⟨db, .error (.response 400 "Please provide both startDate and endDate")⟩
  else
    match body.startDate, body.endDate with
    | .valid start, .valid stop =>
      if stop < start then
        ⟨db, .error (.response 400 "End date cannot be before start date")⟩
      else
        match (match body.tasks with
               | some tasks => buildTasks start stop taskIds 0 tasks
               | none => .ok []) with
        | .error e => ⟨db, .error e⟩
        | .ok initialTasks =>
          let schedule : SpecialSchedule :=
            { _id := newId, userId := userId, startDate := start, endDate := stop,
              tasks := initialTasks }
          match validateSchedule schedule with
          | .error e => ⟨db, .error e⟩
          | .ok _ => ⟨db ++ [schedule], .ok schedule⟩
    | _, _ => ⟨db, .error (.response 400 "Invalid date format. Please use YYYY-MM-DD")⟩

/-- The handler `addSpecialTask`. -/
def addSpecialTask (db : Store) (userId id newId : String) (body : TaskInput) :
    Outcome Store SpecialSchedule :=
  if !body.date.truthy || !body.description.truthy then
    ⟨db, .error (.response 400 "Please provide both date and description")⟩
  else
    match body.date with
    | .valid taskDate =>
      match findOne db id userId with
      | none => ⟨db, .error (.response 404 "Special schedule not found")⟩
      | some schedule =>
        if taskDate < schedule.startDate || taskDate > schedule.endDate then
          ⟨db, .error (.response 400 "Task date must be within the special schedule range")⟩
        else
          match body.description with
          | .str description =>
            let schedule := { schedule with tasks := schedule.tasks ++
              [{ _id := newId, date := taskDate, description := jsTrim (jsTrim description) }] }
            match save db schedule with
            | .error e => ⟨db, .error e⟩
            | .ok db' => ⟨db', .ok schedule⟩
          | _ => ⟨db, .error .typeError⟩
    | _ => ⟨db, .error (.response 400 "Invalid date format. Please use YYYY-MM-DD")⟩

/-- Body of `PATCH /api/special-schedules/:id`. -/
structure UpdateBody where
  startDate : DateArg
  endDate : DateArg

/-- The handler `updateSpecialSchedule`; the result is `none` for the fallback `data: {}`. -/
def updateSpecialSchedule (db : Store) (userId id : String) (body : UpdateBody) :
    Outcome Store (Option SpecialSchedule) :=
  if !body.startDate.truthy && !body.endDate.truthy then
    ⟨db, .error (.response 400
      "Please provide at least one of startDate or endDate to update")⟩
  else if body.startDate == .invalid then
    ⟨db, .error (.response 400 "Invalid startDate format. Use YYYY-MM-DD")⟩
  else if body.endDate == .invalid then
    ⟨db, .error (.response 400 "Invalid endDate format. Use YYYY-MM-DD")⟩
  else
    let updateStart : Option Int := match body.startDate with
      | .valid ms => some ms
      | _ => none
    let updateEnd : Option Int := match body.endDate with
      | .valid ms => some ms
      | _ => none
    if updateStart.isSome || updateEnd.isSome then
      match findOne db id userId with
      | none => ⟨db, .error (.response 404 "Special schedule not found")⟩
      | some schedule =>
        let newStart := updateStart.getD schedule.startDate
        let newEnd := updateEnd.getD schedule.endDate
        if newEnd < newStart then
          ⟨db, .error (.response 400 "End date cannot be before start date")⟩
        else
          let schedule := { schedule with startDate := newStart, endDate := newEnd }
          match save db schedule with
          | .error e => ⟨db, .error e⟩
          | .ok db' => ⟨db', .ok (some schedule)⟩
    else ⟨db, .ok none⟩

/-- The lookup `schedule.tasks.id(taskId)`. -/
def findTask (tasks : List SpecialTask) (taskId : String) : Option SpecialTask :=
  tasks.find? (fun t => t._id == taskId)

/-- The handler `updateSpecialTask`: the task found by `schedule.tasks.id(taskId)` gets
the new date (when the body has one) and the trimmed description (when the body has a
string). -/
def updateSpecialTask (db : Store) (userId scheduleId taskId : String) (body : TaskInput) :
    Outcome Store SpecialSchedule :=
  if !body.date.truthy && !body.description.truthy then
    ⟨db, .error (.response 400
      "Please provide at least one of date or description to update")⟩
  else
    match findOne db scheduleId userId with
    | none => ⟨db, .error (.response 404 "Special schedule not found")⟩
    | some schedule =>
      match schedule.tasks.findIdx? (fun t => t._id == taskId) with
      | none => ⟨db, .error (.response 404 "Task not found")⟩
      | some taskIndex =>
        match (match body.date with
               | .falsy => .ok none
               | .invalid => .error (.response 400 "Invalid task date format. Use YYYY-MM-DD")
               | .valid taskDate =>
                 if taskDate < schedule.startDate || taskDate > schedule.endDate then
                   .error (.response 400 "Task date must be within the special schedule range")
                 else .ok (some taskDate) : Except Failure (Option Int)) with
        | .error e => ⟨db, .error e⟩
        | .ok newDate =>
          let update (task : SpecialTask) : SpecialTask :=
            { task with
              date := newDate.getD task.date
              description := match body.description with
                | .str description => jsTrim (jsTrim description)
                | _ => task.description }
          let schedule := { schedule with tasks := schedule.tasks.modify update taskIndex }
          match save db schedule with
          | .error e => ⟨db, .error e⟩
          | .ok db' => ⟨db', .ok schedule⟩

/-- The handler `deleteSpecialTask`: `task.remove()` pulls the task out of the array. -/
def deleteSpecialTask (db : Store) (userId scheduleId taskId : String) :
    Outcome Store SpecialSchedule :=
  match findOne db scheduleId userId with
  | none => ⟨db, .error (.response 404 "Special schedule not found")⟩
  | some schedule =>
    match findTask schedule.tasks taskId with
    | none => ⟨db, .error (.response 404 "Task not found")⟩
    | some _ =>
      let schedule := { schedule with tasks := schedule.tasks.filter (fun t => t._id != taskId) }
      match save db schedule with
      | .error e => ⟨db, .error e⟩
      | .ok db' => ⟨db', .ok schedule⟩

/-- Every task date lies inside the window of its schedule. -/
def TasksInWindow (s : SpecialSchedule) : Prop :=
  ∀ t ∈ s.tasks, s.startDate ≤ t.date ∧ t.date ≤ s.endDate

/-- 2025-01-01T00:00:00Z in epoch milliseconds. -/
def jan01 : Int := 1735689600000

/-- One day in milliseconds. -/
def dayMs : Int := 86400000

/-- Example: the schedule 2025-01-01 .. 2025-01-10 of user `u1`, without tasks. -/
def exSchedule : SpecialSchedule :=
  { _id := "sch1", userId := "u1", startDate := jan01, endDate := jan01 + 9 * dayMs, tasks := [] }

/-- Example: the store after creating the schedule 2025-01-01 .. 2025-01-10 for `u1`. -/
def exCreated : Store :=
  (createSpecialSchedule [] "u1" "sch1" (fun _ => "t0")
    ⟨.valid jan01, .valid (jan01 + 9 * dayMs), none⟩).db

/-- Example: the store after then adding a task dated 2025-01-05. -/
def exWithTask : Store :=
  (addSpecialTask exCreated "u1" "sch1" "t1" ⟨.valid (jan01 + 4 * dayMs), .str "x"⟩).db

/-- Example: the window 2025-01-07 .. 2025-01-10 around a task dated 2025-01-05. -/
def exOutside : SpecialSchedule :=
  { _id := "sch1", userId := "u1", startDate := jan01 + 6 * dayMs,
    endDate := jan01 + 9 * dayMs, tasks := [⟨"t1", jan01 + 4 * dayMs, "x"⟩] }

/-- Example: a request for 2025-01-01 .. 2025-01-10 with one task whose description is
blank. -/
def exBlankTaskBody : CreateBody :=
  { startDate := .valid jan01, endDate := .valid (jan01 + 9 * dayMs),
    tasks := some [some ⟨.valid (jan01 + dayMs), .str "  "⟩] }

/-- Example: a request for 2025-01-01 .. 2025-01-10 with two tasks. -/
def exTwoTasksBody : CreateBody :=
  { startDate := .valid jan01, endDate := .valid (jan01 + 9 * dayMs),
    tasks := some [some ⟨.valid (jan01 + dayMs), .str " pack "⟩,
                   some ⟨.valid (jan01 + 9 * dayMs), .str "leave"⟩] }

/-- Example: a request for 2025-01-01 .. 2025-01-10 whose second task is dated after the
window. -/
def exLateTaskBody : CreateBody :=
  { startDate := .valid jan01, endDate := .valid (jan01 + 9 * dayMs),
    tasks := some [some ⟨.valid (jan01 + dayMs), .str "pack"⟩,
                   some ⟨.valid (jan01 + 10 * dayMs), .str "leave"⟩] }

/-- A call of `createSpecialSchedule` or `updateSpecialSchedule`. -/
inductive ScheduleCall where
  | create (userId newId : String) (taskIds : Nat → String) (body : CreateBody)
  | update (userId id : String) (body : UpdateBody)

/-- The store after one call. -/
def ScheduleCall.run (db : Store) : ScheduleCall → Store
  | .create userId newId taskIds body =>
    (createSpecialSchedule db userId newId taskIds body).db
  | .update userId id body => (updateSpecialSchedule db userId id body).db

/-- The store after a sequence of calls, one after the other. -/
def runCalls (db : Store) (calls : List ScheduleCall) : Store :=
  calls.foldl ScheduleCall.run db

/-- Every stored schedule starts no later than it ends. -/
def BoundsOrdered (db : Store) : Prop := ∀ s ∈ db, s.startDate ≤ s.endDate

instance (db : Store) : Decidable (BoundsOrdered db) := by
  unfold BoundsOrdered; infer_instance

/-- Example: a schedule is created for 2025-01-01 .. 2025-01-10, its start is moved to
2025-01-05, a start after the end is refused, and its end is moved to 2025-01-05. -/
def exBoundCalls : List ScheduleCall :=
  [ .create "u1" "sch1" (fun _ => "t0") ⟨.valid jan01, .valid (jan01 + 9 * dayMs), none⟩,
    .update "u1" "sch1" ⟨.valid (jan01 + 4 * dayMs), .falsy⟩,
    .update "u1" "sch1" ⟨.valid (jan01 + 12 * dayMs), .falsy⟩,
    .update "u1" "sch1" ⟨.falsy, .valid (jan01 + 4 * dayMs)⟩ ]

end SpecialScheduleModel

/-! ## Study structures (`studyStructureModel.js`, `studyStructureController.js`)

`String.prototype.toLowerCase` is an input `toLowerCase` of the handlers that compare
names; `asciiLowerCase` is the instance used to evaluate them on ASCII names. The
`createdAt` stamps, which no handler changes, are left out of the documents. -/

namespace StudyStructureModel

/-- Lower-casing of the letters A to Z, the restriction of `toLowerCase` to ASCII. -/
def asciiLowerCase (s : String) : String := ⟨s.data.map Char.toLower⟩

/-- A document of `studyMaterialSchema`. -/
structure StudyMaterial where
  _id : String
  title : String
  description : Option String
  link : String
  type : String
  deriving DecidableEq, Repr

/-- A document of `subjectSchema`. -/
structure Subject where
  _id : String
  name : String
  description : Option String
  materials : List StudyMaterial
  isActive : Bool
  updatedAt : Int
  deriving DecidableEq, Repr

/-- An element of `branches` in `studyStructureSchema`. -/
structure Branch where
  _id : String
  name : String
  description : Option String
  subjects : List Subject
  isActive : Bool
  updatedAt : Int
  deriving DecidableEq, Repr

/-- A document of `studyStructureSchema`. -/
structure StudyStructure where
  _id : String
  user : String
  branches : List Branch
  updatedAt : Int
  deriving DecidableEq, Repr

/-- Validators of `studyMaterialSchema`. -/
def validateMaterial (m : StudyMaterial) : Except Failure Unit :=
  if m.title == "" then .error (.validation "Please add a title for the material")
  else if jsLength m.title > 200 then
    .error (.validation "Title cannot be more than 200 characters")
  else if m.link == "" then .error (.validation "Please provide a link to the material")
  else if !(m.type == "pdf" || m.type == "video" || m.type == "website" ||
      m.type == "document" || m.type == "other") then
    .error (.validation "type is not a valid enum value")
  else .ok ()

/-- Validators of `subjectSchema`. -/
def validateSubject (s : Subject) : Except Failure Unit :=
  if s.name == "" then .error (.validation "Please add a subject name")
  else if jsLength s.name > 100 then
    .error (.validation "Subject name cannot be more than 100 characters")
  else s.materials.forM validateMaterial

/-- Validators of an element of `branches`. -/
def validateBranch (b : Branch) : Except Failure Unit :=
  if b.name == "" then .error (.validation "Please add a branch name")
  else if jsLength b.name > 100 then
    .error (.validation "Branch name cannot be more than 100 characters")
  else b.subjects.forM validateSubject

/-- Validators of `studyStructureSchema`. -/
def validateStructure (st : StudyStructure) : Except Failure Unit :=
  if st.user == "" then .error (.validation "user is required")
  else st.branches.forM validateBranch

/-- The study structures collection. -/
abbrev Store := List StudyStructure

/-- The query `StudyStructure.findOne({ user })`. -/
def findOne (db : Store) (user : String) : Option StudyStructure :=
  db.find? (fun st => st.user == user)

/-- Overwrite the stored document that has the `_id` of `st`. -/
def replaceDoc (db : Store) (st : StudyStructure) : Store :=
  db.map (fun d => if d._id == st._id then st else d)

/-- The call `this.save()`: validate, stamp `updatedAt` (schema option `timestamps`),
write. -/
def save (db : Store) (now : Int) (st : StudyStructure) : Except Failure Store :=
  match validateStructure st with
  | .error e => .error e
  | .ok _ => .ok (replaceDoc db { st with updatedAt := now })

/-- The step shared by `getStudyStructure` and `addBranch`: load the structure of the
user, or create an empty one. -/
def findOrCreate (db : Store) (user newId : String) (now : Int) :
    Except Failure (Store × StudyStructure) :=
  match findOne db user with
  | some st => .ok (db, st)
  | none =>
    let st : StudyStructure := { _id := newId, user := user, branches := [], updatedAt := now }
    match validateStructure st with
    | .error e => .error e
    | .ok _ => .ok (db ++ [st], st)

/-- The test `names.some(n => n.toLowerCase() === name.toLowerCase())`: on an empty list
the callback never runs; otherwise `name.toLowerCase()` needs `name` to be a string. -/
def nameTaken (toLowerCase : String → String) (names : List String) (name : JsVal) :
    Except Failure Bool :=
  match names with
  | [] => .ok false
  | _ :: _ =>
    match name with
    | .str n => .ok (names.any (fun existing => toLowerCase existing == toLowerCase n))
    | _ => .error .typeError

/-- Cast of a required, trimmed `String` path: absent and null values stay absent and
fail the `required` validator with `message`. -/
def castRequiredName (path message : String) : JsVal → Except Failure String
  | .undefined => .error (.validation message)
  | .null => .error (.validation message)
  | v => match castString v with
    | some s => .ok (jsTrim s)
    | none => .error (.castError path)

/-- Cast of the value `description || ''` to a trimmed `String` path. -/
def castDescription (path : String) (description : JsVal) : Except Failure (Option String) :=
  if description.truthy then
    match castString description with
    | some s => .ok (some (jsTrim s))
    | none => .error (.castError path)
  else .ok (some "")

/-- Body of the requests that add a branch or a subject. -/
structure NamedBody where
  name : JsVal
  description : JsVal

/-- The method `studyStructureSchema.methods.addBranch`: push the branch data (cast by the
schema, `isActive` and `updatedAt` defaulted), save, return the last branch. -/
def StudyStructure.addBranch (this : StudyStructure) (db : Store) (now : Int)
    (newBranchId : String) (branchData : NamedBody) : Outcome Store Branch :=
  match castRequiredName "branches.name" "Please add a branch name" branchData.name,
        castDescription "branches.description" branchData.description with
  | .error e, _ => ⟨db, .error e⟩
  | _, .error e => ⟨db, .error e⟩
  | .ok name, .ok description =>
    let branch : Branch :=
      { _id := newBranchId, name := name, description := description, subjects := [],
        isActive := true, updatedAt := now }
    match save db now { this with branches := this.branches ++ [branch] } with
    | .error e => ⟨db, .error e⟩
    | .ok db' => ⟨db', .ok branch⟩

/-- The handler `addBranch`. -/
def addBranch (toLowerCase : String → String) (db : Store) (user : String) (now : Int)
    (newStructureId newBranchId : String) (body : NamedBody) : Outcome Store Branch :=
  match findOrCreate db user newStructureId now with
  | .error e => ⟨db, .error e⟩
  | .ok (db, studyStructure) =>
    match nameTaken toLowerCase (studyStructure.branches.map (·.name)) body.name with
    | .error e => ⟨db, .error e⟩
    | .ok true => ⟨db, .error (.response 400 "A branch with this name already exists")⟩
    | .ok false => studyStructure.addBranch db now newBranchId body

/-- The lookup `this.branches.id(branchId)`, as a position. -/
def findBranchIndex (branches : List Branch) (branchId : String) : Option Nat :=
  branches.findIdx? (fun b => b._id == branchId)

/-- The statements `branch.subjects.push(subjectData); branch.updatedAt = Date.now()`. -/
def pushSubject (now : Int) (subject : Subject) (branch : Branch) : Branch :=
  { branch with subjects := branch.subjects ++ [subject], updatedAt := now }

/-- The method `studyStructureSchema.methods.addSubject`. -/
def StudyStructure.addSubject (this : StudyStructure) (db : Store) (now : Int)
    (branchId newSubjectId : String) (subjectData : NamedBody) : Outcome Store Subject :=
  match findBranchIndex this.branches branchId with
  | none => ⟨db, .error (.thrown "Branch not found")⟩
  | some branchIndex =>
    match castRequiredName "branches.subjects.name" "Please add a subject name" subjectData.name,
          castDescription "branches.subjects.description" subjectData.description with
    | .error e, _ => ⟨db, .error e⟩
    | _, .error e => ⟨db, .error e⟩
    | .ok name, .ok description =>
      let subject : Subject :=
        { _id := newSubjectId, name := name, description := description, materials := [],
          isActive := true, updatedAt := now }
      match save db now
          { this with branches := this.branches.modify (pushSubject now subject) branchIndex } with
      | .error e => ⟨db, .error e⟩
      | .ok db' => ⟨db', .ok subject⟩

/-- The handler `addSubject`. -/
def addSubject (toLowerCase : String → String) (db : Store) (user : String) (now : Int)
    (branchId newSubjectId : String) (body : NamedBody) : Outcome Store Subject :=
  match findOne db user with
  | none => ⟨db, .error (.response 404 "Study structure not found")⟩
  | some studyStructure =>
    match studyStructure.branches.find? (fun b => b._id == branchId) with
    | none => ⟨db, .error (.response 404 "Branch not found")⟩
    | some branch =>
      match nameTaken toLowerCase (branch.subjects.map (·.name)) body.name with
      | .error e => ⟨db, .error e⟩
      | .ok true =>
        ⟨db, .error (.response 400 "A subject with this name already exists in this branch")⟩
      | .ok false => studyStructure.addSubject db now branchId newSubjectId body

/-- Body of `PUT /api/study-structure/branches/:branchId`; `isActive` is `none` when the
field is absent. -/
structure UpdateBranchBody where
  name : JsVal
  description : JsVal
  isActive : Option Bool

/-- The method `studyStructureSchema.methods.updateBranch`, on the `updateData` that the
handler builds: `Object.assign` sets `name` when the body name is truthy, `description`
when the body has one, `isActive` when the body has one. -/
def StudyStructure.updateBranch (this : StudyStructure) (db : Store) (now : Int)
    (branchId : String) (updateData : UpdateBranchBody) : Outcome Store (Option Branch) :=
  match findBranchIndex this.branches branchId with
  | none => ⟨db, .error (.thrown "Branch not found")⟩
  | some branchIndex =>
    match (if updateData.name.truthy then
             (castRequiredName "branches.name" "Please add a branch name" updateData.name).map some
           else .ok none : Except Failure (Option String)),
          (match updateData.description with
           | .undefined => .ok none
           | .null => .ok (some none)
           | v => match castString v with
             | some s => .ok (some (some (jsTrim s)))
             | none => .error (.castError "branches.description")
           : Except Failure (Option (Option String))) with
    | .error e, _ => ⟨db, .error e⟩
    | _, .error e => ⟨db, .error e⟩
    | .ok name, .ok description =>
      let assign (branch : Branch) : Branch :=
        { branch with
          name := name.getD branch.name
          description := description.getD branch.description
          isActive := updateData.isActive.getD branch.isActive
          updatedAt := now }
      let branches := this.branches.modify assign branchIndex
      match save db now { this with branches := branches } with
      | .error e => ⟨db, .error e⟩
      | .ok db' => ⟨db', .ok (branches.get? branchIndex)⟩

/-- The handler `updateBranch`. -/
def updateBranch (db : Store) (user : String) (now : Int) (branchId : String)
    (body : UpdateBranchBody) : Outcome Store (Option Branch) :=
  match findOne db user with
  | none => ⟨db, .error (.response 404 "Study structure not found")⟩
  | some studyStructure => studyStructure.updateBranch db now branchId body

/-- The method `studyStructureSchema.methods.deleteBranch`. -/
def StudyStructure.deleteBranch (this : StudyStructure) (db : Store) (now : Int)
    (branchId : String) : Outcome Store Unit :=
  match findBranchIndex this.branches branchId with
  | none => ⟨db, .error (.thrown "Branch not found")⟩
  | some branchIndex =>
    match save db now { this with branches := this.branches.eraseIdx branchIndex } with
    | .error e => ⟨db, .error e⟩
    | .ok db' => ⟨db', .ok ()⟩

/-- The handler `deleteBranch`. -/
def deleteBranch (db : Store) (user : String) (now : Int) (branchId : String) :
    Outcome Store Unit :=
  match findOne db user with
  | none => ⟨db, .error (.response 404 "Study structure not found")⟩
  | some studyStructure => studyStructure.deleteBranch db now branchId

/-- Example: the structure of `u1` with the branches Math (one subject, Algebra) and
Physics (no subject). -/
def exStudy : StudyStructure :=
  { _id := "st1", user := "u1", updatedAt := 5,
    branches :=
      [{ _id := "b1", name := "Math", description := some "", isActive := true, updatedAt := 5,
         subjects := [{ _id := "sub1", name := "Algebra", description := some "",
                        materials := [], isActive := true, updatedAt := 5 }] },
       { _id := "b2", name := "Physics", description := some "", isActive := true,
         updatedAt := 3, subjects := [] }] }

/-- Example: `exStudy` after its branch Math was deleted at time 40. -/
def exPhysicsOnly : StudyStructure :=
  { _id := "st1", user := "u1", updatedAt := 40,
    branches := [{ _id := "b2", name := "Physics", description := some "", isActive := true,
                   updatedAt := 3, subjects := [] }] }

/-- Example: the structure of `u1` that holds the single branch Math, stamped at 10. -/
def exMathOnly : StudyStructure :=
  { _id := "st1", user := "u1", updatedAt := 10,
    branches := [{ _id := "b1", name := "Math", description := some "", subjects := [],
                   isActive := true, updatedAt := 10 }] }

/-- Example: the store after `addBranch` with the name Math on the empty store. -/
def exAfterMath : Store :=
  (addBranch asciiLowerCase [] "u1" 10 "st1" "b1" ⟨.str "Math", .undefined⟩).db

/-- Example: `exStudy` after its second branch was renamed to math at time 30. -/
def exRenamed : StudyStructure :=
  { _id := "st1", user := "u1", updatedAt := 30,
    branches :=
      [{ _id := "b1", name := "Math", description := some "", isActive := true, updatedAt := 5,
         subjects := [{ _id := "sub1", name := "Algebra", description := some "",
                        materials := [], isActive := true, updatedAt := 5 }] },
       { _id := "b2", name := "math", description := some "", isActive := true,
         updatedAt := 30, subjects := [] }] }

/-- Example: a structure with two branches that are both stored under the name Math. -/
def exTwiceMath : StudyStructure :=
  { _id := "st1", user := "u1", updatedAt := 11,
    branches :=
      [{ _id := "b1", name := "Math", description := some "", subjects := [],
         isActive := true, updatedAt := 10 },
       { _id := "b2", name := "Math", description := some "", subjects := [],
         isActive := true, updatedAt := 11 }] }

/-! ### Subjects and materials of a branch

The `_id` of a stored subdocument is the text of its `ObjectId`, and the lookups below
compare ids as texts. `DocumentArray.id` first casts its argument to an `ObjectId`: it
finds nothing for a string that is not cast, and it finds a subdocument also by another
spelling of its id (letters in upper case). The statements on the methods are therefore
about a path whose ids are found as they are written, and, for a missing segment, about
an id that no subdocument has, neither as it is written nor as the `ObjectId` it is cast
to. The deleting methods look the last segment up with `findIndex` and
`_id.toString() === id`, which compares the texts. -/

/-- The lookup `this.branches.id(branchId)`, for an id that is read as it is written. -/
def findBranch (branches : List Branch) (branchId : String) : Option Branch :=
  branches.find? (fun b => b._id == branchId)

/-- The lookup `branch.subjects.id(subjectId)`, for an id that is read as it is written,
and the lookup `findIndex(s => s._id.toString() === subjectId)` of `deleteSubject`. -/
def findSubject (subjects : List Subject) (subjectId : String) : Option Subject :=
  subjects.find? (fun s => s._id == subjectId)

/-- The statements `f(branch); branch.updatedAt = Date.now()` on the branch that
`this.branches.id(branchId)` returns. -/
def inBranch (now : Int) (branchId : String) (f : Branch → Branch)
    (branches : List Branch) : List Branch :=
  ChallengeModel.modifyFirst (fun b => b._id == branchId)
    (fun b => { f b with updatedAt := now }) branches

/-- The statements `f(subject); subject.updatedAt = Date.now()` on the subject that
`branch.subjects.id(subjectId)` returns. -/
def inSubject (now : Int) (subjectId : String) (f : Subject → Subject) (branch : Branch) :
    Branch :=
  { branch with
    subjects := ChallengeModel.modifyFirst (fun s => s._id == subjectId)
      (fun s => { f s with updatedAt := now }) branch.subjects }

/-- The material data that the handler `addStudyMaterial` builds from the body. -/
structure MaterialBody where
  title : JsVal
  description : JsVal
  link : JsVal
  type : JsVal

/-- The subdocument that `subject.materials.push(materialData)` appends, for the data
`{ title, description: description || '', link, type: type || 'other' }`. -/
def castMaterial (newMaterialId : String) (materialData : MaterialBody) :
    Except Failure StudyMaterial :=
  match castRequiredName "materials.title" "Please add a title for the material"
          materialData.title,
        castDescription "materials.description" materialData.description,
        castRequiredName "materials.link" "Please provide a link to the material"
          materialData.link,
        (if materialData.type.truthy then
           match castString materialData.type with
           | some s => .ok s
           | none => .error (.castError "materials.type")
         else .ok "other" : Except Failure String) with
  | .ok title, .ok description, .ok link, .ok type =>
    .ok { _id := newMaterialId, title := title, description := description, link := link,
          type := type }
  | .error e, _, _, _ => .error e
  | _, .error e, _, _ => .error e
  | _, _, .error e, _ => .error e
  | _, _, _, .error e => .error e

/-- The method `studyStructureSchema.methods.addStudyMaterial`. -/
def StudyStructure.addStudyMaterial (this : StudyStructure) (db : Store) (now : Int)
    (branchId subjectId newMaterialId : String) (materialData : MaterialBody) :
    Outcome Store StudyMaterial :=
  match findBranch this.branches branchId with
  | none => ⟨db, .error (.thrown "Branch not found")⟩
  | some branch =>
    match findSubject branch.subjects subjectId with
    | none => ⟨db, .error (.thrown "Subject not found")⟩
    | some _ =>
      match castMaterial newMaterialId materialData with
      | .error e => ⟨db, .error e⟩
      | .ok material =>
        let push (subject : Subject) : Subject :=
          { subject with materials := subject.materials ++ [material] }
        match save db now { this with
            branches := inBranch now branchId (inSubject now subjectId push) this.branches } with
        | .error e => ⟨db, .error e⟩
        | .ok db' => ⟨db', .ok material⟩

/-- The keys of `updateData` in `updateSubject` that are paths of `subjectSchema` other
than `materials`; a key is `undefined` or `none` when it is absent. -/
structure SubjectUpdate where
  name : JsVal
  description : JsVal
  isActive : Option Bool
  updatedAt : Option Int

/-- The call `Object.assign(subject, updateData)`, cast by the schema. -/
def assignSubject (updateData : SubjectUpdate) (subject : Subject) :
    Except Failure Subject :=
  match (match updateData.name with
         | .undefined => .ok subject.name
         | v => castRequiredName "subjects.name" "Please add a subject name" v
         : Except Failure String),
        (match updateData.description with
         | .undefined => .ok subject.description
         | .null => .ok none
         | v => match castString v with
           | some s => .ok (some (jsTrim s))
           | none => .error (.castError "subjects.description")
         : Except Failure (Option String)) with
  | .ok name, .ok description =>
    .ok { subject with
          name := name
          description := description
          isActive := updateData.isActive.getD subject.isActive
          updatedAt := updateData.updatedAt.getD subject.updatedAt }
  | .error e, _ => .error e
  | _, .error e => .error e

/-- The method `studyStructureSchema.methods.updateSubject`. -/
def StudyStructure.updateSubject (this : StudyStructure) (db : Store) (now : Int)
    (branchId subjectId : String) (updateData : SubjectUpdate) : Outcome Store Subject :=
  match findBranch this.branches branchId with
  | none => ⟨db, .error (.thrown "Branch not found")⟩
  | some branch =>
    match findSubject branch.subjects subjectId with
    | none => ⟨db, .error (.thrown "Subject not found")⟩
    | some subject =>
      match assignSubject updateData subject with
      | .error e => ⟨db, .error e⟩
      | .ok assigned =>
        match save db now { this with
            branches := inBranch now branchId (inSubject now subjectId (fun _ => assigned))
              this.branches } with
        | .error e => ⟨db, .error e⟩
        | .ok db' => ⟨db', .ok { assigned with updatedAt := now }⟩

/-- The method `studyStructureSchema.methods.deleteSubject`; `splice(subjectIndex, 1)`
removes the first subject with the id. -/
def StudyStructure.deleteSubject (this : StudyStructure) (db : Store) (now : Int)
    (branchId subjectId : String) : Outcome Store Unit :=
  match findBranch this.branches branchId with
  | none => ⟨db, .error (.thrown "Branch not found")⟩
  | some branch =>
    match findSubject branch.subjects subjectId with
    | none => ⟨db, .error (.thrown "Subject not found")⟩
    | some _ =>
      let splice (branch : Branch) : Branch :=
        { branch with subjects := branch.subjects.eraseP (fun s => s._id == subjectId) }
      match save db now { this with
          branches := inBranch now branchId splice this.branches } with
      | .error e => ⟨db, .error e⟩
      | .ok db' => ⟨db', .ok ()⟩

/-- The method `studyStructureSchema.methods.deleteStudyMaterial`. -/
def StudyStructure.deleteStudyMaterial (this : StudyStructure) (db : Store) (now : Int)
    (branchId subjectId materialId : String) : Outcome Store Unit :=
  match findBranch this.branches branchId with
  | none => ⟨db, .error (.thrown "Branch not found")⟩
  | some branch =>
    match findSubject branch.subjects subjectId with
    | none => ⟨db, .error (.thrown "Subject not found")⟩
    | some subject =>
      match subject.materials.find? (fun m => m._id == materialId) with
      | none => ⟨db, .error (.thrown "Study material not found")⟩
      | some _ =>
        let splice (subject : Subject) : Subject :=
          { subject with materials := subject.materials.eraseP (fun m => m._id == materialId) }
        match save db now { this with
            branches := inBranch now branchId (inSubject now subjectId splice)
              this.branches } with
        | .error e => ⟨db, .error e⟩
        | .ok db' => ⟨db', .ok ()⟩

/-- A call of one of the six methods that change what a branch holds. -/
inductive Method where
  | addSubject (branchId newSubjectId : String) (subjectData : NamedBody)
  | addStudyMaterial (branchId subjectId newMaterialId : String)
      (materialData : MaterialBody)
  | updateBranch (branchId : String) (updateData : UpdateBranchBody)
  | updateSubject (branchId subjectId : String) (updateData : SubjectUpdate)
  | deleteSubject (branchId subjectId : String)
  | deleteStudyMaterial (branchId subjectId materialId : String)

/-- The outcome of a call on the structure `this`, without the returned data. -/
def Method.call (this : StudyStructure) (db : Store) (now : Int) :
    Method → Outcome Store Unit
  | .addSubject branchId newSubjectId subjectData =>
    ChallengeModel.relabel (fun _ => ())
      (this.addSubject db now branchId newSubjectId subjectData)
  | .addStudyMaterial branchId subjectId newMaterialId materialData =>
    ChallengeModel.relabel (fun _ => ())
      (this.addStudyMaterial db now branchId subjectId newMaterialId materialData)
  | .updateBranch branchId updateData =>
    ChallengeModel.relabel (fun _ => ()) (this.updateBranch db now branchId updateData)
  | .updateSubject branchId subjectId updateData =>
    ChallengeModel.relabel (fun _ => ())
      (this.updateSubject db now branchId subjectId updateData)
  | .deleteSubject branchId subjectId => this.deleteSubject db now branchId subjectId
  | .deleteStudyMaterial branchId subjectId materialId =>
    this.deleteStudyMaterial db now branchId subjectId materialId

/-- The branch of the path of a call. -/
def Method.branchId : Method → String
  | .addSubject branchId _ _ => branchId
  | .addStudyMaterial branchId _ _ _ => branchId
  | .updateBranch branchId _ => branchId
  | .updateSubject branchId _ _ => branchId
  | .deleteSubject branchId _ => branchId
  | .deleteStudyMaterial branchId _ _ => branchId

/-- The subject of the path of a call, when the path has one. -/
def Method.subjectId : Method → Option String
  | .addSubject _ _ _ => none
  | .addStudyMaterial _ subjectId _ _ => some subjectId
  | .updateBranch _ _ => none
  | .updateSubject _ subjectId _ => some subjectId
  | .deleteSubject _ subjectId => some subjectId
  | .deleteStudyMaterial _ subjectId _ => some subjectId

/-- The subject of the path that is still there after the call. -/
def Method.survivingSubject : Method → Option String
  | .deleteSubject _ _ => none
  | m => m.subjectId

/-- The stamps on the path of a call: the structure, the branch with the id and, when the
path has a subject that is still there, that subject carry `updatedAt = now`. -/
def Stamped (now : Int) (branchId : String) (subjectId : Option String)
    (st : StudyStructure) : Prop :=
  st.updatedAt = now ∧
  ∃ b, findBranch st.branches branchId = some b ∧ b.updatedAt = now ∧
    ∀ sid, subjectId = some sid →
      ∃ s, findSubject b.subjects sid = some s ∧ s.updatedAt = now

/-- The call succeeded and wrote the structure: the structure that `findOne` reads for
the user from the resulting store is the written one, kept under its `_id`; it carries the
stamps of `Stamped`, and its `updatedAt` is not before the previous one when the clock has
not gone back. -/
def Committed (this : StudyStructure) (db : Store) (now : Int) (branchId : String)
    (subjectId : Option String) (out : Outcome Store Unit) : Prop :=
  out.result = .ok () ∧
  ∃ st, out.db = replaceDoc db st ∧ findOne out.db this.user = some st ∧
    st._id = this._id ∧ Stamped now branchId subjectId st ∧
    (this.updatedAt ≤ now → this.updatedAt ≤ st.updatedAt)

/-- Example: the material Notes. -/
def exNotes : StudyMaterial :=
  { _id := "64b7f0c2a1d3e4f5a6b7c8f1", title := "Notes", description := some "",
    link := "https://example.org/n", type := "other" }

/-- Example: the subject Algebra with the material Notes, stamped at 5. -/
def exAlgebra : Subject :=
  { _id := "64b7f0c2a1d3e4f5a6b7c8d1", name := "Algebra", description := some "",
    materials := [exNotes], isActive := true, updatedAt := 5 }

/-- Example: the branch Math with the subject Algebra, stamped at 5. -/
def exMath : Branch :=
  { _id := "64b7f0c2a1d3e4f5a6b7c8c1", name := "Math", description := some "",
    subjects := [exAlgebra], isActive := true, updatedAt := 5 }

/-- Example: the branch Physics without subjects, stamped at 3. -/
def exPhysics : Branch :=
  { _id := "64b7f0c2a1d3e4f5a6b7c8c2", name := "Physics", description := some "",
    subjects := [], isActive := true, updatedAt := 3 }

/-- Example: the structure of the user `64b7f0c2a1d3e4f5a6b7c8b1` with the branches Math
and Physics, stamped at 5. -/
def exCourse : StudyStructure :=
  { _id := "64b7f0c2a1d3e4f5a6b7c8c0", user := "64b7f0c2a1d3e4f5a6b7c8b1",
    branches := [exMath, exPhysics], updatedAt := 5 }

/-- Example: the subject Geometry as `addSubject` appends it at time 40. -/
def exGeometry : Subject :=
  { _id := "64b7f0c2a1d3e4f5a6b7c8d2", name := "Geometry", description := some "",
    materials := [], isActive := true, updatedAt := 40 }

/-- Example: the material Slides as `addStudyMaterial` appends it. -/
def exSlides : StudyMaterial :=
  { _id := "64b7f0c2a1d3e4f5a6b7c8f2", title := "Slides", description := some "",
    link := "https://example.org/s", type := "other" }

/-- Example: the data of the material Slides. -/
def exSlidesBody : MaterialBody :=
  { title := .str "Slides", description := .undefined, link := .str "https://example.org/s",
    type := .undefined }

/-- Example: `exCourse` after a change at time 40 that leaves the branch Math with the
given fields and subjects. -/
def exCourseAt40 (name : String) (subjects : List Subject) : StudyStructure :=
  { exCourse with
    branches := [{ exMath with name := name, subjects := subjects, updatedAt := 40 }, exPhysics]
    updatedAt := 40 }

end StudyStructureModel

/-! ## Separately stored records (`transactionController.js`, `lifePlanController.js`,
`diaryController.js`, `studyMaterialController.js` and their models)

The update and delete handlers of these four collections load the record with
`findById` and then compare its owner with the caller. `findById` casts the id of the
request to an `ObjectId` and rejects with a `CastError` when the id is not of that form; the
`_id` of a stored record is the text of its `ObjectId`. Numbers are integers. -/

namespace TransactionModel

/-- A document of `transactionSchema` (without the timestamps). -/
structure Transaction where
  _id : String
  user : String
  type : String
  amount : Int
  description : String
  date : Int
  category : String
  completed : Option Bool
  deriving DecidableEq, Repr

/-- Validators of `transactionSchema`. -/
def validateTransaction (t : Transaction) : Except Failure Unit :=
  if t.user == "" then .error (.validation "user is required")
  else if !(t.type == "earning" || t.type == "expense") then
    .error (.validation "type is not a valid enum value")
  else if t.amount < 0 then
    .error (.validation "amount is less than minimum allowed value (0)")
  else if t.description == "" then .error (.validation "description is required")
  else .ok ()

/-- The transactions collection. -/
abbrev Store := List Transaction

/-- The query `Transaction.findById(id)`: the id is cast to an `ObjectId`, and the query rejects
with a `CastError` when the id is not of that form. -/
def findById (db : Store) (id : String) : Except Failure (Option Transaction) :=
  match castObjectId id with
  | none => .error (.castError "_id")
  | some objectId => .ok (db.find? (fun t => t._id == objectId))

/-- The `pre('save')` hook: a missing category is generated from the type. -/
def preSave (t : Transaction) : Transaction :=
  if t.category == "" then
    { t with category := if t.type == "earning" then "General Earning" else "General Expense" }
  else t

/-- The call `transaction.save()`: validate, run the hook, write. -/
def save (db : Store) (t : Transaction) : Except Failure Store :=
  match validateTransaction t with
  | .error e => .error e
  | .ok _ => .ok (db.map (fun d => if d._id == t._id then preSave t else d))

/-- Body of `PUT /api/transactions/:id`. -/
structure UpdateBody where
  type : JsVal
  amount : NumArg
  description : JsVal
  date : DateField
  completed : BoolArg

/-- The conditional assignments of `updateTransaction`. -/
def patchTransaction (body : UpdateBody) (t : Transaction) : Except Failure Transaction :=
  match (if body.type.truthy then
           match castString body.type with
           | some s => .ok (s, if body.type == .str "earning" then "General Earning"
                               else "General Expense")
           | none => .error (.castError "type")
         else .ok (t.type, t.category) : Except Failure (String × String)),
        (match body.amount with
         | .undefined => .ok t.amount
         | .null => .error (.validation "amount is required")
         | .num n => .ok n
         | .notNumber => .error (.castError "amount") : Except Failure Int),
        (if body.description.truthy then
           match castString body.description with
           | some s => .ok (jsTrim s)
           | none => .error (.castError "description")
         else .ok t.description : Except Failure String),
        (match body.date with
         | .valid ms => .ok ms
         | .invalid => .error (.castError "date")
         | _ => .ok t.date : Except Failure Int),
        (match body.completed with
         | .undefined => .ok t.completed
         | .null => .ok none
         | .bool b => .ok (some b)
         | .notBoolean => .error (.castError "completed") : Except Failure (Option Bool)) with
  | .ok (type, category), .ok amount, .ok description, .ok date, .ok completed =>
    .ok { t with type := type, category := category, amount := amount,
                 description := description, date := date, completed := completed }
  | .error e, _, _, _, _ => .error e
  | _, .error e, _, _, _ => .error e
  | _, _, .error e, _, _ => .error e
  | _, _, _, .error e, _ => .error e
  | _, _, _, _, .error e => .error e

/-- The handler `updateTransaction`. -/
def updateTransaction (db : Store) (userId id : String) (body : UpdateBody) :
    Outcome Store Transaction :=
  match findById db id with
  | .error e => ⟨db, .error e⟩
  | .ok none => ⟨db, .error (.response 404 "Transaction not found")⟩
  | .ok (some transaction) =>
    if transaction.user != userId then
      ⟨db, .error (.response 401 "Not authorized to update this transaction")⟩
    else
      match patchTransaction body transaction with
      | .error e => ⟨db, .error e⟩
      | .ok patched =>
        match save db patched with
        | .error e => ⟨db, .error e⟩
        | .ok db' => ⟨db', .ok (preSave patched)⟩

/-- The handler `deleteTransaction`; `deleteOne({ _id: req.params.id })` casts the id as
`findById` does and removes the first document with it. -/
def deleteTransaction (db : Store) (userId id : String) : Outcome Store Unit :=
  match findById db id with
  | .error e => ⟨db, .error e⟩
  | .ok none => ⟨db, .error (.response 404 "Transaction not found")⟩
  | .ok (some transaction) =>
    if transaction.user != userId then
      ⟨db, .error (.response 401 "Not authorized to delete this transaction")⟩
    else ⟨db.eraseP (fun t => t._id == transaction._id), .ok ()⟩

/-- Example: an expense of user `u2`. -/
def exTransaction : Transaction :=
  { _id := "64b7f0c2a1d3e4f5a6b7c8e1", user := "u2", type := "expense", amount := 250,
    description := "Books", date := 1735689600000, category := "General Expense",
    completed := some false }

/-- Example: a body without fields. -/
def exNoChange : UpdateBody :=
  { type := .undefined, amount := .undefined, description := .undefined,
    date := .undefined, completed := .undefined }

/-! ### Balance and summary -/

/-- The value that a filter has for the path `user`, whose stored value is an `ObjectId`:
an `ObjectId`, given by its text, or a string. -/
inductive UserFilter where
  | objectId (text : String)
  | string (s : String)
  deriving DecidableEq, Repr

/-- Whether the stored `user`, an `ObjectId` given by its text, equals the value of the
filter: the database compares an `ObjectId` equal to an `ObjectId` only, never to a
string. -/
def UserFilter.selects (filter : UserFilter) (user : String) : Bool :=
  match filter with
  | .objectId text => user == text
  | .string _ => false

/-- The query `transactionModel.find({ user: userId })` of `getDashboardStats`: `find`
casts the filter by the schema, so the id of the user, a string, is compared as the
`ObjectId` that it is cast to. -/
def findByUser (db : Store) (userId : String) : Except Failure (List Transaction) :=
  match castObjectId userId with
  | none => .error (.castError "user")
  | some objectId => .ok (db.filter (fun t => (UserFilter.objectId objectId).selects t.user))

/-- The `reduce` of `getDashboardStats` that gives `totalBalance`. Amounts are integers;
the runtime adds them as IEEE doubles, which is exact as long as the sums stay below 2^53
in absolute value. -/
def totalBalance (transactions : List Transaction) : Int :=
  transactions.foldl
    (fun acc transaction =>
      if transaction.type == "earning" then acc + transaction.amount
      else acc - transaction.amount) 0

/-- The stage `$match` of `getTransactionSummary`, with `matchQuery = { user: req.user.id }`.
`Transaction.aggregate` hands the pipeline to the database as it is, without the cast that
`find` makes, so the filter holds the id of the user as a string. `range` is the pair of
instants that the handler computes when the query has `month` and `year`, and `none`
otherwise. -/
def matchStage (db : Store) (userId : String) (range : Option (Int × Int)) :
    List Transaction :=
  db.filter (fun t => (UserFilter.string userId).selects t.user &&
    match range with
    | some (startDate, endDate) => decide (startDate ≤ t.date) && decide (t.date ≤ endDate)
    | none => true)

/-- An element of the result of the aggregation, after `$project`. -/
structure TypeTotal where
  type : String
  total : Int
  count : Nat
  deriving DecidableEq, Repr

/-- The stages `$group` (by `type`, with the sum of the amounts and the number of
documents) and `$project`; one element per type that occurs. -/
def groupByType (matched : List Transaction) : List TypeTotal :=
  (matched.map (fun t => t.type)).dedup.map (fun type =>
    { type := type
      total := ((matched.filter (fun t => t.type == type)).map (fun t => t.amount)).sum
      count := (matched.filter (fun t => t.type == type)).length })

/-- The expression `result.find(r => r.type === type)?.total || 0`. -/
def totalOf (result : List TypeTotal) (type : String) : Int :=
  match result.find? (fun r => r.type == type) with
  | some r => if r.total == 0 then 0 else r.total
  | none => 0

/-- The data of the response of `getTransactionSummary`. -/
structure Summary where
  earnings : Int
  expenses : Int
  transactionCount : Nat
  deriving DecidableEq, Repr

/-- The handler `getTransactionSummary`. -/
def getTransactionSummary (db : Store) (userId : String) (range : Option (Int × Int)) :
    Summary :=
  let result := groupByType (matchStage db userId range)
  { earnings := totalOf result "earning"
    expenses := totalOf result "expense"
    transactionCount := result.foldl (fun sum r => sum + r.count) 0 }

/-- Example: the three transactions of the user `64b7f0c2a1d3e4f5a6b7c8b2`: an expense
of 250, an earning of 1000 and an expense of 50. -/
def exLedgerOfUser : List Transaction :=
  [ { exTransaction with user := "64b7f0c2a1d3e4f5a6b7c8b2" },
    { exTransaction with _id := "64b7f0c2a1d3e4f5a6b7c8e5", user := "64b7f0c2a1d3e4f5a6b7c8b2",
                         type := "earning", amount := 1000, description := "Salary",
                         category := "General Earning" },
    { exTransaction with _id := "64b7f0c2a1d3e4f5a6b7c8e7", user := "64b7f0c2a1d3e4f5a6b7c8b2",
                         amount := 50 } ]

/-- Example: the collection that holds the transactions of `exLedgerOfUser` and, between
them, one of the user `64b7f0c2a1d3e4f5a6b7c8b1`. -/
def exLedger : Store :=
  [ { exTransaction with user := "64b7f0c2a1d3e4f5a6b7c8b2" },
    { exTransaction with _id := "64b7f0c2a1d3e4f5a6b7c8e5", user := "64b7f0c2a1d3e4f5a6b7c8b2",
                         type := "earning", amount := 1000, description := "Salary",
                         category := "General Earning" },
    { exTransaction with _id := "64b7f0c2a1d3e4f5a6b7c8e6", user := "64b7f0c2a1d3e4f5a6b7c8b1",
                         amount := 70 },
    { exTransaction with _id := "64b7f0c2a1d3e4f5a6b7c8e7", user := "64b7f0c2a1d3e4f5a6b7c8b2",
                         amount := 50 } ]

end TransactionModel

namespace LifePlanModel

/-- A document of `lifePlanSchema` (without the timestamps). -/
structure LifePlan where
  _id : String
  user : String
  startAge : Int
  endAge : Int
  targetYear : Int
  description : String
  deriving DecidableEq, Repr

/-- The life plans collection. -/
abbrev Store := List LifePlan

/-- The query `LifePlan.findById(id)`: the id is cast to an `ObjectId`, and the query rejects
with a `CastError` when the id is not of that form. -/
def findById (db : Store) (id : String) : Except Failure (Option LifePlan) :=
  match castObjectId id with
  | none => .error (.castError "_id")
  | some objectId => .ok (db.find? (fun p => p._id == objectId))

/-- Body of `PUT /api/life-plans/:id`, for the paths of the schema: each number is absent
or an integer, `user` is absent or an id. -/
structure UpdateBody where
  user : Option String
  startAge : Option Int
  endAge : Option Int
  targetYear : Option Int
  description : JsVal

/-- The update validators (`runValidators: true`) of the paths that the body sets. -/
def validateUpdate (body : UpdateBody) : Except Failure Unit :=
  if body.startAge.any (fun a => a < 18) then .error (.validation "Start age must be at least 18")
  else if body.startAge.any (fun a => a > 100) then
    .error (.validation "Start age cannot be more than 100")
  else if body.endAge.any (fun a => a < 19) then
    .error (.validation "End age must be at least 1 year after start age")
  else if body.endAge.any (fun a => a > 100) then
    .error (.validation "End age cannot be more than 100")
  else if body.targetYear.any (fun y => y < 2024) then
    .error (.validation "Target year must be in the future")
  else
    match body.description with
    | .undefined => .ok ()
    | .null => .error (.validation "Please add a description")
    | v =>
      match castString v with
      | none => .error (.castError "description")
      | some s =>
        if jsTrim s == "" then .error (.validation "Please add a description")
        else if jsLength (jsTrim s) > 1000 then
          .error (.validation "Description cannot be more than 1000 characters")
        else .ok ()

/-- The document after `$set` of the paths that the body has. -/
def applyUpdate (body : UpdateBody) (p : LifePlan) : LifePlan :=
  { p with
    user := body.user.getD p.user
    startAge := body.startAge.getD p.startAge
    endAge := body.endAge.getD p.endAge
    targetYear := body.targetYear.getD p.targetYear
    description := match castString body.description with
      | some s => jsTrim s
      | none => p.description }

/-- The handler `updateLifePlan`. For integer ages `parseInt` is the identity and a zero
age is falsy. -/
def updateLifePlan (db : Store) (userId id : String) (body : UpdateBody) :
    Outcome Store LifePlan :=
  match findById db id with
  | .error e => ⟨db, .error e⟩
  | .ok none => ⟨db, .error (.response 404 ("Plan not found with id of " ++ id))⟩
  | .ok (some plan) =>
    if plan.user != userId then
      ⟨db, .error (.response 401 "User not authorized to update this plan")⟩
    else if (match body.startAge, body.endAge with
             | some startAge, some endAge => startAge != 0 && endAge != 0 && startAge ≥ endAge
             | _, _ => false) then
      ⟨db, .error (.response 400 "End age must be greater than start age")⟩
    else
      match validateUpdate body with
      | .error e => ⟨db, .error e⟩
      | .ok _ =>
        ⟨db.map (fun d => if d._id == plan._id then applyUpdate body d else d),
         .ok (applyUpdate body plan)⟩

/-- The handler `deleteLifePlan`. -/
def deleteLifePlan (db : Store) (userId id : String) : Outcome Store Unit :=
  match findById db id with
  | .error e => ⟨db, .error e⟩
  | .ok none => ⟨db, .error (.response 404 ("Plan not found with id of " ++ id))⟩
  | .ok (some plan) =>
    if plan.user != userId then
      ⟨db, .error (.response 401 "User not authorized to delete this plan")⟩
    else ⟨db.eraseP (fun p => p._id == plan._id), .ok ()⟩

/-- Example: a plan of user `u2`. -/
def exPlan : LifePlan :=
  { _id := "64b7f0c2a1d3e4f5a6b7c8e2", user := "u2", startAge := 25, endAge := 30,
    targetYear := 2030, description := "Finish the degree" }

/-- Example: a body without fields. -/
def exNoChange : UpdateBody :=
  { user := none, startAge := none, endAge := none, targetYear := none,
    description := .undefined }

/-- Body of `POST /api/life-plans`, for the paths of the schema: each number is absent or
an integer. -/
structure CreateBody where
  startAge : Option Int
  endAge : Option Int
  targetYear : Option Int
  description : JsVal

/-- The handler `createLifePlan`. For integer ages `parseInt` is the identity, and the
comparison with the `NaN` of an absent age is false. `LifePlan.create` checks the
validators of the schema: the three numbers are required, their bounds and the
description are checked as in `validateUpdate`, where an absent description fails
`required` like `null`. -/
def createLifePlan (db : Store) (userId newId : String) (body : CreateBody) :
    Outcome Store LifePlan :=
  if (match body.startAge, body.endAge with
      | some startAge, some endAge => decide (startAge ≥ endAge)
      | _, _ => false) then
    ⟨db, .error (.response 400 "End age must be greater than start age")⟩
  else
    match body.startAge, body.endAge, body.targetYear with
    | none, _, _ => ⟨db, .error (.validation "Please add a start age")⟩
    | _, none, _ => ⟨db, .error (.validation "Please add an end age")⟩
    | _, _, none => ⟨db, .error (.validation "Please add a target year")⟩
    | some startAge, some endAge, some targetYear =>
      match validateUpdate ⟨none, some startAge, some endAge, some targetYear,
          match body.description with
          | .undefined => .null
          | v => v⟩ with
      | .error e => ⟨db, .error e⟩
      | .ok _ =>
        match castString body.description with
        | none => ⟨db, .error (.castError "description")⟩
        | some description =>
          let plan : LifePlan :=
            { _id := newId, user := userId, startAge := startAge, endAge := endAge,
              targetYear := targetYear, description := jsTrim description }
          ⟨db ++ [plan], .ok plan⟩

/-- Example: the body that creates `exPlan`. -/
def exCreatePlanBody : CreateBody :=
  { startAge := some 25, endAge := some 30, targetYear := some 2030,
    description := .str "Finish the degree" }

/-- Example: a body that has only `startAge`. -/
def exOnlyStartAge : UpdateBody :=
  { user := none, startAge := some 50, endAge := none, targetYear := none,
    description := .undefined }

/-- Example: a body that has only `endAge`. -/
def exOnlyEndAge : UpdateBody :=
  { user := none, startAge := none, endAge := some 20, targetYear := none,
    description := .undefined }

end LifePlanModel

namespace DiaryModel

/-- A document of `diaryEntrySchema` (without the timestamps). -/
structure DiaryEntry where
  _id : String
  user : String
  date : Int
  content : String
  goodThings : List String
  badThings : List String
  deriving DecidableEq, Repr

/-- The diary collection. -/
abbrev Store := List DiaryEntry

/-- The query `Diary.findById(id)`: the id is cast to an `ObjectId`, and the query rejects
with a `CastError` when the id is not of that form. -/
def findById (db : Store) (id : String) : Except Failure (Option DiaryEntry) :=
  match castObjectId id with
  | none => .error (.castError "_id")
  | some objectId => .ok (db.find? (fun e => e._id == objectId))

/-- Body of `PATCH /api/diary/entries/:id`; each list is absent or an array of strings. -/
structure UpdateBody where
  content : JsVal
  goodThings : Option (List String)
  badThings : Option (List String)

/-- The handler `updateDiaryEntry`; `save` checks that `content` is not empty. -/
def updateDiaryEntry (db : Store) (userId id : String) (body : UpdateBody) :
    Outcome Store DiaryEntry :=
  match findById db id with
  | .error e => ⟨db, .error e⟩
  | .ok none => ⟨db, .error (.response 404 ("Diary entry not found with id of " ++ id))⟩
  | .ok (some diaryEntry) =>
    if diaryEntry.user != userId then
      ⟨db, .error (.response 401
        ("User " ++ userId ++ " is not authorized to update this diary entry"))⟩
    else
      match (if body.content.truthy then
               match castString body.content with
               | some s => .ok s
               | none => .error (.castError "content")
             else .ok diaryEntry.content : Except Failure String) with
      | .error e => ⟨db, .error e⟩
      | .ok content =>
        let diaryEntry :=
          { diaryEntry with
            content := content
            goodThings := body.goodThings.getD diaryEntry.goodThings
            badThings := body.badThings.getD diaryEntry.badThings }
        if diaryEntry.content == "" then
          ⟨db, .error (.validation "Please add some content")⟩
        else
          ⟨db.map (fun d => if d._id == diaryEntry._id then diaryEntry else d), .ok diaryEntry⟩

/-- The handler `deleteDiaryEntry`. -/
def deleteDiaryEntry (db : Store) (userId id : String) : Outcome Store Unit :=
  if !objectIdIsValid id then
    ⟨db, .error (.response 400 "Invalid diary entry ID format")⟩
  else
    match findById db id with
    | .error e => ⟨db, .error e⟩
    | .ok none => ⟨db, .error (.response 404 ("Diary entry not found with id of " ++ id))⟩
    | .ok (some diaryEntry) =>
      if diaryEntry.user != userId then
        ⟨db, .error (.response 401 "User is not authorized to delete this diary entry")⟩
      else ⟨db.eraseP (fun e => e._id == diaryEntry._id), .ok ()⟩

/-- Example: a diary entry of user `u2`. -/
def exEntry : DiaryEntry :=
  { _id := "64b7f0c2a1d3e4f5a6b7c8e3", user := "u2", date := 1735689600000,
    content := "A quiet day", goodThings := ["walk"], badThings := [] }

/-- Example: a body without fields. -/
def exNoChange : UpdateBody :=
  { content := .undefined, goodThings := none, badThings := none }

end DiaryModel

namespace StudyMaterialModel

/-- A document of `studyMaterialSchema` in `studyMaterialModel.js` (without the date
stamps). -/
structure StudyMaterial where
  _id : String
  title : String
  description : Option String
  link : String
  type : String
  subject : String
  branch : String
  user : String
  deriving DecidableEq, Repr

/-- The study materials collection. -/
abbrev Store := List StudyMaterial

/-- The query `StudyMaterial.findById(id)`: the id is cast to an `ObjectId`, and the query rejects
with a `CastError` when the id is not of that form. -/
def findById (db : Store) (id : String) : Except Failure (Option StudyMaterial) :=
  match castObjectId id with
  | none => .error (.castError "_id")
  | some objectId => .ok (db.find? (fun m => m._id == objectId))

/-- Body of `PUT /api/study-materials/:id`, for the paths of the schema; the three
references are absent or an id. -/
structure UpdateBody where
  title : JsVal
  description : JsVal
  link : JsVal
  type : JsVal
  subject : Option String
  branch : Option String
  user : Option String

/-- The value of a required, trimmed `String` path that the body sets, checked by the
update validators. -/
def setRequired (path message : String) (maxLength : Option Nat) (tooLong : String)
    (old : String) : JsVal → Except Failure String
  | .undefined => .ok old
  | .null => .error (.validation message)
  | v =>
    match castString v with
    | none => .error (.castError path)
    | some s =>
      if jsTrim s == "" then .error (.validation message)
      else if maxLength.any (fun n => jsLength (jsTrim s) > n) then .error (.validation tooLong)
      else .ok (jsTrim s)

/-- The document after `findByIdAndUpdate(id, req.body, { runValidators: true })`. -/
def applyUpdate (body : UpdateBody) (m : StudyMaterial) : Except Failure StudyMaterial :=
  match setRequired "title" "Please add a title for the material" (some 200)
          "Title cannot be more than 200 characters" m.title body.title,
        (match body.description with
         | .undefined => .ok m.description
         | .null => .ok none
         | v => match castString v with
           | some s => .ok (some (jsTrim s))
           | none => .error (.castError "description")
         : Except Failure (Option String)),
        setRequired "link" "Please provide a link to the material" none "" m.link body.link,
        (match body.type with
         | .undefined => .ok m.type
         | v => match castString v with
           | some s =>
             if s == "pdf" || s == "video" || s == "website" || s == "document" || s == "other"
             then .ok s
             else .error (.validation "type is not a valid enum value")
           | none => .error (.castError "type")
         : Except Failure String) with
  | .ok title, .ok description, .ok link, .ok type =>
    .ok { m with title := title, description := description, link := link, type := type,
                 subject := body.subject.getD m.subject, branch := body.branch.getD m.branch,
                 user := body.user.getD m.user }
  | .error e, _, _, _ => .error e
  | _, .error e, _, _ => .error e
  | _, _, .error e, _ => .error e
  | _, _, _, .error e => .error e

/-- The handler `updateStudyMaterial`. -/
def updateStudyMaterial (db : Store) (userId id : String) (body : UpdateBody) :
    Outcome Store StudyMaterial :=
  match findById db id with
  | .error e => ⟨db, .error e⟩
  | .ok none => ⟨db, .error (.response 404 "Study material not found")⟩
  | .ok (some material) =>
    if material.user != userId then
      ⟨db, .error (.response 401 "Not authorized to update this material")⟩
    else
      match applyUpdate body material with
      | .error e => ⟨db, .error e⟩
      | .ok updated =>
        ⟨db.map (fun d => if d._id == material._id then updated else d), .ok updated⟩

/-- The handler `deleteStudyMaterial`; `material.remove()` deletes the document. -/
def deleteStudyMaterial (db : Store) (userId id : String) : Outcome Store Unit :=
  match findById db id with
  | .error e => ⟨db, .error e⟩
  | .ok none => ⟨db, .error (.response 404 "Study material not found")⟩
  | .ok (some material) =>
    if material.user != userId then
      ⟨db, .error (.response 401 "Not authorized to delete this material")⟩
    else ⟨db.eraseP (fun m => m._id == material._id), .ok ()⟩

/-- Example: a study material of user `u2`. -/
def exMaterial : StudyMaterial :=
  { _id := "64b7f0c2a1d3e4f5a6b7c8e4", title := "Lecture notes", description := none,
    link := "https://example.org/notes.pdf", type := "pdf",
    subject := "64b7f0c2a1d3e4f5a6b7c8f1", branch := "64b7f0c2a1d3e4f5a6b7c8f2", user := "u2" }

/-- Example: a body without fields. -/
def exNoChange : UpdateBody :=
  { title := .undefined, description := .undefined, link := .undefined, type := .undefined,
    subject := none, branch := none, user := none }

end StudyMaterialModel

/-! ## Daily schedules (`DailySchedule.js`, `timeTableController.js`) -/

namespace DailyScheduleModel

/-- The nested path `recurrencePattern` of `timeSlotSchema`. -/
structure RecurrencePattern where
  frequency : String
  days : List Int
  deriving DecidableEq, Repr

/-- A subdocument of `timeSlotSchema`. -/
structure TimeSlot where
  _id : String
  startTime : String
  endTime : String
  description : String
  status : String
  category : Option String
  isRecurring : Bool
  recurrencePattern : RecurrencePattern
  completedAt : Option Int
  deriving DecidableEq, Repr

/-- A document of `dailyScheduleSchema` (without the timestamps); `date` in milliseconds. -/
structure DailySchedule where
  _id : String
  userId : String
  date : Int
  timeSlots : List TimeSlot
  deriving DecidableEq, Repr

/-- The daily schedules collection. -/
abbrev Store := List DailySchedule

/-- The date functions of the runtime that the handlers call: `new Date(req.params.date)`
(`none` for an Invalid Date), `date.setHours(0, 0, 0, 0)` in the zone of the server, and
the time of `new Date("2000-01-01T" + s)`. -/
structure JsDate where
  parseDate : String → Option Int
  startOfDay : Int → Int
  parseTime : String → Option Int

/-- The pattern `/^([01]\d|2[0-3]):([0-5]\d)$/` of `startTime`. -/
def matchesHHMM (s : String) : Bool :=
  match s.data with
  | [a, b, ':', c, d] =>
    (((a == '0' || a == '1') && b.isDigit) || (a == '2' && '0' ≤ b && b ≤ '3')) &&
      ('0' ≤ c && c ≤ '5') && d.isDigit
  | _ => false

/-- The comparison `a < b` of two strings, character by character. -/
def charsLt : List Char → List Char → Bool
  | [], [] => false
  | [], _ :: _ => true
  | _ :: _, [] => false
  | a :: as, b :: bs => a.toNat < b.toNat || (a == b && charsLt as bs)

/-- The validator `v > this.startTime` of `endTime`. -/
def endAfterStart (slot : TimeSlot) : Bool :=
  charsLt slot.startTime.data slot.endTime.data

/-- Validators of `timeSlotSchema`. -/
def validateTimeSlot (slot : TimeSlot) : Except Failure Unit :=
  if slot.startTime == "" then .error (.validation "Please add a start time")
  else if !matchesHHMM slot.startTime then
    .error (.validation "Please use a valid 24-hour time format (HH:MM)")
  else if slot.endTime == "" then .error (.validation "Please add an end time")
  else if !endAfterStart slot then .error (.validation "End time must be after start time")
  else if slot.description == "" then .error (.validation "Please add a description")
  else if jsLength slot.description > 500 then
    .error (.validation "Description cannot be more than 500 characters")
  else if !(slot.status == "pending" || slot.status == "completed"
            || slot.status == "cancelled") then
    .error (.validation "status is not a valid enum value")
  else if !(slot.recurrencePattern.frequency == "daily"
            || slot.recurrencePattern.frequency == "weekly"
            || slot.recurrencePattern.frequency == "monthly") then
    .error (.validation "recurrencePattern.frequency is not a valid enum value")
  else if slot.recurrencePattern.days.any (fun d => d < 0 || d > 6) then
    .error (.validation "recurrencePattern.days is out of range")
  else .ok ()

/-- The query `DailySchedule.findOne({ userId, date })`. -/
def findSchedule (db : Store) (userId : String) (date : Int) : Option DailySchedule :=
  db.find? (fun s => s.userId == userId && s.date == date)

/-- An insert into the collection, under the unique index `{ userId: 1, date: 1 }`. -/
def insertSchedule (db : Store) (doc : DailySchedule) : Except Failure Store :=
  if db.any (fun s => s.userId == doc.userId && s.date == doc.date) then
    .error (.thrown "E11000 duplicate key error")
  else .ok (db ++ [doc])

/-- The handler `getDailySchedule`; `newId` is the id of a created document. -/
def getDailySchedule (env : JsDate) (db : Store) (newId userId dateParam : String) :
    Outcome Store DailySchedule :=
  match env.parseDate dateParam with
  | none => ⟨db, .error (.response 400 "Invalid date format. Please use YYYY-MM-DD")⟩
  | some ms =>
    let date := env.startOfDay ms
    match findSchedule db userId date with
    | some schedule => ⟨db, .ok schedule⟩
    | none =>
      let schedule : DailySchedule :=
        { _id := newId, userId := userId, date := date, timeSlots := [] }
      match insertSchedule db schedule with
      | .error e => ⟨db, .error e⟩
      | .ok db' => ⟨db', .ok schedule⟩

/-- The value of `recurrencePattern` in a submitted slot. -/
structure RecurrenceInput where
  frequency : Option String
  days : List Int
  deriving DecidableEq, Repr

/-- An element of `req.body.timeSlots`; `_id` is absent or a string, `recurrencePattern`
absent or an object. -/
structure SlotInput where
  _id : Option String
  startTime : JsVal
  endTime : JsVal
  description : JsVal
  status : JsVal
  category : JsVal
  isRecurring : JsVal
  recurrencePattern : Option RecurrenceInput
  deriving DecidableEq, Repr

/-- The instant of `new Date("2000-01-01T" + x)`, `none` for an Invalid Date. -/
def timeOf (env : JsDate) (x : JsVal) : Option Int :=
  match castString x with
  | some s => env.parseTime s
  | none => none

/-- The checks made on one element by the callback of `timeSlots.map`; an element that is
`null` or `undefined` raises a `TypeError`. -/
def checkSlot (env : JsDate) : Option SlotInput → Except Failure Unit
  | none => .error .typeError
  | some slot =>
    if !slot.startTime.truthy || !slot.endTime.truthy then
      .error (.thrown "Each time slot must have startTime and endTime")
    else
      match timeOf env slot.startTime, timeOf env slot.endTime with
      | some start, some finish =>
        if start ≥ finish then .error (.thrown "endTime must be after startTime")
        else .ok ()
      | _, _ => .error (.thrown "Invalid time format. Use HH:MM (24-hour format)")

/-- A value `x || fallback` cast to a `String` path. -/
def castOr (path fallback : String) (x : JsVal) : Except Failure String :=
  if x.truthy then
    match castString x with
    | some s => .ok s
    | none => .error (.castError path)
  else .ok fallback

/-- The object that the callback returns for one element, cast to `timeSlotSchema`:
`newId` is the id minted when the element has none, `now` the clock. A supplied `_id` is
cast to an `ObjectId`, so the stored id is the text of that `ObjectId`, whatever the case
of the letters in the request. -/
def toTimeSlot (now : Int) (newId : String) (slot : SlotInput) : Except Failure TimeSlot :=
  match (match slot._id with
         | some id =>
           if id == "" then .ok newId
           else
             match castObjectId id with
             | some objectId => .ok objectId
             | none => .error (.castError "_id")
         | none => .ok newId : Except Failure String),
        castOr "startTime" "" slot.startTime,
        castOr "endTime" "" slot.endTime,
        castOr "description" "" slot.description,
        castOr "status" "pending" slot.status,
        (if slot.category.truthy then
           match castString slot.category with
           | some s => .ok (some (jsTrim s))
           | none => .error (.castError "category")
         else .ok none : Except Failure (Option String)) with
  | .ok id, .ok startTime, .ok endTime, .ok description, .ok status, .ok category =>
    .ok { _id := id, startTime := startTime, endTime := endTime,
          description := jsTrim description, status := status, category := category,
          isRecurring := slot.isRecurring.truthy,
          recurrencePattern :=
            match slot.recurrencePattern with
            | some r => ⟨r.frequency.getD "weekly", r.days⟩
            | none => ⟨"weekly", []⟩,
          completedAt := if slot.status == .str "completed" then some now else none }
  | .error e, _, _, _, _, _ => .error e
  | _, .error e, _, _, _, _ => .error e
  | _, _, .error e, _, _, _ => .error e
  | _, _, _, .error e, _, _ => .error e
  | _, _, _, _, .error e, _ => .error e
  | _, _, _, _, _, .error e => .error e

/-- The cast of the checked elements, the `k`-th minted id being `newIds k`. -/
def toTimeSlots (now : Int) (newIds : Nat → String) (k : Nat) :
    List (Option SlotInput) → Except Failure (List TimeSlot)
  | [] => .ok []
  | none :: _ => .error .typeError
  | some slot :: rest =>
    match toTimeSlot now (newIds k) slot with
    | .error e => .error e
    | .ok s =>
      match toTimeSlots now newIds (k + 1) rest with
      | .error e => .error e
      | .ok ss => .ok (s :: ss)

/-- The handler `updateDailySchedule`. `timeSlots` is `none` when the body field is not an
array; `newId` is the id of an upserted document. Every error raised after the two 400
checks is caught and answered with status 500 and the message of the error. The update
validators (`runValidators: true`) check every submitted slot against `timeSlotSchema`. -/
def updateDailySchedule (env : JsDate) (db : Store) (now : Int) (newId : String)
    (newIds : Nat → String) (userId dateParam : String)
    (timeSlots : Option (List (Option SlotInput))) : Outcome Store DailySchedule :=
  match env.parseDate dateParam with
  | none => ⟨db, .error (.response 400 "Invalid date format. Please use YYYY-MM-DD")⟩
  | some ms =>
    let date := env.startOfDay ms
    match timeSlots with
    | none => ⟨db, .error (.response 400 "Time slots must be an array")⟩
    | some timeSlots =>
      match timeSlots.forM (checkSlot env) with
      | .error e => ⟨db, .error (.response 500 e.message)⟩
      | .ok _ =>
        match toTimeSlots now newIds 0 timeSlots with
        | .error e => ⟨db, .error (.response 500 e.message)⟩
        | .ok validatedTimeSlots =>
          match validatedTimeSlots.forM validateTimeSlot with
          | .error e => ⟨db, .error (.response 500 e.message)⟩
          | .ok _ =>
            match findSchedule db userId date with
            | some schedule =>
              ⟨ChallengeModel.modifyFirst (fun s => s.userId == userId && s.date == date)
                  (fun s => { s with timeSlots := validatedTimeSlots }) db,
               .ok { schedule with timeSlots := validatedTimeSlots }⟩
            | none =>
              let schedule : DailySchedule :=
                { _id := newId, userId := userId, date := date,
                  timeSlots := validatedTimeSlots }
              match insertSchedule db schedule with
              | .error e => ⟨db, .error (.response 500 e.message)⟩
              | .ok db' => ⟨db', .ok schedule⟩

/-- A call of one of the two handlers, with the values that the runtime supplies to it. -/
inductive Call where
  | getDailySchedule (newId userId dateParam : String)
  | updateDailySchedule (now : Int) (newId : String) (newIds : Nat → String)
      (userId dateParam : String) (timeSlots : Option (List (Option SlotInput)))

/-- The store after one call. -/
def Call.run (env : JsDate) (db : Store) : Call → Store
  | .getDailySchedule newId userId dateParam =>
    (DailyScheduleModel.getDailySchedule env db newId userId dateParam).db
  | .updateDailySchedule now newId newIds userId dateParam timeSlots =>
    (DailyScheduleModel.updateDailySchedule env db now newId newIds userId dateParam
      timeSlots).db

/-- The store after a sequence of calls, one after the other. -/
def runAll (env : JsDate) (db : Store) (calls : List Call) : Store :=
  calls.foldl (Call.run env) db

/-- The caller of a call and the day that its date string denotes, when it denotes one. -/
def Call.key (env : JsDate) : Call → Option (String × Int)
  | .getDailySchedule _ userId dateParam =>
    (env.parseDate dateParam).map (fun ms => (userId, env.startOfDay ms))
  | .updateDailySchedule _ _ _ userId dateParam _ =>
    (env.parseDate dateParam).map (fun ms => (userId, env.startOfDay ms))

/-- The pair (userId, date) of a stored schedule. -/
def scheduleKey (s : DailySchedule) : String × Int := (s.userId, s.date)

/-- At most one schedule per pair (userId, date). -/
def UniquePerDay (db : Store) : Prop := (db.map scheduleKey).Nodup

instance (db : Store) : Decidable (UniquePerDay db) := by
  unfold UniquePerDay; infer_instance

/-- Example date functions: two known date strings, days of 86400000 ms from the epoch,
and times `HH:MM` read digit by digit. -/
def exJsDate : JsDate :=
  { parseDate := fun s =>
      if s == "2025-01-15" then some 1736899200000
      else if s == "2025-01-15T09:30:00Z" then some 1736933400000
      else if s == "2025-01-16" then some 1736985600000
      else none
    startOfDay := fun ms => ms - ms % 86400000
    parseTime := fun s =>
      match s.data with
      | [a, b, ':', c, d] =>
        if matchesHHMM s then
          some (946684800000 + 60000 *
            (((a.toNat - 48) * 10 + (b.toNat - 48)) * 60 + (c.toNat - 48) * 10 + (d.toNat - 48)))
        else none
      | _ => none }

/-- Example: a slot from nine to ten. -/
def exSlotInput : SlotInput :=
  { _id := none, startTime := .str "09:00", endTime := .str "10:00",
    description := .str "Read", status := .undefined, category := .undefined,
    isRecurring := .undefined, recurrencePattern := none }

/-- Example: ids minted for slots. -/
def exSlotIds (k : Nat) : String := "64b7f0c2a1d3e4f5a6b7c9" ++ (if k == 0 then "00" else "01")

/-- Example: two users read and write their schedules of two days. -/
def exCalls : List Call :=
  [ .getDailySchedule "64b7f0c2a1d3e4f5a6b7c8a1" "u1" "2025-01-15",
    .updateDailySchedule 1736940000000 "64b7f0c2a1d3e4f5a6b7c8a2" exSlotIds "u1"
      "2025-01-15T09:30:00Z" (some [some exSlotInput]),
    .updateDailySchedule 1736940000000 "64b7f0c2a1d3e4f5a6b7c8a3" exSlotIds "u2"
      "2025-01-15" (some [some exSlotInput]),
    .getDailySchedule "64b7f0c2a1d3e4f5a6b7c8a4" "u2" "2025-01-15",
    .getDailySchedule "64b7f0c2a1d3e4f5a6b7c8a5" "u1" "2025-01-16",
    .updateDailySchedule 1736940000000 "64b7f0c2a1d3e4f5a6b7c8a6" exSlotIds "u1"
      "2025-01-16" none,
    .getDailySchedule "64b7f0c2a1d3e4f5a6b7c8a7" "u1" "yesterday" ]

/-- Example: the slot stored for `exSlotInput`. -/
def exSlot : TimeSlot :=
  { _id := "64b7f0c2a1d3e4f5a6b7c900", startTime := "09:00", endTime := "10:00",
    description := "Read", status := "pending", category := none, isRecurring := false,
    recurrencePattern := ⟨"weekly", []⟩, completedAt := none }

/-- Example: the store after `exCalls`. -/
def exAfterCalls : Store :=
  [ { _id := "64b7f0c2a1d3e4f5a6b7c8a1", userId := "u1", date := 1736899200000,
      timeSlots := [exSlot] },
    { _id := "64b7f0c2a1d3e4f5a6b7c8a3", userId := "u2", date := 1736899200000,
      timeSlots := [exSlot] },
    { _id := "64b7f0c2a1d3e4f5a6b7c8a5", userId := "u1", date := 1736985600000,
      timeSlots := [] } ]

/-- Example: a slot whose description has blanks around it. -/
def exUntrimmedInput : SlotInput :=
  { exSlotInput with description := .str " Read " }

/-- Example: a cancelled slot from eleven to half past twelve. -/
def exSecondInput : SlotInput :=
  { _id := none, startTime := .str "11:00", endTime := .str "12:30",
    description := .str "Write", status := .str "cancelled", category := .undefined,
    isRecurring := .undefined, recurrencePattern := none }

/-- Example: the slot stored for `exSecondInput` when it is the second of a request. -/
def exSecondSlot : TimeSlot :=
  { _id := "64b7f0c2a1d3e4f5a6b7c901", startTime := "11:00", endTime := "12:30",
    description := "Write", status := "cancelled", category := none, isRecurring := false,
    recurrencePattern := ⟨"weekly", []⟩, completedAt := none }

/-- Example: a stored slot that a later request does not resubmit. -/
def exOldSlot : TimeSlot :=
  { _id := "64b7f0c2a1d3e4f5a6b7c9ff", startTime := "06:00", endTime := "07:00",
    description := "Run", status := "completed", category := none, isRecurring := false,
    recurrencePattern := ⟨"weekly", []⟩, completedAt := some 1736920000000 }

/-- Example: a store where `u1` has a schedule with `exOldSlot` on 2025-01-15. -/
def exOldStore : Store :=
  [ { _id := "64b7f0c2a1d3e4f5a6b7c8a3", userId := "u2", date := 1736899200000,
      timeSlots := [exSlot] },
    { _id := "64b7f0c2a1d3e4f5a6b7c8a1", userId := "u1", date := 1736899200000,
      timeSlots := [exOldSlot] } ]

/-- Example: a slot that ends when it starts. -/
def exEmptyRangeInput : SlotInput :=
  { exSlotInput with startTime := .str "10:00", endTime := .str "10:00" }

/-- The client-supplied `_id` of a slot, when `slot._id` is truthy, as the `ObjectId` that
it is cast to. -/
def suppliedId (slot : SlotInput) : Option String :=
  match slot._id with
  | some id => if id == "" then none else castObjectId id
  | none => none

/-- The client-supplied ids of a request, as `ObjectId`s, in order. -/
def suppliedIds (timeSlots : List (Option SlotInput)) : List String :=
  timeSlots.filterMap (fun o => o.bind suppliedId)

/-- Example: two slots that carry the same client-supplied `_id`. -/
def exSameIdInputs : List (Option SlotInput) :=
  [ some { exSlotInput with _id := some "64b7f0c2a1d3e4f5a6b7c9aa" },
    some { exSecondInput with _id := some "64b7f0c2a1d3e4f5a6b7c9aa" } ]

/-- Example: two slots whose client-supplied `_id`s differ only in the case of two
letters. -/
def exCaseIdInputs : List (Option SlotInput) :=
  [ some { exSlotInput with _id := some "64b7f0c2a1d3e4f5a6b7c9aa" },
    some { exSecondInput with _id := some "64b7f0c2a1d3e4f5a6b7c9AA" } ]

/-- Example: a slot with a client-supplied `_id` and a slot without one. -/
def exMixedIdInputs : List (Option SlotInput) :=
  [ some { exSlotInput with _id := some "64b7f0c2a1d3e4f5a6b7c9aa" }, some exSecondInput ]

/-- The filter `{ userId, date, 'timeSlots._id': slotId }`. -/
def hasSlot (userId : String) (date : Int) (slotId : String) (s : DailySchedule) : Bool :=
  s.userId == userId && s.date == date && s.timeSlots.any (fun slot => slot._id == slotId)

/-- The update `{ 'timeSlots.$.status': status }`, with `'timeSlots.$.completedAt'` when
the status is 'completed', on the slot that the positional operator addresses. -/
def setStatus (now : Int) (status : String) (slot : TimeSlot) : TimeSlot :=
  { slot with
    status := status
    completedAt := if status == "completed" then some now else slot.completedAt }

/-- The slots after the positional update of the slot with the id `slotId`. -/
def setSlotStatus (now : Int) (status slotId : String) (slots : List TimeSlot) :
    List TimeSlot :=
  ChallengeModel.modifyFirst (fun slot => slot._id == slotId) (setStatus now status) slots

/-- The handler `updateTimeSlotStatus`. The positional operator `$` addresses the first
slot of the found schedule whose `_id` is `slotId`; the filter casts `slotId` to an
ObjectId. -/
def updateTimeSlotStatus (env : JsDate) (db : Store) (now : Int)
    (userId dateParam slotId : String) (status : JsVal) : Outcome Store DailySchedule :=
  if !(status == .str "pending" || status == .str "completed"
        || status == .str "cancelled") then
    ⟨db, .error (.response 400
      "Invalid status. Must be one of: pending, completed, cancelled")⟩
  else
    match env.parseDate dateParam with
    | none => ⟨db, .error (.response 400 "Invalid date format. Please use YYYY-MM-DD")⟩
    | some ms =>
      let scheduleDate := env.startOfDay ms
      match castString status with
      | none => ⟨db, .error (.castError "timeSlots.$.status")⟩
      | some status =>
        if !objectIdIsValid slotId then ⟨db, .error (.castError "timeSlots._id")⟩
        else
          match db.find? (hasSlot userId scheduleDate slotId) with
          | none => ⟨db, .error (.response 404 "Time slot not found")⟩
          | some schedule =>
            ⟨ChallengeModel.modifyFirst (hasSlot userId scheduleDate slotId)
                (fun s => { s with timeSlots := setSlotStatus now status slotId s.timeSlots })
                db,
             .ok { schedule with
                   timeSlots := setSlotStatus now status slotId schedule.timeSlots }⟩

/-- The time of day that a string of the form `HH:MM` denotes, in minutes after midnight:
the reading of "a later time of day" that the two checks are compared with. -/
def minutesOfDay (s : String) : Nat :=
  match s.data with
  | [a, b, _, c, d] =>
    ((a.toNat - 48) * 10 + (b.toNat - 48)) * 60 + ((c.toNat - 48) * 10 + (d.toNat - 48))
  | _ => 0

end DailyScheduleModel

/-! ## Theorems -/

/-- A list passes `forM` of a validator exactly when each element passes. -/
theorem forM_ok_iff {α : Type} (f : α → Except Failure Unit) (l : List α) :
    l.forM f = .ok () ↔ ∀ x ∈ l, f x = .ok () := by
  induction l with
  | nil => simp [pure, Except.pure]
  | cons a as ih =>
    simp only [List.forM_cons, List.mem_cons, forall_eq_or_imp]
    cases h : f a with
    | error e => simp [bind, Except.bind, h]
    | ok u => simpa [bind, Except.bind, h] using ih

/-- A list fails `forM` of a validator with the failure of one of its elements. -/
theorem forM_error {α : Type} (f : α → Except Failure Unit) (l : List α) (e : Failure)
    (h : l.forM f = .error e) : ∃ x ∈ l, f x = .error e := by
  induction l with
  | nil => simp [pure, Except.pure] at h
  | cons a as ih =>
    simp only [List.forM_cons'] at h
    cases ha : f a with
    | error e' =>
      simp only [bind, Except.bind, ha] at h
      cases h
      exact ⟨a, List.mem_cons_self _ _, ha⟩
    | ok u =>
      simp only [bind, Except.bind, ha] at h
      obtain ⟨x, hx, hfx⟩ := ih h
      exact ⟨x, List.mem_cons_of_mem _ hx, hfx⟩

/-- The position found by `findIdx?` holds the element found by `find?`. -/
theorem findIdx?_of_find? {α : Type} (p : α → Bool) (l : List α) (a : α)
    (h : l.find? p = some a) : ∃ i, l.findIdx? p = some i ∧ l.get? i = some a := by
  induction l with
  | nil => simp at h
  | cons x xs ih =>
    simp only [List.find?_cons] at h
    cases hx : p x with
    | true =>
      rw [hx] at h
      cases h
      exact ⟨0, by simp [List.findIdx?_cons, hx], rfl⟩
    | false =>
      rw [hx] at h
      obtain ⟨i, hi, hget⟩ := ih h
      exact ⟨i + 1, by simp [List.findIdx?_cons, hx, hi], by simpa using hget⟩

theorem trimChars_idem (cs : List Char) : trimChars (trimChars cs) = trimChars cs := by
  have e : ∀ l, trimChars l
      = List.rdropWhile isJsWhiteSpace (l.dropWhile isJsWhiteSpace) := fun _ => rfl
  rw [e (trimChars cs), e cs]
  have h1 : (List.rdropWhile isJsWhiteSpace (cs.dropWhile isJsWhiteSpace)).dropWhile isJsWhiteSpace
      = List.rdropWhile isJsWhiteSpace (cs.dropWhile isJsWhiteSpace) := by
    rw [List.dropWhile_eq_self_iff]
    intro hl
    obtain ⟨t, ht⟩ := List.rdropWhile_prefix (p := isJsWhiteSpace) (l := cs.dropWhile isJsWhiteSpace)
    have hpos : 0 < (cs.dropWhile isJsWhiteSpace).length := by
      rw [← ht, List.length_append]; omega
    have hnot := List.dropWhile_get_zero_not (p := isJsWhiteSpace) cs hpos
    generalize List.rdropWhile isJsWhiteSpace (cs.dropWhile isJsWhiteSpace) = r at hl ht ⊢
    generalize cs.dropWhile isJsWhiteSpace = l at hpos hnot ht
    subst ht
    cases r with
    | nil => simp at hl
    | cons a r' => simpa using hnot
  rw [h1, List.rdropWhile_idempotent]

/-- Trimming twice (controller, then schema setter) is trimming once. -/
theorem jsTrim_idem (s : String) : jsTrim (jsTrim s) = jsTrim s := by
  simp [jsTrim, trimChars_idem]

theorem jsTrim_empty : jsTrim "" = "" := rfl

namespace ChallengeModel

theorem renumberFrom_withoutOrder (k : Nat) (l : List Section) :
    (renumberFrom k l).map withoutOrder = l.map withoutOrder := by
  induction l generalizing k with
  | nil => rfl
  | cons s rest ih => simp [renumberFrom, ih, withoutOrder]

theorem renumberFrom_order (k : Nat) (l : List Section) :
    (renumberFrom k l).map (·.order) = (List.range' (k + 1) l.length).map Int.ofNat := by
  induction l generalizing k with
  | nil => rfl
  | cons s rest ih => simp [renumberFrom, ih, List.range'_succ]

theorem renumberFrom_length (k : Nat) (l : List Section) :
    (renumberFrom k l).length = l.length := by
  induction l generalizing k with
  | nil => rfl
  | cons s rest ih => simp [renumberFrom, ih]

theorem validateSection_withoutOrder (s : Section) :
    validateSection (withoutOrder s) = validateSection s := rfl

theorem validateSection_renumberFrom (k : Nat) (l : List Section)
    (h : ∀ s ∈ l, validateSection s = .ok ()) :
    ∀ s ∈ renumberFrom k l, validateSection s = .ok () := by
  induction l generalizing k with
  | nil => simp [renumberFrom]
  | cons s rest ih =>
    intro t ht
    simp only [renumberFrom, List.mem_cons] at ht
    rcases ht with rfl | ht
    · exact h s (List.mem_cons_self _ _)
    · exact ih (k + 1) (fun u hu => h u (List.mem_cons_of_mem _ hu)) t ht

/-- The sections of a valid challenge are valid. -/
theorem sections_valid_of_valid (c : Challenge) (h : validateChallenge c = .ok ()) :
    ∀ s ∈ c.sections, validateSection s = .ok () := by
  unfold validateChallenge at h
  split_ifs at h
  exact (forM_ok_iff _ _).1 h

/-- Replacing the sections of a valid challenge by valid sections keeps it valid. -/
theorem valid_with_sections (c : Challenge) (h : validateChallenge c = .ok ())
    (l : List Section) (hl : ∀ s ∈ l, validateSection s = .ok ()) :
    validateChallenge { c with sections := l } = .ok () := by
  unfold validateChallenge at h ⊢
  split_ifs at h ⊢
  exact (forM_ok_iff _ _).2 hl

/-- After a write of `c'` over a document found by a filter that `c'` also passes, the
same query finds `c'`. -/
theorem find?_replaceDoc (p : Challenge → Bool) (db : Store) (c c' : Challenge)
    (h : db.find? p = some c) (hp : p c' = true) (hid : c'._id = c._id) :
    (replaceDoc db c').find? p = some c' := by
  unfold replaceDoc
  induction db with
  | nil => simp at h
  | cons d rest ih =>
    simp only [List.map_cons, List.find?_cons] at h ⊢
    by_cases hdc : (d._id == c'._id) = true
    · simp [hdc, hp]
    · cases hd : p d with
      | true =>
        rw [hd] at h
        simp only [Option.some.injEq] at h
        subst h
        simp [hid] at hdc
      | false =>
        rw [hd] at h
        have hdc' : (d._id == c'._id) = false := by simpa using hdc
        simp only [hdc', Bool.false_eq_true, if_false, hd]
        exact ih h

/-- After a write of `c'` over the document found by `{ _id, userId }`, the same query
finds `c'`. -/
theorem findOne_replaceDoc (db : Store) (challengeId userId : String) (c c' : Challenge)
    (h : findOne db (fun d => d._id == challengeId && d.userId == userId) = some c)
    (hid : c'._id = c._id) (hu : c'.userId = c.userId) :
    findOne (replaceDoc db c') (fun d => d._id == challengeId && d.userId == userId) = some c' := by
  have hc : (c._id == challengeId && c.userId == userId) = true :=
    @List.find?_some _ (fun d : Challenge => d._id == challengeId && d.userId == userId) c db h
  have hc' : (c'._id == challengeId && c'.userId == userId) = true := by rw [hid, hu]; exact hc
  exact find?_replaceDoc _ db c c' h hc' hid

/-- C1. When the caller's challenge has a section with the given id, deleting it succeeds;
the stored sections are the previous ones without the matched section (the one at the
first matching position `i`), in their previous relative sequence and equal to them in
every field other than `order`, and their `order` values are 1, 2, ..., N with N the
number of remaining sections. -/
theorem deleteSectionFromChallenge_renumbers
    (db : Store) (userId challengeId sectionId : String) (c : Challenge)
    (hfind : findOne db (fun d => d._id == challengeId && d.userId == userId) = some c)
    (hvalid : validateChallenge c = .ok ())
    (hmatch : ∃ s ∈ c.sections, s._id = some sectionId) :
    ∃ (i : Nat) (remaining : List Section),
      (∃ s, c.sections.get? i = some s ∧ s._id = some sectionId) ∧
      (∀ j s, j < i → c.sections.get? j = some s → s._id ≠ some sectionId) ∧
      (deleteSectionFromChallenge db userId challengeId sectionId).result = .ok () ∧
      (deleteSectionFromChallenge db userId challengeId sectionId).db
        = replaceDoc db { c with sections := remaining } ∧
      findOne (deleteSectionFromChallenge db userId challengeId sectionId).db
        (fun d => d._id == challengeId && d.userId == userId)
        = some { c with sections := remaining } ∧
      remaining.map withoutOrder = (c.sections.eraseIdx i).map withoutOrder ∧
      remaining.length = c.sections.length - 1 ∧
      remaining.map (·.order) = (List.range' 1 remaining.length).map Int.ofNat := by
  obtain ⟨s, hs, hsid⟩ := hmatch
  have hex : ∃ x, x ∈ c.sections ∧ (fun t : Section => t._id == some sectionId) x = true :=
    ⟨s, hs, by simp [hsid]⟩
  have hidx : findSectionIndex c.sections sectionId
      = some (c.sections.findIdx (fun t => t._id == some sectionId)) :=
    List.findIdx?_eq_some_of_exists hex
  set i := c.sections.findIdx (fun t => t._id == some sectionId) with hi
  obtain ⟨hlt, hp, hfirst⟩ := List.findIdx?_eq_some_iff_getElem.1 hidx
  have hval : validateChallenge { c with sections := renumberFrom 0 (c.sections.eraseIdx i) }
      = .ok () := by
    apply valid_with_sections c hvalid
    apply validateSection_renumberFrom
    intro t ht
    exact sections_valid_of_valid c hvalid t (List.mem_of_mem_eraseIdx ht)
  have hout : deleteSectionFromChallenge db userId challengeId sectionId
      = ⟨replaceDoc db { c with sections := renumberFrom 0 (c.sections.eraseIdx i) }, .ok ()⟩ := by
    simp only [deleteSectionFromChallenge, hfind, hidx, save, hval]
  refine ⟨i, renumberFrom 0 (c.sections.eraseIdx i), ⟨c.sections[i], ?_, ?_⟩, ?_, ?_, ?_, ?_, ?_, ?_, ?_⟩
  · simp [List.get?_eq_getElem?, hlt]
  · simpa using hp
  · intro j t hj hget
    have hjlt : j < c.sections.length := Nat.lt_trans hj hlt
    have ht : c.sections[j] = t := by
      rw [List.get?_eq_getElem?, List.getElem?_eq_getElem hjlt] at hget
      exact Option.some.inj hget
    have := hfirst j hj
    rw [ht] at this
    simpa using this
  · rw [hout]
  · rw [hout]
  · rw [hout]
    exact findOne_replaceDoc db challengeId userId c _ hfind rfl rfl
  · exact renumberFrom_withoutOrder 0 _
  · rw [renumberFrom_length, List.length_eraseIdx_of_lt hlt]
  · rw [renumberFrom_order, renumberFrom_length]

/-- Witness of C1 on `exStore`: the middle section of `exChallenge` is deleted. -/
theorem deleteSectionFromChallenge_renumbers_witness :
    ∃ (i : Nat) (remaining : List Section),
      (∃ s, exChallenge.sections.get? i = some s ∧ s._id = some "s2") ∧
      (∀ j s, j < i → exChallenge.sections.get? j = some s → s._id ≠ some "s2") ∧
      (deleteSectionFromChallenge exStore "u1" "64b7f0c2a1d3e4f5a6b7c8d9" "s2").result = .ok () ∧
      (deleteSectionFromChallenge exStore "u1" "64b7f0c2a1d3e4f5a6b7c8d9" "s2").db
        = replaceDoc exStore { exChallenge with sections := remaining } ∧
      findOne (deleteSectionFromChallenge exStore "u1" "64b7f0c2a1d3e4f5a6b7c8d9" "s2").db
        (fun d => d._id == "64b7f0c2a1d3e4f5a6b7c8d9" && d.userId == "u1")
        = some { exChallenge with sections := remaining } ∧
      remaining.map withoutOrder = (exChallenge.sections.eraseIdx i).map withoutOrder ∧
      remaining.length = exChallenge.sections.length - 1 ∧
      remaining.map (·.order) = (List.range' 1 remaining.length).map Int.ofNat :=
  deleteSectionFromChallenge_renumbers exStore "u1" "64b7f0c2a1d3e4f5a6b7c8d9" "s2" exChallenge
    (by decide) (by rfl) ⟨exSection "s2" "Geometry" 7, by decide, by decide⟩

theorem mem_of_findOne (db : Store) (p : Challenge → Bool) (c : Challenge)
    (h : findOne db p = some c) : c ∈ db :=
  List.mem_of_find?_eq_some h

theorem mem_replaceDoc (db : Store) (c x : Challenge) (h : x ∈ replaceDoc db c) :
    x ∈ db ∨ x = c := by
  unfold replaceDoc at h
  obtain ⟨d, hd, rfl⟩ := List.mem_map.1 h
  by_cases hdc : (d._id == c._id) = true
  · right; simp [hdc]
  · left; simpa [hdc] using hd

/-- Writing a gapless document into a store of gapless documents. -/
theorem gapless_replaceDoc (db : Store) (c : Challenge) (h : ∀ d ∈ db, OrdersGapless d)
    (hc : OrdersGapless c) : ∀ d ∈ replaceDoc db c, OrdersGapless d := by
  intro d hd
  rcases mem_replaceDoc db c d hd with hd | rfl
  · exact h d hd
  · exact hc

theorem gapless_save (db db' : Store) (c : Challenge) (h : ∀ d ∈ db, OrdersGapless d)
    (hc : OrdersGapless c) (hs : save db c = .ok db') : ∀ d ∈ db', OrdersGapless d := by
  unfold save at hs
  split at hs
  · cases hs
  · cases hs
    exact gapless_replaceDoc db c h hc

theorem createChallenge_gapless (db : Store) (userId newId : String) (body : CreateChallengeBody)
    (h : ∀ d ∈ db, OrdersGapless d) :
    ∀ d ∈ (createChallenge db userId newId body).db, OrdersGapless d := by
  unfold createChallenge
  repeat' first | exact h | split | dsimp only
  intro d hd
  rcases List.mem_append.1 hd with hd | hd
  · exact h d hd
  · simp only [List.mem_singleton] at hd
    subst hd
    simp [OrdersGapless]

theorem addSectionToChallenge_gapless (db : Store) (newId : String) (req : AddSectionReq)
    (h : ∀ d ∈ db, OrdersGapless d) :
    ∀ d ∈ (addSectionToChallenge db newId req).db, OrdersGapless d := by
  unfold addSectionToChallenge
  repeat' first | exact h | split | dsimp only
  rename_i challenge hfind _ db' hs
  refine gapless_save db db' _ h ?_ hs
  have hc : OrdersGapless challenge := h challenge (List.mem_of_find?_eq_some hfind)
  unfold OrdersGapless at hc ⊢
  simp [hc, List.range'_concat]
  omega

theorem modify_order (f : Section → Section) (hf : ∀ s, (f s).order = s.order)
    (l : List Section) (i : Nat) : (l.modify f i).map (·.order) = l.map (·.order) := by
  induction l generalizing i with
  | nil => cases i <;> rfl
  | cons s rest ih =>
    cases i with
    | zero => simp [List.modify, hf]
    | succ i => simpa [List.modify] using ih i

theorem updateSectionInChallenge_gapless (db : Store) (req : UpdateSectionReq)
    (h : ∀ d ∈ db, OrdersGapless d) :
    ∀ d ∈ (updateSectionInChallenge db req).db, OrdersGapless d := by
  unfold updateSectionInChallenge
  repeat' first | exact h | split | dsimp only
  all_goals
    rename_i hs
    refine gapless_save db _ _ h ?_ hs
    have hc := h _ (mem_of_findOne db _ _ (by assumption))
    unfold OrdersGapless at hc ⊢
    simp only [List.length_modify]
    refine Eq.trans (modify_order _ ?_ _ _) hc
    intro s
    rfl

theorem deleteSectionFromChallenge_gapless (db : Store) (userId challengeId sectionId : String)
    (h : ∀ d ∈ db, OrdersGapless d) :
    ∀ d ∈ (deleteSectionFromChallenge db userId challengeId sectionId).db, OrdersGapless d := by
  unfold deleteSectionFromChallenge
  repeat' first | exact h | split | dsimp only
  rename_i db' hs
  refine gapless_save db db' _ h ?_ hs
  unfold OrdersGapless
  simp only [renumberFrom_order, renumberFrom_length]

theorem applyOp_gapless (db : Store) (op : SectionOp) (h : ∀ d ∈ db, OrdersGapless d) :
    ∀ d ∈ applyOp db op, OrdersGapless d := by
  cases op with
  | create userId newId body => exact createChallenge_gapless db userId newId body h
  | add newId req => exact addSectionToChallenge_gapless db newId req h
  | update req => exact updateSectionInChallenge_gapless db req h
  | delete userId challengeId sectionId =>
    exact deleteSectionFromChallenge_gapless db userId challengeId sectionId h

theorem runOps_gapless (ops : List SectionOp) (db : Store) (h : ∀ d ∈ db, OrdersGapless d) :
    ∀ d ∈ runOps db ops, OrdersGapless d := by
  induction ops generalizing db with
  | nil => exact h
  | cons op rest ih => exact ih (applyOp db op) (applyOp_gapless db op h)

/-- The run of `exOps` ends with one challenge whose sections B and C are numbered 1, 2. -/
theorem runOps_exOps : runOps [] exOps = [exAfterOps] := by
  rfl

/-- C2. In every store reached from the empty store by a finite sequence of
`createChallenge`, `addSectionToChallenge`, `updateSectionInChallenge` and
`deleteSectionFromChallenge` requests (each challenge of such a store was produced by
`createChallenge`), the `order` values of every challenge's sections, read in array
position, are exactly 1, 2, ..., N with N the number of sections. -/
theorem section_orders_gapless_invariant (ops : List SectionOp) :
    ∀ c ∈ runOps [] ops,
      c.sections.map (·.order) = (List.range' 1 c.sections.length).map Int.ofNat :=
  runOps_gapless ops [] (by simp)

/-- Witness of C2 on the run of `exOps`. -/
theorem section_orders_gapless_invariant_witness :
    exAfterOps ∈ runOps [] exOps ∧
    exAfterOps.sections.map (·.order)
      = (List.range' 1 exAfterOps.sections.length).map Int.ofNat :=
  ⟨by rw [runOps_exOps]; exact List.mem_singleton.2 rfl,
   section_orders_gapless_invariant exOps exAfterOps
     (by rw [runOps_exOps]; exact List.mem_singleton.2 rfl)⟩

theorem ne_empty_of_objectIdIsValid (s : String) (h : objectIdIsValid s = true) : s ≠ "" := by
  rintro rfl
  simp [objectIdIsValid] at h

/-- C3. For a challenge of the caller with k sections and a name that is a string
non-blank after trimming, `addSectionToChallenge` succeeds, returns the appended section
(trimmed name, `order` k + 1, progress 0, no subjects), and stores the k existing
sections unchanged and in place followed by exactly that one section. -/
theorem addSectionToChallenge_appends
    (db : Store) (newId challengeId userId name : String) (c : Challenge)
    (hname : jsTrim name ≠ "")
    (hid : objectIdIsValid challengeId = true)
    (hfind : findOne db (fun d => d._id == challengeId && d.userId == userId) = some c)
    (hvalid : validateChallenge c = .ok ()) :
    ∃ added : Section,
      added = { _id := some newId, name := jsTrim name, description := none,
                order := (c.sections.length : Int) + 1, progress := 0, subjects := [] } ∧
      (addSectionToChallenge db newId ⟨challengeId, some userId, .str name⟩).result
        = .ok added ∧
      (addSectionToChallenge db newId ⟨challengeId, some userId, .str name⟩).db
        = replaceDoc db { c with sections := c.sections ++ [added] } ∧
      findOne (addSectionToChallenge db newId ⟨challengeId, some userId, .str name⟩).db
        (fun d => d._id == challengeId && d.userId == userId)
        = some { c with sections := c.sections ++ [added] } ∧
      ({ c with sections := c.sections ++ [added] } : Challenge).sections.length
        = c.sections.length + 1 ∧
      ({ c with sections := c.sections ++ [added] } : Challenge).sections.take c.sections.length
        = c.sections := by
  have hne : name ≠ "" := by
    rintro rfl
    exact hname jsTrim_empty
  have hcid : challengeId ≠ "" := ne_empty_of_objectIdIsValid _ hid
  have hadded : validateSection
      { _id := some newId, name := jsTrim name, description := none,
        order := (c.sections.length : Int) + 1, progress := 0, subjects := [] } = .ok () := by
    simp [validateSection, hname, pure, Except.pure]
  have hval : validateChallenge { c with sections := c.sections ++
      [{ _id := some newId, name := jsTrim name, description := none,
         order := (c.sections.length : Int) + 1, progress := 0, subjects := [] }] } = .ok () := by
    apply valid_with_sections c hvalid
    intro t ht
    rcases List.mem_append.1 ht with ht | ht
    · exact sections_valid_of_valid c hvalid t ht
    · simp only [List.mem_singleton] at ht
      subst ht
      exact hadded
  have hout : addSectionToChallenge db newId ⟨challengeId, some userId, .str name⟩
      = ⟨replaceDoc db { c with sections := c.sections ++
          [{ _id := some newId, name := jsTrim name, description := none,
             order := (c.sections.length : Int) + 1, progress := 0, subjects := [] }] },
         .ok { _id := some newId, name := jsTrim name, description := none,
               order := (c.sections.length : Int) + 1, progress := 0, subjects := [] }⟩ := by
    simp [addSectionToChallenge, JsVal.truthy, hne, hcid, hname, hid, hfind, save, hval]
  refine ⟨_, rfl, ?_, ?_, ?_, ?_, ?_⟩
  · rw [hout]
  · rw [hout]
  · rw [hout]
    exact findOne_replaceDoc db challengeId userId c _ hfind rfl rfl
  · simp
  · simp

/-- Witness of C3 on `exStore`: a fourth section is added to `exChallenge`. -/
theorem addSectionToChallenge_appends_witness :
    ∃ added : Section,
      added = { _id := some "s4", name := jsTrim "  Sets ", description := none,
                order := (exChallenge.sections.length : Int) + 1, progress := 0, subjects := [] } ∧
      (addSectionToChallenge exStore "s4"
          ⟨"64b7f0c2a1d3e4f5a6b7c8d9", some "u1", .str "  Sets "⟩).result = .ok added ∧
      (addSectionToChallenge exStore "s4"
          ⟨"64b7f0c2a1d3e4f5a6b7c8d9", some "u1", .str "  Sets "⟩).db
        = replaceDoc exStore { exChallenge with sections := exChallenge.sections ++ [added] } ∧
      findOne (addSectionToChallenge exStore "s4"
          ⟨"64b7f0c2a1d3e4f5a6b7c8d9", some "u1", .str "  Sets "⟩).db
        (fun d => d._id == "64b7f0c2a1d3e4f5a6b7c8d9" && d.userId == "u1")
        = some { exChallenge with sections := exChallenge.sections ++ [added] } ∧
      ({ exChallenge with sections := exChallenge.sections ++ [added] } : Challenge).sections.length
        = exChallenge.sections.length + 1 ∧
      ({ exChallenge with sections := exChallenge.sections ++ [added] } : Challenge).sections.take
          exChallenge.sections.length = exChallenge.sections :=
  addSectionToChallenge_appends exStore "s4" "64b7f0c2a1d3e4f5a6b7c8d9" "u1" "  Sets " exChallenge
    (by decide) (by decide) (by decide) (by rfl)

end ChallengeModel

namespace SpecialScheduleModel

/-- The tasks of a valid schedule are valid. -/
theorem tasks_valid_of_valid (s : SpecialSchedule) (h : validateSchedule s = .ok ()) :
    ∀ t ∈ s.tasks, validateTask t = .ok () := by
  unfold validateSchedule at h
  split_ifs at h
  exact (forM_ok_iff _ _).1 h

/-- Replacing the tasks of a valid schedule by valid tasks keeps it valid. -/
theorem valid_with_tasks (s : SpecialSchedule) (h : validateSchedule s = .ok ())
    (l : List SpecialTask) (hl : ∀ t ∈ l, validateTask t = .ok ()) :
    validateSchedule { s with tasks := l } = .ok () := by
  unfold validateSchedule at h ⊢
  split_ifs at h ⊢
  exact (forM_ok_iff _ _).2 hl

/-- Counterexample to C4 as stated: on the schedule 2025-01-01 .. 2025-01-10, the task
dated 2025-01-05 whose description is the non-empty string of one space is inside the
window, yet `addSpecialTask` does not succeed: the description is trimmed to the empty
string, `save` rejects it, and the schedule keeps no task. -/
theorem addSpecialTask_blank_description_rejected :
    (JsVal.str " ").truthy = true ∧
    exSchedule.startDate ≤ jan01 + 4 * dayMs ∧ jan01 + 4 * dayMs ≤ exSchedule.endDate ∧
    (addSpecialTask [exSchedule] "u1" "sch1" "t1" ⟨.valid (jan01 + 4 * dayMs), .str " "⟩).result
      = .error (.validation "Please add a task description") ∧
    (addSpecialTask [exSchedule] "u1" "sch1" "t1" ⟨.valid (jan01 + 4 * dayMs), .str " "⟩).db
      = [exSchedule] := by
  refine ⟨by decide, by decide, by decide, by rfl, by rfl⟩

/-- C4 (amended). For a schedule of the caller, a valid date `d` and a description that is
a non-empty string: when `d` is before `startDate` or after `endDate`, `addSpecialTask`
fails with the 400 range error and the store is unchanged; when the description is
moreover non-empty after trimming and at most 1000 long, `addSpecialTask` succeeds exactly
when `startDate <= d <= endDate` (bounds included), and then the stored tasks are the
previous ones followed by exactly one task with date `d` and the trimmed description. -/
theorem addSpecialTask_iff_in_window
    (db : Store) (userId id newId description : String) (d : Int) (s : SpecialSchedule)
    (hfind : findOne db id userId = some s)
    (hvalid : validateSchedule s = .ok ())
    (hdesc : description ≠ "") :
    (¬(s.startDate ≤ d ∧ d ≤ s.endDate) →
      (addSpecialTask db userId id newId ⟨.valid d, .str description⟩).result
        = .error (.response 400 "Task date must be within the special schedule range") ∧
      (addSpecialTask db userId id newId ⟨.valid d, .str description⟩).db = db) ∧
    (jsTrim description ≠ "" → jsLength (jsTrim description) ≤ 1000 →
      (((∃ s', (addSpecialTask db userId id newId ⟨.valid d, .str description⟩).result = .ok s')
          ↔ (s.startDate ≤ d ∧ d ≤ s.endDate)) ∧
       ((s.startDate ≤ d ∧ d ≤ s.endDate) →
          (addSpecialTask db userId id newId ⟨.valid d, .str description⟩).result
            = .ok { s with tasks := s.tasks ++ [⟨newId, d, jsTrim description⟩] } ∧
          (addSpecialTask db userId id newId ⟨.valid d, .str description⟩).db
            = replaceDoc db { s with tasks := s.tasks ++ [⟨newId, d, jsTrim description⟩] }))) := by
  have hout : ¬(s.startDate ≤ d ∧ d ≤ s.endDate) →
      addSpecialTask db userId id newId ⟨.valid d, .str description⟩
        = ⟨db, .error (.response 400 "Task date must be within the special schedule range")⟩ := by
    intro h
    have h' : d < s.startDate ∨ s.endDate < d := by omega
    simp [addSpecialTask, DateArg.truthy, JsVal.truthy, hdesc, hfind, h']
  have hin : jsTrim description ≠ "" → jsLength (jsTrim description) ≤ 1000 →
      (s.startDate ≤ d ∧ d ≤ s.endDate) →
      addSpecialTask db userId id newId ⟨.valid d, .str description⟩
        = ⟨replaceDoc db { s with tasks := s.tasks ++ [⟨newId, d, jsTrim description⟩] },
           .ok { s with tasks := s.tasks ++ [⟨newId, d, jsTrim description⟩] }⟩ := by
    intro h1 h2 h
    have h' : ¬(d < s.startDate ∨ s.endDate < d) := by omega
    have hval : validateSchedule { s with tasks := s.tasks ++ [⟨newId, d, jsTrim description⟩] }
        = .ok () := by
      apply valid_with_tasks s hvalid
      intro t ht
      rcases List.mem_append.1 ht with ht | ht
      · exact tasks_valid_of_valid s hvalid t ht
      · simp only [List.mem_singleton] at ht
        subst ht
        simp [validateTask, h1, h2]
    simp [addSpecialTask, DateArg.truthy, JsVal.truthy, hdesc, hfind, h', jsTrim_idem, save, hval]
  refine ⟨fun h => ?_, fun h1 h2 => ⟨⟨?_, ?_⟩, fun h => ?_⟩⟩
  · rw [hout h]; exact ⟨rfl, rfl⟩
  · rintro ⟨s', hs'⟩
    by_contra hcon
    rw [hout hcon] at hs'
    cases hs'
  · intro h
    rw [hin h1 h2 h]
    exact ⟨_, rfl⟩
  · rw [hin h1 h2 h]
    exact ⟨rfl, rfl⟩

/-- Witness of C4 (amended), Scenario A: on the schedule 2025-01-01 .. 2025-01-10 the task
dated 2025-01-05 is stored as the only task, and the task dated 2025-01-15 is refused. -/
theorem addSpecialTask_iff_in_window_witness :
    ((addSpecialTask [exSchedule] "u1" "sch1" "t1" ⟨.valid (jan01 + 4 * dayMs), .str "x"⟩).result
        = .ok { exSchedule with tasks := exSchedule.tasks ++ [⟨"t1", jan01 + 4 * dayMs, jsTrim "x"⟩] } ∧
      (addSpecialTask [exSchedule] "u1" "sch1" "t1" ⟨.valid (jan01 + 4 * dayMs), .str "x"⟩).db
        = replaceDoc [exSchedule]
            { exSchedule with tasks := exSchedule.tasks ++ [⟨"t1", jan01 + 4 * dayMs, jsTrim "x"⟩] }) ∧
    ((addSpecialTask [exSchedule] "u1" "sch1" "t1" ⟨.valid (jan01 + 14 * dayMs), .str "x"⟩).result
        = .error (.response 400 "Task date must be within the special schedule range") ∧
      (addSpecialTask [exSchedule] "u1" "sch1" "t1" ⟨.valid (jan01 + 14 * dayMs), .str "x"⟩).db
        = [exSchedule]) :=
  ⟨((addSpecialTask_iff_in_window [exSchedule] "u1" "sch1" "t1" "x" (jan01 + 4 * dayMs) exSchedule
      (by rfl) (by rfl) (by decide)).2 (by decide) (by decide)).2 (by decide),
   (addSpecialTask_iff_in_window [exSchedule] "u1" "sch1" "t1" "x" (jan01 + 14 * dayMs) exSchedule
      (by rfl) (by rfl) (by decide)).1 (by decide)⟩

/-- C5, evaluation at the failing input: create the schedule 2025-01-01 .. 2025-01-10, add
a task dated 2025-01-05, then move `startDate` to 2025-01-07. Every request succeeds and
the stored schedule keeps the task, now dated before `startDate`. -/
theorem updateSpecialSchedule_leaves_task_outside :
    exCreated = [exSchedule] ∧
    exWithTask = [{ exSchedule with tasks := [⟨"t1", jan01 + 4 * dayMs, "x"⟩] }] ∧
    (updateSpecialSchedule exWithTask "u1" "sch1" ⟨.valid (jan01 + 6 * dayMs), .falsy⟩).result
      = .ok (some exOutside) ∧
    (updateSpecialSchedule exWithTask "u1" "sch1" ⟨.valid (jan01 + 6 * dayMs), .falsy⟩).db
      = [exOutside] ∧
    (∃ t ∈ exOutside.tasks, t.date < exOutside.startDate) ∧ ¬ TasksInWindow exOutside := by
  refine ⟨by rfl, by rfl, by rfl, by rfl, ⟨⟨"t1", jan01 + 4 * dayMs, "x"⟩, by simp [exOutside], by decide⟩, ?_⟩
  intro h
  have := (h ⟨"t1", jan01 + 4 * dayMs, "x"⟩ (by simp [exOutside])).1
  revert this
  decide

end SpecialScheduleModel

namespace StudyStructureModel

/-- On a string, `nameTaken` is true exactly when a listed name equals it after
lower-casing. -/
theorem nameTaken_str (lc : String → String) (names : List String) (name : String) :
    nameTaken lc names (.str name) = .ok (names.any (fun existing => lc existing == lc name)) := by
  cases names <;> rfl

theorem validateMaterial_error (m : StudyMaterial) (e : Failure)
    (h : validateMaterial m = .error e) : ∃ msg, e = .validation msg := by
  unfold validateMaterial at h
  split_ifs at h <;> exact ⟨_, (Except.error.inj h).symm⟩

theorem validateSubject_error (s : Subject) (e : Failure)
    (h : validateSubject s = .error e) : ∃ msg, e = .validation msg := by
  unfold validateSubject at h
  split_ifs at h
  · exact ⟨_, (Except.error.inj h).symm⟩
  · exact ⟨_, (Except.error.inj h).symm⟩
  · obtain ⟨m, -, hm⟩ := forM_error _ _ _ h
    exact validateMaterial_error m e hm

theorem validateBranch_error (b : Branch) (e : Failure)
    (h : validateBranch b = .error e) : ∃ msg, e = .validation msg := by
  unfold validateBranch at h
  split_ifs at h
  · exact ⟨_, (Except.error.inj h).symm⟩
  · exact ⟨_, (Except.error.inj h).symm⟩
  · obtain ⟨x, -, hx⟩ := forM_error _ _ _ h
    exact validateSubject_error x e hx

theorem validateStructure_error (st : StudyStructure) (e : Failure)
    (h : validateStructure st = .error e) : ∃ msg, e = .validation msg := by
  unfold validateStructure at h
  split_ifs at h
  · exact ⟨_, (Except.error.inj h).symm⟩
  · obtain ⟨x, -, hx⟩ := forM_error _ _ _ h
    exact validateBranch_error x e hx

/-- A failure of `save` is a validation failure. -/
theorem save_error (db : Store) (now : Int) (st : StudyStructure) (e : Failure)
    (h : save db now st = .error e) : ∃ msg, e = .validation msg := by
  unfold save at h
  split at h
  · rename_i e' he'
    cases h
    exact validateStructure_error st _ he'
  · cases h

theorem castRequiredName_error (path message : String) (v : JsVal) (e : Failure)
    (h : castRequiredName path message v = .error e) :
    e = .validation message ∨ e = .castError path := by
  unfold castRequiredName at h
  split at h
  · left; exact (Except.error.inj h).symm
  · left; exact (Except.error.inj h).symm
  · split at h
    · cases h
    · right; exact (Except.error.inj h).symm

theorem castDescription_error (path : String) (v : JsVal) (e : Failure)
    (h : castDescription path v = .error e) : e = .castError path := by
  unfold castDescription at h
  split_ifs at h
  split at h
  · cases h
  · exact (Except.error.inj h).symm

/-- The method `addSubject` never ends with an explicit status. -/
theorem addSubject_method_no_response (this : StudyStructure) (db : Store) (now : Int)
    (branchId newSubjectId : String) (data : NamedBody) (status : Nat) (message : String) :
    (this.addSubject db now branchId newSubjectId data).result
      ≠ .error (.response status message) := by
  unfold StudyStructure.addSubject
  split
  · simp
  · split
    · rename_i e _ he
      rcases castRequiredName_error _ _ _ _ he with rfl | rfl <;> simp
    · rename_i e he _
      rw [castDescription_error _ _ _ he]
      simp
    · dsimp only
      split
      · rename_i e he
        obtain ⟨msg, rfl⟩ := save_error _ _ _ _ he
        simp
      · simp

/-- C6. When the structure of the user already has a branch whose name equals the
requested name ignoring letter case, `addBranch` fails with status 400 and the message
`A branch with this name already exists`, and the store (so the branches collection of
the structure) is unchanged. -/
theorem addBranch_duplicate_rejected
    (toLowerCase : String → String) (db : Store) (user newStructureId newBranchId name : String)
    (now : Int) (description : JsVal) (st : StudyStructure)
    (hfind : findOne db user = some st)
    (hdup : ∃ b ∈ st.branches, toLowerCase b.name = toLowerCase name) :
    (addBranch toLowerCase db user now newStructureId newBranchId ⟨.str name, description⟩).result
      = .error (.response 400 "A branch with this name already exists") ∧
    (addBranch toLowerCase db user now newStructureId newBranchId ⟨.str name, description⟩).db
      = db ∧
    findOne (addBranch toLowerCase db user now newStructureId newBranchId
      ⟨.str name, description⟩).db user = some st := by
  obtain ⟨b, hb, hbn⟩ := hdup
  have hany : (st.branches.map (·.name)).any (fun existing => toLowerCase existing == toLowerCase name)
      = true := by
    rw [List.any_eq_true]
    exact ⟨b.name, List.mem_map.2 ⟨b, hb, rfl⟩, by simp [hbn]⟩
  have hout : addBranch toLowerCase db user now newStructureId newBranchId ⟨.str name, description⟩
      = ⟨db, .error (.response 400 "A branch with this name already exists")⟩ := by
    simp only [addBranch, findOrCreate, hfind, nameTaken_str, hany]
  rw [hout]
  exact ⟨rfl, rfl, hfind⟩

/-- Witness of C6, Scenario B: after adding the branch Math, adding math fails. -/
theorem addBranch_duplicate_rejected_witness :
    exAfterMath = [exMathOnly] ∧
    (addBranch asciiLowerCase exAfterMath "u1" 11 "st2" "b2" ⟨.str "math", .undefined⟩).result
      = .error (.response 400 "A branch with this name already exists") ∧
    (addBranch asciiLowerCase exAfterMath "u1" 11 "st2" "b2" ⟨.str "math", .undefined⟩).db
      = exAfterMath ∧
    findOne (addBranch asciiLowerCase exAfterMath "u1" 11 "st2" "b2"
      ⟨.str "math", .undefined⟩).db "u1" = some exMathOnly :=
  ⟨by rfl,
   addBranch_duplicate_rejected asciiLowerCase exAfterMath "u1" "st2" "b2" "math" 11 .undefined
      exMathOnly (by rfl) ⟨_, List.mem_singleton.2 rfl, by decide⟩⟩

/-- The branches of a valid structure are valid. -/
theorem branches_valid_of_valid (st : StudyStructure) (h : validateStructure st = .ok ()) :
    ∀ b ∈ st.branches, validateBranch b = .ok () := by
  unfold validateStructure at h
  split_ifs at h
  exact (forM_ok_iff _ _).1 h

/-- Replacing the branches of a valid structure by valid branches keeps it valid. -/
theorem valid_with_branches (st : StudyStructure) (h : validateStructure st = .ok ())
    (l : List Branch) (hl : ∀ b ∈ l, validateBranch b = .ok ()) :
    validateStructure { st with branches := l } = .ok () := by
  unfold validateStructure at h ⊢
  split_ifs at h ⊢
  exact (forM_ok_iff _ _).2 hl

/-- An element of a modified list is an old element or the image of one. -/
theorem mem_modify {α : Type} (f : α → α) (l : List α) (i : Nat) (x : α)
    (h : x ∈ l.modify f i) : x ∈ l ∨ ∃ y ∈ l, x = f y := by
  induction l generalizing i with
  | nil => simp at h
  | cons a as ih =>
    cases i with
    | zero =>
      simp only [List.modify_zero_cons, List.mem_cons] at h
      rcases h with rfl | h
      · exact Or.inr ⟨a, List.mem_cons_self _ _, rfl⟩
      · exact Or.inl (List.mem_cons_of_mem _ h)
    | succ i =>
      simp only [List.modify_succ_cons, List.mem_cons] at h
      rcases h with rfl | h
      · exact Or.inl (List.mem_cons_self _ _)
      · rcases ih i h with h | ⟨y, hy, rfl⟩
        · exact Or.inl (List.mem_cons_of_mem _ h)
        · exact Or.inr ⟨y, List.mem_cons_of_mem _ hy, rfl⟩

/-- A valid branch stays valid when a valid subject is pushed. -/
theorem validateBranch_pushSubject (now : Int) (subject : Subject) (b : Branch)
    (hb : validateBranch b = .ok ()) (hs : validateSubject subject = .ok ()) :
    validateBranch (pushSubject now subject b) = .ok () := by
  unfold validateBranch pushSubject at *
  split_ifs at hb ⊢
  rw [forM_ok_iff] at hb ⊢
  intro x hx
  rcases List.mem_append.1 hx with hx | hx
  · exact hb x hx
  · simp only [List.mem_singleton] at hx
    subst hx
    exact hs

theorem any_name_eq_true (lc : String → String) (subjects : List Subject) (name : String) :
    (subjects.map (·.name)).any (fun existing => lc existing == lc name) = true
      ↔ ∃ s ∈ subjects, lc s.name = lc name := by
  simp [List.any_eq_true]

/-- Counterexample to C7 as stated: adding the subject named `" Optics"` (leading space)
to the branch Physics succeeds, and the subject appended to the branch is named `"Optics"`,
not `" Optics"`. -/
theorem addSubject_stores_trimmed_name :
    (addSubject asciiLowerCase [exStudy] "u1" 20 "b2" "sub9" ⟨.str " Optics", .undefined⟩).result
      = .ok { _id := "sub9", name := "Optics", description := some "", materials := [],
              isActive := true, updatedAt := 20 } ∧
    ("Optics" : String) ≠ " Optics" ∧
    ∀ st ∈ (addSubject asciiLowerCase [exStudy] "u1" 20 "b2" "sub9"
        ⟨.str " Optics", .undefined⟩).db,
      ∀ b ∈ st.branches, ∀ s ∈ b.subjects, s.name ≠ " Optics" := by
  refine ⟨by rfl, by decide, ?_⟩
  have hdb : (addSubject asciiLowerCase [exStudy] "u1" 20 "b2" "sub9"
      ⟨.str " Optics", .undefined⟩).db
      = [{ exStudy with
           updatedAt := 20
           branches := exStudy.branches.modify
             (pushSubject 20 { _id := "sub9", name := "Optics", description := some "",
                               materials := [], isActive := true, updatedAt := 20 }) 1 }] := by
    rfl
  rw [hdb]
  decide

/-- C7 (amended). Subject-name uniqueness is scoped per branch. For a structure of the
user, a branch `b` found by its id and a string name: `addSubject` fails with the
duplicate error exactly when some subject already in `b` has a name equal to it ignoring
case (subjects of other branches play no part), and then the store is unchanged; on
success the returned subject has the trimmed name, the fresh id and an empty materials
list, and it is appended to the subjects of `b` (the branch at the position found by the
id), every other branch being unchanged; and the insert succeeds when the structure is
valid, `b` has no such duplicate, the trimmed name is non-empty and at most 100 long and
the description can be cast. -/
theorem addSubject_duplicate_iff
    (toLowerCase : String → String) (db : Store) (user branchId newSubjectId name : String)
    (now : Int) (description : JsVal) (st : StudyStructure) (b : Branch)
    (hfind : findOne db user = some st)
    (hb : st.branches.find? (fun x => x._id == branchId) = some b) :
    (((addSubject toLowerCase db user now branchId newSubjectId ⟨.str name, description⟩).result
        = .error (.response 400 "A subject with this name already exists in this branch"))
      ↔ ∃ s ∈ b.subjects, toLowerCase s.name = toLowerCase name) ∧
    ((∃ s ∈ b.subjects, toLowerCase s.name = toLowerCase name) →
      (addSubject toLowerCase db user now branchId newSubjectId ⟨.str name, description⟩).db = db) ∧
    (∀ subject,
      (addSubject toLowerCase db user now branchId newSubjectId ⟨.str name, description⟩).result
        = .ok subject →
      subject._id = newSubjectId ∧ subject.name = jsTrim name ∧ subject.materials = [] ∧
      ∃ i, findBranchIndex st.branches branchId = some i ∧ st.branches.get? i = some b ∧
        (addSubject toLowerCase db user now branchId newSubjectId ⟨.str name, description⟩).db
          = replaceDoc db { st with
              branches := st.branches.modify (pushSubject now subject) i
              updatedAt := now }) ∧
    (validateStructure st = .ok () →
      (¬ ∃ s ∈ b.subjects, toLowerCase s.name = toLowerCase name) →
      jsTrim name ≠ "" → jsLength (jsTrim name) ≤ 100 →
      ∀ d, castDescription "branches.subjects.description" description = .ok d →
      (addSubject toLowerCase db user now branchId newSubjectId ⟨.str name, description⟩).result
        = .ok { _id := newSubjectId, name := jsTrim name, description := d, materials := [],
                isActive := true, updatedAt := now }) := by
  obtain ⟨i, hi, hget⟩ := findIdx?_of_find? _ _ _ hb
  have hi' : findBranchIndex st.branches branchId = some i := hi
  have hcast : castRequiredName "branches.subjects.name" "Please add a subject name" (.str name)
      = .ok (jsTrim name) := rfl
  cases hany : (b.subjects.map (·.name)).any (fun existing => toLowerCase existing == toLowerCase name) with
  | true =>
    have hex := (any_name_eq_true toLowerCase b.subjects name).1 hany
    have hout : addSubject toLowerCase db user now branchId newSubjectId ⟨.str name, description⟩
        = ⟨db, .error (.response 400 "A subject with this name already exists in this branch")⟩ := by
      simp only [addSubject, hfind, hb, nameTaken_str, hany]
    rw [hout]
    refine ⟨⟨fun _ => hex, fun _ => rfl⟩, fun _ => rfl, ?_, ?_⟩
    · intro subject h
      cases h
    · intro _ hno
      exact absurd hex hno
  | false =>
    have hno : ¬ ∃ s ∈ b.subjects, toLowerCase s.name = toLowerCase name := by
      intro h
      have := (any_name_eq_true toLowerCase b.subjects name).2 h
      rw [hany] at this
      cases this
    have hout : addSubject toLowerCase db user now branchId newSubjectId ⟨.str name, description⟩
        = st.addSubject db now branchId newSubjectId ⟨.str name, description⟩ := by
      simp only [addSubject, hfind, hb, nameTaken_str, hany]
    rw [hout]
    refine ⟨⟨fun h => ?_, fun h => absurd h hno⟩, fun h => absurd h hno, ?_, ?_⟩
    · exact absurd h (addSubject_method_no_response st db now branchId newSubjectId _ _ _)
    · intro subject h
      simp only [StudyStructure.addSubject, hi', hcast] at h ⊢
      cases hd : castDescription "branches.subjects.description" description with
      | error e => simp [hd] at h
      | ok d =>
        simp only [hd] at h ⊢
        cases hs : save db now { st with branches := st.branches.modify (pushSubject now { _id := newSubjectId, name := jsTrim name, description := d, materials := [], isActive := true, updatedAt := now }) i } with
        | error e => simp [hs] at h
        | ok db' =>
          simp only [hs] at h ⊢
          have hsub := Except.ok.inj h
          subst hsub
          refine ⟨rfl, rfl, rfl, i, rfl, hget, ?_⟩
          unfold save at hs
          split at hs
          · cases hs
          · exact (Except.ok.inj hs).symm
    · intro hvalid _ hne hlen d hd
      have hsubj : validateSubject { _id := newSubjectId, name := jsTrim name, description := d, materials := [], isActive := true, updatedAt := now } = .ok () := by
        simp [validateSubject, hne, hlen, pure, Except.pure]
      have hval : validateStructure { st with branches := st.branches.modify (pushSubject now { _id := newSubjectId, name := jsTrim name, description := d, materials := [], isActive := true, updatedAt := now }) i } = .ok () := by
        apply valid_with_branches st hvalid
        intro x hx
        rcases mem_modify _ _ _ _ hx with hx | ⟨y, hy, rfl⟩
        · exact branches_valid_of_valid st hvalid x hx
        · exact validateBranch_pushSubject now _ y (branches_valid_of_valid st hvalid y hy) hsubj
      simp only [StudyStructure.addSubject, hi', hcast, hd, save, hval]

/-- Witness of C7 (amended): the subject Algebra of the branch Math does not block adding
`" algebra"` to the branch Physics, where it is stored under the trimmed name. -/
theorem addSubject_duplicate_iff_witness :
    (addSubject asciiLowerCase [exStudy] "u1" 20 "b2" "sub9" ⟨.str " algebra", .undefined⟩).result
      = .ok { _id := "sub9", name := jsTrim " algebra", description := some "", materials := [],
              isActive := true, updatedAt := 20 } :=
  (addSubject_duplicate_iff asciiLowerCase [exStudy] "u1" "b2" "sub9" " algebra" 20 .undefined
    exStudy
    { _id := "b2", name := "Physics", description := some "", isActive := true,
      updatedAt := 3, subjects := [] }
    (by rfl) (by rfl)).2.2.2 (by rfl) (by simp) (by decide) (by decide) (some "") (by rfl)

/-- C8, evaluation at the failing input: in `exStudy` (branches Math and Physics) the
request to rename Physics to `math` succeeds, and the stored structure then has two
distinct branches whose names are equal ignoring case. -/
theorem updateBranch_accepts_duplicate_name :
    (updateBranch [exStudy] "u1" 30 "b2" ⟨.str "math", .undefined, none⟩).result
      = .ok (some { _id := "b2", name := "math", description := some "", isActive := true,
                    updatedAt := 30, subjects := [] }) ∧
    (updateBranch [exStudy] "u1" 30 "b2" ⟨.str "math", .undefined, none⟩).db = [exRenamed] ∧
    exRenamed.branches.map (·._id) = ["b1", "b2"] ∧
    exRenamed.branches.map (fun b => asciiLowerCase b.name) = ["math", "math"] := by
  refine ⟨by rfl, by rfl, by rfl, by decide⟩

/-- C9, evaluation at the failing input: after `addBranch` with the name `"Math"`, the
request `addBranch` with the name `"Math "` (trailing space) passes the duplicate test,
succeeds, and the two stored branch names are the same string. -/
theorem addBranch_trailing_space_duplicates :
    exAfterMath = [exMathOnly] ∧
    (addBranch asciiLowerCase exAfterMath "u1" 11 "st2" "b2" ⟨.str "Math ", .undefined⟩).result
      = .ok { _id := "b2", name := "Math", description := some "", subjects := [],
              isActive := true, updatedAt := 11 } ∧
    (addBranch asciiLowerCase exAfterMath "u1" 11 "st2" "b2" ⟨.str "Math ", .undefined⟩).db
      = [exTwiceMath] ∧
    exTwiceMath.branches.map (·.name) = ["Math", "Math"] ∧
    ¬ (exTwiceMath.branches.map (fun b => asciiLowerCase b.name)).Nodup := by
  refine ⟨by rfl, by rfl, by rfl, by rfl, by decide⟩

/-- With pairwise distinct ids, erasing the first branch that has the id is the same as
removing every branch that has it. -/
theorem eraseIdx_eq_filter (branchId : String) (l : List Branch) (i : Nat)
    (hnodup : (l.map (·._id)).Nodup)
    (hi : l.findIdx? (fun b => b._id == branchId) = some i) :
    l.eraseIdx i = l.filter (fun b => b._id != branchId) := by
  induction l generalizing i with
  | nil => simp at hi
  | cons a as ih =>
    simp only [List.map_cons, List.nodup_cons] at hnodup
    simp only [List.findIdx?_cons] at hi
    by_cases ha : (a._id == branchId) = true
    · simp only [ha, if_true, Option.some.injEq] at hi
      subst hi
      have haid : a._id = branchId := by simpa using ha
      have hrest : as.filter (fun b => b._id != branchId) = as := by
        rw [List.filter_eq_self]
        intro b hb
        have : b._id ≠ branchId := by
          intro hbid
          exact hnodup.1 (List.mem_map.2 ⟨b, hb, by rw [hbid, haid]⟩)
        simpa using this
      simp [List.filter_cons, haid, hrest]
    · have ha' : (a._id == branchId) = false := by simpa using ha
      simp only [ha', Bool.false_eq_true, if_false, List.findIdx?_start_succ,
        Option.map_eq_some'] at hi
      obtain ⟨j, hj, rfl⟩ := hi
      have := ih j hnodup.2 (by simpa using hj)
      have hne : a._id ≠ branchId := by simpa using ha
      simp [List.filter_cons, hne, this]

/-- After a write of `st'` over the structure that `findOne` gives for the user, the same
query gives `st'`. -/
theorem findOne_replaceDoc_of_findOne (db : Store) (user : String) (st st' : StudyStructure)
    (h : findOne db user = some st) (hid : st'._id = st._id) (hu : st'.user = user) :
    findOne (replaceDoc db st') user = some st' := by
  unfold findOne replaceDoc at *
  induction db with
  | nil => simp at h
  | cons d rest ih =>
    simp only [List.map_cons, List.find?_cons] at h ⊢
    by_cases hdc : (d._id == st'._id) = true
    · simp [hdc, hu]
    · have hdc' : (d._id == st'._id) = false := by simpa using hdc
      cases hd : (d.user == user) with
      | true =>
        rw [hd] at h
        simp only [Option.some.injEq] at h
        subst h
        simp [hid] at hdc
      | false =>
        rw [hd] at h
        simp only [hdc', Bool.false_eq_true, if_false, hd]
        exact ih h

/-- C10. For a valid structure of the user whose branch ids are pairwise distinct:
when a branch has the given id, `deleteBranch` succeeds and stores the structure whose
branches are the previous ones without that branch (which goes with all its subjects and
materials), every other branch unchanged and in its relative position; the structure that
`findOne` reads from the resulting store for the user is that one, so that no branch
read back has the id any more. When no branch has the id, `deleteBranch` fails with
`Branch not found`, the store is unchanged and `findOne` reads the structure as it was. -/
theorem deleteBranch_removes_exactly_that_branch
    (db : Store) (user branchId : String) (now : Int) (st : StudyStructure)
    (hfind : findOne db user = some st)
    (hvalid : validateStructure st = .ok ())
    (hnodup : (st.branches.map (·._id)).Nodup) :
    ((∃ b ∈ st.branches, b._id = branchId) →
      (deleteBranch db user now branchId).result = .ok () ∧
      (deleteBranch db user now branchId).db
        = replaceDoc db { st with
            branches := st.branches.filter (fun b => b._id != branchId)
            updatedAt := now } ∧
      findOne (deleteBranch db user now branchId).db user
        = some { st with
            branches := st.branches.filter (fun b => b._id != branchId)
            updatedAt := now } ∧
      (∀ stored, findOne (deleteBranch db user now branchId).db user = some stored →
        stored.branches.find? (fun b => b._id == branchId) = none ∧
        stored.branches.Sublist st.branches ∧
        (∀ b ∈ st.branches, b._id ≠ branchId → b ∈ stored.branches) ∧
        stored.branches.length + 1 = st.branches.length) ∧
      (st.branches.filter (fun b => b._id != branchId)).Sublist st.branches ∧
      (∀ b ∈ st.branches, b._id ≠ branchId →
        b ∈ st.branches.filter (fun b => b._id != branchId)) ∧
      (st.branches.filter (fun b => b._id != branchId)).find? (fun b => b._id == branchId)
        = none ∧
      (st.branches.filter (fun b => b._id != branchId)).length + 1 = st.branches.length) ∧
    ((¬ ∃ b ∈ st.branches, b._id = branchId) →
      (deleteBranch db user now branchId).result = .error (.thrown "Branch not found") ∧
      (deleteBranch db user now branchId).db = db ∧
      findOne (deleteBranch db user now branchId).db user = some st) := by
  constructor
  · rintro ⟨b, hb, hbid⟩
    have hex : ∃ x, x ∈ st.branches ∧ (fun t : Branch => t._id == branchId) x = true :=
      ⟨b, hb, by simp [hbid]⟩
    have hidx : findBranchIndex st.branches branchId
        = some (st.branches.findIdx (fun t => t._id == branchId)) :=
      List.findIdx?_eq_some_of_exists hex
    have hlt : st.branches.findIdx (fun t => t._id == branchId) < st.branches.length :=
      List.findIdx_lt_length_of_exists hex
    have herase := eraseIdx_eq_filter branchId st.branches _ hnodup hidx
    have hval : validateStructure
        { st with branches := st.branches.filter (fun b => b._id != branchId) } = .ok () := by
      apply valid_with_branches st hvalid
      intro x hx
      exact branches_valid_of_valid st hvalid x (List.mem_filter.1 hx).1
    have hout : deleteBranch db user now branchId
        = ⟨replaceDoc db { st with
            branches := st.branches.filter (fun b => b._id != branchId)
            updatedAt := now }, .ok ()⟩ := by
      simp only [deleteBranch, hfind, StudyStructure.deleteBranch, hidx, save, hval, herase]
    have huser : st.user = user := by
      have := List.find?_some hfind
      simpa using this
    have hread : findOne (replaceDoc db { st with
            branches := st.branches.filter (fun b => b._id != branchId)
            updatedAt := now }) user
        = some { st with
            branches := st.branches.filter (fun b => b._id != branchId)
            updatedAt := now } :=
      findOne_replaceDoc_of_findOne db user st _ hfind rfl huser
    have hmem : ∀ x ∈ st.branches, x._id ≠ branchId →
        x ∈ st.branches.filter (fun b => b._id != branchId) := by
      intro x hx hne
      exact List.mem_filter.2 ⟨hx, by simpa using hne⟩
    have hnone : (st.branches.filter (fun b => b._id != branchId)).find?
        (fun b => b._id == branchId) = none := by
      rw [List.find?_eq_none]
      intro x hx
      have := (List.mem_filter.1 hx).2
      simpa using this
    have hlen : (st.branches.filter (fun b => b._id != branchId)).length + 1
        = st.branches.length := by
      rw [← herase, List.length_eraseIdx_of_lt hlt]
      omega
    rw [hout]
    refine ⟨rfl, rfl, hread, ?_, List.filter_sublist _, hmem, hnone, hlen⟩
    intro stored hstored
    simp only at hstored
    rw [hread] at hstored
    simp only [Option.some.injEq] at hstored
    subst hstored
    exact ⟨hnone, List.filter_sublist _, hmem, hlen⟩
  · intro hno
    have hidx : findBranchIndex st.branches branchId = none := by
      unfold findBranchIndex
      rw [List.findIdx?_eq_none_iff]
      intro x hx
      have : x._id ≠ branchId := fun h => hno ⟨x, hx, h⟩
      simpa using this
    have hout : deleteBranch db user now branchId
        = ⟨db, .error (.thrown "Branch not found")⟩ := by
      simp only [deleteBranch, hfind, StudyStructure.deleteBranch, hidx]
    rw [hout]
    exact ⟨rfl, rfl, hfind⟩

/-- Witness of C10, Scenario B: deleting the branch Math of `exStudy` at time 40 leaves
the store that holds `exPhysicsOnly`, the branch Physics alone, so the id of Math (with its
subject Algebra) is no longer found in the structure read back; deleting the id `b9`, which
no branch has, fails and leaves the store as it was. -/
theorem deleteBranch_removes_exactly_that_branch_witness :
    ((deleteBranch [exStudy] "u1" 40 "b1").result = .ok () ∧
     (deleteBranch [exStudy] "u1" 40 "b1").db
       = replaceDoc [exStudy] { exStudy with
           branches := exStudy.branches.filter (fun b => b._id != "b1")
           updatedAt := 40 } ∧
     findOne (deleteBranch [exStudy] "u1" 40 "b1").db "u1"
       = some { exStudy with
           branches := exStudy.branches.filter (fun b => b._id != "b1")
           updatedAt := 40 } ∧
     (∀ stored, findOne (deleteBranch [exStudy] "u1" 40 "b1").db "u1" = some stored →
       stored.branches.find? (fun b => b._id == "b1") = none ∧
       stored.branches.Sublist exStudy.branches ∧
       (∀ b ∈ exStudy.branches, b._id ≠ "b1" → b ∈ stored.branches) ∧
       stored.branches.length + 1 = exStudy.branches.length) ∧
     (exStudy.branches.filter (fun b => b._id != "b1")).Sublist exStudy.branches ∧
     (∀ b ∈ exStudy.branches, b._id ≠ "b1" →
       b ∈ exStudy.branches.filter (fun b => b._id != "b1")) ∧
     (exStudy.branches.filter (fun b => b._id != "b1")).find? (fun b => b._id == "b1")
       = none ∧
     (exStudy.branches.filter (fun b => b._id != "b1")).length + 1
       = exStudy.branches.length) ∧
    (deleteBranch [exStudy] "u1" 40 "b1").db = [exPhysicsOnly] ∧
    findOne (deleteBranch [exStudy] "u1" 40 "b1").db "u1" = some exPhysicsOnly ∧
    exPhysicsOnly.branches.map (·._id) = ["b2"] ∧
    ((deleteBranch [exStudy] "u1" 40 "b9").result = .error (.thrown "Branch not found") ∧
     (deleteBranch [exStudy] "u1" 40 "b9").db = [exStudy] ∧
     findOne (deleteBranch [exStudy] "u1" 40 "b9").db "u1" = some exStudy) :=
  ⟨(deleteBranch_removes_exactly_that_branch [exStudy] "u1" "b1" 40 exStudy (by rfl) (by rfl)
      (by decide)).1 ⟨_, List.mem_cons_self _ _, rfl⟩,
   by rfl, by rfl, by rfl,
   (deleteBranch_removes_exactly_that_branch [exStudy] "u1" "b9" 40 exStudy (by rfl) (by rfl)
      (by decide)).2 (by decide)⟩

end StudyStructureModel

namespace ChallengeModel

/-! ### Subjects of a section: frame lemmas -/

theorem modifyFirst_length {α : Type} (p : α → Bool) (f : α → α) (l : List α) :
    (modifyFirst p f l).length = l.length := by
  induction l with
  | nil => rfl
  | cons a rest ih =>
    unfold modifyFirst
    split <;> simp [ih]

/-- A map that does not see the change made by `f` does not see `modifyFirst`. -/
theorem map_modifyFirst {α β : Type} (p : α → Bool) (f : α → α) (g : α → β)
    (hg : ∀ a, g (f a) = g a) (l : List α) : (modifyFirst p f l).map g = l.map g := by
  induction l with
  | nil => rfl
  | cons a rest ih =>
    unfold modifyFirst
    split <;> simp [ih, hg]

/-- When `find?` returns `a`, `modifyFirst` rewrites exactly that occurrence. -/
theorem modifyFirst_of_find? {α : Type} (p : α → Bool) (f : α → α) (l : List α) (a : α)
    (h : l.find? p = some a) :
    ∃ pre post, l = pre ++ a :: post ∧ (∀ x ∈ pre, p x = false) ∧
      modifyFirst p f l = pre ++ f a :: post := by
  induction l with
  | nil => simp at h
  | cons x rest ih =>
    simp only [List.find?_cons] at h
    cases hx : p x with
    | true =>
      rw [hx] at h
      cases h
      exact ⟨[], rest, rfl, by simp, by simp [modifyFirst, hx]⟩
    | false =>
      rw [hx] at h
      obtain ⟨pre, post, hl, hpre, hm⟩ := ih h
      refine ⟨x :: pre, post, by simp [hl], ?_, by simp [modifyFirst, hx, hm]⟩
      intro y hy
      rcases List.mem_cons.1 hy with rfl | hy
      · exact hx
      · exact hpre y hy

theorem mem_modifyFirst {α : Type} (p : α → Bool) (f : α → α) (l : List α) (x : α)
    (h : x ∈ modifyFirst p f l) : x ∈ l ∨ ∃ y ∈ l, x = f y := by
  induction l with
  | nil => simp [modifyFirst] at h
  | cons a rest ih =>
    unfold modifyFirst at h
    split at h
    · rcases List.mem_cons.1 h with rfl | h
      · exact Or.inr ⟨a, List.mem_cons_self _ _, rfl⟩
      · exact Or.inl (List.mem_cons_of_mem _ h)
    · rcases List.mem_cons.1 h with rfl | h
      · exact Or.inl (List.mem_cons_self _ _)
      · rcases ih h with h | ⟨y, hy, rfl⟩
        · exact Or.inl (List.mem_cons_of_mem _ h)
        · exact Or.inr ⟨y, List.mem_cons_of_mem _ hy, rfl⟩

/-- Looking a subject up by an id other than the pulled one is not affected by the pull. -/
theorem findSubject_filter_ne (subjects : List Subject) (subjectId other : String)
    (h : other ≠ subjectId) :
    findSubject (subjects.filter (fun s => s._id != subjectId)) other
      = findSubject subjects other := by
  unfold findSubject
  induction subjects with
  | nil => rfl
  | cons a rest ih =>
    by_cases ha : a._id = subjectId
    · have hne : (a._id == other) = false := by
        rw [beq_eq_false_iff_ne]
        intro h'
        exact h (h'.symm.trans ha)
      have hdrop : (a._id != subjectId) = false := by simp [ha]
      rw [List.filter_cons_of_neg (by simp [hdrop]), List.find?_cons, hne, ih]
    · have hkeep : (a._id != subjectId) = true := by simp [ha]
      rw [List.filter_cons_of_pos (p := fun s : Subject => s._id != subjectId) hkeep,
        List.find?_cons, List.find?_cons, ih]

/-- The subjects of a valid section are valid. -/
theorem subjects_valid_of_valid (s : Section) (h : validateSection s = .ok ()) :
    ∀ x ∈ s.subjects, validateSubject x = .ok () := by
  unfold validateSection at h
  split_ifs at h
  exact (forM_ok_iff _ _).1 h

/-- Replacing the subjects of a valid section by valid subjects keeps it valid. -/
theorem valid_with_subjects (s : Section) (h : validateSection s = .ok ())
    (l : List Subject) (hl : ∀ x ∈ l, validateSubject x = .ok ()) :
    validateSection { s with subjects := l } = .ok () := by
  unfold validateSection at h ⊢
  split_ifs at h ⊢
  exact (forM_ok_iff _ _).2 hl

/-- A change of one section that keeps valid sections valid keeps the challenge valid. -/
theorem valid_modifyFirst (c : Challenge) (h : validateChallenge c = .ok ())
    (p : Section → Bool) (f : Section → Section)
    (hf : ∀ s, validateSection s = .ok () → validateSection (f s) = .ok ()) :
    validateChallenge { c with sections := modifyFirst p f c.sections } = .ok () := by
  apply valid_with_sections c h
  intro x hx
  rcases mem_modifyFirst p f c.sections x hx with hx | ⟨y, hy, rfl⟩
  · exact sections_valid_of_valid c h x hx
  · exact hf y (sections_valid_of_valid c h y hy)

/-- C11. For a non-deleted challenge of the caller, a section found by its id and a
subject id that matches a subject of that section, `deleteSubjectFromSection` succeeds
and stores the challenge in which only that section changed: the sections before and
after it are the same, the section keeps every field but `subjects` (so its `order`),
and its subjects are the previous ones without those that carry the id, in their
relative sequence. Every subject with another id is still found under its id, with the
fields it had; the deleted id is no longer found; and when the subject ids of the section
are pairwise distinct exactly one subject is removed. -/
theorem deleteSubjectFromSection_removes_only_that_subject
    (db : Store) (userId challengeId sectionId subjectId : String) (c : Challenge)
    (sec : Section)
    (hfind : findOne db
      (fun d => d._id == challengeId && d.userId == userId && !d.isDeleted) = some c)
    (hvalid : validateChallenge c = .ok ())
    (hsec : findSection c.sections sectionId = some sec)
    (hsub : ∃ s ∈ sec.subjects, s._id = subjectId) :
    ∃ pre post,
      c.sections = pre ++ sec :: post ∧
      (∀ x ∈ pre, x._id ≠ some sectionId) ∧
      (deleteSubjectFromSection db userId challengeId sectionId subjectId).result = .ok () ∧
      (deleteSubjectFromSection db userId challengeId sectionId subjectId).db
        = replaceDoc db { c with sections := pre ++
            { sec with subjects := sec.subjects.filter (fun s => s._id != subjectId) } :: post } ∧
      findOne (deleteSubjectFromSection db userId challengeId sectionId subjectId).db
          (fun d => d._id == challengeId && d.userId == userId && !d.isDeleted)
        = some { c with sections := pre ++
            { sec with subjects := sec.subjects.filter (fun s => s._id != subjectId) } :: post } ∧
      (∀ s ∈ sec.subjects, s._id ≠ subjectId →
        s ∈ sec.subjects.filter (fun s => s._id != subjectId) ∧
        findSubject (sec.subjects.filter (fun s => s._id != subjectId)) s._id
          = findSubject sec.subjects s._id) ∧
      (sec.subjects.filter (fun s => s._id != subjectId)).Sublist sec.subjects ∧
      findSubject (sec.subjects.filter (fun s => s._id != subjectId)) subjectId = none ∧
      ((sec.subjects.map (·._id)).Nodup →
        (sec.subjects.filter (fun s => s._id != subjectId)).length + 1
          = sec.subjects.length) := by
  obtain ⟨pre, post, hl, hpre, hm⟩ := modifyFirst_of_find? (fun s : Section => s._id == some sectionId)
    (fun sec : Section => { sec with subjects := sec.subjects.filter (fun s => s._id != subjectId) })
    c.sections sec hsec
  obtain ⟨s0, hs0, hs0id⟩ := hsub
  have hfs : ∃ x, findSubject sec.subjects subjectId = some x := by
    unfold findSubject
    cases hf : sec.subjects.find? (fun s => s._id == subjectId) with
    | some x => exact ⟨x, rfl⟩
    | none =>
      rw [List.find?_eq_none] at hf
      exact absurd (by simp [hs0id]) (hf s0 hs0)
  obtain ⟨x, hx⟩ := hfs
  have hval : validateChallenge { c with sections := modifyFirst (fun s => s._id == some sectionId) (fun sec : Section => { sec with subjects := sec.subjects.filter (fun s => s._id != subjectId) }) c.sections } = .ok () := by
    apply valid_modifyFirst c hvalid
    intro s hs
    apply valid_with_subjects s hs
    intro y hy
    exact subjects_valid_of_valid s hs y (List.mem_filter.1 hy).1
  have hout : deleteSubjectFromSection db userId challengeId sectionId subjectId
      = ⟨replaceDoc db { c with sections := pre ++
          { sec with subjects := sec.subjects.filter (fun s => s._id != subjectId) } :: post },
         .ok ()⟩ := by
    rw [hm] at hval
    simp only [deleteSubjectFromSection, hfind, hsec, hx, save, hm, hval]
  have hq : (fun d : Challenge => d._id == challengeId && d.userId == userId && !d.isDeleted) c
      = true := @List.find?_some _ _ c db hfind
  refine ⟨pre, post, hl, ?_, ?_, ?_, ?_, ?_, List.filter_sublist _, ?_, ?_⟩
  · intro y hy
    have := hpre y hy
    simpa using this
  · rw [hout]
  · rw [hout]
  · rw [hout]
    exact find?_replaceDoc _ db c _ hfind hq rfl
  · intro s hs hne
    exact ⟨List.mem_filter.2 ⟨hs, by simpa using hne⟩,
      findSubject_filter_ne sec.subjects subjectId s._id hne⟩
  · unfold findSubject
    rw [List.find?_eq_none]
    intro y hy
    have := (List.mem_filter.1 hy).2
    simpa using this
  · intro hnodup
    have hcount : ∀ l : List Subject, (l.map (·._id)).Nodup → (∃ s ∈ l, s._id = subjectId) →
        (l.filter (fun s => s._id != subjectId)).length + 1 = l.length := by
      intro l
      induction l with
      | nil => intro _ h; obtain ⟨_, h, _⟩ := h; cases h
      | cons a rest ih =>
        intro hnd hex
        simp only [List.map_cons, List.nodup_cons] at hnd
        by_cases ha : a._id = subjectId
        · have hrest : rest.filter (fun s => s._id != subjectId) = rest := by
            rw [List.filter_eq_self]
            intro b hb
            have : b._id ≠ subjectId := by
              intro hbid
              exact hnd.1 (List.mem_map.2 ⟨b, hb, by rw [hbid, ha]⟩)
            simpa using this
          have hdrop : ¬ ((a._id != subjectId) = true) := by simp [ha]
          rw [List.filter_cons_of_neg (p := fun s : Subject => s._id != subjectId) hdrop, hrest]
          simp
        · have hkeep : (a._id != subjectId) = true := by simp [ha]
          rw [List.filter_cons_of_pos (p := fun s : Subject => s._id != subjectId) hkeep]
          obtain ⟨t, ht, htid⟩ := hex
          rcases List.mem_cons.1 ht with rfl | ht
          · exact absurd htid ha
          · have := ih hnd.2 ⟨t, ht, htid⟩
            simp only [List.length_cons]
            omega
    exact hcount sec.subjects hnodup ⟨s0, hs0, hs0id⟩

/-- Witness of C11, Scenario C: deleting the middle one of the three subjects of a section
leaves the other two, which are still found under their ids. -/
theorem deleteSubjectFromSection_removes_only_that_subject_witness :
    (deleteSubjectFromSection [exThree] "u1" "64b7f0c2a1d3e4f5a6b7c8d1" "s1" "j2").result
      = .ok () ∧
    (deleteSubjectFromSection [exThree] "u1" "64b7f0c2a1d3e4f5a6b7c8d1" "s1" "j2").db
      = [{ exThree with sections :=
            [{ _id := some "s1", name := "Core", description := none, order := 1, progress := 40,
               subjects := [exSubject "j1" "Sets", exSubject "j3" "Orders"] },
             exSection "s2" "Extra" 2] }] ∧
    findSubject [exSubject "j1" "Sets", exSubject "j3" "Orders"] "j1"
      = some (exSubject "j1" "Sets") ∧
    findSubject [exSubject "j1" "Sets", exSubject "j3" "Orders"] "j3"
      = some (exSubject "j3" "Orders") ∧
    ∃ pre post, exThree.sections = pre ++ exCore :: post ∧
      (deleteSubjectFromSection [exThree] "u1" "64b7f0c2a1d3e4f5a6b7c8d1" "s1" "j2").result
        = .ok () :=
  ⟨by rfl, by rfl, by rfl, by rfl,
   (deleteSubjectFromSection_removes_only_that_subject [exThree] "u1"
      "64b7f0c2a1d3e4f5a6b7c8d1" "s1" "j2" exThree
      exCore (by rfl) (by rfl) (by rfl) ⟨exSubject "j2" "Maps", by simp [exCore], rfl⟩).elim
      fun pre h => h.elim fun post h => ⟨pre, post, h.1, h.2.2.1⟩⟩

/-- A successful `patchSubject` keeps the id and gives each field the value of its
conditional assignment. -/
theorem patchSubject_ok (req : UpdateSubjectReq) (s s' : Subject)
    (h : patchSubject req s = .ok s') :
    s'._id = s._id ∧
    assignIfTruthy "sections.subjects.name" s.name req.name = .ok s'.name ∧
    assignIfDefined "sections.subjects.description" s.description req.description
      = .ok s'.description ∧
    assignDate "sections.subjects.startDate" s.startDate req.startDate = .ok s'.startDate ∧
    assignDate "sections.subjects.endDate" s.endDate req.endDate = .ok s'.endDate ∧
    assignIfTruthy "sections.subjects.status" s.status req.status = .ok s'.status ∧
    assignProgress s.progress req.progress = .ok s'.progress := by
  unfold patchSubject at h
  split at h
  · rename_i h1 h2 h3 h4 h5 h6
    cases h
    exact ⟨rfl, h1, h2, h3, h4, h5, h6⟩
  all_goals cases h

/-- A successful `save` writes the document, and the query that found the old document
finds the new one. -/
theorem save_ok_findOne (db db' : Store) (q : Challenge → Bool) (c x : Challenge)
    (hs : save db x = .ok db') (hfind : findOne db q = some c) (hq : q x = true)
    (hid : x._id = c._id) :
    db' = replaceDoc db x ∧ validateChallenge x = .ok () ∧ findOne db' q = some x := by
  unfold save at hs
  split at hs
  · cases hs
  · rename_i u hv
    cases hs
    exact ⟨rfl, hv, find?_replaceDoc q db c x hfind hq hid⟩

/-- C12. `updateSubjectInSection` is a partial update. For a non-deleted challenge of the
caller, a section found by its id and a subject found by its id, and for every request
body, whatever the outcome the same query afterwards finds the challenge in which only
that subject may have changed (the sections before and after the section, the other
fields of the section, and the subjects before and after the subject are the same), and
each of `name`, `description`, `startDate`, `endDate`, `status` and `progress` that is
absent from the body has its previous value. -/
theorem updateSubjectInSection_partial
    (db : Store) (req : UpdateSubjectReq) (c : Challenge) (sec : Section) (subject : Subject)
    (hfind : findOne db
      (fun d => d._id == req.challengeId && d.userId == req.userId && !d.isDeleted) = some c)
    (hsec : findSection c.sections req.sectionId = some sec)
    (hsub : findSubject sec.subjects req.subjectId = some subject) :
    ∃ pre post spre spost subject',
      c.sections = pre ++ sec :: post ∧
      sec.subjects = spre ++ subject :: spost ∧
      findOne (updateSubjectInSection db req).db
          (fun d => d._id == req.challengeId && d.userId == req.userId && !d.isDeleted)
        = some { c with sections :=
            pre ++ { sec with subjects := spre ++ subject' :: spost } :: post } ∧
      subject'._id = subject._id ∧
      (req.name = .undefined → subject'.name = subject.name) ∧
      (req.description = .undefined → subject'.description = subject.description) ∧
      (req.startDate = .undefined → subject'.startDate = subject.startDate) ∧
      (req.endDate = .undefined → subject'.endDate = subject.endDate) ∧
      (req.status = .undefined → subject'.status = subject.status) ∧
      (req.progress = .undefined → subject'.progress = subject.progress) := by
  obtain ⟨spre, spost, hsl, -, -⟩ := modifyFirst_of_find? (fun s : Subject => s._id == req.subjectId)
    id sec.subjects subject hsub
  have hq : (fun d : Challenge => d._id == req.challengeId && d.userId == req.userId && !d.isDeleted) c
      = true := @List.find?_some _ _ c db hfind
  have hsame : ∃ pre post, c.sections = pre ++ sec :: post ∧
      c = { c with sections := pre ++ { sec with subjects := spre ++ subject :: spost } :: post } := by
    obtain ⟨pre, post, hl, -, -⟩ := modifyFirst_of_find? (fun s : Section => s._id == some req.sectionId)
      id c.sections sec hsec
    refine ⟨pre, post, hl, ?_⟩
    rw [← hsl]
    cases c
    simp only at hl
    simp [hl]
  have hkeep : ∃ pre post spre spost subject',
      c.sections = pre ++ sec :: post ∧
      sec.subjects = spre ++ subject :: spost ∧
      findOne db (fun d => d._id == req.challengeId && d.userId == req.userId && !d.isDeleted)
        = some { c with sections :=
            pre ++ { sec with subjects := spre ++ subject' :: spost } :: post } ∧
      subject'._id = subject._id ∧
      (req.name = .undefined → subject'.name = subject.name) ∧
      (req.description = .undefined → subject'.description = subject.description) ∧
      (req.startDate = .undefined → subject'.startDate = subject.startDate) ∧
      (req.endDate = .undefined → subject'.endDate = subject.endDate) ∧
      (req.status = .undefined → subject'.status = subject.status) ∧
      (req.progress = .undefined → subject'.progress = subject.progress) := by
    obtain ⟨pre, post, hl, hc⟩ := hsame
    refine ⟨pre, post, spre, spost, subject, hl, hsl, ?_, rfl, fun _ => rfl, fun _ => rfl,
      fun _ => rfl, fun _ => rfl, fun _ => rfl, fun _ => rfl⟩
    rw [← hc]
    exact hfind
  cases hp : patchSubject req subject with
  | error e =>
    have hout : updateSubjectInSection db req
        = ⟨db, .error (.response 500 "Failed to update subject")⟩ := by
      simp only [updateSubjectInSection, hfind, hsec, hsub, hp]
    rw [hout]
    exact hkeep
  | ok patched =>
    obtain ⟨hid, hname, hdesc, hstart, hend, hstatus, hprog⟩ := patchSubject_ok req subject patched hp
    obtain ⟨spre', spost', hsl', -, hsm⟩ := modifyFirst_of_find?
      (fun s : Subject => s._id == req.subjectId) (fun _ => patched) sec.subjects subject hsub
    obtain ⟨pre, post, hl, -, hm⟩ := modifyFirst_of_find?
      (fun s : Section => s._id == some req.sectionId)
      (fun sec : Section => { sec with subjects := modifyFirst (fun s => s._id == req.subjectId) (fun _ => patched) sec.subjects })
      c.sections sec hsec
    cases hs : save db { c with sections := modifyFirst (fun s => s._id == some req.sectionId) (fun sec : Section => { sec with subjects := modifyFirst (fun s => s._id == req.subjectId) (fun _ => patched) sec.subjects }) c.sections } with
    | error e =>
      have hout : updateSubjectInSection db req
          = ⟨db, .error (.response 500 "Failed to update subject")⟩ := by
        simp only [updateSubjectInSection, hfind, hsec, hsub, hp, hs]
      rw [hout]
      exact hkeep
    | ok db' =>
      have hout : updateSubjectInSection db req = ⟨db', .ok patched⟩ := by
        simp only [updateSubjectInSection, hfind, hsec, hsub, hp, hs]
      rw [hout]
      obtain ⟨-, -, hf⟩ := save_ok_findOne db db' _ c _ hs hfind hq rfl
      rw [hm, hsm] at hf
      refine ⟨pre, post, spre', spost', patched, hl, hsl', hf, hid, ?_, ?_, ?_, ?_, ?_, ?_⟩
      · intro h
        rw [h] at hname
        exact (Except.ok.inj hname).symm
      · intro h
        rw [h] at hdesc
        exact (Except.ok.inj hdesc).symm
      · intro h
        rw [h] at hstart
        exact (Except.ok.inj hstart).symm
      · intro h
        rw [h] at hend
        exact (Except.ok.inj hend).symm
      · intro h
        rw [h] at hstatus
        exact (Except.ok.inj hstatus).symm
      · intro h
        rw [h] at hprog
        exact (Except.ok.inj hprog).symm

/-- Witness of C12: a request that sets only `name` and `progress` of the subject `j2`. -/
theorem updateSubjectInSection_partial_witness :
    ∃ pre post spre spost subject',
      exThree.sections = pre ++ exCore :: post ∧
      exCore.subjects = spre ++ exSubject "j2" "Maps" :: spost ∧
      findOne (updateSubjectInSection [exThree]
          { exEmptyPatch with name := .str "Functions", progress := .num 30 }).db
          (fun d => d._id == "64b7f0c2a1d3e4f5a6b7c8d1" && d.userId == "u1" && !d.isDeleted)
        = some { exThree with sections :=
            pre ++ { exCore with subjects := spre ++ subject' :: spost } :: post } ∧
      subject'._id = "j2" ∧
      ((JsVal.str "Functions") = .undefined → subject'.name = "Maps") ∧
      (JsVal.undefined = .undefined → subject'.description = some "") ∧
      (DateField.undefined = .undefined → subject'.startDate = none) ∧
      (DateField.undefined = .undefined → subject'.endDate = none) ∧
      (JsVal.undefined = .undefined → subject'.status = "not_started") ∧
      (NumArg.num 30 = .undefined → subject'.progress = some 0) :=
  updateSubjectInSection_partial [exThree]
    { exEmptyPatch with name := .str "Functions", progress := .num 30 } exThree exCore
    (exSubject "j2" "Maps") (by rfl) (by rfl) (by rfl)

theorem assignIfTruthy_truthy (path old v : String) (x : JsVal) (hx : x.truthy = true)
    (h : assignIfTruthy path old x = .ok v) : castString x = some v := by
  unfold assignIfTruthy at h
  rw [if_pos hx] at h
  split at h
  · rename_i s hs
    cases h
    exact hs
  · cases h

theorem assignIfTruthy_falsy (path old v : String) (x : JsVal) (hx : x.truthy = false)
    (h : assignIfTruthy path old x = .ok v) : v = old := by
  unfold assignIfTruthy at h
  rw [if_neg (by simp [hx])] at h
  exact (Except.ok.inj h).symm

theorem assignDate_falsy (path : String) (old v : Option Int) (x : DateField)
    (hx : x.truthy = false) (h : assignDate path old x = .ok v) : v = old := by
  cases x <;> first | exact (Except.ok.inj h).symm | cases hx

/-- Counterexample to C13 as stated: on a subject that starts on 2025-01-01, the request
whose body holds `startDate: null` succeeds, and the subject still holds that start date
(`null` is falsy, so the assignment is skipped). -/
theorem updateSubjectInSection_null_keeps_date :
    ({ exDatedPatch with startDate := .null } : UpdateSubjectReq).startDate = .null ∧
    (updateSubjectInSection [exDated] { exDatedPatch with startDate := .null }).result
      = .ok exDatedSubject ∧
    (updateSubjectInSection [exDated] { exDatedPatch with startDate := .null }).db
      = [exDated] ∧
    exDatedSubject.startDate = some 1735689600000 ∧
    exDatedSubject.startDate ≠ none := by
  refine ⟨by rfl, by rfl, by rfl, by rfl, by decide⟩

/-- C13 (amended). After a successful `updateSubjectInSection` the subject that is
returned and stored holds: the cast of `description` when the body has one (whatever its
value, the empty string and null included); null or the number for a `progress` of null
or a number; the cast of `name` and of `status` when they are truthy; the date of a
`startDate` and `endDate` that is truthy; and the previous value of a `name`, `status`,
`startDate` or `endDate` that is falsy (absent, but also the empty string, null, 0 or
false: a null does not clear a date). -/
theorem updateSubjectInSection_merges
    (db : Store) (req : UpdateSubjectReq) (c : Challenge) (sec : Section)
    (subject patched : Subject)
    (hfind : findOne db
      (fun d => d._id == req.challengeId && d.userId == req.userId && !d.isDeleted) = some c)
    (hsec : findSection c.sections req.sectionId = some sec)
    (hsub : findSubject sec.subjects req.subjectId = some subject)
    (hok : (updateSubjectInSection db req).result = .ok patched) :
    (∃ pre post spre spost,
      c.sections = pre ++ sec :: post ∧
      sec.subjects = spre ++ subject :: spost ∧
      findOne (updateSubjectInSection db req).db
          (fun d => d._id == req.challengeId && d.userId == req.userId && !d.isDeleted)
        = some { c with sections :=
            pre ++ { sec with subjects := spre ++ patched :: spost } :: post }) ∧
    (req.description ≠ .undefined →
      castOptString "sections.subjects.description" req.description = .ok patched.description) ∧
    (req.progress = .null → patched.progress = none) ∧
    (∀ n, req.progress = .num n → patched.progress = some n) ∧
    (req.name.truthy = true → castString req.name = some patched.name) ∧
    (req.status.truthy = true → castString req.status = some patched.status) ∧
    (∀ ms, req.startDate = .valid ms → patched.startDate = some ms) ∧
    (∀ ms, req.endDate = .valid ms → patched.endDate = some ms) ∧
    (req.name.truthy = false → patched.name = subject.name) ∧
    (req.status.truthy = false → patched.status = subject.status) ∧
    (req.startDate.truthy = false → patched.startDate = subject.startDate) ∧
    (req.endDate.truthy = false → patched.endDate = subject.endDate) := by
  have hq : (fun d : Challenge => d._id == req.challengeId && d.userId == req.userId && !d.isDeleted) c
      = true := @List.find?_some _ _ c db hfind
  cases hp : patchSubject req subject with
  | error e =>
    have hout : updateSubjectInSection db req
        = ⟨db, .error (.response 500 "Failed to update subject")⟩ := by
      simp only [updateSubjectInSection, hfind, hsec, hsub, hp]
    rw [hout] at hok
    cases hok
  | ok patched' =>
    cases hs : save db { c with sections := modifyFirst (fun s => s._id == some req.sectionId) (fun sec : Section => { sec with subjects := modifyFirst (fun s => s._id == req.subjectId) (fun _ => patched') sec.subjects }) c.sections } with
    | error e =>
      have hout : updateSubjectInSection db req
          = ⟨db, .error (.response 500 "Failed to update subject")⟩ := by
        simp only [updateSubjectInSection, hfind, hsec, hsub, hp, hs]
      rw [hout] at hok
      cases hok
    | ok db' =>
      have hout : updateSubjectInSection db req = ⟨db', .ok patched'⟩ := by
        simp only [updateSubjectInSection, hfind, hsec, hsub, hp, hs]
      rw [hout] at hok ⊢
      have hpp : patched' = patched := Except.ok.inj hok
      subst hpp
      obtain ⟨-, hname, hdesc, hstart, hend, hstatus, hprog⟩ :=
        patchSubject_ok req subject patched' hp
      obtain ⟨spre, spost, hsl, -, hsm⟩ := modifyFirst_of_find?
        (fun s : Subject => s._id == req.subjectId) (fun _ => patched') sec.subjects subject hsub
      obtain ⟨pre, post, hl, -, hm⟩ := modifyFirst_of_find?
        (fun s : Section => s._id == some req.sectionId)
        (fun sec : Section => { sec with subjects := modifyFirst (fun s => s._id == req.subjectId) (fun _ => patched') sec.subjects })
        c.sections sec hsec
      obtain ⟨-, -, hf⟩ := save_ok_findOne db db' _ c _ hs hfind hq rfl
      rw [hm, hsm] at hf
      refine ⟨⟨pre, post, spre, spost, hl, hsl, hf⟩, ?_, ?_, ?_, ?_, ?_, ?_, ?_, ?_, ?_, ?_, ?_⟩
      · intro h
        unfold assignIfDefined at hdesc
        rw [if_neg (by simpa using h)] at hdesc
        exact hdesc
      · intro h
        rw [h] at hprog
        exact (Except.ok.inj hprog).symm
      · intro n h
        rw [h] at hprog
        exact (Except.ok.inj hprog).symm
      · exact fun h => assignIfTruthy_truthy _ _ _ _ h hname
      · exact fun h => assignIfTruthy_truthy _ _ _ _ h hstatus
      · intro ms h
        rw [h] at hstart
        exact (Except.ok.inj hstart).symm
      · intro ms h
        rw [h] at hend
        exact (Except.ok.inj hend).symm
      · exact fun h => assignIfTruthy_falsy _ _ _ _ h hname
      · exact fun h => assignIfTruthy_falsy _ _ _ _ h hstatus
      · exact fun h => assignDate_falsy _ _ _ _ h hstart
      · exact fun h => assignDate_falsy _ _ _ _ h hend

/-- Witness of C13 (amended): a request that clears the description with the empty string,
moves the end date and sets progress to 55, while a null start date is left alone. -/
theorem updateSubjectInSection_merges_witness :
    castOptString "sections.subjects.description" (.str "") = .ok exMerged.description ∧
    exMerged.progress = some 55 ∧
    exMerged.endDate = some 1736467200000 ∧
    exMerged.startDate = exDatedSubject.startDate :=
  ⟨(updateSubjectInSection_merges [exDated]
      { exDatedPatch with description := .str "", startDate := .null,
                          endDate := .valid 1736467200000, progress := .num 55 }
      exDated { _id := some "s1", name := "Core", description := none, order := 1,
                progress := 0, subjects := [exDatedSubject] }
      exDatedSubject exMerged (by rfl) (by rfl) (by rfl) (by rfl)).2.1 (by decide),
   (updateSubjectInSection_merges [exDated]
      { exDatedPatch with description := .str "", startDate := .null,
                          endDate := .valid 1736467200000, progress := .num 55 }
      exDated { _id := some "s1", name := "Core", description := none, order := 1,
                progress := 0, subjects := [exDatedSubject] }
      exDatedSubject exMerged (by rfl) (by rfl) (by rfl) (by rfl)).2.2.2.1 55 rfl,
   (updateSubjectInSection_merges [exDated]
      { exDatedPatch with description := .str "", startDate := .null,
                          endDate := .valid 1736467200000, progress := .num 55 }
      exDated { _id := some "s1", name := "Core", description := none, order := 1,
                progress := 0, subjects := [exDatedSubject] }
      exDatedSubject exMerged (by rfl) (by rfl) (by rfl) (by rfl)).2.2.2.2.2.2.2.1
        1736467200000 rfl,
   (updateSubjectInSection_merges [exDated]
      { exDatedPatch with description := .str "", startDate := .null,
                          endDate := .valid 1736467200000, progress := .num 55 }
      exDated { _id := some "s1", name := "Core", description := none, order := 1,
                progress := 0, subjects := [exDatedSubject] }
      exDatedSubject exMerged (by rfl) (by rfl) (by rfl) (by rfl)).2.2.2.2.2.2.2.2.2.2.1 rfl⟩

/-- After a successful `save` of a challenge in which one section was changed by a
function that keeps `progress`, the query finds a challenge with the same list of
section progress values. -/
theorem keep_progress_of_save (db db' : Store) (q : Challenge → Bool) (c : Challenge)
    (p : Section → Bool) (f : Section → Section)
    (hfind : findOne db q = some c)
    (hq : ∀ l, q { c with sections := l } = q c)
    (hs : save db { c with sections := modifyFirst p f c.sections } = .ok db')
    (hf : ∀ s, (f s).progress = s.progress) :
    ∃ c', findOne db' q = some c' ∧
      c'.sections.map (·.progress) = c.sections.map (·.progress) := by
  have hqc : q c = true := List.find?_some hfind
  obtain ⟨-, -, hfound⟩ := save_ok_findOne db db' q c _ hs hfind ((hq _).trans hqc) rfl
  exact ⟨_, hfound, map_modifyFirst p f (·.progress) hf c.sections⟩

/-- C14. A section's progress is stored independently of its subjects: for a challenge
that the handler's query finds, and for every request (whatever its outcome),
`addSubjectToSection`, `addMultipleSubjectsToSection`, `updateSubjectInSection` and
`deleteSubjectFromSection` leave a store in which the same query finds a challenge whose
sections carry, position by position, the progress values they had. -/
theorem subject_handlers_keep_section_progress (db : Store) (c : Challenge) :
    (∀ (newId : String) (req : AddSubjectReq),
      findOne db (fun d => d._id == req.challengeId && d.userId == req.userId && !d.isDeleted)
        = some c →
      ∃ c', findOne (addSubjectToSection db newId req).db
          (fun d => d._id == req.challengeId && d.userId == req.userId && !d.isDeleted) = some c' ∧
        c'.sections.map (·.progress) = c.sections.map (·.progress)) ∧
    (∀ (newIds : Nat → String) (req : AddMultipleSubjectsReq),
      findOne db (fun d => d._id == req.challengeId && d.userId == req.userId && !d.isDeleted)
        = some c →
      ∃ c', findOne (addMultipleSubjectsToSection db newIds req).db
          (fun d => d._id == req.challengeId && d.userId == req.userId && !d.isDeleted) = some c' ∧
        c'.sections.map (·.progress) = c.sections.map (·.progress)) ∧
    (∀ (req : UpdateSubjectReq),
      findOne db (fun d => d._id == req.challengeId && d.userId == req.userId && !d.isDeleted)
        = some c →
      ∃ c', findOne (updateSubjectInSection db req).db
          (fun d => d._id == req.challengeId && d.userId == req.userId && !d.isDeleted) = some c' ∧
        c'.sections.map (·.progress) = c.sections.map (·.progress)) ∧
    (∀ (userId challengeId sectionId subjectId : String),
      findOne db (fun d => d._id == challengeId && d.userId == userId && !d.isDeleted)
        = some c →
      ∃ c', findOne (deleteSubjectFromSection db userId challengeId sectionId subjectId).db
          (fun d => d._id == challengeId && d.userId == userId && !d.isDeleted) = some c' ∧
        c'.sections.map (·.progress) = c.sections.map (·.progress)) := by
  refine ⟨?_, ?_, ?_, ?_⟩
  · intro newId req hfind
    unfold addSubjectToSection
    simp only [hfind]
    repeat' split
    all_goals first
      | exact ⟨c, hfind, rfl⟩
      | (rename_i hs
         exact keep_progress_of_save _ _ _ c _ _ hfind (fun _ => rfl) hs (fun _ => rfl))
  · intro newIds req hfind
    unfold addMultipleSubjectsToSection
    simp only [hfind]
    repeat' split
    all_goals first
      | exact ⟨c, hfind, rfl⟩
      | (rename_i hs
         exact keep_progress_of_save _ _ _ c _ _ hfind (fun _ => rfl) hs (fun _ => rfl))
  · intro req hfind
    unfold updateSubjectInSection
    simp only [hfind]
    repeat' split
    all_goals first
      | exact ⟨c, hfind, rfl⟩
      | (rename_i hs
         exact keep_progress_of_save _ _ _ c _ _ hfind (fun _ => rfl) hs (fun _ => rfl))
  · intro userId challengeId sectionId subjectId hfind
    unfold deleteSubjectFromSection
    simp only [hfind]
    repeat' split
    all_goals first
      | exact ⟨c, hfind, rfl⟩
      | (rename_i hs
         exact keep_progress_of_save _ _ _ c _ _ hfind (fun _ => rfl) hs (fun _ => rfl))

/-- Witness of C14: completing the subject `j2` of `exThree` leaves the section progress
values 40 and 0 as they were. -/
theorem subject_handlers_keep_section_progress_witness :
    ∃ c', findOne (updateSubjectInSection [exThree]
          { exEmptyPatch with status := .str "completed", progress := .num 100 }).db
          (fun d => d._id == "64b7f0c2a1d3e4f5a6b7c8d1" && d.userId == "u1" && !d.isDeleted)
        = some c' ∧
      c'.sections.map (·.progress) = exThree.sections.map (·.progress) :=
  (subject_handlers_keep_section_progress [exThree] exThree).2.2.1
    { exEmptyPatch with status := .str "completed", progress := .num 100 } (by rfl)

/-- The progress of a valid subject is null or between 0 and 100. -/
theorem progress_of_valid (s : Subject) (h : validateSubject s = .ok ()) :
    s.progress = none ∨ ∃ p, s.progress = some p ∧ 0 ≤ p ∧ p ≤ 100 := by
  unfold validateSubject at h
  split_ifs at h
  split at h
  · left; assumption
  · rename_i p hp
    split_ifs at h with h1 h2
    exact Or.inr ⟨p, hp, by omega, by omega⟩

theorem progressInRange_of_valid (c : Challenge) (h : validateChallenge c = .ok ()) :
    ProgressInRange c := by
  intro sec hsec s hs
  exact progress_of_valid s
    (subjects_valid_of_valid sec (sections_valid_of_valid c h sec hsec) s hs)

/-- A document of the store after `save` was there before or is the valid document that
was saved. -/
theorem mem_of_save (db db' : Store) (x : Challenge) (hs : save db x = .ok db') :
    ∀ d ∈ db', d ∈ db ∨ validateChallenge d = .ok () := by
  unfold save at hs
  split at hs
  · cases hs
  · rename_i u hv
    cases hs
    intro d hd
    rcases mem_replaceDoc db x d hd with hd | rfl
    · exact Or.inl hd
    · exact Or.inr hv

theorem valid_of_save (db db' : Store) (x : Challenge) (hs : save db x = .ok db') :
    validateChallenge x = .ok () := by
  unfold save at hs
  split at hs
  · cases hs
  · rename_i u hv
    exact hv

theorem mem_of_create (db : Store) (x : Challenge) (u : Unit)
    (hv : validateChallenge x = .ok u) :
    ∀ d ∈ db ++ [x], d ∈ db ∨ validateChallenge d = .ok () := by
  intro d hd
  rcases List.mem_append.1 hd with hd | hd
  · exact Or.inl hd
  · rw [List.mem_singleton] at hd
    subst hd
    exact Or.inr hv

/-- Every document of the store after a request was there before or passed validation. -/
theorem handle_mem (db : Store) (req : Request) :
    ∀ d ∈ (handle db req).db, d ∈ db ∨ validateChallenge d = .ok () := by
  cases req <;> simp only [handle, relabel]
  case createChallenge userId newId body =>
    unfold createChallenge
    repeat' first | exact fun d hd => Or.inl hd | split | dsimp only
    all_goals first
      | exact fun d hd => Or.inl hd
      | (rename_i hv; exact mem_of_create _ _ _ hv)
  case getChallenges userId => exact fun d hd => Or.inl hd
  case getChallenge userId id =>
    unfold getChallenge
    split <;> exact fun d hd => Or.inl hd
  case updateChallenge req =>
    unfold updateChallenge
    repeat' first | exact fun d hd => Or.inl hd | split | dsimp only
    all_goals first
      | exact fun d hd => Or.inl hd
      | (rename_i hs; exact mem_of_save _ _ _ hs)
  case deleteChallenge userId id =>
    unfold deleteChallenge
    repeat' first | exact fun d hd => Or.inl hd | split | dsimp only
    all_goals first
      | exact fun d hd => Or.inl hd
      | (rename_i hs; exact mem_of_save _ _ _ hs)
  case addSection newId req =>
    unfold addSectionToChallenge
    repeat' first | exact fun d hd => Or.inl hd | split | dsimp only
    all_goals first
      | exact fun d hd => Or.inl hd
      | (rename_i hs; exact mem_of_save _ _ _ hs)
  case updateSection req =>
    unfold updateSectionInChallenge
    repeat' first | exact fun d hd => Or.inl hd | split | dsimp only
    all_goals first
      | exact fun d hd => Or.inl hd
      | (rename_i hs; exact mem_of_save _ _ _ hs)
  case deleteSection userId challengeId sectionId =>
    unfold deleteSectionFromChallenge
    repeat' first | exact fun d hd => Or.inl hd | split | dsimp only
    all_goals first
      | exact fun d hd => Or.inl hd
      | (rename_i hs; exact mem_of_save _ _ _ hs)
  case addSubject newId req =>
    unfold addSubjectToSection
    repeat' first | exact fun d hd => Or.inl hd | split | dsimp only
    all_goals first
      | exact fun d hd => Or.inl hd
      | (rename_i hs; exact mem_of_save _ _ _ hs)
  case addMultipleSubjects newIds req =>
    unfold addMultipleSubjectsToSection
    repeat' first | exact fun d hd => Or.inl hd | split | dsimp only
    all_goals first
      | exact fun d hd => Or.inl hd
      | (rename_i hs; exact mem_of_save _ _ _ hs)
  case updateSubject req =>
    unfold updateSubjectInSection
    repeat' first | exact fun d hd => Or.inl hd | split | dsimp only
    all_goals first
      | exact fun d hd => Or.inl hd
      | (rename_i hs; exact mem_of_save _ _ _ hs)
  case deleteSubject userId challengeId sectionId subjectId =>
    unfold deleteSubjectFromSection
    repeat' first | exact fun d hd => Or.inl hd | split | dsimp only
    all_goals first
      | exact fun d hd => Or.inl hd
      | (rename_i hs; exact mem_of_save _ _ _ hs)

theorem serveAll_mem (reqs : List Request) (db : Store) :
    ∀ d ∈ serveAll db reqs, d ∈ db ∨ validateChallenge d = .ok () := by
  induction reqs generalizing db with
  | nil => exact fun d hd => Or.inl hd
  | cons req rest ih =>
    intro d hd
    rcases ih (handle db req).db d hd with h | h
    · exact handle_mem db req d h
    · exact Or.inr h

/-- The run of `exSubjectOps` ends with the single challenge `exAfterSubjectOps`. -/
theorem serveAll_exSubjectOps : serveAll [] exSubjectOps = [exAfterSubjectOps] := by
  rfl

/-- Counterexample to C15 as stated: create a challenge, add a section and two subjects,
then send `updateSubjectInSection` with `progress: null` for the second subject. Every
request succeeds, and the stored subject `j2` has a null progress, which is not a number
between 0 and 100. -/
theorem updateSubjectInSection_null_progress :
    serveAll [] exSubjectOps = [exAfterSubjectOps] ∧
    (∃ sec ∈ exAfterSubjectOps.sections, ∃ s ∈ sec.subjects,
      s._id = "j2" ∧ s.progress = none ∧ ¬ ∃ p, s.progress = some p ∧ 0 ≤ p ∧ p ≤ 100) := by
  refine ⟨by rfl, ?_⟩
  refine ⟨_, List.mem_singleton.2 rfl, { exSubject "j2" "Maps" with progress := none },
    by simp, rfl, rfl, ?_⟩
  rintro ⟨p, hp, -⟩
  cases hp

/-- C15 (amended). In every store reached from the empty store by a finite sequence of
requests to the challenge handlers (among them `addSubjectToSection`,
`addMultipleSubjectsToSection` and `updateSubjectInSection`), the progress of every
subject is null or a number p with 0 <= p <= 100; and an `updateSubjectInSection`
request whose progress is a number below 0 or above 100 fails and leaves the store, so the
subject and its previous progress, unchanged. -/
theorem subject_progress_in_range :
    (∀ (reqs : List Request), ∀ c ∈ serveAll [] reqs, ∀ sec ∈ c.sections, ∀ s ∈ sec.subjects,
      s.progress = none ∨ ∃ p, s.progress = some p ∧ 0 ≤ p ∧ p ≤ 100) ∧
    (∀ (db : Store) (req : UpdateSubjectReq) (n : Int),
      req.progress = .num n → (n < 0 ∨ 100 < n) →
      (∃ e, (updateSubjectInSection db req).result = .error e) ∧
      (updateSubjectInSection db req).db = db) := by
  constructor
  · intro reqs c hc
    rcases serveAll_mem reqs [] c hc with h | h
    · cases h
    · exact progressInRange_of_valid c h
  · intro db req n hn hrange
    unfold updateSubjectInSection
    repeat' first | exact ⟨⟨_, rfl⟩, rfl⟩ | split | dsimp only
    rename_i x1 challenge hfind x2 sec hsec x3 subject hsub x4 patched hp x5 db' hs
    exfalso
    obtain ⟨-, -, -, -, -, -, hprog⟩ := patchSubject_ok req subject patched hp
    rw [hn] at hprog
    have hpn : patched.progress = some n := (Except.ok.inj hprog).symm
    have hv := valid_of_save _ _ _ hs
    obtain ⟨spre, spost, -, -, hsm⟩ := modifyFirst_of_find?
      (fun s : Subject => s._id == req.subjectId) (fun _ => patched) sec.subjects subject hsub
    obtain ⟨pre, post, -, -, hm⟩ := modifyFirst_of_find?
      (fun s : Section => s._id == some req.sectionId)
      (fun sec : Section => { sec with subjects := modifyFirst (fun s => s._id == req.subjectId) (fun _ => patched) sec.subjects })
      challenge.sections sec hsec
    rw [hm, hsm] at hv
    have hsv := sections_valid_of_valid _ hv { sec with subjects := spre ++ patched :: spost }
      (by simp)
    have hpv := subjects_valid_of_valid _ hsv patched (by simp)
    rcases progress_of_valid patched hpv with h | ⟨p, h, h0, h100⟩
    · rw [hpn] at h
      cases h
    · rw [hpn] at h
      cases h
      omega

/-- Witness of C15 (amended): in the run of `exSubjectOps` every progress is null or in
range, and a request for progress 150 is refused. -/
theorem subject_progress_in_range_witness :
    (∀ sec ∈ exAfterSubjectOps.sections, ∀ s ∈ sec.subjects,
      s.progress = none ∨ ∃ p, s.progress = some p ∧ 0 ≤ p ∧ p ≤ 100) ∧
    ((∃ e, (updateSubjectInSection [exThree] { exEmptyPatch with progress := .num 150 }).result
        = .error e) ∧
      (updateSubjectInSection [exThree] { exEmptyPatch with progress := .num 150 }).db
        = [exThree]) :=
  ⟨subject_progress_in_range.1 exSubjectOps exAfterSubjectOps
      (by rw [serveAll_exSubjectOps]; exact List.mem_singleton.2 rfl),
   subject_progress_in_range.2 [exThree] { exEmptyPatch with progress := .num 150 } 150 rfl
      (Or.inr (by decide))⟩

/-! ### Owner scoping -/

/-- Two documents of a store with pairwise distinct ids that share an id are equal. -/
theorem eq_of_id_eq (db : Store) (hnodup : (db.map (·._id)).Nodup) (c d : Challenge)
    (hc : c ∈ db) (hd : d ∈ db) (h : d._id = c._id) : d = c :=
  List.inj_on_of_nodup_map hnodup hd hc h

/-- Overwriting documents that all belong to `U` by a document of `U` does not change the
documents of the other users. -/
theorem filter_replaceDoc (U : String) (x : Challenge) (hx : x.userId = U) (l : List Challenge)
    (hl : ∀ d ∈ l, d._id = x._id → d.userId = U) :
    (replaceDoc l x).filter (fun c => c.userId != U) = l.filter (fun c => c.userId != U) := by
  unfold replaceDoc
  induction l with
  | nil => rfl
  | cons a rest ih =>
    have ih' := ih (fun d hd => hl d (List.mem_cons_of_mem _ hd))
    by_cases ha : a._id = x._id
    · have hau : a.userId = U := hl a (List.mem_cons_self _ _) ha
      simp only [List.map_cons, ha, beq_self_eq_true, if_true]
      rw [List.filter_cons_of_neg (by simp [hx]), List.filter_cons_of_neg (by simp [hau])]
      exact ih'
    · have hne : (a._id == x._id) = false := by simpa using ha
      simp only [List.map_cons, hne, Bool.false_eq_true, if_false, List.filter_cons]
      rw [ih']

/-- After a successful `save` of a new version of a document that the caller's query
found, the documents of the other users are the same. -/
theorem others_after_save (db db' : Store) (q : Challenge → Bool) (c x : Challenge)
    (U : String) (hnodup : (db.map (·._id)).Nodup)
    (hfind : findOne db q = some c) (hs : save db x = .ok db')
    (hq : ∀ d, q d = true → d.userId = U) (hid : x._id = c._id) (hu : x.userId = c.userId) :
    db'.filter (fun c => c.userId != U) = db.filter (fun c => c.userId != U) := by
  have hcU : c.userId = U := hq c (List.find?_some hfind)
  have hcmem : c ∈ db := mem_of_findOne db q c hfind
  unfold save at hs
  split at hs
  · cases hs
  · cases hs
    apply filter_replaceDoc U x (hu.trans hcU)
    intro d hd hdx
    rw [eq_of_id_eq db hnodup c d hcmem hd (hdx.trans hid)]
    exact hcU

/-- With pairwise distinct ids, a query on `_id` and `userId` finds nothing when the id
is the id of a document of another user. -/
theorem findOne_foreign (db : Store) (hnodup : (db.map (·._id)).Nodup) (q : Challenge → Bool)
    (id U : String) (hq : ∀ d, q d = true → d._id = id ∧ d.userId = U)
    (hforeign : ∃ c ∈ db, c._id = id ∧ c.userId ≠ U) : findOne db q = none := by
  obtain ⟨c, hc, hcid, hcu⟩ := hforeign
  unfold findOne
  rw [List.find?_eq_none]
  intro d hd hqd
  obtain ⟨hdid, hdu⟩ := hq d hqd
  rw [eq_of_id_eq db hnodup c d hc hd (hdid.trans hcid.symm)] at hdu
  exact hcu hdu

/-- A request of `U` leaves the documents of the other users as they were. -/
theorem handle_others (db : Store) (hnodup : (db.map (·._id)).Nodup) (U : String)
    (req : Request) (hcaller : req.caller = some U) :
    (handle db req).db.filter (fun c => c.userId != U)
      = db.filter (fun c => c.userId != U) := by
  cases req <;> simp only [handle, relabel, Request.caller, Option.some.injEq] at hcaller ⊢
  case createChallenge userId newId body =>
    subst hcaller
    unfold createChallenge
    repeat' first | rfl | split | dsimp only
    rw [List.filter_append]
    simp
  case getChallenges userId => rfl
  case getChallenge userId id =>
    unfold getChallenge
    split <;> rfl
  case updateChallenge req =>
    subst hcaller
    unfold updateChallenge
    repeat' first | rfl | split | dsimp only
    all_goals
      apply others_after_save db _ _ _ _ req.userId hnodup
      case hs => assumption
      case hfind => assumption
      case hq =>
        intro d hd
        simp only [Bool.and_eq_true, beq_iff_eq] at hd
        exact hd.1.2
      case hid => rfl
      case hu => rfl
  case deleteChallenge userId id =>
    subst hcaller
    unfold deleteChallenge
    repeat' first | rfl | split | dsimp only
    all_goals
      apply others_after_save db _ _ _ _ userId hnodup
      case hs => assumption
      case hfind => assumption
      case hq =>
        intro d hd
        simp only [Bool.and_eq_true, beq_iff_eq] at hd
        exact hd.2
      case hid => rfl
      case hu => rfl
  case addSection newId req =>
    unfold addSectionToChallenge
    repeat' first | rfl | split | dsimp only
    rename_i userId huser _ _ _ _ _ _ _ _ _ _ _
    have hU : userId = U := by
      rw [huser] at hcaller
      exact Option.some.inj hcaller
    subst hU
    all_goals
      apply others_after_save db _ _ _ _ userId hnodup
      case hs => assumption
      case hfind => assumption
      case hq =>
        intro d hd
        simp only [Bool.and_eq_true, beq_iff_eq] at hd
        exact hd.2
      case hid => rfl
      case hu => rfl
  case updateSection req =>
    subst hcaller
    unfold updateSectionInChallenge
    repeat' first | rfl | split | dsimp only
    all_goals
      apply others_after_save db _ _ _ _ req.userId hnodup
      case hs => assumption
      case hfind => assumption
      case hq =>
        intro d hd
        simp only [Bool.and_eq_true, beq_iff_eq] at hd
        exact hd.2
      case hid => rfl
      case hu => rfl
  case deleteSection userId challengeId sectionId =>
    subst hcaller
    unfold deleteSectionFromChallenge
    repeat' first | rfl | split | dsimp only
    all_goals
      apply others_after_save db _ _ _ _ userId hnodup
      case hs => assumption
      case hfind => assumption
      case hq =>
        intro d hd
        simp only [Bool.and_eq_true, beq_iff_eq] at hd
        exact hd.2
      case hid => rfl
      case hu => rfl
  case addSubject newId req =>
    subst hcaller
    unfold addSubjectToSection
    repeat' first | rfl | split | dsimp only
    all_goals
      apply others_after_save db _ _ _ _ req.userId hnodup
      case hs => assumption
      case hfind => assumption
      case hq =>
        intro d hd
        simp only [Bool.and_eq_true, beq_iff_eq] at hd
        exact hd.1.2
      case hid => rfl
      case hu => rfl
  case addMultipleSubjects newIds req =>
    subst hcaller
    unfold addMultipleSubjectsToSection
    repeat' first | rfl | split | dsimp only
    all_goals
      apply others_after_save db _ _ _ _ req.userId hnodup
      case hs => assumption
      case hfind => assumption
      case hq =>
        intro d hd
        simp only [Bool.and_eq_true, beq_iff_eq] at hd
        exact hd.1.2
      case hid => rfl
      case hu => rfl
  case updateSubject req =>
    subst hcaller
    unfold updateSubjectInSection
    repeat' first | rfl | split | dsimp only
    all_goals
      apply others_after_save db _ _ _ _ req.userId hnodup
      case hs => assumption
      case hfind => assumption
      case hq =>
        intro d hd
        simp only [Bool.and_eq_true, beq_iff_eq] at hd
        exact hd.1.2
      case hid => rfl
      case hu => rfl
  case deleteSubject userId challengeId sectionId subjectId =>
    subst hcaller
    unfold deleteSubjectFromSection
    repeat' first | rfl | split | dsimp only
    all_goals
      apply others_after_save db _ _ _ _ userId hnodup
      case hs => assumption
      case hfind => assumption
      case hq =>
        intro d hd
        simp only [Bool.and_eq_true, beq_iff_eq] at hd
        exact hd.1.2
      case hid => rfl
      case hu => rfl

theorem relabel_ok {σ α β : Type} (f : α → β) (o : Outcome σ α) (r : β)
    (h : (relabel f o).result = .ok r) : ∃ a, o.result = .ok a ∧ r = f a := by
  unfold relabel at h
  cases ho : o.result with
  | error e =>
    rw [ho] at h
    cases h
  | ok a =>
    rw [ho] at h
    exact ⟨a, rfl, (Except.ok.inj h).symm⟩

theorem getChallenge_own (db : Store) (userId id : String) (c : Challenge)
    (h : (getChallenge db userId id).result = .ok c) :
    c.userId = userId ∧ c._id = id ∧ c.isDeleted = false ∧ c ∈ db := by
  unfold getChallenge at h
  split at h
  · cases h
  · rename_i challenge hfind
    cases h
    have hq := List.find?_some hfind
    simp only [Bool.and_eq_true, beq_iff_eq, Bool.not_eq_true'] at hq
    exact ⟨hq.1.2, hq.1.1, hq.2, mem_of_findOne db _ _ hfind⟩

theorem getChallenges_own (db : Store) (userId : String) (cs : List Challenge)
    (h : (getChallenges db userId).result = .ok cs) :
    ∀ c ∈ cs, c.userId = userId ∧ c.isDeleted = false ∧ c ∈ db := by
  unfold getChallenges at h
  cases h
  intro c hc
  have hm := List.mem_filter.1 (List.mem_reverse.1 hc)
  have hq := hm.2
  simp only [Bool.and_eq_true, beq_iff_eq, Bool.not_eq_true'] at hq
  exact ⟨hq.1, hq.2, hm.1⟩

theorem updateChallenge_own (db : Store) (req : UpdateChallengeReq) (c : Challenge)
    (h : (updateChallenge db req).result = .ok c) : c.userId = req.userId := by
  unfold updateChallenge at h
  split at h
  · cases h
  · rename_i challenge hfind
    have hq := List.find?_some hfind
    simp only [Bool.and_eq_true, beq_iff_eq, Bool.not_eq_true'] at hq
    split at h
    · cases h
    · cases h
    · cases h
    · dsimp only at h
      split at h
      · cases h
      · cases h
        exact hq.1.2

theorem createChallenge_own (db : Store) (userId newId : String) (body : CreateChallengeBody)
    (c : Challenge) (h : (createChallenge db userId newId body).result = .ok c) :
    c.userId = userId := by
  unfold createChallenge at h
  split at h
  · cases h
  · split at h
    · cases h
    · cases h
    · dsimp only at h
      split at h
      · cases h
      · cases h
        rfl

/-- A challenge that a request of `U` returns belongs to `U`. -/
theorem handle_returns_own (db : Store) (U : String) (req : Request)
    (hcaller : req.caller = some U) :
    (∀ c, (handle db req).result = .ok (.challenge c) → c.userId = U) ∧
    (∀ cs, (handle db req).result = .ok (.challenges cs) → ∀ c ∈ cs, c.userId = U) := by
  constructor
  · intro c h
    cases req <;> simp only [handle, Request.caller, Option.some.injEq] at hcaller h <;>
      obtain ⟨a, ha, hr⟩ := relabel_ok _ _ _ h <;> cases hr
    case left.createChallenge.intro.intro.refl userId newId body =>
      exact hcaller ▸ createChallenge_own db userId newId body c ha
    case left.getChallenge.intro.intro.refl userId id =>
      exact hcaller ▸ (getChallenge_own db userId id c ha).1
    case left.updateChallenge.intro.intro.refl req =>
      exact hcaller ▸ updateChallenge_own db req c ha
  · intro cs h
    cases req <;> simp only [handle, Request.caller, Option.some.injEq] at hcaller h <;>
      obtain ⟨a, ha, hr⟩ := relabel_ok _ _ _ h <;> cases hr
    case right.getChallenges.intro.intro.refl userId =>
      intro c hc
      exact hcaller ▸ (getChallenges_own db userId cs ha c hc).1

/-- With pairwise distinct ids, a request of `U` on the id of a challenge of another user
leaves the store unchanged and fails: with the failure of the field check that the handler
makes before it loads the challenge, if there is one, and else with its not-found
response. -/
theorem handle_foreign (db : Store) (hnodup : (db.map (·._id)).Nodup) (U id : String)
    (req : Request) (hcaller : req.caller = some U) (hid : req.challengeId = some id)
    (hforeign : ∃ c ∈ db, c._id = id ∧ c.userId ≠ U) :
    (handle db req).result = .error (req.fieldCheck.getD req.notFound) ∧
    (handle db req).db = db := by
  cases req <;> simp only [Request.caller, Request.challengeId, Option.some.injEq] at hcaller hid
  case createChallenge userId newId body => cases hid
  case getChallenges userId => cases hid
  case getChallenge userId id' =>
    subst hcaller hid
    have hnone : findOne db (fun c => c._id == id' && c.userId == userId && !c.isDeleted) = none :=
      findOne_foreign db hnodup _ id' userId
        (by intro d hd; simp only [Bool.and_eq_true, beq_iff_eq] at hd; exact ⟨hd.1.1, hd.1.2⟩) hforeign
    simp [handle, relabel, getChallenge, hnone, Request.fieldCheck, Request.notFound]
  case updateChallenge req =>
    subst hcaller hid
    have hnone : findOne db (fun c => c._id == req.id && c.userId == req.userId && !c.isDeleted) = none :=
      findOne_foreign db hnodup _ req.id req.userId
        (by intro d hd; simp only [Bool.and_eq_true, beq_iff_eq] at hd; exact ⟨hd.1.1, hd.1.2⟩) hforeign
    simp [handle, relabel, updateChallenge, hnone, Request.fieldCheck, Request.notFound]
  case deleteChallenge userId id' =>
    subst hcaller hid
    have hnone : findOne db (fun c => c._id == id' && c.userId == userId) = none :=
      findOne_foreign db hnodup _ id' userId
        (by intro d hd; simp only [Bool.and_eq_true, beq_iff_eq] at hd; exact ⟨hd.1, hd.2⟩) hforeign
    simp [handle, relabel, deleteChallenge, hnone, Request.fieldCheck, Request.notFound]
  case addSection newId req =>
    subst hid
    have hnone : findOne db (fun c => c._id == req.challengeId && c.userId == U) = none :=
      findOne_foreign db hnodup _ req.challengeId U
        (by intro d hd; simp only [Bool.and_eq_true, beq_iff_eq] at hd; exact ⟨hd.1, hd.2⟩) hforeign
    simp only [handle, relabel, addSectionToChallenge, Request.fieldCheck, Request.notFound,
      hcaller, hnone]
    repeat' first | split | dsimp only
    all_goals simp_all
  case updateSection req =>
    subst hcaller hid
    have hnone : findOne db (fun c => c._id == req.challengeId && c.userId == req.userId) = none :=
      findOne_foreign db hnodup _ req.challengeId req.userId
        (by intro d hd; simp only [Bool.and_eq_true, beq_iff_eq] at hd; exact ⟨hd.1, hd.2⟩) hforeign
    simp only [handle, relabel, updateSectionInChallenge, Request.fieldCheck, Request.notFound,
      hnone]
    repeat' first | split | dsimp only
    all_goals simp_all
  case deleteSection userId challengeId sectionId =>
    subst hcaller hid
    have hnone : findOne db (fun c => c._id == challengeId && c.userId == userId) = none :=
      findOne_foreign db hnodup _ challengeId userId
        (by intro d hd; simp only [Bool.and_eq_true, beq_iff_eq] at hd; exact ⟨hd.1, hd.2⟩) hforeign
    simp [handle, relabel, deleteSectionFromChallenge, hnone, Request.fieldCheck,
      Request.notFound]
  case addSubject newId req =>
    subst hcaller hid
    have hnone : findOne db (fun c => c._id == req.challengeId && c.userId == req.userId && !c.isDeleted) = none :=
      findOne_foreign db hnodup _ req.challengeId req.userId
        (by intro d hd; simp only [Bool.and_eq_true, beq_iff_eq] at hd; exact ⟨hd.1.1, hd.1.2⟩) hforeign
    simp only [handle, relabel, addSubjectToSection, Request.fieldCheck, Request.notFound,
      hnone]
    repeat' first | split | dsimp only
    all_goals simp_all
  case addMultipleSubjects newIds req =>
    subst hcaller hid
    have hnone : findOne db (fun c => c._id == req.challengeId && c.userId == req.userId && !c.isDeleted) = none :=
      findOne_foreign db hnodup _ req.challengeId req.userId
        (by intro d hd; simp only [Bool.and_eq_true, beq_iff_eq] at hd; exact ⟨hd.1.1, hd.1.2⟩) hforeign
    simp only [handle, relabel, addMultipleSubjectsToSection, Request.fieldCheck,
      Request.notFound, hnone]
    repeat' first | split | dsimp only
    all_goals simp_all
  case updateSubject req =>
    subst hcaller hid
    have hnone : findOne db (fun c => c._id == req.challengeId && c.userId == req.userId && !c.isDeleted) = none :=
      findOne_foreign db hnodup _ req.challengeId req.userId
        (by intro d hd; simp only [Bool.and_eq_true, beq_iff_eq] at hd; exact ⟨hd.1.1, hd.1.2⟩) hforeign
    simp [handle, relabel, updateSubjectInSection, hnone, Request.fieldCheck,
      Request.notFound]
  case deleteSubject userId challengeId sectionId subjectId =>
    subst hcaller hid
    have hnone : findOne db (fun c => c._id == challengeId && c.userId == userId && !c.isDeleted) = none :=
      findOne_foreign db hnodup _ challengeId userId
        (by intro d hd; simp only [Bool.and_eq_true, beq_iff_eq] at hd; exact ⟨hd.1.1, hd.1.2⟩) hforeign
    simp [handle, relabel, deleteSubjectFromSection, hnone, Request.fieldCheck,
      Request.notFound]

theorem notFound_status (req : Request) : ∃ message, req.notFound = .response 404 message := by
  cases req <;> exact ⟨_, rfl⟩

/-- Counterexample to C16 as stated: user `u1` sends `updateSectionInChallenge` without a
name for the id of a challenge of user `u2`; the handler answers 400
`Section name is required`, not a not-found response. -/
theorem updateSection_foreign_without_name :
    (∃ c ∈ exStore, c._id = "64b7f0c2a1d3e4f5a6b7c8d0" ∧ c.userId ≠ "u1") ∧
    (updateSectionInChallenge exStore
        ⟨"64b7f0c2a1d3e4f5a6b7c8d0", "s1", "u1", .undefined, .undefined⟩).result
      = .error (.response 400 "Section name is required") ∧
    (Failure.response 400 "Section name is required")
      ≠ (Request.updateSection
          ⟨"64b7f0c2a1d3e4f5a6b7c8d0", "s1", "u1", .undefined, .undefined⟩).notFound := by
  refine ⟨⟨_, List.mem_cons_self _ _, rfl, by decide⟩, by rfl, by decide⟩

/-- C16 (amended). Owner scoping of challenges. In a store whose ids are pairwise
distinct, a request of the user `U` to any handler of the challenge controller leaves the
documents of the other users as they were; a challenge or list of challenges that it
returns belongs to `U`; and when the id of the request is the id of a challenge of another
user, the store is unchanged and the request fails, with the failure of the field check
that the handler makes before it loads the challenge if there is one, and else (in
particular for every request that passes those checks) with the handler's 404 not-found
response. -/
theorem challenge_owner_scoping (db : Store) (hnodup : (db.map (·._id)).Nodup) (U : String)
    (req : Request) (hcaller : req.caller = some U) :
    (handle db req).db.filter (fun c => c.userId != U) = db.filter (fun c => c.userId != U) ∧
    (∀ c, (handle db req).result = .ok (.challenge c) → c.userId = U) ∧
    (∀ cs, (handle db req).result = .ok (.challenges cs) → ∀ c ∈ cs, c.userId = U) ∧
    (∀ id, req.challengeId = some id → (∃ c ∈ db, c._id = id ∧ c.userId ≠ U) →
      (handle db req).db = db ∧
      (handle db req).result = .error (req.fieldCheck.getD req.notFound) ∧
      (req.fieldCheck = none →
        (handle db req).result = .error req.notFound ∧
        ∃ message, (handle db req).result = .error (.response 404 message))) := by
  refine ⟨handle_others db hnodup U req hcaller, (handle_returns_own db U req hcaller).1,
    (handle_returns_own db U req hcaller).2, ?_⟩
  intro id hid hforeign
  obtain ⟨hres, hdb⟩ := handle_foreign db hnodup U id req hcaller hid hforeign
  refine ⟨hdb, hres, ?_⟩
  intro hcheck
  rw [hcheck] at hres
  obtain ⟨message, hm⟩ := notFound_status req
  exact ⟨hres, message, by rw [hres]; simp [hm]⟩

/-- Witness of C16 (amended): user `u1` asks for the challenge of user `u2` in `exStore`
and for a rename of it. -/
theorem challenge_owner_scoping_witness :
    ((handle exStore (.getChallenge "u1" "64b7f0c2a1d3e4f5a6b7c8d0")).db = exStore ∧
      (handle exStore (.getChallenge "u1" "64b7f0c2a1d3e4f5a6b7c8d0")).result
        = .error (.response 404 "Challenge not found")) ∧
    (handle exStore (.updateChallenge
        ⟨"64b7f0c2a1d3e4f5a6b7c8d0", "u1", .str "Mine", .undefined, .undefined⟩)).db.filter
        (fun c => c.userId != "u1")
      = exStore.filter (fun c => c.userId != "u1") :=
  ⟨⟨((challenge_owner_scoping exStore (by decide) "u1"
        (.getChallenge "u1" "64b7f0c2a1d3e4f5a6b7c8d0") rfl).2.2.2
        "64b7f0c2a1d3e4f5a6b7c8d0" rfl ⟨_, List.mem_cons_self _ _, rfl, by decide⟩).1,
     (((challenge_owner_scoping exStore (by decide) "u1"
        (.getChallenge "u1" "64b7f0c2a1d3e4f5a6b7c8d0") rfl).2.2.2
        "64b7f0c2a1d3e4f5a6b7c8d0" rfl ⟨_, List.mem_cons_self _ _, rfl, by decide⟩).2.2
        rfl).1⟩,
   (challenge_owner_scoping exStore (by decide) "u1"
      (.updateChallenge ⟨"64b7f0c2a1d3e4f5a6b7c8d0", "u1", .str "Mine", .undefined, .undefined⟩)
      rfl).1⟩

/-! ### Soft delete -/

theorem valid_softDeleted (c : Challenge) (h : validateChallenge c = .ok ()) :
    validateChallenge { c with isDeleted := true } = .ok () := h

/-- The documents of `replaceDoc db x` that pass a filter which `x` fails are the
documents of `db` with another id that pass it. -/
theorem filter_replaceDoc_dropped (p : Challenge → Bool) (x : Challenge) (hx : p x = false)
    (db : Store) :
    (replaceDoc db x).filter p = db.filter (fun d => p d && d._id != x._id) := by
  unfold replaceDoc
  induction db with
  | nil => rfl
  | cons a rest ih =>
    by_cases ha : a._id = x._id
    · simp only [List.map_cons, ha, beq_self_eq_true, if_true]
      rw [List.filter_cons_of_neg (by simp [hx]), List.filter_cons_of_neg (by simp [ha]), ih]
    · have hne : (a._id == x._id) = false := by simpa using ha
      have hne' : (a._id != x._id) = true := by simpa using ha
      simp only [List.map_cons, hne, Bool.false_eq_true, if_false, List.filter_cons, hne',
        Bool.and_true, ih]

/-- C18. Soft delete. For a (schema-valid) challenge `c` that the query of
`deleteChallenge` finds for the caller, the request succeeds; the store then holds, in
place of `c`, the document that equals `c` in every field (name, description, status,
sections, ...) except that `isDeleted` is true; `getChallenge` for its id answers 404
`Challenge not found`; and `getChallenges` lists exactly the non-deleted challenges of
the caller that were in the store under another id, so no longer this one and still
every other one. -/
theorem deleteChallenge_soft_delete (db : Store) (userId id : String) (c : Challenge)
    (hfind : findOne db (fun d => d._id == id && d.userId == userId) = some c)
    (hvalid : validateChallenge c = .ok ()) :
    (deleteChallenge db userId id).result = .ok () ∧
    (deleteChallenge db userId id).db = replaceDoc db { c with isDeleted := true } ∧
    ({ c with isDeleted := true } : Challenge) ∈ (deleteChallenge db userId id).db ∧
    findOne (deleteChallenge db userId id).db (fun d => d._id == id && d.userId == userId)
      = some { c with isDeleted := true } ∧
    (getChallenge (deleteChallenge db userId id).db userId id).result
      = .error (.response 404 "Challenge not found") ∧
    (getChallenges (deleteChallenge db userId id).db userId).result
      = .ok (db.filter (fun d => (d.userId == userId && !d.isDeleted) && d._id != id)).reverse ∧
    (∀ d ∈ db, d.userId = userId → d.isDeleted = false → d._id ≠ id →
      d ∈ (db.filter (fun d => (d.userId == userId && !d.isDeleted) && d._id != id)).reverse) ∧
    (∀ d ∈ (db.filter (fun d => (d.userId == userId && !d.isDeleted) && d._id != id)).reverse,
      d._id ≠ id) := by
  have hq : (c._id == id && c.userId == userId) = true :=
    @List.find?_some _ (fun d : Challenge => d._id == id && d.userId == userId) c db hfind
  have hcid : c._id = id := by
    simp only [Bool.and_eq_true, beq_iff_eq] at hq
    exact hq.1
  have hout : deleteChallenge db userId id
      = ⟨replaceDoc db { c with isDeleted := true }, .ok ()⟩ := by
    simp only [deleteChallenge, hfind, save, valid_softDeleted c hvalid]
  have hfound := find?_replaceDoc (fun d : Challenge => d._id == id && d.userId == userId)
    db c { c with isDeleted := true } hfind hq rfl
  rw [hout]
  refine ⟨rfl, rfl, ?_, hfound, ?_, ?_, ?_, ?_⟩
  · exact List.mem_of_find?_eq_some hfound
  · have hnone : findOne (replaceDoc db { c with isDeleted := true })
        (fun d => d._id == id && d.userId == userId && !d.isDeleted) = none := by
      unfold findOne
      rw [List.find?_eq_none]
      intro d hd hqd
      simp only [Bool.and_eq_true, beq_iff_eq, Bool.not_eq_true'] at hqd
      rcases List.mem_map.1 hd with ⟨d0, -, hd0⟩
      by_cases h0 : d0._id = c._id
      · simp only [h0, beq_self_eq_true, if_true] at hd0
        rw [← hd0] at hqd
        exact absurd hqd.2 (by simp)
      · have hne : (d0._id == c._id) = false := by simpa using h0
        simp only [hne, Bool.false_eq_true, if_false] at hd0
        rw [← hd0] at hqd
        exact h0 (hqd.1.1.trans hcid.symm)
    simp only [getChallenge, hnone]
  · simp only [getChallenges]
    rw [filter_replaceDoc_dropped (fun d => d.userId == userId && !d.isDeleted)
      { c with isDeleted := true } (by simp) db]
    simp only [hcid]
  · intro d hd hu hdel hne
    rw [List.mem_reverse, List.mem_filter]
    exact ⟨hd, by simp [hu, hdel, hne]⟩
  · intro d hd
    rw [List.mem_reverse, List.mem_filter] at hd
    have := hd.2
    simp only [Bool.and_eq_true, bne_iff_ne] at this
    exact this.2

/-- Witness of C18: user `u1` soft-deletes `exChallenge` in `exStore`. -/
theorem deleteChallenge_soft_delete_witness :
    (deleteChallenge exStore "u1" "64b7f0c2a1d3e4f5a6b7c8d9").result = .ok () ∧
    (deleteChallenge exStore "u1" "64b7f0c2a1d3e4f5a6b7c8d9").db
      = replaceDoc exStore { exChallenge with isDeleted := true } ∧
    (getChallenge (deleteChallenge exStore "u1" "64b7f0c2a1d3e4f5a6b7c8d9").db "u1"
        "64b7f0c2a1d3e4f5a6b7c8d9").result
      = .error (.response 404 "Challenge not found") :=
  ⟨(deleteChallenge_soft_delete exStore "u1" "64b7f0c2a1d3e4f5a6b7c8d9" exChallenge
      (by decide) (by rfl)).1,
   (deleteChallenge_soft_delete exStore "u1" "64b7f0c2a1d3e4f5a6b7c8d9" exChallenge
      (by decide) (by rfl)).2.1,
   (deleteChallenge_soft_delete exStore "u1" "64b7f0c2a1d3e4f5a6b7c8d9" exChallenge
      (by decide) (by rfl)).2.2.2.2.1⟩

/-- C19, evaluation at the failing inputs: after user `u1` soft-deleted `exChallenge`, the
stored document has `isDeleted` true, and `updateChallenge` and the subject handlers
answer 404; but `addSectionToChallenge`, `updateSectionInChallenge`,
`deleteSectionFromChallenge` and a second `deleteChallenge`, whose queries do not filter
on `isDeleted`, succeed on it, and the first three change its sections. -/
theorem section_handlers_load_soft_deleted :
    exSoftDeleted = replaceDoc exStore { exChallenge with isDeleted := true } ∧
    (updateChallenge exSoftDeleted
        ⟨"64b7f0c2a1d3e4f5a6b7c8d9", "u1", .str "Renamed", .undefined, .undefined⟩).result
      = .error (.response 404 "Challenge not found") ∧
    (deleteSubjectFromSection exSoftDeleted "u1" "64b7f0c2a1d3e4f5a6b7c8d9" "s1" "j1").result
      = .error (.response 404 "Challenge not found or access denied") ∧
    (addSectionToChallenge exSoftDeleted "s9"
        ⟨"64b7f0c2a1d3e4f5a6b7c8d9", some "u1", .str "New"⟩).result
      = .ok { _id := some "s9", name := "New", description := none, order := 4, progress := 0,
              subjects := [] } ∧
    (addSectionToChallenge exSoftDeleted "s9"
        ⟨"64b7f0c2a1d3e4f5a6b7c8d9", some "u1", .str "New"⟩).db ≠ exSoftDeleted ∧
    (updateSectionInChallenge exSoftDeleted
        ⟨"64b7f0c2a1d3e4f5a6b7c8d9", "s1", "u1", .str "Renamed", .undefined⟩).result
      = .ok (some (exSection "s1" "Renamed" 7)) ∧
    (updateSectionInChallenge exSoftDeleted
        ⟨"64b7f0c2a1d3e4f5a6b7c8d9", "s1", "u1", .str "Renamed", .undefined⟩).db
      ≠ exSoftDeleted ∧
    (deleteSectionFromChallenge exSoftDeleted "u1" "64b7f0c2a1d3e4f5a6b7c8d9" "s1").result
      = .ok () ∧
    (deleteSectionFromChallenge exSoftDeleted "u1" "64b7f0c2a1d3e4f5a6b7c8d9" "s1").db
      ≠ exSoftDeleted ∧
    (deleteChallenge exSoftDeleted "u1" "64b7f0c2a1d3e4f5a6b7c8d9").result = .ok () := by
  refine ⟨by rfl, by rfl, by rfl, by rfl, by decide, by rfl, by decide, by rfl, by decide,
    by rfl⟩

end ChallengeModel

/-! ### Records of the four separately stored collections -/

/-- C17 (counterexample). For the same caller `u1` and the same id, `updateTransaction`
answers 404 'Transaction not found' when no transaction has the id, and 401 'Not authorized
to update this transaction' when the transaction exists and belongs to `u2`: the two
responses differ in status code and in message. -/
theorem updateTransaction_reveals_foreign_record :
    TransactionModel.findById [] "64b7f0c2a1d3e4f5a6b7c8e1" = .ok none ∧
    TransactionModel.findById [TransactionModel.exTransaction] "64b7f0c2a1d3e4f5a6b7c8e1"
      = .ok (some TransactionModel.exTransaction) ∧
    TransactionModel.exTransaction.user = "u2" ∧
    (TransactionModel.updateTransaction [] "u1" "64b7f0c2a1d3e4f5a6b7c8e1"
        TransactionModel.exNoChange).result
      = .error (.response 404 "Transaction not found") ∧
    (TransactionModel.updateTransaction [TransactionModel.exTransaction] "u1"
        "64b7f0c2a1d3e4f5a6b7c8e1" TransactionModel.exNoChange).result
      = .error (.response 401 "Not authorized to update this transaction") ∧
    (TransactionModel.updateTransaction [] "u1" "64b7f0c2a1d3e4f5a6b7c8e1"
        TransactionModel.exNoChange).result
      ≠ (TransactionModel.updateTransaction [TransactionModel.exTransaction] "u1"
          "64b7f0c2a1d3e4f5a6b7c8e1" TransactionModel.exNoChange).result := by
  refine ⟨by rfl, by rfl, by rfl, by rfl, by rfl, ?_⟩
  intro h
  have h1 : (TransactionModel.updateTransaction [] "u1" "64b7f0c2a1d3e4f5a6b7c8e1"
      TransactionModel.exNoChange).result
      = .error (.response 404 "Transaction not found") := by rfl
  have h2 : (TransactionModel.updateTransaction [TransactionModel.exTransaction] "u1"
      "64b7f0c2a1d3e4f5a6b7c8e1" TransactionModel.exNoChange).result
      = .error (.response 401 "Not authorized to update this transaction") := by rfl
  rw [h1, h2] at h
  injection h with h
  injection h with h
  exact absurd h (by decide)

/-- An id for which `Diary.findById` answers is of the form that `ObjectId.isValid`
accepts. -/
theorem objectIdIsValid_of_findById (db : DiaryModel.Store) (id : String)
    (found : Option DiaryModel.DiaryEntry) (h : DiaryModel.findById db id = .ok found) :
    objectIdIsValid id = true := by
  cases hv : objectIdIsValid id with
  | true => rfl
  | false =>
    simp only [DiaryModel.findById, castObjectId, hv, Bool.false_eq_true, if_false] at h
    cases h

/-- C17 (amended). For each of the eight handlers, every caller, every body and every id
of the ObjectId form (the ids for which `findById` answers): when no record of the
collection has the id the handler answers 404 with its not-found message, and when a
record with the id exists but belongs to another user it answers 401 with its
not-authorized message; in both cases the collection is left as it was. For an id that is
not of the ObjectId form no record is looked at: `findById` rejects with a `CastError`,
and `deleteDiaryEntry` answers 400 'Invalid diary entry ID format', whatever the
collection holds. -/
theorem record_handlers_not_found_and_not_owned
    (userId transactionId planId entryId materialId otherId : String)
    (noTransaction withTransaction : TransactionModel.Store)
    (noPlan withPlan : LifePlanModel.Store)
    (noEntry withEntry : DiaryModel.Store)
    (noMaterial withMaterial : StudyMaterialModel.Store)
    (transactionBody : TransactionModel.UpdateBody) (planBody : LifePlanModel.UpdateBody)
    (entryBody : DiaryModel.UpdateBody) (materialBody : StudyMaterialModel.UpdateBody)
    (ht0 : TransactionModel.findById noTransaction transactionId = .ok none)
    (ht1 : ∃ t, TransactionModel.findById withTransaction transactionId = .ok (some t) ∧
      t.user ≠ userId)
    (hp0 : LifePlanModel.findById noPlan planId = .ok none)
    (hp1 : ∃ p, LifePlanModel.findById withPlan planId = .ok (some p) ∧ p.user ≠ userId)
    (he0 : DiaryModel.findById noEntry entryId = .ok none)
    (he1 : ∃ e, DiaryModel.findById withEntry entryId = .ok (some e) ∧ e.user ≠ userId)
    (hm0 : StudyMaterialModel.findById noMaterial materialId = .ok none)
    (hm1 : ∃ m, StudyMaterialModel.findById withMaterial materialId = .ok (some m) ∧
      m.user ≠ userId)
    (hother : castObjectId otherId = none) :
    (TransactionModel.updateTransaction noTransaction userId transactionId transactionBody
        = ⟨noTransaction, .error (.response 404 "Transaction not found")⟩ ∧
     TransactionModel.updateTransaction withTransaction userId transactionId transactionBody
        = ⟨withTransaction,
           .error (.response 401 "Not authorized to update this transaction")⟩) ∧
    (TransactionModel.deleteTransaction noTransaction userId transactionId
        = ⟨noTransaction, .error (.response 404 "Transaction not found")⟩ ∧
     TransactionModel.deleteTransaction withTransaction userId transactionId
        = ⟨withTransaction,
           .error (.response 401 "Not authorized to delete this transaction")⟩) ∧
    (LifePlanModel.updateLifePlan noPlan userId planId planBody
        = ⟨noPlan, .error (.response 404 ("Plan not found with id of " ++ planId))⟩ ∧
     LifePlanModel.updateLifePlan withPlan userId planId planBody
        = ⟨withPlan, .error (.response 401 "User not authorized to update this plan")⟩) ∧
    (LifePlanModel.deleteLifePlan noPlan userId planId
        = ⟨noPlan, .error (.response 404 ("Plan not found with id of " ++ planId))⟩ ∧
     LifePlanModel.deleteLifePlan withPlan userId planId
        = ⟨withPlan, .error (.response 401 "User not authorized to delete this plan")⟩) ∧
    (DiaryModel.updateDiaryEntry noEntry userId entryId entryBody
        = ⟨noEntry, .error (.response 404 ("Diary entry not found with id of " ++ entryId))⟩ ∧
     DiaryModel.updateDiaryEntry withEntry userId entryId entryBody
        = ⟨withEntry, .error (.response 401
            ("User " ++ userId ++ " is not authorized to update this diary entry"))⟩) ∧
    (DiaryModel.deleteDiaryEntry noEntry userId entryId
        = ⟨noEntry, .error (.response 404 ("Diary entry not found with id of " ++ entryId))⟩ ∧
     DiaryModel.deleteDiaryEntry withEntry userId entryId
        = ⟨withEntry,
           .error (.response 401 "User is not authorized to delete this diary entry")⟩) ∧
    (StudyMaterialModel.updateStudyMaterial noMaterial userId materialId materialBody
        = ⟨noMaterial, .error (.response 404 "Study material not found")⟩ ∧
     StudyMaterialModel.updateStudyMaterial withMaterial userId materialId materialBody
        = ⟨withMaterial, .error (.response 401 "Not authorized to update this material")⟩) ∧
    (StudyMaterialModel.deleteStudyMaterial noMaterial userId materialId
        = ⟨noMaterial, .error (.response 404 "Study material not found")⟩ ∧
     StudyMaterialModel.deleteStudyMaterial withMaterial userId materialId
        = ⟨withMaterial, .error (.response 401 "Not authorized to delete this material")⟩) ∧
    ((∀ db, TransactionModel.updateTransaction db userId otherId transactionBody
        = ⟨db, .error (.castError "_id")⟩) ∧
     (∀ db, TransactionModel.deleteTransaction db userId otherId
        = ⟨db, .error (.castError "_id")⟩) ∧
     (∀ db, LifePlanModel.updateLifePlan db userId otherId planBody
        = ⟨db, .error (.castError "_id")⟩) ∧
     (∀ db, LifePlanModel.deleteLifePlan db userId otherId
        = ⟨db, .error (.castError "_id")⟩) ∧
     (∀ db, DiaryModel.updateDiaryEntry db userId otherId entryBody
        = ⟨db, .error (.castError "_id")⟩) ∧
     (∀ db, DiaryModel.deleteDiaryEntry db userId otherId
        = ⟨db, .error (.response 400 "Invalid diary entry ID format")⟩) ∧
     (∀ db, StudyMaterialModel.updateStudyMaterial db userId otherId materialBody
        = ⟨db, .error (.castError "_id")⟩) ∧
     (∀ db, StudyMaterialModel.deleteStudyMaterial db userId otherId
        = ⟨db, .error (.castError "_id")⟩)) := by
  obtain ⟨t, ht, htu⟩ := ht1
  obtain ⟨p, hp, hpu⟩ := hp1
  obtain ⟨e, he, heu⟩ := he1
  obtain ⟨m, hm, hmu⟩ := hm1
  have htu' : (t.user != userId) = true := by simpa using htu
  have hpu' : (p.user != userId) = true := by simpa using hpu
  have heu' : (e.user != userId) = true := by simpa using heu
  have hmu' : (m.user != userId) = true := by simpa using hmu
  have hid : objectIdIsValid entryId = true := objectIdIsValid_of_findById _ _ _ he0
  have hbad : objectIdIsValid otherId = false := by
    cases hv : objectIdIsValid otherId with
    | false => rfl
    | true => simp [castObjectId, hv] at hother
  refine ⟨⟨?_, ?_⟩, ⟨?_, ?_⟩, ⟨?_, ?_⟩, ⟨?_, ?_⟩, ⟨?_, ?_⟩, ⟨?_, ?_⟩, ⟨?_, ?_⟩, ⟨?_, ?_⟩,
    ⟨?_, ?_, ?_, ?_, ?_, ?_, ?_, ?_⟩⟩
  · simp only [TransactionModel.updateTransaction, ht0]
  · simp only [TransactionModel.updateTransaction, ht, htu', if_true]
  · simp only [TransactionModel.deleteTransaction, ht0]
  · simp only [TransactionModel.deleteTransaction, ht, htu', if_true]
  · simp only [LifePlanModel.updateLifePlan, hp0]
  · simp only [LifePlanModel.updateLifePlan, hp, hpu', if_true]
  · simp only [LifePlanModel.deleteLifePlan, hp0]
  · simp only [LifePlanModel.deleteLifePlan, hp, hpu', if_true]
  · simp only [DiaryModel.updateDiaryEntry, he0]
  · simp only [DiaryModel.updateDiaryEntry, he, heu', if_true]
  · simp only [DiaryModel.deleteDiaryEntry, hid, he0, Bool.not_true, Bool.false_eq_true,
      if_false]
  · simp only [DiaryModel.deleteDiaryEntry, hid, he, heu', Bool.not_true, Bool.false_eq_true,
      if_false, if_true]
  · simp only [StudyMaterialModel.updateStudyMaterial, hm0]
  · simp only [StudyMaterialModel.updateStudyMaterial, hm, hmu', if_true]
  · simp only [StudyMaterialModel.deleteStudyMaterial, hm0]
  · simp only [StudyMaterialModel.deleteStudyMaterial, hm, hmu', if_true]
  · intro db
    simp only [TransactionModel.updateTransaction, TransactionModel.findById, hother]
  · intro db
    simp only [TransactionModel.deleteTransaction, TransactionModel.findById, hother]
  · intro db
    simp only [LifePlanModel.updateLifePlan, LifePlanModel.findById, hother]
  · intro db
    simp only [LifePlanModel.deleteLifePlan, LifePlanModel.findById, hother]
  · intro db
    simp only [DiaryModel.updateDiaryEntry, DiaryModel.findById, hother]
  · intro db
    simp only [DiaryModel.deleteDiaryEntry, hbad, Bool.not_false, if_true]
  · intro db
    simp only [StudyMaterialModel.updateStudyMaterial, StudyMaterialModel.findById, hother]
  · intro db
    simp only [StudyMaterialModel.deleteStudyMaterial, StudyMaterialModel.findById, hother]

/-- C17 (witness). The amended statement at the caller `u1`, empty collections and
collections that hold one record of `u2`, and at the id `abc`, which is not of the
ObjectId form. -/
theorem record_handlers_not_found_and_not_owned_witness :
    (TransactionModel.updateTransaction [] "u1" "64b7f0c2a1d3e4f5a6b7c8e1"
        TransactionModel.exNoChange
        = ⟨[], .error (.response 404 "Transaction not found")⟩ ∧
     TransactionModel.updateTransaction [TransactionModel.exTransaction] "u1"
        "64b7f0c2a1d3e4f5a6b7c8e1" TransactionModel.exNoChange
        = ⟨[TransactionModel.exTransaction],
           .error (.response 401 "Not authorized to update this transaction")⟩) ∧
    (TransactionModel.deleteTransaction [] "u1" "64b7f0c2a1d3e4f5a6b7c8e1"
        = ⟨[], .error (.response 404 "Transaction not found")⟩ ∧
     TransactionModel.deleteTransaction [TransactionModel.exTransaction] "u1"
        "64b7f0c2a1d3e4f5a6b7c8e1"
        = ⟨[TransactionModel.exTransaction],
           .error (.response 401 "Not authorized to delete this transaction")⟩) ∧
    (LifePlanModel.updateLifePlan [] "u1" "64b7f0c2a1d3e4f5a6b7c8e2" LifePlanModel.exNoChange
        = ⟨[], .error (.response 404
            ("Plan not found with id of " ++ "64b7f0c2a1d3e4f5a6b7c8e2"))⟩ ∧
     LifePlanModel.updateLifePlan [LifePlanModel.exPlan] "u1" "64b7f0c2a1d3e4f5a6b7c8e2"
        LifePlanModel.exNoChange
        = ⟨[LifePlanModel.exPlan],
           .error (.response 401 "User not authorized to update this plan")⟩) ∧
    (LifePlanModel.deleteLifePlan [] "u1" "64b7f0c2a1d3e4f5a6b7c8e2"
        = ⟨[], .error (.response 404
            ("Plan not found with id of " ++ "64b7f0c2a1d3e4f5a6b7c8e2"))⟩ ∧
     LifePlanModel.deleteLifePlan [LifePlanModel.exPlan] "u1" "64b7f0c2a1d3e4f5a6b7c8e2"
        = ⟨[LifePlanModel.exPlan],
           .error (.response 401 "User not authorized to delete this plan")⟩) ∧
    (DiaryModel.updateDiaryEntry [] "u1" "64b7f0c2a1d3e4f5a6b7c8e3" DiaryModel.exNoChange
        = ⟨[], .error (.response 404
            ("Diary entry not found with id of " ++ "64b7f0c2a1d3e4f5a6b7c8e3"))⟩ ∧
     DiaryModel.updateDiaryEntry [DiaryModel.exEntry] "u1" "64b7f0c2a1d3e4f5a6b7c8e3"
        DiaryModel.exNoChange
        = ⟨[DiaryModel.exEntry], .error (.response 401
            ("User " ++ "u1" ++ " is not authorized to update this diary entry"))⟩) ∧
    (DiaryModel.deleteDiaryEntry [] "u1" "64b7f0c2a1d3e4f5a6b7c8e3"
        = ⟨[], .error (.response 404
            ("Diary entry not found with id of " ++ "64b7f0c2a1d3e4f5a6b7c8e3"))⟩ ∧
     DiaryModel.deleteDiaryEntry [DiaryModel.exEntry] "u1" "64b7f0c2a1d3e4f5a6b7c8e3"
        = ⟨[DiaryModel.exEntry],
           .error (.response 401 "User is not authorized to delete this diary entry")⟩) ∧
    (StudyMaterialModel.updateStudyMaterial [] "u1" "64b7f0c2a1d3e4f5a6b7c8e4"
        StudyMaterialModel.exNoChange
        = ⟨[], .error (.response 404 "Study material not found")⟩ ∧
     StudyMaterialModel.updateStudyMaterial [StudyMaterialModel.exMaterial] "u1"
        "64b7f0c2a1d3e4f5a6b7c8e4" StudyMaterialModel.exNoChange
        = ⟨[StudyMaterialModel.exMaterial],
           .error (.response 401 "Not authorized to update this material")⟩) ∧
    (StudyMaterialModel.deleteStudyMaterial [] "u1" "64b7f0c2a1d3e4f5a6b7c8e4"
        = ⟨[], .error (.response 404 "Study material not found")⟩ ∧
     StudyMaterialModel.deleteStudyMaterial [StudyMaterialModel.exMaterial] "u1"
        "64b7f0c2a1d3e4f5a6b7c8e4"
        = ⟨[StudyMaterialModel.exMaterial],
           .error (.response 401 "Not authorized to delete this material")⟩) ∧
    ((∀ db, TransactionModel.updateTransaction db "u1" "abc" TransactionModel.exNoChange
        = ⟨db, .error (.castError "_id")⟩) ∧
     (∀ db, TransactionModel.deleteTransaction db "u1" "abc"
        = ⟨db, .error (.castError "_id")⟩) ∧
     (∀ db, LifePlanModel.updateLifePlan db "u1" "abc" LifePlanModel.exNoChange
        = ⟨db, .error (.castError "_id")⟩) ∧
     (∀ db, LifePlanModel.deleteLifePlan db "u1" "abc"
        = ⟨db, .error (.castError "_id")⟩) ∧
     (∀ db, DiaryModel.updateDiaryEntry db "u1" "abc" DiaryModel.exNoChange
        = ⟨db, .error (.castError "_id")⟩) ∧
     (∀ db, DiaryModel.deleteDiaryEntry db "u1" "abc"
        = ⟨db, .error (.response 400 "Invalid diary entry ID format")⟩) ∧
     (∀ db, StudyMaterialModel.updateStudyMaterial db "u1" "abc"
        StudyMaterialModel.exNoChange
        = ⟨db, .error (.castError "_id")⟩) ∧
     (∀ db, StudyMaterialModel.deleteStudyMaterial db "u1" "abc"
        = ⟨db, .error (.castError "_id")⟩)) :=
  record_handlers_not_found_and_not_owned "u1" "64b7f0c2a1d3e4f5a6b7c8e1"
    "64b7f0c2a1d3e4f5a6b7c8e2" "64b7f0c2a1d3e4f5a6b7c8e3" "64b7f0c2a1d3e4f5a6b7c8e4" "abc"
    [] [TransactionModel.exTransaction] [] [LifePlanModel.exPlan] [] [DiaryModel.exEntry]
    [] [StudyMaterialModel.exMaterial]
    TransactionModel.exNoChange LifePlanModel.exNoChange DiaryModel.exNoChange
    StudyMaterialModel.exNoChange
    (by rfl) ⟨TransactionModel.exTransaction, by rfl, by decide⟩
    (by rfl) ⟨LifePlanModel.exPlan, by rfl, by decide⟩
    (by rfl) ⟨DiaryModel.exEntry, by rfl, by decide⟩
    (by rfl) ⟨StudyMaterialModel.exMaterial, by rfl, by decide⟩
    (by rfl)

/-! ### Stamps of the study structure -/

namespace StudyStructureModel

/-- The element found by `find?` is rewritten by `modifyFirst` and found again when the
rewriting keeps the property. -/
theorem find?_modifyFirst {α : Type} (p : α → Bool) (f : α → α) (l : List α) (a : α)
    (h : l.find? p = some a) (hf : p (f a) = true) :
    (ChallengeModel.modifyFirst p f l).find? p = some (f a) := by
  induction l with
  | nil => simp at h
  | cons x rest ih =>
    simp only [List.find?_cons] at h
    cases hx : p x with
    | true =>
      rw [hx] at h
      simp only [Option.some.injEq] at h
      subst h
      simp only [ChallengeModel.modifyFirst, hx, if_true, List.find?_cons, hf]
    | false =>
      rw [hx] at h
      simp only [ChallengeModel.modifyFirst, hx, Bool.false_eq_true, if_false,
        List.find?_cons]
      exact ih h

/-- Rewriting the element at the position that `findIdx?` returns is `modifyFirst`. -/
theorem modify_eq_modifyFirst {α : Type} (p : α → Bool) (f : α → α) :
    ∀ (l : List α) (i : Nat), l.findIdx? p = some i →
      l.modify f i = ChallengeModel.modifyFirst p f l := by
  intro l
  induction l with
  | nil => intro i h; simp at h
  | cons x rest ih =>
    intro i h
    simp only [List.findIdx?_cons] at h
    cases hx : p x with
    | true =>
      rw [hx] at h
      simp only [if_true, Option.some.injEq] at h
      subst h
      simp [ChallengeModel.modifyFirst, hx]
    | false =>
      rw [hx] at h
      simp only [Bool.false_eq_true, if_false, List.findIdx?_succ, Option.map_eq_some'] at h
      obtain ⟨j, hj, rfl⟩ := h
      simp only [List.modify_succ_cons, ChallengeModel.modifyFirst, hx, Bool.false_eq_true,
        if_false, ih j hj]

/-- The position lookup and the element lookup find something together. -/
theorem findIdx?_eq_none_iff_find? {α : Type} (p : α → Bool) (l : List α) :
    l.findIdx? p = none ↔ l.find? p = none := by
  induction l with
  | nil => simp
  | cons x rest ih =>
    simp only [List.findIdx?_cons, List.find?_cons]
    cases hx : p x with
    | true => simp
    | false => simp [List.findIdx?_succ, ih]

/-- What `save` writes. -/
theorem save_ok (db db' : Store) (now : Int) (st : StudyStructure)
    (h : save db now st = .ok db') : db' = replaceDoc db { st with updatedAt := now } := by
  unfold save at h
  split at h
  · cases h
  · cases h
    rfl

/-- The branch of the path after `inBranch`. -/
theorem findBranch_inBranch (now : Int) (branchId : String) (f : Branch → Branch)
    (branches : List Branch) (branch : Branch)
    (h : findBranch branches branchId = some branch) (hf : (f branch)._id = branch._id) :
    findBranch (inBranch now branchId f branches) branchId
      = some { f branch with updatedAt := now } := by
  unfold findBranch inBranch at *
  have hb := List.find?_some h
  apply find?_modifyFirst _ _ _ _ h
  simp only [hf]
  exact hb

/-- The subject of the path after `inSubject`. -/
theorem findSubject_inSubject (now : Int) (subjectId : String) (f : Subject → Subject)
    (branch : Branch) (subject : Subject)
    (h : findSubject branch.subjects subjectId = some subject)
    (hf : (f subject)._id = subject._id) :
    findSubject (inSubject now subjectId f branch).subjects subjectId
      = some { f subject with updatedAt := now } := by
  unfold findSubject inSubject at *
  have hs := List.find?_some h
  apply find?_modifyFirst _ _ _ _ h
  simp only [hf]
  exact hs

/-- The stamps after a change inside a branch. -/
theorem stamped_inBranch (this : StudyStructure) (now : Int) (branchId : String)
    (f : Branch → Branch) (branch : Branch)
    (h : findBranch this.branches branchId = some branch)
    (hf : (f branch)._id = branch._id) :
    Stamped now branchId none
      { this with branches := inBranch now branchId f this.branches, updatedAt := now } := by
  refine ⟨rfl, _, findBranch_inBranch now branchId f this.branches branch h hf, rfl, ?_⟩
  intro sid hsid
  cases hsid

/-- The stamps after a change inside a subject. -/
theorem stamped_inSubject (this : StudyStructure) (now : Int) (branchId subjectId : String)
    (g : Subject → Subject) (branch : Branch) (subject : Subject)
    (h : findBranch this.branches branchId = some branch)
    (hs : findSubject branch.subjects subjectId = some subject)
    (hg : (g subject)._id = subject._id) :
    Stamped now branchId (some subjectId)
      { this with
        branches := inBranch now branchId (inSubject now subjectId g) this.branches
        updatedAt := now } := by
  refine ⟨rfl, _,
    findBranch_inBranch now branchId (inSubject now subjectId g) this.branches branch h rfl,
    rfl, ?_⟩
  intro sid hsid
  cases hsid
  exact ⟨_, findSubject_inSubject now subjectId g branch subject hs hg, rfl⟩

/-- The lookup by position finds a branch when the lookup by id does. -/
theorem findBranchIndex_some (branches : List Branch) (branchId : String) (i : Nat)
    (h : findBranchIndex branches branchId = some i) :
    ∃ branch, findBranch branches branchId = some branch := by
  unfold findBranchIndex at h
  unfold findBranch
  cases hf : branches.find? (fun b => b._id == branchId) with
  | some b => exact ⟨b, rfl⟩
  | none =>
    rw [← findIdx?_eq_none_iff_find?] at hf
    rw [hf] at h
    cases h

/-- The lookup by position finds nothing when the lookup by id finds nothing. -/
theorem findBranchIndex_none (branches : List Branch) (branchId : String)
    (h : findBranch branches branchId = none) : findBranchIndex branches branchId = none := by
  unfold findBranchIndex
  unfold findBranch at h
  exact (findIdx?_eq_none_iff_find? _ _).2 h

/-- The lookup by position finds a position when the lookup by id finds a branch. -/
theorem findBranchIndex_of_findBranch (branches : List Branch) (branchId : String)
    (branch : Branch) (h : findBranch branches branchId = some branch) :
    ∃ i, findBranchIndex branches branchId = some i := by
  cases hi : findBranchIndex branches branchId with
  | some i => exact ⟨i, rfl⟩
  | none =>
    unfold findBranchIndex at hi
    rw [findIdx?_eq_none_iff_find?] at hi
    unfold findBranch at h
    rw [hi] at h
    cases h

/-- No branch has the id: the lookup finds nothing. -/
theorem findBranch_none_of_forall (branches : List Branch) (branchId : String)
    (h : ∀ b ∈ branches, b._id ≠ branchId ∧ castObjectId branchId ≠ some b._id) :
    findBranch branches branchId = none := by
  unfold findBranch
  rw [List.find?_eq_none]
  intro b hb
  simpa using (h b hb).1

/-- No subject has the id: the lookup finds nothing. -/
theorem findSubject_none_of_forall (subjects : List Subject) (subjectId : String)
    (h : ∀ s ∈ subjects, s._id ≠ subjectId ∧ castObjectId subjectId ≠ some s._id) :
    findSubject subjects subjectId = none := by
  unfold findSubject
  rw [List.find?_eq_none]
  intro s hs
  simpa using (h s hs).1

/-- What `save` writes for a valid structure. -/
theorem save_of_valid (db : Store) (now : Int) (st : StudyStructure)
    (h : validateStructure st = .ok ()) :
    save db now st = .ok (replaceDoc db { st with updatedAt := now }) := by
  simp only [save, h]

/-- The subjects of a valid branch are valid. -/
theorem branch_subjects_valid (b : Branch) (h : validateBranch b = .ok ()) :
    ∀ s ∈ b.subjects, validateSubject s = .ok () := by
  unfold validateBranch at h
  split_ifs at h
  exact (forM_ok_iff _ _).1 h

/-- Replacing the subjects of a valid branch by valid subjects keeps it valid. -/
theorem branch_valid_with_subjects (b : Branch) (h : validateBranch b = .ok ())
    (l : List Subject) (hl : ∀ s ∈ l, validateSubject s = .ok ()) :
    validateBranch { b with subjects := l } = .ok () := by
  unfold validateBranch at h ⊢
  split_ifs at h ⊢
  exact (forM_ok_iff _ _).2 hl

/-- The materials of a valid subject are valid. -/
theorem materials_valid_of_valid (s : Subject) (h : validateSubject s = .ok ()) :
    ∀ m ∈ s.materials, validateMaterial m = .ok () := by
  unfold validateSubject at h
  split_ifs at h
  exact (forM_ok_iff _ _).1 h

/-- Replacing the materials of a valid subject by valid materials keeps it valid. -/
theorem valid_with_materials (s : Subject) (h : validateSubject s = .ok ())
    (l : List StudyMaterial) (hl : ∀ m ∈ l, validateMaterial m = .ok ()) :
    validateSubject { s with materials := l } = .ok () := by
  unfold validateSubject at h ⊢
  split_ifs at h ⊢
  exact (forM_ok_iff _ _).2 hl

/-- A valid structure stays valid when the branch of the path is replaced by a valid one. -/
theorem valid_inBranch (this : StudyStructure) (now : Int) (branchId : String)
    (f : Branch → Branch) (branch : Branch)
    (hvalid : validateStructure this = .ok ())
    (hb : findBranch this.branches branchId = some branch)
    (hf : validateBranch (f branch) = .ok ()) :
    validateStructure { this with branches := inBranch now branchId f this.branches }
      = .ok () := by
  apply valid_with_branches this hvalid
  intro x hx
  unfold inBranch at hx
  unfold findBranch at hb
  obtain ⟨pre, post, hl, _, hm⟩ := ChallengeModel.modifyFirst_of_find?
    (fun b : Branch => b._id == branchId) (fun b => { f b with updatedAt := now }) _ _ hb
  rw [hm] at hx
  have hold := branches_valid_of_valid this hvalid
  rcases List.mem_append.1 hx with hx | hx
  · exact hold x (by rw [hl]; exact List.mem_append_left _ hx)
  · rcases List.mem_cons.1 hx with rfl | hx
    · unfold validateBranch at hf ⊢
      exact hf
    · exact hold x (by rw [hl]; exact List.mem_append_right _ (List.mem_cons_of_mem _ hx))

/-- A valid branch stays valid when the subject of the path is replaced by a valid one. -/
theorem valid_inSubject (now : Int) (subjectId : String) (g : Subject → Subject)
    (branch : Branch) (subject : Subject)
    (hbv : validateBranch branch = .ok ())
    (hs : findSubject branch.subjects subjectId = some subject)
    (hg : validateSubject (g subject) = .ok ()) :
    validateBranch (inSubject now subjectId g branch) = .ok () := by
  unfold inSubject
  apply branch_valid_with_subjects branch hbv
  intro x hx
  unfold findSubject at hs
  obtain ⟨pre, post, hl, _, hm⟩ := ChallengeModel.modifyFirst_of_find?
    (fun s : Subject => s._id == subjectId) (fun s => { g s with updatedAt := now }) _ _ hs
  rw [hm] at hx
  have hold := branch_subjects_valid branch hbv
  rcases List.mem_append.1 hx with hx | hx
  · exact hold x (by rw [hl]; exact List.mem_append_left _ hx)
  · rcases List.mem_cons.1 hx with rfl | hx
    · unfold validateSubject at hg ⊢
      exact hg
    · exact hold x (by rw [hl]; exact List.mem_append_right _ (List.mem_cons_of_mem _ hx))

/-- A write of a stamped structure over the structure of the user is a committed call. -/
theorem committed_of_write (this : StudyStructure) (db : Store) (now : Int)
    (branchId : String) (subjectId : Option String) (st : StudyStructure)
    (hfind : findOne db this.user = some this)
    (hid : st._id = this._id) (hu : st.user = this.user)
    (hst : Stamped now branchId subjectId st) :
    Committed this db now branchId subjectId ⟨replaceDoc db st, .ok ()⟩ :=
  ⟨rfl, st, rfl, findOne_replaceDoc_of_findOne db this.user this st hfind hid hu, hid, hst,
    fun hle => by rw [hst.1]; exact hle⟩

/-- A successful call that wrote a stamped structure over the structure of the user is
committed. -/
theorem committed_of_ok (this : StudyStructure) (db : Store) (now : Int)
    (branchId : String) (subjectId : Option String) (out : Outcome Store Unit)
    (hfind : findOne db this.user = some this) (hok : out.result = .ok ())
    (h : ∃ st, out.db = replaceDoc db st ∧ st._id = this._id ∧ st.user = this.user ∧
      Stamped now branchId subjectId st) :
    Committed this db now branchId subjectId out := by
  obtain ⟨st, hdb, hid, hu, hst⟩ := h
  refine ⟨hok, st, hdb, ?_, hid, hst, fun hle => by rw [hst.1]; exact hle⟩
  rw [hdb]
  exact findOne_replaceDoc_of_findOne db this.user this st hfind hid hu

/-- What a successful `addStudyMaterial` wrote. -/
theorem addStudyMaterial_ok (this : StudyStructure) (db : Store) (now : Int)
    (branchId subjectId newMaterialId : String) (materialData : MaterialBody)
    (r : StudyMaterial)
    (h : (this.addStudyMaterial db now branchId subjectId newMaterialId materialData).result
      = .ok r) :
    ∃ st, (this.addStudyMaterial db now branchId subjectId newMaterialId materialData).db
        = replaceDoc db st ∧ st._id = this._id ∧ st.user = this.user ∧
      Stamped now branchId (some subjectId) st := by
  cases hb : findBranch this.branches branchId with
  | none => simp only [StudyStructure.addStudyMaterial, hb] at h; cases h
  | some branch =>
    cases hs : findSubject branch.subjects subjectId with
    | none => simp only [StudyStructure.addStudyMaterial, hb, hs] at h; cases h
    | some subject =>
      cases hc : castMaterial newMaterialId materialData with
      | error e => simp only [StudyStructure.addStudyMaterial, hb, hs, hc] at h; cases h
      | ok material =>
        cases hsv : save db now { this with
            branches := inBranch now branchId
              (inSubject now subjectId
                (fun subject => { subject with materials := subject.materials ++ [material] }))
              this.branches } with
        | error e =>
          simp only [StudyStructure.addStudyMaterial, hb, hs, hc, hsv] at h; cases h
        | ok db' =>
          have hst := stamped_inSubject this now branchId subjectId
            (fun subject => { subject with materials := subject.materials ++ [material] })
            branch subject hb hs rfl
          refine ⟨_, ?_, ?_, ?_, hst⟩
          · simp only [StudyStructure.addStudyMaterial, hb, hs, hc, hsv]
            exact save_ok _ _ _ _ hsv
          · rfl
          · rfl

/-- `Object.assign` with the modelled keys keeps the id of the subject. -/
theorem assignSubject_id (updateData : SubjectUpdate) (subject assigned : Subject)
    (h : assignSubject updateData subject = .ok assigned) : assigned._id = subject._id := by
  unfold assignSubject at h
  split at h
  · cases h; rfl
  · cases h
  · cases h

/-- What a successful `updateSubject` wrote. -/
theorem updateSubject_ok (this : StudyStructure) (db : Store) (now : Int)
    (branchId subjectId : String) (updateData : SubjectUpdate) (r : Subject)
    (h : (this.updateSubject db now branchId subjectId updateData).result = .ok r) :
    ∃ st, (this.updateSubject db now branchId subjectId updateData).db = replaceDoc db st ∧
      st._id = this._id ∧ st.user = this.user ∧ Stamped now branchId (some subjectId) st := by
  cases hb : findBranch this.branches branchId with
  | none => simp only [StudyStructure.updateSubject, hb] at h; cases h
  | some branch =>
    cases hs : findSubject branch.subjects subjectId with
    | none => simp only [StudyStructure.updateSubject, hb, hs] at h; cases h
    | some subject =>
      cases hc : assignSubject updateData subject with
      | error e => simp only [StudyStructure.updateSubject, hb, hs, hc] at h; cases h
      | ok assigned =>
        cases hsv : save db now { this with
            branches := inBranch now branchId (inSubject now subjectId (fun _ => assigned))
              this.branches } with
        | error e =>
          simp only [StudyStructure.updateSubject, hb, hs, hc, hsv] at h; cases h
        | ok db' =>
          have hst := stamped_inSubject this now branchId subjectId (fun _ => assigned)
            branch subject hb hs (assignSubject_id updateData subject assigned hc)
          refine ⟨_, ?_, ?_, ?_, hst⟩
          · simp only [StudyStructure.updateSubject, hb, hs, hc, hsv]
            exact save_ok _ _ _ _ hsv
          · rfl
          · rfl

/-- What a successful `deleteSubject` wrote. -/
theorem deleteSubject_ok (this : StudyStructure) (db : Store) (now : Int)
    (branchId subjectId : String)
    (h : (this.deleteSubject db now branchId subjectId).result = .ok ()) :
    ∃ st, (this.deleteSubject db now branchId subjectId).db = replaceDoc db st ∧
      st._id = this._id ∧ st.user = this.user ∧ Stamped now branchId none st := by
  cases hb : findBranch this.branches branchId with
  | none => simp only [StudyStructure.deleteSubject, hb] at h; cases h
  | some branch =>
    cases hs : findSubject branch.subjects subjectId with
    | none => simp only [StudyStructure.deleteSubject, hb, hs] at h; cases h
    | some subject =>
      cases hsv : save db now { this with
          branches := inBranch now branchId
            (fun branch => { branch with
              subjects := branch.subjects.eraseP (fun s => s._id == subjectId) })
            this.branches } with
      | error e => simp only [StudyStructure.deleteSubject, hb, hs, hsv] at h; cases h
      | ok db' =>
        have hst := stamped_inBranch this now branchId
          (fun branch => { branch with
            subjects := branch.subjects.eraseP (fun s => s._id == subjectId) })
          branch hb rfl
        refine ⟨_, ?_, ?_, ?_, hst⟩
        · simp only [StudyStructure.deleteSubject, hb, hs, hsv]
          exact save_ok _ _ _ _ hsv
        · rfl
        · rfl

/-- What a successful `deleteStudyMaterial` wrote. -/
theorem deleteStudyMaterial_ok (this : StudyStructure) (db : Store) (now : Int)
    (branchId subjectId materialId : String)
    (h : (this.deleteStudyMaterial db now branchId subjectId materialId).result = .ok ()) :
    ∃ st, (this.deleteStudyMaterial db now branchId subjectId materialId).db
        = replaceDoc db st ∧
      st._id = this._id ∧ st.user = this.user ∧ Stamped now branchId (some subjectId) st := by
  cases hb : findBranch this.branches branchId with
  | none => simp only [StudyStructure.deleteStudyMaterial, hb] at h; cases h
  | some branch =>
    cases hs : findSubject branch.subjects subjectId with
    | none => simp only [StudyStructure.deleteStudyMaterial, hb, hs] at h; cases h
    | some subject =>
      cases hm : subject.materials.find? (fun m => m._id == materialId) with
      | none => simp only [StudyStructure.deleteStudyMaterial, hb, hs, hm] at h; cases h
      | some material =>
        cases hsv : save db now { this with
            branches := inBranch now branchId
              (inSubject now subjectId
                (fun subject => { subject with
                  materials := subject.materials.eraseP (fun m => m._id == materialId) }))
              this.branches } with
        | error e =>
          simp only [StudyStructure.deleteStudyMaterial, hb, hs, hm, hsv] at h; cases h
        | ok db' =>
          have hst := stamped_inSubject this now branchId subjectId
            (fun subject => { subject with
              materials := subject.materials.eraseP (fun m => m._id == materialId) })
            branch subject hb hs rfl
          refine ⟨_, ?_, ?_, ?_, hst⟩
          · simp only [StudyStructure.deleteStudyMaterial, hb, hs, hm, hsv]
            exact save_ok _ _ _ _ hsv
          · rfl
          · rfl

/-- What a successful method `addSubject` wrote. -/
theorem method_addSubject_ok (this : StudyStructure) (db : Store) (now : Int)
    (branchId newSubjectId : String) (subjectData : NamedBody) (r : Subject)
    (h : (this.addSubject db now branchId newSubjectId subjectData).result = .ok r) :
    ∃ st, (this.addSubject db now branchId newSubjectId subjectData).db = replaceDoc db st ∧
      st._id = this._id ∧ st.user = this.user ∧ Stamped now branchId none st := by
  cases hi : findBranchIndex this.branches branchId with
  | none => simp only [StudyStructure.addSubject, hi] at h; cases h
  | some i =>
    obtain ⟨branch, hb⟩ := findBranchIndex_some _ _ _ hi
    cases hn : castRequiredName "branches.subjects.name" "Please add a subject name"
        subjectData.name with
    | error e => simp only [StudyStructure.addSubject, hi, hn] at h; cases h
    | ok name =>
      cases hd : castDescription "branches.subjects.description" subjectData.description with
      | error e => simp only [StudyStructure.addSubject, hi, hn, hd] at h; cases h
      | ok description =>
        have hmod : ∀ subject : Subject,
            this.branches.modify (pushSubject now subject) i
              = inBranch now branchId
                  (fun b => { b with subjects := b.subjects ++ [subject] }) this.branches :=
          fun subject =>
            modify_eq_modifyFirst (fun b : Branch => b._id == branchId)
              (pushSubject now subject) this.branches i hi
        simp only [StudyStructure.addSubject, hi, hn, hd, hmod] at h ⊢
        cases hsv : save db now { this with
            branches := inBranch now branchId
              (fun b => { b with subjects := b.subjects ++
                [{ _id := newSubjectId, name := name, description := description,
                   materials := [], isActive := true, updatedAt := now }] })
              this.branches } with
        | error e => simp only [hsv] at h; cases h
        | ok db' =>
          have hst := stamped_inBranch this now branchId
            (fun b => { b with subjects := b.subjects ++
              [{ _id := newSubjectId, name := name, description := description,
                 materials := [], isActive := true, updatedAt := now }] })
            branch hb rfl
          refine ⟨_, ?_, ?_, ?_, hst⟩
          · simp only [hsv]
            exact save_ok _ _ _ _ hsv
          · rfl
          · rfl

/-- What a successful method `updateBranch` wrote. -/
theorem method_updateBranch_ok (this : StudyStructure) (db : Store) (now : Int)
    (branchId : String) (updateData : UpdateBranchBody) (r : Option Branch)
    (h : (this.updateBranch db now branchId updateData).result = .ok r) :
    ∃ st, (this.updateBranch db now branchId updateData).db = replaceDoc db st ∧
      st._id = this._id ∧ st.user = this.user ∧ Stamped now branchId none st := by
  cases hi : findBranchIndex this.branches branchId with
  | none => simp only [StudyStructure.updateBranch, hi] at h; cases h
  | some i =>
    obtain ⟨branch, hb⟩ := findBranchIndex_some _ _ _ hi
    have hmod : ∀ f : Branch → Branch,
        this.branches.modify f i
          = ChallengeModel.modifyFirst (fun b : Branch => b._id == branchId) f
              this.branches :=
      fun f => modify_eq_modifyFirst (fun b : Branch => b._id == branchId) f this.branches i hi
    simp only [StudyStructure.updateBranch, hi, hmod] at h ⊢
    split
    · rename_i hn
      simp only [hn] at h
      cases h
    · rename_i hd hn
      split at h
      · cases h
      · cases h
      · rename_i h1 h2
        rw [hd] at h2
        cases h2
    · rename_i name description hn hd
      simp only [hn, hd] at h
      split at h
      · cases h
      · rename_i db' hsv
        simp only [hsv]
        have hst := stamped_inBranch this now branchId
          (fun b => { b with
            name := name.getD b.name
            description := description.getD b.description
            isActive := updateData.isActive.getD b.isActive })
          branch hb rfl
        exact ⟨_, save_ok _ _ _ _ hsv, rfl, rfl, hst⟩

/-- The method `addSubject` commits a subject with a valid name to a found branch. -/
theorem method_addSubject_commits (this : StudyStructure) (db : Store) (now : Int)
    (branchId newSubjectId : String) (subjectData : NamedBody) (branch : Branch)
    (name : String) (description : Option String)
    (hfind : findOne db this.user = some this)
    (hvalid : validateStructure this = .ok ())
    (hb : findBranch this.branches branchId = some branch)
    (hn : castRequiredName "branches.subjects.name" "Please add a subject name"
      subjectData.name = .ok name)
    (hd : castDescription "branches.subjects.description" subjectData.description
      = .ok description)
    (hne : name ≠ "") (hlen : jsLength name ≤ 100) :
    Committed this db now branchId none
      (Method.call this db now (.addSubject branchId newSubjectId subjectData)) := by
  obtain ⟨i, hi⟩ := findBranchIndex_of_findBranch _ _ _ hb
  have hbv : validateBranch branch = .ok () :=
    branches_valid_of_valid this hvalid branch (List.mem_of_find?_eq_some hb)
  have hsub : validateSubject
      { _id := newSubjectId, name := name, description := description, materials := [],
        isActive := true, updatedAt := now } = .ok () := by
    have h1 : (name == "") = false := by simpa using hne
    have h2 : ¬ jsLength name > 100 := by omega
    simp [validateSubject, h1, h2, pure, Except.pure]
  have hmod : ∀ subject : Subject,
      this.branches.modify (pushSubject now subject) i
        = inBranch now branchId
            (fun b => { b with subjects := b.subjects ++ [subject] }) this.branches :=
    fun subject =>
      modify_eq_modifyFirst (fun b : Branch => b._id == branchId)
        (pushSubject now subject) this.branches i hi
  have hval := valid_inBranch this now branchId
    (fun b => { b with subjects := b.subjects ++
      [{ _id := newSubjectId, name := name, description := description,
         materials := [], isActive := true, updatedAt := now }] })
    branch hvalid hb
    (branch_valid_with_subjects branch hbv _ (by
      intro s hs
      rcases List.mem_append.1 hs with hs | hs
      · exact branch_subjects_valid branch hbv s hs
      · simp only [List.mem_singleton] at hs
        subst hs
        exact hsub))
  have hout : Method.call this db now (.addSubject branchId newSubjectId subjectData)
      = ⟨replaceDoc db { this with
            branches := inBranch now branchId
              (fun b => { b with subjects := b.subjects ++
                [{ _id := newSubjectId, name := name, description := description,
                   materials := [], isActive := true, updatedAt := now }] })
              this.branches
            updatedAt := now }, .ok ()⟩ := by
    simp only [Method.call, StudyStructure.addSubject, hi, hn, hd, hmod,
      save_of_valid _ _ _ hval, ChallengeModel.relabel]
  rw [hout]
  exact committed_of_write this db now branchId none _ hfind rfl rfl
    (stamped_inBranch this now branchId _ branch hb rfl)

/-- The method `addStudyMaterial` commits a valid material to a found subject. -/
theorem addStudyMaterial_commits (this : StudyStructure) (db : Store) (now : Int)
    (branchId subjectId newMaterialId : String) (materialData : MaterialBody)
    (branch : Branch) (subject : Subject) (material : StudyMaterial)
    (hfind : findOne db this.user = some this)
    (hvalid : validateStructure this = .ok ())
    (hb : findBranch this.branches branchId = some branch)
    (hs : findSubject branch.subjects subjectId = some subject)
    (hc : castMaterial newMaterialId materialData = .ok material)
    (hm : validateMaterial material = .ok ()) :
    Committed this db now branchId (some subjectId)
      (Method.call this db now
        (.addStudyMaterial branchId subjectId newMaterialId materialData)) := by
  have hbv : validateBranch branch = .ok () :=
    branches_valid_of_valid this hvalid branch (List.mem_of_find?_eq_some hb)
  have hsv : validateSubject subject = .ok () :=
    branch_subjects_valid branch hbv subject (List.mem_of_find?_eq_some hs)
  have hval := valid_inBranch this now branchId
    (inSubject now subjectId
      (fun subject => { subject with materials := subject.materials ++ [material] }))
    branch hvalid hb
    (valid_inSubject now subjectId _ branch subject hbv hs
      (valid_with_materials subject hsv _ (by
        intro x hx
        rcases List.mem_append.1 hx with hx | hx
        · exact materials_valid_of_valid subject hsv x hx
        · simp only [List.mem_singleton] at hx
          subst hx
          exact hm)))
  have hout : Method.call this db now
        (.addStudyMaterial branchId subjectId newMaterialId materialData)
      = ⟨replaceDoc db { this with
            branches := inBranch now branchId
              (inSubject now subjectId
                (fun subject => { subject with materials := subject.materials ++ [material] }))
              this.branches
            updatedAt := now }, .ok ()⟩ := by
    simp only [Method.call, StudyStructure.addStudyMaterial, hb, hs, hc,
      save_of_valid _ _ _ hval, ChallengeModel.relabel]
  rw [hout]
  exact committed_of_write this db now branchId (some subjectId) _ hfind rfl rfl
    (stamped_inSubject this now branchId subjectId _ branch subject hb hs rfl)

/-- The method `updateSubject` commits data that is cast to a valid subject. -/
theorem updateSubject_commits (this : StudyStructure) (db : Store) (now : Int)
    (branchId subjectId : String) (updateData : SubjectUpdate)
    (branch : Branch) (subject assigned : Subject)
    (hfind : findOne db this.user = some this)
    (hvalid : validateStructure this = .ok ())
    (hb : findBranch this.branches branchId = some branch)
    (hs : findSubject branch.subjects subjectId = some subject)
    (hc : assignSubject updateData subject = .ok assigned)
    (ha : validateSubject assigned = .ok ()) :
    Committed this db now branchId (some subjectId)
      (Method.call this db now (.updateSubject branchId subjectId updateData)) := by
  have hbv : validateBranch branch = .ok () :=
    branches_valid_of_valid this hvalid branch (List.mem_of_find?_eq_some hb)
  have hval := valid_inBranch this now branchId
    (inSubject now subjectId (fun _ => assigned)) branch hvalid hb
    (valid_inSubject now subjectId (fun _ => assigned) branch subject hbv hs ha)
  have hout : Method.call this db now (.updateSubject branchId subjectId updateData)
      = ⟨replaceDoc db { this with
            branches := inBranch now branchId (inSubject now subjectId (fun _ => assigned))
              this.branches
            updatedAt := now }, .ok ()⟩ := by
    simp only [Method.call, StudyStructure.updateSubject, hb, hs, hc,
      save_of_valid _ _ _ hval, ChallengeModel.relabel]
  rw [hout]
  exact committed_of_write this db now branchId (some subjectId) _ hfind rfl rfl
    (stamped_inSubject this now branchId subjectId (fun _ => assigned) branch subject hb hs
      (assignSubject_id updateData subject assigned hc))

/-- The method `deleteSubject` commits the removal of a found subject. -/
theorem deleteSubject_commits (this : StudyStructure) (db : Store) (now : Int)
    (branchId subjectId : String) (branch : Branch) (subject : Subject)
    (hfind : findOne db this.user = some this)
    (hvalid : validateStructure this = .ok ())
    (hb : findBranch this.branches branchId = some branch)
    (hs : findSubject branch.subjects subjectId = some subject) :
    Committed this db now branchId none
      (Method.call this db now (.deleteSubject branchId subjectId)) := by
  have hbv : validateBranch branch = .ok () :=
    branches_valid_of_valid this hvalid branch (List.mem_of_find?_eq_some hb)
  have hval := valid_inBranch this now branchId
    (fun branch => { branch with
      subjects := branch.subjects.eraseP (fun s => s._id == subjectId) })
    branch hvalid hb
    (branch_valid_with_subjects branch hbv _ (fun s hs =>
      branch_subjects_valid branch hbv s (List.mem_of_mem_eraseP hs)))
  have hout : Method.call this db now (.deleteSubject branchId subjectId)
      = ⟨replaceDoc db { this with
            branches := inBranch now branchId
              (fun branch => { branch with
                subjects := branch.subjects.eraseP (fun s => s._id == subjectId) })
              this.branches
            updatedAt := now }, .ok ()⟩ := by
    simp only [Method.call, StudyStructure.deleteSubject, hb, hs, save_of_valid _ _ _ hval]
  rw [hout]
  exact committed_of_write this db now branchId none _ hfind rfl rfl
    (stamped_inBranch this now branchId _ branch hb rfl)

/-- The method `deleteStudyMaterial` commits the removal of a found material. -/
theorem deleteStudyMaterial_commits (this : StudyStructure) (db : Store) (now : Int)
    (branchId subjectId materialId : String) (branch : Branch) (subject : Subject)
    (material : StudyMaterial)
    (hfind : findOne db this.user = some this)
    (hvalid : validateStructure this = .ok ())
    (hb : findBranch this.branches branchId = some branch)
    (hs : findSubject branch.subjects subjectId = some subject)
    (hm : subject.materials.find? (fun m => m._id == materialId) = some material) :
    Committed this db now branchId (some subjectId)
      (Method.call this db now (.deleteStudyMaterial branchId subjectId materialId)) := by
  have hbv : validateBranch branch = .ok () :=
    branches_valid_of_valid this hvalid branch (List.mem_of_find?_eq_some hb)
  have hsv : validateSubject subject = .ok () :=
    branch_subjects_valid branch hbv subject (List.mem_of_find?_eq_some hs)
  have hval := valid_inBranch this now branchId
    (inSubject now subjectId
      (fun subject => { subject with
        materials := subject.materials.eraseP (fun m => m._id == materialId) }))
    branch hvalid hb
    (valid_inSubject now subjectId _ branch subject hbv hs
      (valid_with_materials subject hsv _ (fun x hx =>
        materials_valid_of_valid subject hsv x (List.mem_of_mem_eraseP hx))))
  have hout : Method.call this db now (.deleteStudyMaterial branchId subjectId materialId)
      = ⟨replaceDoc db { this with
            branches := inBranch now branchId
              (inSubject now subjectId
                (fun subject => { subject with
                  materials := subject.materials.eraseP (fun m => m._id == materialId) }))
              this.branches
            updatedAt := now }, .ok ()⟩ := by
    simp only [Method.call, StudyStructure.deleteStudyMaterial, hb, hs, hm,
      save_of_valid _ _ _ hval]
  rw [hout]
  exact committed_of_write this db now branchId (some subjectId) _ hfind rfl rfl
    (stamped_inSubject this now branchId subjectId _ branch subject hb hs rfl)

/-- The cast of the description of `updateBranch` succeeds for an absent or null
description and for one that is cast to a string. -/
theorem updateBranch_description_cast (v : JsVal)
    (h : v = .undefined ∨ v = .null ∨ ∃ d, castString v = some d) :
    ∃ description,
      (match v with
       | .undefined => .ok none
       | .null => .ok (some none)
       | v => match castString v with
         | some s => .ok (some (some (jsTrim s)))
         | none => .error (.castError "branches.description")
       : Except Failure (Option (Option String))) = .ok description := by
  cases v with
  | undefined => exact ⟨_, rfl⟩
  | null => exact ⟨_, rfl⟩
  | bool b => exact ⟨_, rfl⟩
  | num n => exact ⟨_, rfl⟩
  | str s => exact ⟨_, rfl⟩
  | obj => simp [castString] at h

/-- The cast of the name of `updateBranch` succeeds for a falsy name, which is left out,
and for one that is cast to a valid name. -/
theorem updateBranch_name_cast (v : JsVal)
    (h : v.truthy = false ∨
      ∃ name, castRequiredName "branches.name" "Please add a branch name" v = .ok name ∧
        name ≠ "" ∧ jsLength name ≤ 100) :
    ∃ name, (if v.truthy then
               (castRequiredName "branches.name" "Please add a branch name" v).map some
             else .ok none : Except Failure (Option String)) = .ok name ∧
      ∀ n, name = some n → n ≠ "" ∧ jsLength n ≤ 100 := by
  cases ht : v.truthy with
  | false =>
    refine ⟨none, by simp, ?_⟩
    intro n hn
    cases hn
  | true =>
    rcases h with h | ⟨name, hc, hne, hlen⟩
    · rw [ht] at h
      cases h
    · refine ⟨some name, by simp [hc, Except.map], ?_⟩
      intro n hn
      cases hn
      exact ⟨hne, hlen⟩

/-- The method `updateBranch` commits data that is cast to a valid branch. -/
theorem method_updateBranch_commits (this : StudyStructure) (db : Store) (now : Int)
    (branchId : String) (updateData : UpdateBranchBody) (branch : Branch)
    (name : Option String) (description : Option (Option String))
    (hfind : findOne db this.user = some this)
    (hvalid : validateStructure this = .ok ())
    (hb : findBranch this.branches branchId = some branch)
    (hn : (if updateData.name.truthy then
             (castRequiredName "branches.name" "Please add a branch name" updateData.name).map
               some
           else .ok none : Except Failure (Option String)) = .ok name)
    (hd : (match updateData.description with
           | .undefined => .ok none
           | .null => .ok (some none)
           | v => match castString v with
             | some s => .ok (some (some (jsTrim s)))
             | none => .error (.castError "branches.description")
           : Except Failure (Option (Option String))) = .ok description)
    (hname : ∀ n, name = some n → n ≠ "" ∧ jsLength n ≤ 100) :
    Committed this db now branchId none
      (Method.call this db now (.updateBranch branchId updateData)) := by
  obtain ⟨i, hi⟩ := findBranchIndex_of_findBranch _ _ _ hb
  have hbv : validateBranch branch = .ok () :=
    branches_valid_of_valid this hvalid branch (List.mem_of_find?_eq_some hb)
  have hassign : validateBranch
      { branch with
        name := name.getD branch.name
        description := description.getD branch.description
        isActive := updateData.isActive.getD branch.isActive } = .ok () := by
    cases name with
    | none =>
      unfold validateBranch at hbv ⊢
      exact hbv
    | some n =>
      obtain ⟨h1, h2⟩ := hname n rfl
      have h1' : (n == "") = false := by simpa using h1
      have h2' : ¬ jsLength n > 100 := by omega
      unfold validateBranch
      simp only [Option.getD_some, h1', h2', Bool.false_eq_true, if_false]
      exact (forM_ok_iff _ _).2 (branch_subjects_valid branch hbv)
  have hval := valid_inBranch this now branchId
    (fun b => { b with
      name := name.getD b.name
      description := description.getD b.description
      isActive := updateData.isActive.getD b.isActive })
    branch hvalid hb hassign
  have hsave : save db now { this with
        branches := ChallengeModel.modifyFirst (fun b : Branch => b._id == branchId)
          (fun b => { b with
            name := name.getD b.name
            description := description.getD b.description
            isActive := updateData.isActive.getD b.isActive
            updatedAt := now }) this.branches }
      = .ok (replaceDoc db { this with
          branches := inBranch now branchId
            (fun b => { b with
              name := name.getD b.name
              description := description.getD b.description
              isActive := updateData.isActive.getD b.isActive })
            this.branches
          updatedAt := now }) := save_of_valid _ _ _ hval
  have hmod : ∀ f : Branch → Branch,
      this.branches.modify f i
        = ChallengeModel.modifyFirst (fun b : Branch => b._id == branchId) f
            this.branches :=
    fun f => modify_eq_modifyFirst (fun b : Branch => b._id == branchId) f this.branches i hi
  have hout : Method.call this db now (.updateBranch branchId updateData)
      = ⟨replaceDoc db { this with
            branches := inBranch now branchId
              (fun b => { b with
                name := name.getD b.name
                description := description.getD b.description
                isActive := updateData.isActive.getD b.isActive })
              this.branches
            updatedAt := now }, .ok ()⟩ := by
    simp only [Method.call, StudyStructure.updateBranch, hi, hn, hd, hmod, hsave,
      ChallengeModel.relabel]
  rw [hout]
  exact committed_of_write this db now branchId none _ hfind rfl rfl
    (stamped_inBranch this now branchId _ branch hb rfl)

/-- C25. For a valid study structure that `findOne` reads for its user, and every clock
value `now`:

* a successful call of `addSubject`, `addStudyMaterial`, `updateBranch`, `updateSubject`,
  `deleteSubject` or `deleteStudyMaterial` on a path that is found writes the structure,
  and the structure then read back carries `updatedAt = now` on the root, on the branch of
  the path and, when the path has a subject that is still there (all but `deleteSubject`
  and the two calls at the level of the branch), on that subject, so the `updatedAt` of the
  root does not decrease when the clock has not gone back;
* each of the six methods does succeed in that way on a found path when its data is cast
  and passes the validators of the schema (a new subject or branch name that is not empty
  and at most 100 long, a valid new material, a valid assigned subject, a material that is
  found; `deleteSubject` needs no more than the path);
* a call whose branch is missing fails with 'Branch not found' and one whose subject is
  missing fails with 'Subject not found', and both leave the store as it was. -/
theorem methods_stamp_updatedAt (this : StudyStructure) (db : Store) (now : Int)
    (hfind : findOne db this.user = some this)
    (hvalid : validateStructure this = .ok ()) :
    (∀ (m : Method) (branch : Branch), findBranch this.branches m.branchId = some branch →
      (∀ sid, m.subjectId = some sid →
        ∃ subject, findSubject branch.subjects sid = some subject) →
      (m.call this db now).result = .ok () →
      Committed this db now m.branchId m.survivingSubject (m.call this db now)) ∧
    (∀ (branchId : String) (branch : Branch),
      findBranch this.branches branchId = some branch →
      (∀ newSubjectId subjectData name description,
        castRequiredName "branches.subjects.name" "Please add a subject name"
          subjectData.name = .ok name →
        castDescription "branches.subjects.description" subjectData.description
          = .ok description →
        name ≠ "" → jsLength name ≤ 100 →
        Committed this db now branchId none
          (Method.call this db now (.addSubject branchId newSubjectId subjectData))) ∧
      (∀ updateData : UpdateBranchBody,
        (updateData.name.truthy = false ∨
          ∃ name, castRequiredName "branches.name" "Please add a branch name"
              updateData.name = .ok name ∧ name ≠ "" ∧ jsLength name ≤ 100) →
        (updateData.description = .undefined ∨ updateData.description = .null ∨
          ∃ d, castString updateData.description = some d) →
        Committed this db now branchId none
          (Method.call this db now (.updateBranch branchId updateData))) ∧
      (∀ (subjectId : String) (subject : Subject),
        findSubject branch.subjects subjectId = some subject →
        (∀ newMaterialId materialData material,
          castMaterial newMaterialId materialData = .ok material →
          validateMaterial material = .ok () →
          Committed this db now branchId (some subjectId)
            (Method.call this db now
              (.addStudyMaterial branchId subjectId newMaterialId materialData))) ∧
        (∀ updateData assigned,
          assignSubject updateData subject = .ok assigned →
          validateSubject assigned = .ok () →
          Committed this db now branchId (some subjectId)
            (Method.call this db now (.updateSubject branchId subjectId updateData))) ∧
        Committed this db now branchId none
          (Method.call this db now (.deleteSubject branchId subjectId)) ∧
        (∀ materialId material,
          subject.materials.find? (fun m => m._id == materialId) = some material →
          Committed this db now branchId (some subjectId)
            (Method.call this db now
              (.deleteStudyMaterial branchId subjectId materialId))))) ∧
    (∀ m : Method,
      ((∀ b ∈ this.branches, b._id ≠ m.branchId ∧ castObjectId m.branchId ≠ some b._id) →
        m.call this db now = ⟨db, .error (.thrown "Branch not found")⟩) ∧
      (∀ branch sid, findBranch this.branches m.branchId = some branch →
        m.subjectId = some sid →
        (∀ s ∈ branch.subjects, s._id ≠ sid ∧ castObjectId sid ≠ some s._id) →
        m.call this db now = ⟨db, .error (.thrown "Subject not found")⟩)) := by
  refine ⟨?_, ?_, ?_⟩
  · intro m branch _ _ h
    cases m with
    | addSubject branchId newSubjectId subjectData =>
      obtain ⟨r, hr, _⟩ := ChallengeModel.relabel_ok _ _ _ h
      exact committed_of_ok this db now _ _ _ hfind h
        (method_addSubject_ok this db now branchId newSubjectId subjectData r hr)
    | addStudyMaterial branchId subjectId newMaterialId materialData =>
      obtain ⟨r, hr, _⟩ := ChallengeModel.relabel_ok _ _ _ h
      exact committed_of_ok this db now _ _ _ hfind h
        (addStudyMaterial_ok this db now branchId subjectId newMaterialId materialData r hr)
    | updateBranch branchId updateData =>
      obtain ⟨r, hr, _⟩ := ChallengeModel.relabel_ok _ _ _ h
      exact committed_of_ok this db now _ _ _ hfind h
        (method_updateBranch_ok this db now branchId updateData r hr)
    | updateSubject branchId subjectId updateData =>
      obtain ⟨r, hr, _⟩ := ChallengeModel.relabel_ok _ _ _ h
      exact committed_of_ok this db now _ _ _ hfind h
        (updateSubject_ok this db now branchId subjectId updateData r hr)
    | deleteSubject branchId subjectId =>
      exact committed_of_ok this db now _ _ _ hfind h
        (deleteSubject_ok this db now branchId subjectId h)
    | deleteStudyMaterial branchId subjectId materialId =>
      exact committed_of_ok this db now _ _ _ hfind h
        (deleteStudyMaterial_ok this db now branchId subjectId materialId h)
  · intro branchId branch hb
    refine ⟨?_, ?_, ?_⟩
    · intro newSubjectId subjectData name description hn hd hne hlen
      exact method_addSubject_commits this db now branchId newSubjectId subjectData branch
        name description hfind hvalid hb hn hd hne hlen
    · intro updateData hname hdesc
      obtain ⟨name, hn, hnv⟩ := updateBranch_name_cast _ hname
      obtain ⟨description, hd⟩ := updateBranch_description_cast _ hdesc
      exact method_updateBranch_commits this db now branchId updateData branch name
        description hfind hvalid hb hn hd hnv
    · intro subjectId subject hs
      refine ⟨?_, ?_, ?_, ?_⟩
      · intro newMaterialId materialData material hc hm
        exact addStudyMaterial_commits this db now branchId subjectId newMaterialId
          materialData branch subject material hfind hvalid hb hs hc hm
      · intro updateData assigned hc ha
        exact updateSubject_commits this db now branchId subjectId updateData branch subject
          assigned hfind hvalid hb hs hc ha
      · exact deleteSubject_commits this db now branchId subjectId branch subject hfind
          hvalid hb hs
      · intro materialId material hm
        exact deleteStudyMaterial_commits this db now branchId subjectId materialId branch
          subject material hfind hvalid hb hs hm
  · intro m
    constructor
    · intro hmissing
      have hb := findBranch_none_of_forall _ _ hmissing
      have hi := findBranchIndex_none _ _ hb
      cases m with
      | addSubject branchId newSubjectId subjectData =>
        simp only [Method.branchId] at hi
        simp only [Method.call, StudyStructure.addSubject, hi, ChallengeModel.relabel]
      | addStudyMaterial branchId subjectId newMaterialId materialData =>
        simp only [Method.branchId] at hb
        simp only [Method.call, StudyStructure.addStudyMaterial, hb, ChallengeModel.relabel]
      | updateBranch branchId updateData =>
        simp only [Method.branchId] at hi
        simp only [Method.call, StudyStructure.updateBranch, hi, ChallengeModel.relabel]
      | updateSubject branchId subjectId updateData =>
        simp only [Method.branchId] at hb
        simp only [Method.call, StudyStructure.updateSubject, hb, ChallengeModel.relabel]
      | deleteSubject branchId subjectId =>
        simp only [Method.branchId] at hb
        simp only [Method.call, StudyStructure.deleteSubject, hb]
      | deleteStudyMaterial branchId subjectId materialId =>
        simp only [Method.branchId] at hb
        simp only [Method.call, StudyStructure.deleteStudyMaterial, hb]
    · intro branch sid hb hsid hmissing
      have hs := findSubject_none_of_forall _ _ hmissing
      cases m with
      | addSubject branchId newSubjectId subjectData => cases hsid
      | addStudyMaterial branchId subjectId newMaterialId materialData =>
        simp only [Method.branchId] at hb
        simp only [Method.subjectId, Option.some.injEq] at hsid
        subst hsid
        simp only [Method.call, StudyStructure.addStudyMaterial, hb, hs,
          ChallengeModel.relabel]
      | updateBranch branchId updateData => cases hsid
      | updateSubject branchId subjectId updateData =>
        simp only [Method.branchId] at hb
        simp only [Method.subjectId, Option.some.injEq] at hsid
        subst hsid
        simp only [Method.call, StudyStructure.updateSubject, hb, hs, ChallengeModel.relabel]
      | deleteSubject branchId subjectId =>
        simp only [Method.branchId] at hb
        simp only [Method.subjectId, Option.some.injEq] at hsid
        subst hsid
        simp only [Method.call, StudyStructure.deleteSubject, hb, hs]
      | deleteStudyMaterial branchId subjectId materialId =>
        simp only [Method.branchId] at hb
        simp only [Method.subjectId, Option.some.injEq] at hsid
        subst hsid
        simp only [Method.call, StudyStructure.deleteStudyMaterial, hb, hs]

/-- C25 (witness). On `exCourse`, stamped at 5 (its branch Physics at 3), each of the six
methods is called at time 40 on the branch Math, or on its subject Algebra: each call
succeeds, the store then holds the structure with the change and with the stamp 40 on the
root, on Math and (when Algebra is changed and stays) on Algebra, Physics keeping its
stamp 3, and the call is committed in the sense of the statement. A call on a branch id
and one on a subject id that nothing has fail and leave the store as it was. -/
theorem methods_stamp_updatedAt_witness :
    (Method.call exCourse [exCourse] 40
        (.addSubject "64b7f0c2a1d3e4f5a6b7c8c1" "64b7f0c2a1d3e4f5a6b7c8d2"
          ⟨.str "Geometry", .undefined⟩)
      = ⟨[exCourseAt40 "Math" [exAlgebra, exGeometry]], .ok ()⟩ ∧
     Committed exCourse [exCourse] 40 "64b7f0c2a1d3e4f5a6b7c8c1" none
      (Method.call exCourse [exCourse] 40
        (.addSubject "64b7f0c2a1d3e4f5a6b7c8c1" "64b7f0c2a1d3e4f5a6b7c8d2"
          ⟨.str "Geometry", .undefined⟩))) ∧
    (Method.call exCourse [exCourse] 40
        (.addStudyMaterial "64b7f0c2a1d3e4f5a6b7c8c1" "64b7f0c2a1d3e4f5a6b7c8d1"
          "64b7f0c2a1d3e4f5a6b7c8f2" exSlidesBody)
      = ⟨[exCourseAt40 "Math"
            [{ exAlgebra with materials := [exNotes, exSlides], updatedAt := 40 }]],
         .ok ()⟩ ∧
     Committed exCourse [exCourse] 40 "64b7f0c2a1d3e4f5a6b7c8c1"
      (some "64b7f0c2a1d3e4f5a6b7c8d1")
      (Method.call exCourse [exCourse] 40
        (.addStudyMaterial "64b7f0c2a1d3e4f5a6b7c8c1" "64b7f0c2a1d3e4f5a6b7c8d1"
          "64b7f0c2a1d3e4f5a6b7c8f2" exSlidesBody))) ∧
    (Method.call exCourse [exCourse] 40
        (.updateBranch "64b7f0c2a1d3e4f5a6b7c8c1" ⟨.str "Mathematics", .undefined, none⟩)
      = ⟨[exCourseAt40 "Mathematics" [exAlgebra]], .ok ()⟩ ∧
     Committed exCourse [exCourse] 40 "64b7f0c2a1d3e4f5a6b7c8c1" none
      (Method.call exCourse [exCourse] 40
        (.updateBranch "64b7f0c2a1d3e4f5a6b7c8c1"
          ⟨.str "Mathematics", .undefined, none⟩))) ∧
    (Method.call exCourse [exCourse] 40
        (.updateSubject "64b7f0c2a1d3e4f5a6b7c8c1" "64b7f0c2a1d3e4f5a6b7c8d1"
          ⟨.str "Linear algebra", .undefined, none, none⟩)
      = ⟨[exCourseAt40 "Math" [{ exAlgebra with name := "Linear algebra", updatedAt := 40 }]],
         .ok ()⟩ ∧
     Committed exCourse [exCourse] 40 "64b7f0c2a1d3e4f5a6b7c8c1"
      (some "64b7f0c2a1d3e4f5a6b7c8d1")
      (Method.call exCourse [exCourse] 40
        (.updateSubject "64b7f0c2a1d3e4f5a6b7c8c1" "64b7f0c2a1d3e4f5a6b7c8d1"
          ⟨.str "Linear algebra", .undefined, none, none⟩))) ∧
    (Method.call exCourse [exCourse] 40
        (.deleteSubject "64b7f0c2a1d3e4f5a6b7c8c1" "64b7f0c2a1d3e4f5a6b7c8d1")
      = ⟨[exCourseAt40 "Math" []], .ok ()⟩ ∧
     Committed exCourse [exCourse] 40 "64b7f0c2a1d3e4f5a6b7c8c1" none
      (Method.call exCourse [exCourse] 40
        (.deleteSubject "64b7f0c2a1d3e4f5a6b7c8c1" "64b7f0c2a1d3e4f5a6b7c8d1"))) ∧
    (Method.call exCourse [exCourse] 40
        (.deleteStudyMaterial "64b7f0c2a1d3e4f5a6b7c8c1" "64b7f0c2a1d3e4f5a6b7c8d1"
          "64b7f0c2a1d3e4f5a6b7c8f1")
      = ⟨[exCourseAt40 "Math" [{ exAlgebra with materials := [], updatedAt := 40 }]],
         .ok ()⟩ ∧
     Committed exCourse [exCourse] 40 "64b7f0c2a1d3e4f5a6b7c8c1"
      (some "64b7f0c2a1d3e4f5a6b7c8d1")
      (Method.call exCourse [exCourse] 40
        (.deleteStudyMaterial "64b7f0c2a1d3e4f5a6b7c8c1" "64b7f0c2a1d3e4f5a6b7c8d1"
          "64b7f0c2a1d3e4f5a6b7c8f1"))) ∧
    Method.call exCourse [exCourse] 40
        (.deleteSubject "64b7f0c2a1d3e4f5a6b7c8c9" "64b7f0c2a1d3e4f5a6b7c8d1")
      = ⟨[exCourse], .error (.thrown "Branch not found")⟩ ∧
    Method.call exCourse [exCourse] 40
        (.updateSubject "64b7f0c2a1d3e4f5a6b7c8c1" "64b7f0c2a1d3e4f5a6b7c8d9"
          ⟨.str "Linear algebra", .undefined, none, none⟩)
      = ⟨[exCourse], .error (.thrown "Subject not found")⟩ :=
  ⟨⟨by rfl,
     ((methods_stamp_updatedAt exCourse [exCourse] 40 (by rfl) (by rfl)).2.1
        "64b7f0c2a1d3e4f5a6b7c8c1" exMath (by rfl)).1
        "64b7f0c2a1d3e4f5a6b7c8d2" ⟨.str "Geometry", .undefined⟩ "Geometry" (some "")
        (by rfl) (by rfl) (by decide) (by decide)⟩,
   ⟨by rfl,
     (((methods_stamp_updatedAt exCourse [exCourse] 40 (by rfl) (by rfl)).2.1
        "64b7f0c2a1d3e4f5a6b7c8c1" exMath (by rfl)).2.2
        "64b7f0c2a1d3e4f5a6b7c8d1" exAlgebra (by rfl)).1
        "64b7f0c2a1d3e4f5a6b7c8f2" exSlidesBody exSlides (by rfl) (by rfl)⟩,
   ⟨by rfl,
     ((methods_stamp_updatedAt exCourse [exCourse] 40 (by rfl) (by rfl)).2.1
        "64b7f0c2a1d3e4f5a6b7c8c1" exMath (by rfl)).2.1
        ⟨.str "Mathematics", .undefined, none⟩
        (Or.inr ⟨"Mathematics", by rfl, by decide, by decide⟩) (Or.inl rfl)⟩,
   ⟨by rfl,
     (((methods_stamp_updatedAt exCourse [exCourse] 40 (by rfl) (by rfl)).2.1
        "64b7f0c2a1d3e4f5a6b7c8c1" exMath (by rfl)).2.2
        "64b7f0c2a1d3e4f5a6b7c8d1" exAlgebra (by rfl)).2.1
        ⟨.str "Linear algebra", .undefined, none, none⟩
        { exAlgebra with name := "Linear algebra" } (by rfl) (by rfl)⟩,
   ⟨by rfl,
     (((methods_stamp_updatedAt exCourse [exCourse] 40 (by rfl) (by rfl)).2.1
        "64b7f0c2a1d3e4f5a6b7c8c1" exMath (by rfl)).2.2
        "64b7f0c2a1d3e4f5a6b7c8d1" exAlgebra (by rfl)).2.2.1⟩,
   ⟨by rfl,
     (((methods_stamp_updatedAt exCourse [exCourse] 40 (by rfl) (by rfl)).2.1
        "64b7f0c2a1d3e4f5a6b7c8c1" exMath (by rfl)).2.2
        "64b7f0c2a1d3e4f5a6b7c8d1" exAlgebra (by rfl)).2.2.2
        "64b7f0c2a1d3e4f5a6b7c8f1" exNotes (by rfl)⟩,
   ((methods_stamp_updatedAt exCourse [exCourse] 40 (by rfl) (by rfl)).2.2
      (.deleteSubject "64b7f0c2a1d3e4f5a6b7c8c9" "64b7f0c2a1d3e4f5a6b7c8d1")).1 (by decide),
   ((methods_stamp_updatedAt exCourse [exCourse] 40 (by rfl) (by rfl)).2.2
      (.updateSubject "64b7f0c2a1d3e4f5a6b7c8c1" "64b7f0c2a1d3e4f5a6b7c8d9"
        ⟨.str "Linear algebra", .undefined, none, none⟩)).2
      exMath "64b7f0c2a1d3e4f5a6b7c8d9" (by rfl) (by rfl) (by decide)⟩

end StudyStructureModel

/-! ### Daily schedules -/

namespace DailyScheduleModel

/-- The query finds nothing exactly when no stored schedule has the pair. -/
theorem findSchedule_eq_none (db : Store) (userId : String) (date : Int) :
    findSchedule db userId date = none ↔ (userId, date) ∉ db.map scheduleKey := by
  simp [findSchedule, List.find?_eq_none, scheduleKey]

/-- A found schedule has the pair of the query and is stored. -/
theorem findSchedule_some (db : Store) (userId : String) (date : Int) (s : DailySchedule)
    (h : findSchedule db userId date = some s) :
    s ∈ db ∧ s.userId = userId ∧ s.date = date := by
  unfold findSchedule at h
  have h1 := List.find?_some h
  have h2 := List.mem_of_find?_eq_some h
  simp only [Bool.and_eq_true, beq_iff_eq, decide_eq_true_eq] at h1
  exact ⟨h2, h1.1, by simpa using h1.2⟩

/-- The unique index accepts a document whose pair the query did not find. -/
theorem insertSchedule_of_none (db : Store) (doc : DailySchedule)
    (h : findSchedule db doc.userId doc.date = none) :
    insertSchedule db doc = .ok (db ++ [doc]) := by
  unfold insertSchedule
  have : db.any (fun s => s.userId == doc.userId && s.date == doc.date) = false := by
    unfold findSchedule at h
    rw [List.find?_eq_none] at h
    rw [List.any_eq_false]
    exact h
  rw [this]
  rfl

/-- Appending a document whose pair is not stored keeps the pairs distinct. -/
theorem unique_append (db : Store) (doc : DailySchedule) (h : UniquePerDay db)
    (hnone : findSchedule db doc.userId doc.date = none) : UniquePerDay (db ++ [doc]) := by
  unfold UniquePerDay at *
  rw [List.map_append, List.nodup_append]
  refine ⟨h, by simp, ?_⟩
  have := (findSchedule_eq_none db doc.userId doc.date).1 hnone
  intro a ha hb
  simp only [List.map_cons, List.map_nil, List.mem_singleton] at hb
  subst hb
  exact this ha

/-- The three ways in which a call leaves the store. -/
theorem run_cases (env : JsDate) (db : Store) (c : Call) :
    c.run env db = db ∨
    (∃ userId date slots s, c.key env = some (userId, date) ∧
        findSchedule db userId date = some s ∧
        c.run env db = ChallengeModel.modifyFirst
          (fun s => s.userId == userId && s.date == date)
          (fun s => { s with timeSlots := slots }) db) ∨
    (∃ doc, c.key env = some (doc.userId, doc.date) ∧
        findSchedule db doc.userId doc.date = none ∧ c.run env db = db ++ [doc]) := by
  cases c with
  | getDailySchedule newId userId dateParam =>
    cases hp : env.parseDate dateParam with
    | none => left; simp only [Call.run, getDailySchedule, hp]
    | some ms =>
      cases hf : findSchedule db userId (env.startOfDay ms) with
      | some s => left; simp only [Call.run, getDailySchedule, hp, hf]
      | none =>
        refine Or.inr (Or.inr ⟨⟨newId, userId, env.startOfDay ms, []⟩, ?_, hf, ?_⟩)
        · simp only [Call.key, hp, Option.map_some']
        · simp only [Call.run, getDailySchedule, hp, hf,
            insertSchedule_of_none db ⟨newId, userId, env.startOfDay ms, []⟩ hf]
  | updateDailySchedule now newId newIds userId dateParam timeSlots =>
    cases hp : env.parseDate dateParam with
    | none => left; simp only [Call.run, updateDailySchedule, hp]
    | some ms =>
      cases timeSlots with
      | none => left; simp only [Call.run, updateDailySchedule, hp]
      | some timeSlots =>
        cases hc : timeSlots.forM (checkSlot env) with
        | error e => left; simp only [Call.run, updateDailySchedule, hp, hc]
        | ok u =>
          cases ht : toTimeSlots now newIds 0 timeSlots with
          | error e => left; simp only [Call.run, updateDailySchedule, hp, hc, ht]
          | ok slots =>
            cases hv : slots.forM validateTimeSlot with
            | error e => left; simp only [Call.run, updateDailySchedule, hp, hc, ht, hv]
            | ok u =>
              cases hf : findSchedule db userId (env.startOfDay ms) with
              | some s =>
                refine Or.inr (Or.inl ⟨userId, env.startOfDay ms, slots, s, ?_, hf, ?_⟩)
                · simp only [Call.key, hp, Option.map_some']
                · simp only [Call.run, updateDailySchedule, hp, hc, ht, hv, hf]
              | none =>
                refine Or.inr (Or.inr
                  ⟨⟨newId, userId, env.startOfDay ms, slots⟩, ?_, hf, ?_⟩)
                · simp only [Call.key, hp, Option.map_some']
                · simp only [Call.run, updateDailySchedule, hp, hc, ht, hv, hf,
                    insertSchedule_of_none db ⟨newId, userId, env.startOfDay ms, slots⟩ hf]

/-- One call keeps the pairs distinct. -/
theorem run_unique (env : JsDate) (db : Store) (c : Call) (h : UniquePerDay db) :
    UniquePerDay (c.run env db) := by
  rcases run_cases env db c with h0 | ⟨_, _, slots, _, _, _, h1⟩ | ⟨doc, _, hnone, h2⟩
  · rw [h0]; exact h
  · rw [h1]
    unfold UniquePerDay
    rw [ChallengeModel.map_modifyFirst _ (fun s => { s with timeSlots := slots }) scheduleKey
      (fun _ => rfl)]
    exact h
  · rw [h2]
    exact unique_append db doc h hnone

/-- A sequence of calls keeps the pairs distinct. -/
theorem runAll_unique (env : JsDate) (calls : List Call) :
    ∀ db : Store, UniquePerDay db → UniquePerDay (runAll env db calls) := by
  induction calls with
  | nil => intro db h; exact h
  | cons c rest ih =>
    intro db h
    exact ih _ (run_unique env db c h)

/-- The query finds in `db ++ [doc]` the appended document when it found nothing in `db`. -/
theorem findSchedule_append (db : Store) (doc : DailySchedule)
    (h : findSchedule db doc.userId doc.date = none) :
    findSchedule (db ++ [doc]) doc.userId doc.date = some doc := by
  unfold findSchedule at *
  rw [List.find?_append, h]
  simp

/-- C20. Starting from the empty store, and from any store with at most one schedule per
pair (userId, start-of-day date), every finite sequence of `getDailySchedule` and
`updateDailySchedule` calls leaves at most one schedule per pair; a call for a user and day
that already has a schedule leaves the list of stored pairs as it was, so no second
schedule is created; and `getDailySchedule` for a valid date string succeeds, and called
again for the same user and day (by any date string of that day) returns the same schedule
and leaves the store as the first call left it. -/
theorem dailySchedule_unique_per_day (env : JsDate) (db : Store) (calls : List Call)
    (h : UniquePerDay db) :
    UniquePerDay (runAll env [] calls) ∧
    UniquePerDay (runAll env db calls) ∧
    (∀ (c : Call) (userId : String) (date : Int) (s : DailySchedule),
        c.key env = some (userId, date) → findSchedule db userId date = some s →
        (c.run env db).map scheduleKey = db.map scheduleKey ∧
        (c.run env db).length = db.length) ∧
    (∀ (newId newId' userId dateParam dateParam' : String) (ms ms' : Int),
        env.parseDate dateParam = some ms → env.parseDate dateParam' = some ms' →
        env.startOfDay ms' = env.startOfDay ms →
        ∃ s, (getDailySchedule env db newId userId dateParam).result = .ok s ∧
          s.userId = userId ∧ s.date = env.startOfDay ms ∧
          getDailySchedule env (getDailySchedule env db newId userId dateParam).db newId'
              userId dateParam'
            = ⟨(getDailySchedule env db newId userId dateParam).db, .ok s⟩) := by
  refine ⟨runAll_unique env calls [] List.nodup_nil, runAll_unique env calls db h, ?_, ?_⟩
  · intro c userId date s hk hf
    have hmap : (c.run env db).map scheduleKey = db.map scheduleKey := by
      rcases run_cases env db c with h0 | ⟨_, _, slots, _, _, _, h1⟩ | ⟨doc, hk', hnone, _⟩
      · rw [h0]
      · rw [h1]
        exact ChallengeModel.map_modifyFirst _ (fun s => { s with timeSlots := slots })
          scheduleKey (fun _ => rfl) db
      · rw [hk] at hk'
        simp only [Option.some.injEq, Prod.mk.injEq] at hk'
        rw [← hk'.1, ← hk'.2, hf] at hnone
        cases hnone
    refine ⟨hmap, ?_⟩
    have := congrArg List.length hmap
    simpa using this
  · intro newId newId' userId dateParam dateParam' ms ms' hp hp' hday
    cases hf : findSchedule db userId (env.startOfDay ms) with
    | some s =>
      obtain ⟨_, hu, hd⟩ := findSchedule_some db userId _ s hf
      refine ⟨s, ?_, hu, hd, ?_⟩
      · simp only [getDailySchedule, hp, hf]
      · simp only [getDailySchedule, hp, hp', hday, hf]
    | none =>
      have hins := insertSchedule_of_none db ⟨newId, userId, env.startOfDay ms, []⟩ hf
      have hfound := findSchedule_append db ⟨newId, userId, env.startOfDay ms, []⟩ hf
      refine ⟨⟨newId, userId, env.startOfDay ms, []⟩, ?_, rfl, rfl, ?_⟩
      · simp only [getDailySchedule, hp, hf, hins]
      · simp only [getDailySchedule, hp, hp', hday, hf, hins, hfound]

/-- C20 (witness). The statement at the example date functions, the store that the
example calls build from the empty store, and those calls made once more. -/
theorem dailySchedule_unique_per_day_witness :
    runAll exJsDate [] exCalls = exAfterCalls ∧
    UniquePerDay exAfterCalls ∧
    UniquePerDay (runAll exJsDate [] exCalls) ∧
    UniquePerDay (runAll exJsDate exAfterCalls exCalls) ∧
    (Call.run exJsDate exAfterCalls
        (.updateDailySchedule 1736940000000 "64b7f0c2a1d3e4f5a6b7c8a8" exSlotIds "u1"
          "2025-01-15" (some []))).map scheduleKey = exAfterCalls.map scheduleKey ∧
    (∃ s, (getDailySchedule exJsDate exAfterCalls "64b7f0c2a1d3e4f5a6b7c8a8" "u2"
          "2025-01-16").result = .ok s ∧
      s.userId = "u2" ∧ s.date = exJsDate.startOfDay 1736985600000 ∧
      getDailySchedule exJsDate
          (getDailySchedule exJsDate exAfterCalls "64b7f0c2a1d3e4f5a6b7c8a8" "u2"
            "2025-01-16").db "64b7f0c2a1d3e4f5a6b7c8a9" "u2" "2025-01-16"
        = ⟨(getDailySchedule exJsDate exAfterCalls "64b7f0c2a1d3e4f5a6b7c8a8" "u2"
            "2025-01-16").db, .ok s⟩) :=
  ⟨by decide, by decide,
   (dailySchedule_unique_per_day exJsDate exAfterCalls exCalls (by decide)).1,
   (dailySchedule_unique_per_day exJsDate exAfterCalls exCalls (by decide)).2.1,
   ((dailySchedule_unique_per_day exJsDate exAfterCalls exCalls (by decide)).2.2.1
      (.updateDailySchedule 1736940000000 "64b7f0c2a1d3e4f5a6b7c8a8" exSlotIds "u1"
        "2025-01-15" (some []))
      "u1" 1736899200000 _ (by rfl) (by rfl)).1,
   (dailySchedule_unique_per_day exJsDate exAfterCalls exCalls (by decide)).2.2.2
      "64b7f0c2a1d3e4f5a6b7c8a8" "64b7f0c2a1d3e4f5a6b7c8a9" "u2" "2025-01-16" "2025-01-16"
      1736985600000 1736985600000 (by rfl) (by rfl) rfl⟩

/-! #### Replacing the slots of a day -/

/-- The fields of the slot that `toTimeSlot` builds. -/
theorem toTimeSlot_ok (now : Int) (newId : String) (slot : SlotInput) (s : TimeSlot)
    (h : toTimeSlot now newId slot = .ok s) :
    castOr "startTime" "" slot.startTime = .ok s.startTime ∧
    castOr "endTime" "" slot.endTime = .ok s.endTime ∧
    (∃ d, castOr "description" "" slot.description = .ok d ∧ s.description = jsTrim d) ∧
    castOr "status" "pending" slot.status = .ok s.status := by
  unfold toTimeSlot at h
  split at h
  · rename_i id startTime endTime description status category h1 h2 h3 h4 h5 h6
    cases h
    exact ⟨h2, h3, ⟨description, h4, rfl⟩, h5⟩
  all_goals cases h

/-- A truthy value that `castOr` accepts is cast to the result. -/
theorem castOr_truthy (path fallback : String) (x : JsVal) (r : String)
    (h : castOr path fallback x = .ok r) (ht : x.truthy = true) : castString x = some r := by
  unfold castOr at h
  rw [ht] at h
  simp only [if_true] at h
  split at h
  · cases h; assumption
  · cases h

/-- A falsy value is replaced by the fallback. -/
theorem castOr_falsy (path fallback : String) (x : JsVal) (r : String)
    (h : castOr path fallback x = .ok r) (ht : x.truthy = false) : r = fallback := by
  unfold castOr at h
  rw [ht] at h
  simp only [Bool.false_eq_true, if_false] at h
  cases h
  rfl

/-- The list that `toTimeSlots` builds has one slot per element, in order. -/
theorem toTimeSlots_ok (now : Int) (newIds : Nat → String) :
    ∀ (l : List (Option SlotInput)) (k : Nat) (ss : List TimeSlot),
      toTimeSlots now newIds k l = .ok ss →
      ss.length = l.length ∧
      ∀ (i : Nat) (stored : TimeSlot), ss[i]? = some stored →
        ∃ slot, l[i]? = some (some slot) ∧ toTimeSlot now (newIds (k + i)) slot = .ok stored := by
  intro l
  induction l with
  | nil =>
    intro k ss h
    simp only [toTimeSlots] at h
    cases h
    exact ⟨rfl, by intro i stored hi; simp at hi⟩
  | cons o rest ih =>
    intro k ss h
    cases o with
    | none => simp only [toTimeSlots] at h; cases h
    | some slot =>
      simp only [toTimeSlots] at h
      cases h1 : toTimeSlot now (newIds k) slot with
      | error e => rw [h1] at h; cases h
      | ok s =>
        rw [h1] at h
        cases h2 : toTimeSlots now newIds (k + 1) rest with
        | error e => rw [h2] at h; cases h
        | ok ss' =>
          rw [h2] at h
          cases h
          obtain ⟨hlen, hidx⟩ := ih (k + 1) ss' h2
          refine ⟨by simp [hlen], ?_⟩
          intro i stored hi
          cases i with
          | zero =>
            simp only [List.getElem?_cons_zero, Option.some.injEq] at hi
            subst hi
            exact ⟨slot, by simp, by simpa using h1⟩
          | succ j =>
            simp only [List.getElem?_cons_succ] at hi
            obtain ⟨slot', hs, ht⟩ := hidx j stored hi
            refine ⟨slot', by simpa using hs, ?_⟩
            have : k + (j + 1) = k + 1 + j := by omega
            rw [this]
            exact ht

/-- The query finds the rewritten document after `modifyFirst`. -/
theorem findSchedule_modifyFirst (db : Store) (userId : String) (date : Int)
    (old : DailySchedule) (slots : List TimeSlot)
    (h : findSchedule db userId date = some old) :
    findSchedule
      (ChallengeModel.modifyFirst (fun s => s.userId == userId && s.date == date)
        (fun s => { s with timeSlots := slots }) db) userId date
      = some { old with timeSlots := slots } := by
  unfold findSchedule at *
  obtain ⟨pre, post, hdb, hpre, hmod⟩ :=
    ChallengeModel.modifyFirst_of_find?
      (fun s : DailySchedule => s.userId == userId && s.date == date)
      (fun s => { s with timeSlots := slots }) db old h
  have hold := List.find?_some h
  rw [hmod, List.find?_append]
  have hnone : List.find? (fun s : DailySchedule => s.userId == userId && s.date == date) pre
      = none := by
    rw [List.find?_eq_none]
    intro x hx
    simp [hpre x hx]
  rw [hnone]
  simp only [Option.none_or, List.find?_cons]
  simp only [hold]

/-- What a successful `updateDailySchedule` did. -/
theorem updateDailySchedule_ok (env : JsDate) (db : Store) (now : Int) (newId : String)
    (newIds : Nat → String) (userId dateParam : String)
    (timeSlots : List (Option SlotInput)) (ms : Int) (schedule : DailySchedule)
    (hp : env.parseDate dateParam = some ms)
    (h : (updateDailySchedule env db now newId newIds userId dateParam (some timeSlots)).result
      = .ok schedule) :
    timeSlots.forM (checkSlot env) = .ok () ∧
    toTimeSlots now newIds 0 timeSlots = .ok schedule.timeSlots ∧
    schedule.timeSlots.forM validateTimeSlot = .ok () ∧
    schedule.userId = userId ∧ schedule.date = env.startOfDay ms ∧
    findSchedule
      (updateDailySchedule env db now newId newIds userId dateParam (some timeSlots)).db
      userId (env.startOfDay ms) = some schedule := by
  cases hc : timeSlots.forM (checkSlot env) with
  | error e => simp only [updateDailySchedule, hp, hc] at h; cases h
  | ok u =>
    cases ht : toTimeSlots now newIds 0 timeSlots with
    | error e => simp only [updateDailySchedule, hp, hc, ht] at h; cases h
    | ok slots =>
      cases hv : slots.forM validateTimeSlot with
      | error e => simp only [updateDailySchedule, hp, hc, ht, hv] at h; cases h
      | ok u' =>
        cases hf : findSchedule db userId (env.startOfDay ms) with
        | some old =>
          have hdb : (updateDailySchedule env db now newId newIds userId dateParam
              (some timeSlots)).db
              = ChallengeModel.modifyFirst
                  (fun s => s.userId == userId && s.date == env.startOfDay ms)
                  (fun s => { s with timeSlots := slots }) db := by
            simp only [updateDailySchedule, hp, hc, ht, hv, hf]
          simp only [updateDailySchedule, hp, hc, ht, hv, hf] at h
          cases h
          obtain ⟨_, hu, hd⟩ := findSchedule_some db userId _ old hf
          refine ⟨rfl, rfl, hv, hu, hd, ?_⟩
          rw [hdb]
          exact findSchedule_modifyFirst db userId _ old slots hf
        | none =>
          have hins := insertSchedule_of_none db ⟨newId, userId, env.startOfDay ms, slots⟩ hf
          have hdb : (updateDailySchedule env db now newId newIds userId dateParam
              (some timeSlots)).db = db ++ [⟨newId, userId, env.startOfDay ms, slots⟩] := by
            simp only [updateDailySchedule, hp, hc, ht, hv, hf, hins]
          simp only [updateDailySchedule, hp, hc, ht, hv, hf, hins] at h
          cases h
          refine ⟨rfl, rfl, hv, rfl, rfl, ?_⟩
          rw [hdb]
          exact findSchedule_append db ⟨newId, userId, env.startOfDay ms, slots⟩ hf

/-- The checks that an accepted element passed. -/
theorem checkSlot_ok (env : JsDate) (slot : SlotInput)
    (h : checkSlot env (some slot) = .ok ()) :
    slot.startTime.truthy = true ∧ slot.endTime.truthy = true ∧
    ∃ a b, timeOf env slot.startTime = some a ∧ timeOf env slot.endTime = some b ∧ a < b := by
  simp only [checkSlot] at h
  by_cases hn : (!slot.startTime.truthy || !slot.endTime.truthy) = true
  · rw [if_pos hn] at h; cases h
  · rw [if_neg hn] at h
    simp only [Bool.or_eq_true, Bool.not_eq_true', not_or, Bool.not_eq_false] at hn
    cases ha : timeOf env slot.startTime with
    | none => simp only [ha] at h; cases h
    | some a =>
      cases hb : timeOf env slot.endTime with
      | none => simp only [ha, hb] at h; cases h
      | some b =>
        simp only [ha, hb] at h
        by_cases hlt : a ≥ b
        · rw [if_pos hlt] at h; cases h
        · exact ⟨hn.1, hn.2, a, b, rfl, rfl, by omega⟩

/-- C21 (counterexample). A request whose only slot has the description " Read " succeeds
and stores the description "Read": the stored description is not the submitted one. -/
theorem updateDailySchedule_trims_description :
    exUntrimmedInput.description = .str " Read " ∧
    (updateDailySchedule exJsDate [] 1736940000000 "64b7f0c2a1d3e4f5a6b7c8a1" exSlotIds "u1"
        "2025-01-15" (some [some exUntrimmedInput])).result
      = .ok ⟨"64b7f0c2a1d3e4f5a6b7c8a1", "u1", 1736899200000, [exSlot]⟩ ∧
    exSlot.description = "Read" ∧ exSlot.description ≠ " Read " := by
  refine ⟨by rfl, by rfl, by rfl, by decide⟩

/-- C21 (amended). After a successful `updateDailySchedule` with a list of n slots, for
every user and day, whether or not a schedule already existed and whatever slots it held,
the stored schedule of that user and day has exactly the slots built from the request
alone: n entries, in the submitted order, each with the submitted `startTime` and
`endTime`, the description (`slot.description || ''`) with leading and trailing whitespace
removed, and the submitted status, 'pending' when it is absent or falsy. -/
theorem updateDailySchedule_replaces_slots (env : JsDate) (db : Store) (now : Int)
    (newId : String) (newIds : Nat → String) (userId dateParam : String)
    (timeSlots : List (Option SlotInput)) (ms : Int) (schedule : DailySchedule)
    (hp : env.parseDate dateParam = some ms)
    (h : (updateDailySchedule env db now newId newIds userId dateParam (some timeSlots)).result
      = .ok schedule) :
    findSchedule
      (updateDailySchedule env db now newId newIds userId dateParam (some timeSlots)).db
      userId (env.startOfDay ms) = some schedule ∧
    toTimeSlots now newIds 0 timeSlots = .ok schedule.timeSlots ∧
    schedule.timeSlots.length = timeSlots.length ∧
    (∀ (i : Nat) (stored : TimeSlot), schedule.timeSlots[i]? = some stored →
      ∃ slot, timeSlots[i]? = some (some slot) ∧
        castString slot.startTime = some stored.startTime ∧
        castString slot.endTime = some stored.endTime ∧
        (∃ d, castOr "description" "" slot.description = .ok d ∧
          stored.description = jsTrim d) ∧
        (slot.status.truthy = true → castString slot.status = some stored.status) ∧
        (slot.status.truthy = false → stored.status = "pending")) := by
  obtain ⟨hc, ht, _, _, _, hfind⟩ :=
    updateDailySchedule_ok env db now newId newIds userId dateParam timeSlots ms schedule hp h
  obtain ⟨hlen, hidx⟩ := toTimeSlots_ok now newIds timeSlots 0 schedule.timeSlots ht
  refine ⟨hfind, ht, hlen, ?_⟩
  intro i stored hi
  obtain ⟨slot, hs, hto⟩ := hidx i stored hi
  obtain ⟨h1, h2, h3, h4⟩ := toTimeSlot_ok now _ slot stored hto
  have hmem : some slot ∈ timeSlots := List.getElem?_mem hs
  have hcheck := (forM_ok_iff (checkSlot env) timeSlots).1 hc (some slot) hmem
  obtain ⟨hst, hen, _⟩ := checkSlot_ok env slot hcheck
  exact ⟨slot, hs, castOr_truthy _ _ _ _ h1 hst, castOr_truthy _ _ _ _ h2 hen, h3,
    fun htr => castOr_truthy _ _ _ _ h4 htr, fun hfa => castOr_falsy _ _ _ _ h4 hfa⟩

/-- C21 (witness). User `u1` has a schedule with one slot on 2025-01-15 and submits two
other slots: the stored schedule then holds exactly these two. -/
theorem updateDailySchedule_replaces_slots_witness :
    findSchedule exOldStore "u1" 1736899200000
      = some ⟨"64b7f0c2a1d3e4f5a6b7c8a1", "u1", 1736899200000, [exOldSlot]⟩ ∧
    findSchedule
      (updateDailySchedule exJsDate exOldStore 1736940000000 "64b7f0c2a1d3e4f5a6b7c8a8"
        exSlotIds "u1" "2025-01-15" (some [some exUntrimmedInput, some exSecondInput])).db
      "u1" (exJsDate.startOfDay 1736899200000)
      = some ⟨"64b7f0c2a1d3e4f5a6b7c8a1", "u1", 1736899200000, [exSlot, exSecondSlot]⟩ ∧
    toTimeSlots 1736940000000 exSlotIds 0 [some exUntrimmedInput, some exSecondInput]
      = .ok [exSlot, exSecondSlot] ∧
    [exSlot, exSecondSlot].length = [some exUntrimmedInput, some exSecondInput].length :=
  ⟨by rfl,
   (updateDailySchedule_replaces_slots exJsDate exOldStore 1736940000000
      "64b7f0c2a1d3e4f5a6b7c8a8" exSlotIds "u1" "2025-01-15"
      [some exUntrimmedInput, some exSecondInput] 1736899200000
      ⟨"64b7f0c2a1d3e4f5a6b7c8a1", "u1", 1736899200000, [exSlot, exSecondSlot]⟩
      (by rfl) (by rfl)).1,
   (updateDailySchedule_replaces_slots exJsDate exOldStore 1736940000000
      "64b7f0c2a1d3e4f5a6b7c8a8" exSlotIds "u1" "2025-01-15"
      [some exUntrimmedInput, some exSecondInput] 1736899200000
      ⟨"64b7f0c2a1d3e4f5a6b7c8a1", "u1", 1736899200000, [exSlot, exSecondSlot]⟩
      (by rfl) (by rfl)).2.1,
   (updateDailySchedule_replaces_slots exJsDate exOldStore 1736940000000
      "64b7f0c2a1d3e4f5a6b7c8a8" exSlotIds "u1" "2025-01-15"
      [some exUntrimmedInput, some exSecondInput] 1736899200000
      ⟨"64b7f0c2a1d3e4f5a6b7c8a1", "u1", 1736899200000, [exSlot, exSecondSlot]⟩
      (by rfl) (by rfl)).2.2.1⟩

/-! #### Range checks of the slots -/

/-- A request that does not succeed leaves the store as it was. -/
theorem updateDailySchedule_cases (env : JsDate) (db : Store) (now : Int) (newId : String)
    (newIds : Nat → String) (userId dateParam : String)
    (timeSlots : Option (List (Option SlotInput))) :
    (∃ e, (updateDailySchedule env db now newId newIds userId dateParam timeSlots).result
        = .error e ∧
      (updateDailySchedule env db now newId newIds userId dateParam timeSlots).db = db) ∨
    (∃ ms l schedule, env.parseDate dateParam = some ms ∧ timeSlots = some l ∧
      (updateDailySchedule env db now newId newIds userId dateParam timeSlots).result
        = .ok schedule) := by
  cases hp : env.parseDate dateParam with
  | none => left; exact ⟨_, by simp only [updateDailySchedule, hp]; rfl, by
      simp only [updateDailySchedule, hp]⟩
  | some ms =>
    cases timeSlots with
    | none => left; exact ⟨_, by simp only [updateDailySchedule, hp]; rfl, by
        simp only [updateDailySchedule, hp]⟩
    | some l =>
      cases hc : l.forM (checkSlot env) with
      | error e => left; exact ⟨_, by simp only [updateDailySchedule, hp, hc]; rfl, by
          simp only [updateDailySchedule, hp, hc]⟩
      | ok u =>
        cases ht : toTimeSlots now newIds 0 l with
        | error e => left; exact ⟨_, by simp only [updateDailySchedule, hp, hc, ht]; rfl, by
            simp only [updateDailySchedule, hp, hc, ht]⟩
        | ok slots =>
          cases hv : slots.forM validateTimeSlot with
          | error e => left; exact ⟨_, by simp only [updateDailySchedule, hp, hc, ht, hv]; rfl, by
              simp only [updateDailySchedule, hp, hc, ht, hv]⟩
          | ok u' =>
            right
            cases hf : findSchedule db userId (env.startOfDay ms) with
            | some old =>
              exact ⟨ms, l, _, rfl, rfl, by
                simp only [updateDailySchedule, hp, hc, ht, hv, hf]; rfl⟩
            | none =>
              have hins :=
                insertSchedule_of_none db ⟨newId, userId, env.startOfDay ms, slots⟩ hf
              exact ⟨ms, l, _, rfl, rfl, by
                simp only [updateDailySchedule, hp, hc, ht, hv, hf, hins]; rfl⟩

/-- The end of a slot that passes the schema validators is after its start, as strings. -/
theorem validateTimeSlot_ok (slot : TimeSlot) (h : validateTimeSlot slot = .ok ()) :
    matchesHHMM slot.startTime = true ∧ endAfterStart slot = true ∧
    slot.description ≠ "" := by
  unfold validateTimeSlot at h
  split at h
  · cases h
  split at h
  · cases h
  rename_i _ h2
  split at h
  · cases h
  split at h
  · cases h
  rename_i _ h4
  split at h
  · cases h
  rename_i h5
  refine ⟨by simpa using h2, by simpa using h4, ?_⟩
  intro hd
  exact h5 (by simp [hd])

/-- The comparison of strings is asymmetric. -/
theorem charsLt_asymm : ∀ (a b : List Char), charsLt a b = true → charsLt b a = false := by
  intro a
  induction a with
  | nil =>
    intro b _
    cases b <;> rfl
  | cons x xs ih =>
    intro b h
    cases b with
    | nil => simp [charsLt] at h
    | cons y ys =>
      simp only [charsLt, Bool.or_eq_true, decide_eq_true_eq, Bool.and_eq_true,
        beq_iff_eq] at h
      simp only [charsLt, Bool.or_eq_false_iff, decide_eq_false_iff_not, Nat.not_lt,
        Bool.and_eq_false_imp, beq_iff_eq]
      rcases h with h | ⟨rfl, h⟩
      · refine ⟨by omega, ?_⟩
        intro hxy
        subst hxy
        omega
      · exact ⟨Nat.le_refl _, fun _ => ih ys h⟩

/-- Every element of an accepted request has its stored slot. -/
theorem toTimeSlots_mem (now : Int) (newIds : Nat → String) (l : List (Option SlotInput))
    (ss : List TimeSlot) (slot : SlotInput) (h : toTimeSlots now newIds 0 l = .ok ss)
    (hmem : some slot ∈ l) :
    ∃ stored newId, stored ∈ ss ∧ toTimeSlot now newId slot = .ok stored := by
  obtain ⟨hlen, hidx⟩ := toTimeSlots_ok now newIds l 0 ss h
  obtain ⟨i, hi, hget⟩ := List.getElem_of_mem hmem
  have hi' : i < ss.length := by omega
  obtain ⟨slot', hs, hto⟩ := hidx i ss[i] (List.getElem?_eq_getElem hi')
  rw [List.getElem?_eq_getElem hi, hget] at hs
  cases hs
  exact ⟨ss[i], _, List.getElem_mem hi', hto⟩

/-- C22. For every `updateDailySchedule` request whose `timeSlots` is an array: if one of
its slots lacks `startTime` or `endTime`, or has an `endTime` that is not strictly after its
`startTime` (as instants, which is the check of the controller, or as strings, which is the
check of the schema; equal times included), the request fails and the store is unchanged;
and every slot of a schedule that a successful request stored has its start strictly
before its end, both as instants and as strings, so `startTime <= endTime`. -/
theorem updateDailySchedule_range_checked (env : JsDate) (db : Store) (now : Int)
    (newId : String) (newIds : Nat → String) (userId dateParam : String)
    (timeSlots : List (Option SlotInput)) (slot : SlotInput)
    (hmem : some slot ∈ timeSlots)
    (hbad : slot.startTime.truthy = false ∨ slot.endTime.truthy = false ∨
      (∃ a b, timeOf env slot.startTime = some a ∧ timeOf env slot.endTime = some b ∧ b ≤ a) ∨
      (∃ st en, castString slot.startTime = some st ∧ castString slot.endTime = some en ∧
        charsLt st.data en.data = false)) :
    ((∃ e, (updateDailySchedule env db now newId newIds userId dateParam
          (some timeSlots)).result = .error e) ∧
      (updateDailySchedule env db now newId newIds userId dateParam (some timeSlots)).db
        = db) ∧
    (∀ (slots : List (Option SlotInput)) (ms : Int) (schedule : DailySchedule),
      env.parseDate dateParam = some ms →
      (updateDailySchedule env db now newId newIds userId dateParam (some slots)).result
        = .ok schedule →
      ∀ stored ∈ schedule.timeSlots,
        charsLt stored.startTime.data stored.endTime.data = true ∧
        charsLt stored.endTime.data stored.startTime.data = false ∧
        ∃ a b, env.parseTime stored.startTime = some a ∧
          env.parseTime stored.endTime = some b ∧ a < b) := by
  constructor
  · rcases updateDailySchedule_cases env db now newId newIds userId dateParam
      (some timeSlots) with ⟨e, he, hdb⟩ | ⟨ms, l, schedule, hp, hl, hok⟩
    · exact ⟨⟨e, he⟩, hdb⟩
    · exfalso
      obtain ⟨hc, ht, hv, _, _, _⟩ :=
        updateDailySchedule_ok env db now newId newIds userId dateParam timeSlots ms
          schedule hp hok
      have hcheck := (forM_ok_iff (checkSlot env) timeSlots).1 hc (some slot) hmem
      obtain ⟨hst, hen, a, b, ha, hb, hlt⟩ := checkSlot_ok env slot hcheck
      rcases hbad with h1 | h1 | ⟨a', b', ha', hb', hle⟩ | ⟨st, en, hs, he, hcmp⟩
      · rw [hst] at h1; cases h1
      · rw [hen] at h1; cases h1
      · rw [ha] at ha'; rw [hb] at hb'
        cases ha'; cases hb'
        omega
      · obtain ⟨stored, id, hin, hto⟩ :=
          toTimeSlots_mem now newIds timeSlots schedule.timeSlots slot ht hmem
        obtain ⟨h1, h2, _, _⟩ := toTimeSlot_ok now id slot stored hto
        have e1 := castOr_truthy _ _ _ _ h1 hst
        have e2 := castOr_truthy _ _ _ _ h2 hen
        rw [hs] at e1; rw [he] at e2
        cases e1; cases e2
        have hval := (forM_ok_iff validateTimeSlot schedule.timeSlots).1 hv stored hin
        have := (validateTimeSlot_ok stored hval).2.1
        unfold endAfterStart at this
        rw [hcmp] at this
        cases this
  · intro slots ms schedule hp hok stored hin
    obtain ⟨hc, ht, hv, _, _, _⟩ :=
      updateDailySchedule_ok env db now newId newIds userId dateParam slots ms schedule hp hok
    have hval := (forM_ok_iff validateTimeSlot schedule.timeSlots).1 hv stored hin
    have hlt := (validateTimeSlot_ok stored hval).2.1
    unfold endAfterStart at hlt
    refine ⟨hlt, charsLt_asymm _ _ hlt, ?_⟩
    obtain ⟨i, hi, hget⟩ := List.getElem_of_mem hin
    obtain ⟨_, hidx⟩ := toTimeSlots_ok now newIds slots 0 schedule.timeSlots ht
    obtain ⟨input, hs, hto⟩ := hidx i stored (by rw [List.getElem?_eq_getElem hi, hget])
    have hcheck := (forM_ok_iff (checkSlot env) slots).1 hc (some input)
      (List.getElem?_mem hs)
    obtain ⟨hst, hen, a, b, ha, hb, hab⟩ := checkSlot_ok env input hcheck
    obtain ⟨h1, h2, _, _⟩ := toTimeSlot_ok now _ input stored hto
    have e1 := castOr_truthy _ _ _ _ h1 hst
    have e2 := castOr_truthy _ _ _ _ h2 hen
    simp only [timeOf, e1] at ha
    simp only [timeOf, e2] at hb
    exact ⟨a, b, ha, hb, hab⟩

/-- C22 (witness). A request of `u1` for 2025-01-15 whose second slot ends when it starts
fails and leaves the stored schedule of that day as it was. -/
theorem updateDailySchedule_range_checked_witness :
    (∃ e, (updateDailySchedule exJsDate exOldStore 1736940000000 "64b7f0c2a1d3e4f5a6b7c8a8"
        exSlotIds "u1" "2025-01-15"
        (some [some exSlotInput, some exEmptyRangeInput])).result = .error e) ∧
    (updateDailySchedule exJsDate exOldStore 1736940000000 "64b7f0c2a1d3e4f5a6b7c8a8"
        exSlotIds "u1" "2025-01-15" (some [some exSlotInput, some exEmptyRangeInput])).db
      = exOldStore :=
  (updateDailySchedule_range_checked exJsDate exOldStore 1736940000000
    "64b7f0c2a1d3e4f5a6b7c8a8" exSlotIds "u1" "2025-01-15"
    [some exSlotInput, some exEmptyRangeInput] exEmptyRangeInput (by decide)
    (Or.inr (Or.inr (Or.inl ⟨946720800000, 946720800000, by rfl, by rfl, by decide⟩)))).1

/-! #### Ids of the slots -/

/-- The id of a built slot is the supplied one, as an `ObjectId`, or else the minted one. -/
theorem toTimeSlot_id (now : Int) (newId : String) (slot : SlotInput) (s : TimeSlot)
    (h : toTimeSlot now newId slot = .ok s) : s._id = (suppliedId slot).getD newId := by
  unfold toTimeSlot at h
  split at h
  · rename_i id startTime endTime description status category h1 h2 h3 h4 h5 h6
    cases h
    simp only
    unfold suppliedId
    cases hid : slot._id with
    | none =>
      rw [hid] at h1
      simp only [Except.ok.injEq] at h1
      simp [h1]
    | some x =>
      rw [hid] at h1
      simp only at h1
      by_cases hx : (x == "") = true
      · rw [if_pos hx] at h1
        simp only [Except.ok.injEq] at h1
        simp [hx, h1]
      · rw [if_neg hx] at h1
        cases hc : castObjectId x with
        | none =>
          rw [hc] at h1
          cases h1
        | some objectId =>
          rw [hc] at h1
          simp only [Except.ok.injEq] at h1
          subst h1
          simp only [beq_iff_eq] at hx
          simp [hx, hc]
  all_goals cases h

/-- The ids of the built slots are supplied ids or minted ids of later positions, and
they are pairwise distinct when the supplied ones are and no minted id is a supplied one. -/
theorem toTimeSlots_ids (now : Int) (newIds : Nat → String) (n : Nat)
    (hinj : ∀ i, i < n → ∀ j, j < n → newIds i = newIds j → i = j) :
    ∀ (l : List (Option SlotInput)) (k : Nat) (ss : List TimeSlot), k + l.length ≤ n →
      toTimeSlots now newIds k l = .ok ss →
      (∀ x ∈ ss.map (fun s => s._id),
        x ∈ suppliedIds l ∨ ∃ j, k ≤ j ∧ j < n ∧ x = newIds j) ∧
      ((suppliedIds l).Nodup → (∀ j, j < n → newIds j ∉ suppliedIds l) →
        (ss.map (fun s => s._id)).Nodup) := by
  intro l
  induction l with
  | nil =>
    intro k ss _ h
    simp only [toTimeSlots] at h
    cases h
    exact ⟨by simp, fun _ _ => List.nodup_nil⟩
  | cons o rest ih =>
    intro k ss hk h
    simp only [List.length_cons] at hk
    cases o with
    | none => simp only [toTimeSlots] at h; cases h
    | some slot =>
      simp only [toTimeSlots] at h
      cases h1 : toTimeSlot now (newIds k) slot with
      | error e => rw [h1] at h; cases h
      | ok s =>
        rw [h1] at h
        cases h2 : toTimeSlots now newIds (k + 1) rest with
        | error e => rw [h2] at h; cases h
        | ok ss' =>
          rw [h2] at h
          cases h
          obtain ⟨hmem, hnodup⟩ := ih (k + 1) ss' (by omega) h2
          have hid := toTimeSlot_id now (newIds k) slot s h1
          cases hsup : suppliedId slot with
          | none =>
            have hsids : suppliedIds (some slot :: rest) = suppliedIds rest := by
              simp [suppliedIds, List.filterMap_cons, hsup]
            rw [hsup] at hid
            simp only [Option.getD_none] at hid
            rw [hsids]
            constructor
            · intro x hx
              simp only [List.map_cons, List.mem_cons] at hx
              rcases hx with rfl | hx
              · exact Or.inr ⟨k, Nat.le_refl _, by omega, hid⟩
              · rcases hmem x hx with h | ⟨j, hj, hjn, rfl⟩
                · exact Or.inl h
                · exact Or.inr ⟨j, by omega, hjn, rfl⟩
            · intro hnd hfresh
              simp only [List.map_cons, List.nodup_cons]
              refine ⟨?_, hnodup hnd hfresh⟩
              intro hin
              rcases hmem _ hin with h | ⟨j, hj, hjn, hjeq⟩
              · rw [hid] at h
                exact hfresh k (by omega) h
              · rw [hid] at hjeq
                have := hinj k (by omega) j hjn hjeq
                omega
          | some x =>
            have hsids : suppliedIds (some slot :: rest) = x :: suppliedIds rest := by
              simp [suppliedIds, List.filterMap_cons, hsup]
            rw [hsup] at hid
            simp only [Option.getD_some] at hid
            rw [hsids]
            constructor
            · intro y hy
              simp only [List.map_cons, List.mem_cons] at hy
              rcases hy with rfl | hy
              · exact Or.inl (by rw [hid]; exact List.mem_cons_self _ _)
              · rcases hmem y hy with h | ⟨j, hj, hjn, rfl⟩
                · exact Or.inl (List.mem_cons_of_mem _ h)
                · exact Or.inr ⟨j, by omega, hjn, rfl⟩
            · intro hnd hfresh
              simp only [List.nodup_cons] at hnd
              simp only [List.map_cons, List.nodup_cons]
              refine ⟨?_, hnodup hnd.2
                (fun j hjn hj => hfresh j hjn (List.mem_cons_of_mem _ hj))⟩
              intro hin
              rcases hmem _ hin with h | ⟨j, _, hjn, hjeq⟩
              · rw [hid] at h
                exact hnd.1 h
              · rw [hid] at hjeq
                exact hfresh j hjn (by rw [← hjeq]; exact List.mem_cons_self _ _)

/-- C23 (counterexample). A request with two slots that carry the same client-supplied
`_id` succeeds, and the two stored slots have that same `_id`. The same holds of a request
whose two supplied `_id`s differ only in the case of their letters: they are cast to the
same `ObjectId`. -/
theorem updateDailySchedule_stores_duplicate_ids :
    (updateDailySchedule exJsDate [] 1736940000000 "64b7f0c2a1d3e4f5a6b7c8a1" exSlotIds "u1"
        "2025-01-15" (some exSameIdInputs)).result
      = .ok ⟨"64b7f0c2a1d3e4f5a6b7c8a1", "u1", 1736899200000,
          [{ exSlot with _id := "64b7f0c2a1d3e4f5a6b7c9aa" },
           { exSecondSlot with _id := "64b7f0c2a1d3e4f5a6b7c9aa" }]⟩ ∧
    (updateDailySchedule exJsDate [] 1736940000000 "64b7f0c2a1d3e4f5a6b7c8a1" exSlotIds "u1"
        "2025-01-15" (some exCaseIdInputs)).result
      = .ok ⟨"64b7f0c2a1d3e4f5a6b7c8a1", "u1", 1736899200000,
          [{ exSlot with _id := "64b7f0c2a1d3e4f5a6b7c9aa" },
           { exSecondSlot with _id := "64b7f0c2a1d3e4f5a6b7c9aa" }]⟩ ∧
    ¬ ([({ exSlot with _id := "64b7f0c2a1d3e4f5a6b7c9aa" } : TimeSlot),
        { exSecondSlot with _id := "64b7f0c2a1d3e4f5a6b7c9aa" }].map
          (fun s => s._id)).Nodup := by
  refine ⟨by rfl, by rfl, by decide⟩

/-- C23 (amended). For every successful `updateDailySchedule` request whose
client-supplied `_id` values are pairwise distinct as `ObjectId`s (`suppliedIds` gives
each by its cast, which reads the hexadecimal digits without regard to the case of the
letters), the ids minted for its positions being fresh (distinct from each other and from
the supplied ones), the `_id` values of the stored slots are pairwise distinct. -/
theorem updateDailySchedule_distinct_ids (env : JsDate) (db : Store) (now : Int)
    (newId : String) (newIds : Nat → String) (userId dateParam : String)
    (timeSlots : List (Option SlotInput)) (ms : Int) (schedule : DailySchedule)
    (hp : env.parseDate dateParam = some ms)
    (h : (updateDailySchedule env db now newId newIds userId dateParam (some timeSlots)).result
      = .ok schedule)
    (hinj : ∀ i, i < timeSlots.length → ∀ j, j < timeSlots.length →
      newIds i = newIds j → i = j)
    (hfresh : ∀ j, j < timeSlots.length → newIds j ∉ suppliedIds timeSlots)
    (hsupplied : (suppliedIds timeSlots).Nodup) :
    findSchedule
      (updateDailySchedule env db now newId newIds userId dateParam (some timeSlots)).db
      userId (env.startOfDay ms) = some schedule ∧
    (schedule.timeSlots.map (fun s => s._id)).Nodup := by
  obtain ⟨_, ht, _, _, _, hfind⟩ :=
    updateDailySchedule_ok env db now newId newIds userId dateParam timeSlots ms schedule hp h
  exact ⟨hfind,
    (toTimeSlots_ids now newIds timeSlots.length hinj timeSlots 0 schedule.timeSlots
      (by omega) ht).2 hsupplied hfresh⟩

/-- C23 (witness). A request with one slot that carries an `_id` and one that does not. -/
theorem updateDailySchedule_distinct_ids_witness :
    findSchedule
      (updateDailySchedule exJsDate exOldStore 1736940000000 "64b7f0c2a1d3e4f5a6b7c8a8"
        exSlotIds "u1" "2025-01-15" (some exMixedIdInputs)).db
      "u1" (exJsDate.startOfDay 1736899200000)
      = some ⟨"64b7f0c2a1d3e4f5a6b7c8a1", "u1", 1736899200000,
          [{ exSlot with _id := "64b7f0c2a1d3e4f5a6b7c9aa" }, exSecondSlot]⟩ ∧
    ((⟨"64b7f0c2a1d3e4f5a6b7c8a1", "u1", 1736899200000,
        [{ exSlot with _id := "64b7f0c2a1d3e4f5a6b7c9aa" }, exSecondSlot]⟩ :
        DailySchedule).timeSlots.map (fun s => s._id)).Nodup :=
  updateDailySchedule_distinct_ids exJsDate exOldStore 1736940000000
    "64b7f0c2a1d3e4f5a6b7c8a8" exSlotIds "u1" "2025-01-15" exMixedIdInputs 1736899200000
    ⟨"64b7f0c2a1d3e4f5a6b7c8a1", "u1", 1736899200000,
      [{ exSlot with _id := "64b7f0c2a1d3e4f5a6b7c9aa" }, exSecondSlot]⟩
    (by rfl) (by rfl) (by decide) (by decide) (by decide)

/-! #### Status of a slot -/

/-- The filter with the slot id finds the schedule of the user and day when that schedule
holds a slot with the id. -/
theorem find_hasSlot (db : Store) (userId : String) (date : Int) (slotId : String)
    (schedule : DailySchedule) (slot : TimeSlot)
    (hf : findSchedule db userId date = some schedule)
    (hs : schedule.timeSlots.find? (fun slot => slot._id == slotId) = some slot) :
    db.find? (hasSlot userId date slotId) = some schedule := by
  unfold findSchedule at hf
  have hany : schedule.timeSlots.any (fun slot => slot._id == slotId) = true := by
    rw [List.any_eq_true]
    have hp := List.find?_some hs
    exact ⟨slot, List.mem_of_find?_eq_some hs, hp⟩
  induction db with
  | nil => simp at hf
  | cons d rest ih =>
    simp only [List.find?_cons] at hf ⊢
    cases hd : (d.userId == userId && d.date == date) with
    | true =>
      rw [hd] at hf
      simp only [Option.some.injEq] at hf
      subst hf
      simp only [hasSlot, hd, hany, Bool.and_self]
    | false =>
      rw [hd] at hf
      simp only [hasSlot, hd, Bool.false_and]
      exact ih hf

/-- The query finds the rewritten document after `modifyFirst` with the filter that has
the slot id. -/
theorem findSchedule_modifyFirst_hasSlot (db : Store) (userId : String) (date : Int)
    (slotId : String) (schedule : DailySchedule) (f : List TimeSlot → List TimeSlot)
    (hf : findSchedule db userId date = some schedule)
    (hq : db.find? (hasSlot userId date slotId) = some schedule) :
    findSchedule
      (ChallengeModel.modifyFirst (hasSlot userId date slotId)
        (fun s => { s with timeSlots := f s.timeSlots }) db) userId date
      = some { schedule with timeSlots := f schedule.timeSlots } := by
  unfold findSchedule at *
  induction db with
  | nil => simp at hf
  | cons d rest ih =>
    simp only [List.find?_cons] at hf hq
    cases hd : (d.userId == userId && d.date == date) with
    | true =>
      rw [hd] at hf
      simp only [Option.some.injEq] at hf
      subst hf
      cases hh : hasSlot userId date slotId d with
      | true =>
        simp only [ChallengeModel.modifyFirst, hh, if_true, List.find?_cons, hd]
      | false =>
        rw [hh] at hq
        exfalso
        have hmem := List.find?_some hq
        rw [hh] at hmem
        cases hmem
    | false =>
      rw [hd] at hf
      have hh : hasSlot userId date slotId d = false := by
        simp only [hasSlot, hd, Bool.false_and]
      rw [hh] at hq
      simp only [ChallengeModel.modifyFirst, hh, Bool.false_eq_true, if_false,
        List.find?_cons, hd]
      exact ih hf hq

/-- C24. For every stored schedule of a user and day, every slot that a slot id names in
it (the first with that id), whatever its current status, and every target status t among
'pending', 'completed' and 'cancelled': `updateTimeSlotStatus` succeeds, the stored
schedule then has that slot with status t and with the same `startTime`, `endTime` and
description (and `_id`), and all other slots as they were; and for any status value
outside those three the call fails with 400 and the store is unchanged. -/
theorem updateTimeSlotStatus_any_transition (env : JsDate) (db : Store) (now : Int)
    (userId dateParam slotId : String) (ms : Int) (schedule : DailySchedule)
    (slot : TimeSlot) (t : String)
    (hp : env.parseDate dateParam = some ms)
    (hf : findSchedule db userId (env.startOfDay ms) = some schedule)
    (hs : schedule.timeSlots.find? (fun slot => slot._id == slotId) = some slot)
    (hid : objectIdIsValid slotId = true)
    (ht : t = "pending" ∨ t = "completed" ∨ t = "cancelled") :
    (∃ pre post updated,
      schedule.timeSlots = pre ++ slot :: post ∧ (∀ x ∈ pre, x._id ≠ slotId) ∧
      (updateTimeSlotStatus env db now userId dateParam slotId (.str t)).result
        = .ok { schedule with timeSlots := pre ++ updated :: post } ∧
      findSchedule (updateTimeSlotStatus env db now userId dateParam slotId (.str t)).db
        userId (env.startOfDay ms)
        = some { schedule with timeSlots := pre ++ updated :: post } ∧
      updated.status = t ∧ updated._id = slot._id ∧ updated.startTime = slot.startTime ∧
      updated.endTime = slot.endTime ∧ updated.description = slot.description) ∧
    (∀ status : JsVal,
      status ≠ .str "pending" → status ≠ .str "completed" → status ≠ .str "cancelled" →
      updateTimeSlotStatus env db now userId dateParam slotId status
        = ⟨db, .error (.response 400
            "Invalid status. Must be one of: pending, completed, cancelled")⟩) := by
  constructor
  · obtain ⟨pre, post, hsplit, hpre, hmod⟩ :=
      ChallengeModel.modifyFirst_of_find? (fun slot : TimeSlot => slot._id == slotId)
        (setStatus now t) schedule.timeSlots slot hs
    have hq := find_hasSlot db userId _ slotId schedule slot hf hs
    have hguard : (!(JsVal.str t == .str "pending" || JsVal.str t == .str "completed"
        || JsVal.str t == .str "cancelled")) = false := by
      rcases ht with rfl | rfl | rfl <;> decide
    refine ⟨pre, post, setStatus now t slot, hsplit, ?_, ?_, ?_, rfl, rfl, rfl, rfl, rfl⟩
    · intro x hx
      have := hpre x hx
      simpa using this
    · simp only [updateTimeSlotStatus, hguard, Bool.false_eq_true, if_false, hp, castString,
        hid, Bool.not_true, hq, setSlotStatus, hmod]
    · have hdb : (updateTimeSlotStatus env db now userId dateParam slotId (.str t)).db
          = ChallengeModel.modifyFirst (hasSlot userId (env.startOfDay ms) slotId)
              (fun s => { s with timeSlots := setSlotStatus now t slotId s.timeSlots })
              db := by
        simp only [updateTimeSlotStatus, hguard, Bool.false_eq_true, if_false, hp,
          castString, hid, Bool.not_true, hq]
      have hmod' : setSlotStatus now t slotId schedule.timeSlots
          = pre ++ setStatus now t slot :: post := hmod
      rw [hdb, ← hmod']
      exact findSchedule_modifyFirst_hasSlot db userId _ slotId schedule
        (setSlotStatus now t slotId) hf hq
  · intro status h1 h2 h3
    have hguard : (!(status == .str "pending" || status == .str "completed"
        || status == .str "cancelled")) = true := by
      simp [h1, h2, h3]
    simp only [updateTimeSlotStatus, hguard, if_true]

/-- C24 (witness). The completed slot of `u1` on 2025-01-15 is set back to 'pending'. -/
theorem updateTimeSlotStatus_any_transition_witness :
    exOldSlot.status = "completed" ∧
    ∃ pre post updated,
      [exOldSlot] = pre ++ exOldSlot :: post ∧
      (∀ x ∈ pre, x._id ≠ "64b7f0c2a1d3e4f5a6b7c9ff") ∧
      (updateTimeSlotStatus exJsDate exOldStore 1736940000000 "u1" "2025-01-15"
          "64b7f0c2a1d3e4f5a6b7c9ff" (.str "pending")).result
        = .ok ⟨"64b7f0c2a1d3e4f5a6b7c8a1", "u1", 1736899200000, pre ++ updated :: post⟩ ∧
      findSchedule (updateTimeSlotStatus exJsDate exOldStore 1736940000000 "u1" "2025-01-15"
          "64b7f0c2a1d3e4f5a6b7c9ff" (.str "pending")).db "u1"
          (exJsDate.startOfDay 1736899200000)
        = some ⟨"64b7f0c2a1d3e4f5a6b7c8a1", "u1", 1736899200000, pre ++ updated :: post⟩ ∧
      updated.status = "pending" ∧ updated._id = exOldSlot._id ∧
      updated.startTime = exOldSlot.startTime ∧ updated.endTime = exOldSlot.endTime ∧
      updated.description = exOldSlot.description :=
  ⟨by rfl,
   (updateTimeSlotStatus_any_transition exJsDate exOldStore 1736940000000 "u1" "2025-01-15"
      "64b7f0c2a1d3e4f5a6b7c9ff" 1736899200000
      ⟨"64b7f0c2a1d3e4f5a6b7c8a1", "u1", 1736899200000, [exOldSlot]⟩ exOldSlot "pending"
      (by rfl) (by rfl) (by rfl) (by decide) (Or.inl rfl)).1⟩

/-! #### The two checks of a range -/

/-- Two characters are equal when their codes are. -/
theorem char_eq_iff (a b : Char) : a = b ↔ a.toNat = b.toNat := by
  constructor
  · intro h; rw [h]
  · intro h
    apply Char.ext
    apply UInt32.ext
    exact h

/-- The code of a decimal digit. -/
theorem isDigit_bounds (c : Char) (h : c.isDigit = true) : 48 ≤ c.toNat ∧ c.toNat ≤ 57 := by
  simp only [Char.isDigit, Bool.and_eq_true, decide_eq_true_eq] at h
  have h1 : (48 : UInt32) ≤ c.val := h.1
  have h2 : c.val ≤ (57 : UInt32) := h.2
  rw [UInt32.le_def] at h1 h2
  exact ⟨h1, h2⟩

/-- The order of characters is the order of their codes. -/
theorem char_le_toNat (a b : Char) (h : a ≤ b) : a.toNat ≤ b.toNat := h

/-- The characters of a string that matches the pattern. -/
theorem matchesHHMM_bounds (s : String) (h : matchesHHMM s = true) :
    ∃ a b c d : Char, s.data = [a, b, ':', c, d] ∧
      48 ≤ a.toNat ∧ a.toNat ≤ 50 ∧ 48 ≤ b.toNat ∧ b.toNat ≤ 57 ∧
      (a.toNat = 50 → b.toNat ≤ 51) ∧ 48 ≤ c.toNat ∧ c.toNat ≤ 53 ∧
      48 ≤ d.toNat ∧ d.toNat ≤ 57 := by
  unfold matchesHHMM at h
  split at h
  · rename_i a b c d heq
    refine ⟨a, b, c, d, heq, ?_⟩
    simp only [Bool.and_eq_true, Bool.or_eq_true, beq_iff_eq, decide_eq_true_eq] at h
    obtain ⟨⟨hab, hc1, hc2⟩, hd⟩ := h
    have hd' := isDigit_bounds d hd
    have hc1' : 48 ≤ c.toNat := char_le_toNat _ _ hc1
    have hc2' : c.toNat ≤ 53 := char_le_toNat _ _ hc2
    rcases hab with ⟨ha, hb⟩ | ⟨⟨ha, hb1⟩, hb2⟩
    · have hb' := isDigit_bounds b hb
      rcases ha with rfl | rfl
      · exact ⟨by decide, by decide, hb'.1, hb'.2, fun h => absurd h (by decide), hc1', hc2',
          hd'.1, hd'.2⟩
      · exact ⟨by decide, by decide, hb'.1, hb'.2, fun h => absurd h (by decide), hc1', hc2',
          hd'.1, hd'.2⟩
    · subst ha
      have hb1' : 48 ≤ b.toNat := char_le_toNat _ _ hb1
      have hb2' : b.toNat ≤ 51 := char_le_toNat _ _ hb2
      exact ⟨by decide, by decide, hb1', by omega, fun _ => hb2', hc1', hc2', hd'.1, hd'.2⟩
  · cases h

/-- On strings of the form `HH:MM` the order of strings is the order of times of day. -/
theorem charsLt_iff_minutes (s e : String) (hs : matchesHHMM s = true)
    (he : matchesHHMM e = true) :
    charsLt s.data e.data = true ↔ minutesOfDay s < minutesOfDay e := by
  obtain ⟨a, b, c, d, hsd, h1, h2, h3, h4, h5, h6, h7, h8, h9⟩ := matchesHHMM_bounds s hs
  obtain ⟨a', b', c', d', hed, g1, g2, g3, g4, g5, g6, g7, g8, g9⟩ := matchesHHMM_bounds e he
  simp only [minutesOfDay, hsd, hed, charsLt, Bool.or_eq_true, decide_eq_true_eq,
    Bool.and_eq_true, beq_iff_eq, char_eq_iff, Bool.or_false, Bool.and_false,
    Nat.lt_irrefl, false_or, true_and, and_false, or_false]
  omega

/-- A string of the form `HH:MM` is truthy. -/
theorem truthy_of_matchesHHMM (s : String) (h : matchesHHMM s = true) :
    (JsVal.str s).truthy = true := by
  obtain ⟨a, b, c, d, hsd, _⟩ := matchesHHMM_bounds s h
  simp only [JsVal.truthy, bne_iff_ne, ne_eq]
  intro h0
  rw [h0] at hsd
  cases hsd

/-- C29. For every pair of strings `startTime` and `endTime` that match the pattern
`^([01]\d|2[0-3]):([0-5]\d)$`, the validator of the schema (the comparison of strings
`endTime > startTime`) holds exactly when `endTime` denotes a strictly later time of day
than `startTime`, and exactly when the check of the controller accepts the slot, the
runtime reading `"2000-01-01T" + HH:MM` as that time of day after the midnight of the
date. -/
theorem end_after_start_checks_agree (env : JsDate) (midnight : Int) (input : SlotInput)
    (slot : TimeSlot)
    (hparse : ∀ s, matchesHHMM s = true →
      env.parseTime s = some (midnight + 60000 * (minutesOfDay s : Int)))
    (hs : matchesHHMM slot.startTime = true) (he : matchesHHMM slot.endTime = true)
    (hst : input.startTime = .str slot.startTime)
    (hen : input.endTime = .str slot.endTime) :
    (endAfterStart slot = true ↔ minutesOfDay slot.startTime < minutesOfDay slot.endTime) ∧
    (endAfterStart slot = true ↔ checkSlot env (some input) = .ok ()) := by
  have hcore := charsLt_iff_minutes slot.startTime slot.endTime hs he
  refine ⟨hcore, ?_⟩
  unfold endAfterStart
  rw [hcore]
  have t1 := truthy_of_matchesHHMM _ hs
  have t2 := truthy_of_matchesHHMM _ he
  simp only [checkSlot, hst, hen, t1, t2, Bool.not_true, Bool.or_self, Bool.false_eq_true,
    if_false, timeOf, castString, hparse _ hs, hparse _ he]
  by_cases hlt : minutesOfDay slot.startTime < minutesOfDay slot.endTime
  · have : ¬ (midnight + 60000 * (minutesOfDay slot.startTime : Int)
        ≥ midnight + 60000 * (minutesOfDay slot.endTime : Int)) := by omega
    simp only [hlt, this, if_false]
  · have : midnight + 60000 * (minutesOfDay slot.startTime : Int)
        ≥ midnight + 60000 * (minutesOfDay slot.endTime : Int) := by omega
    simp only [hlt, this, if_true, false_iff]
    intro h
    cases h

/-- C29 (witness). The slot from nine to ten under the example date functions. -/
theorem end_after_start_checks_agree_witness :
    (endAfterStart exSlot = true ↔
      minutesOfDay exSlot.startTime < minutesOfDay exSlot.endTime) ∧
    (endAfterStart exSlot = true ↔ checkSlot exJsDate (some exSlotInput) = .ok ()) :=
  end_after_start_checks_agree exJsDate 946684800000 exSlotInput exSlot
    (by
      intro s hs
      obtain ⟨a, b, c, d, hsd, h1, h2, h3, h4, h5, h6, h7, h8, h9⟩ := matchesHHMM_bounds s hs
      simp only [exJsDate, hsd, hs, if_true, minutesOfDay, Option.some.injEq]
      push_cast
      omega)
    (by decide) (by decide) (by rfl) (by rfl)

end DailyScheduleModel

namespace SpecialScheduleModel

/-! ### Initial tasks of a special schedule -/

/-- Every error of the callback of `tasks.map` is a 400 response. -/
theorem buildTasks_error (start stop : Int) (taskIds : Nat → String) :
    ∀ (l : List (Option TaskInput)) (k : Nat) (e : Failure),
      buildTasks start stop taskIds k l = .error e → ∃ msg, e = .response 400 msg := by
  intro l
  induction l with
  | nil => intro k e h; simp only [buildTasks] at h; cases h
  | cons o rest ih =>
    intro k e h
    cases o with
    | none => simp only [buildTasks] at h; cases h; exact ⟨_, rfl⟩
    | some task =>
      simp only [buildTasks] at h
      split at h
      · cases h; exact ⟨_, rfl⟩
      · split at h
        · split at h
          · cases h; exact ⟨_, rfl⟩
          · split at h
            · rename_i hrest
              cases h
              exact ih _ _ hrest
            · cases h
        · cases h; exact ⟨_, rfl⟩

/-- The tasks that the callback built, position by position. -/
theorem buildTasks_ok (start stop : Int) (taskIds : Nat → String) :
    ∀ (l : List (Option TaskInput)) (k : Nat) (built : List SpecialTask),
      buildTasks start stop taskIds k l = .ok built →
      List.Forall₂ (fun o st => ∃ t d, o = some t ∧ t.date = .valid d ∧ start ≤ d ∧ d ≤ stop ∧
        t.description.truthy = true ∧ st.date = d ∧
        st.description = jsTrim (jsString t.description)) l built := by
  intro l
  induction l with
  | nil =>
    intro k built h
    simp only [buildTasks] at h
    cases h
    exact List.Forall₂.nil
  | cons o rest ih =>
    intro k built h
    cases o with
    | none => simp only [buildTasks] at h; cases h
    | some task =>
      simp only [buildTasks] at h
      split at h
      · cases h
      · rename_i hn
        simp only [Bool.or_eq_true, Bool.not_eq_true', not_or, Bool.not_eq_false] at hn
        split at h
        · rename_i d hd
          split at h
          · cases h
          · rename_i hr
            simp only [Bool.or_eq_true, decide_eq_true_eq, not_or, not_lt] at hr
            split at h
            · cases h
            · rename_i built' hrest
              cases h
              refine List.Forall₂.cons ⟨task, d, rfl, hd, hr.1, hr.2, hn.2, rfl, ?_⟩
                (ih _ _ hrest)
              exact jsTrim_idem _
        · cases h

/-- The callback accepts a list of tasks that all have a date inside the window and a
description. -/
theorem buildTasks_of_good (start stop : Int) (taskIds : Nat → String) :
    ∀ (l : List (Option TaskInput)) (k : Nat),
      (∀ o ∈ l, ∃ t d, o = some t ∧ t.date = .valid d ∧ start ≤ d ∧ d ≤ stop ∧
        t.description.truthy = true) →
      ∃ built, buildTasks start stop taskIds k l = .ok built := by
  intro l
  induction l with
  | nil => intro k _; exact ⟨[], rfl⟩
  | cons o rest ih =>
    intro k h
    obtain ⟨t, d, rfl, hd, h1, h2, hdesc⟩ := h o (List.mem_cons_self _ _)
    obtain ⟨built, hb⟩ := ih (k + 1) (fun o ho => h o (List.mem_cons_of_mem _ ho))
    have hr : (decide (d < start) || decide (d > stop)) = false := by
      simp only [Bool.or_eq_false_iff, decide_eq_false_iff_not, not_lt]
      exact ⟨h1, h2⟩
    refine ⟨{ _id := taskIds k, date := d,
              description := jsTrim (jsTrim (jsString t.description)) } :: built, ?_⟩
    simp only [buildTasks, hd, DateArg.truthy, hdesc, Bool.not_true, Bool.or_self,
      Bool.false_eq_true, if_false, hr, hb]

/-- Related lists carry a property of the elements of the first to those of the second. -/
theorem forall₂_transfer {α β : Type} (R : α → β → Prop) (P : α → Prop) (Q : β → Prop)
    (hRPQ : ∀ a b, R a b → P a → Q b) :
    ∀ (l : List α) (m : List β), List.Forall₂ R l m → (∀ a ∈ l, P a) → ∀ b ∈ m, Q b := by
  intro l m h
  induction h with
  | nil => intro _ b hb; cases hb
  | cons hab _ ih =>
    intro hP b hb
    rcases List.mem_cons.1 hb with rfl | hb
    · exact hRPQ _ _ hab (hP _ (List.mem_cons_self _ _))
    · exact ih (fun a ha => hP a (List.mem_cons_of_mem _ ha)) b hb

/-- Related lists: every element of the first has a partner. -/
theorem forall₂_left {α β : Type} (R : α → β → Prop) :
    ∀ (l : List α) (m : List β), List.Forall₂ R l m → ∀ a ∈ l, ∃ b, R a b := by
  intro l m h
  induction h with
  | nil => intro a ha; cases ha
  | cons hab _ ih =>
    intro a ha
    rcases List.mem_cons.1 ha with rfl | ha
    · exact ⟨_, hab⟩
    · exact ih a ha

/-- C26 (counterexample). A request with valid bounds whose only task has a date inside
the window and the description of two spaces: no task is missing its date or description,
has an unparseable date or a date outside the window, and yet no schedule is created: the
schema rejects the trimmed description. -/
theorem createSpecialSchedule_blank_description_rejected :
    exBlankTaskBody.tasks = some [some ⟨.valid (jan01 + dayMs), .str "  "⟩] ∧
    (JsVal.str "  ").truthy = true ∧ jan01 ≤ jan01 + dayMs ∧ jan01 + dayMs ≤ jan01 + 9 * dayMs ∧
    (createSpecialSchedule [] "u1" "sch1" (fun _ => "t0") exBlankTaskBody).result
      = .error (.validation "Please add a task description") ∧
    (createSpecialSchedule [] "u1" "sch1" (fun _ => "t0") exBlankTaskBody).db = [] := by
  refine ⟨by rfl, by decide, by decide, by decide, by rfl, by rfl⟩

/-- C26 (amended). For every request with valid `startDate <= endDate` and a tasks array:
if any one task is missing its date or description, has an unparseable date, or has a date
outside [startDate, endDate], the request fails with a 400 error and the store is
unchanged; and when every task has a date inside the window and a description that is
not empty after trimming and at most 1000 characters long, the schedule is created and
holds exactly the submitted tasks in order, each with its description trimmed. -/
theorem createSpecialSchedule_all_or_nothing (db : Store) (userId newId : String)
    (taskIds : Nat → String) (body : CreateBody) (start stop : Int)
    (tasks : List (Option TaskInput))
    (hs : body.startDate = .valid start) (he : body.endDate = .valid stop)
    (hle : start ≤ stop) (ht : body.tasks = some tasks) (hu : userId ≠ "") :
    (∀ o ∈ tasks,
      (o = none ∨ ∃ t, o = some t ∧ (t.date = .falsy ∨ t.description.truthy = false ∨
        t.date = .invalid ∨ ∃ d, t.date = .valid d ∧ (d < start ∨ stop < d))) →
      ∃ msg, createSpecialSchedule db userId newId taskIds body
        = ⟨db, .error (.response 400 msg)⟩) ∧
    ((∀ o ∈ tasks, ∃ t d, o = some t ∧ t.date = .valid d ∧ start ≤ d ∧ d ≤ stop ∧
        t.description.truthy = true ∧ jsTrim (jsString t.description) ≠ "" ∧
        jsLength (jsTrim (jsString t.description)) ≤ 1000) →
      ∃ schedule, createSpecialSchedule db userId newId taskIds body
          = ⟨db ++ [schedule], .ok schedule⟩ ∧
        schedule._id = newId ∧ schedule.userId = userId ∧ schedule.startDate = start ∧
        schedule.endDate = stop ∧
        List.Forall₂ (fun o st => ∃ t d, o = some t ∧ t.date = .valid d ∧ st.date = d ∧
          st.description = jsTrim (jsString t.description)) tasks schedule.tasks) := by
  have hnot : ¬ stop < start := by omega
  constructor
  · intro o ho hbad
    cases hb : buildTasks start stop taskIds 0 tasks with
    | error e =>
      obtain ⟨msg, rfl⟩ := buildTasks_error start stop taskIds tasks 0 e hb
      refine ⟨msg, ?_⟩
      simp only [createSpecialSchedule, hs, he, DateArg.truthy, Bool.not_true, Bool.or_self,
        Bool.false_eq_true, if_false, if_neg hnot, ht, hb]
    | ok built =>
      exfalso
      obtain ⟨st, t, d, rfl, hd, h1, h2, hdesc, _⟩ :=
        forall₂_left _ _ _ (buildTasks_ok start stop taskIds tasks 0 built hb) o ho
      rcases hbad with h | ⟨t', ht', h | h | h | ⟨d', hd', h⟩⟩
      · cases h
      · cases ht'; rw [hd] at h; cases h
      · cases ht'; rw [hdesc] at h; cases h
      · cases ht'; rw [hd] at h; cases h
      · cases ht'
        rw [hd] at hd'
        cases hd'
        omega
  · intro hgood
    obtain ⟨built, hb⟩ := buildTasks_of_good start stop taskIds tasks 0
      (fun o ho => by
        obtain ⟨t, d, h1, h2, h3, h4, h5, _⟩ := hgood o ho
        exact ⟨t, d, h1, h2, h3, h4, h5⟩)
    have hf := buildTasks_ok start stop taskIds tasks 0 built hb
    have hvalid : ∀ st ∈ built, validateTask st = .ok () := by
      refine forall₂_transfer _
        (fun o => ∃ t d, o = some t ∧ t.date = .valid d ∧ start ≤ d ∧ d ≤ stop ∧
          t.description.truthy = true ∧ jsTrim (jsString t.description) ≠ "" ∧
          jsLength (jsTrim (jsString t.description)) ≤ 1000)
        (fun st => validateTask st = .ok ()) ?_ tasks built hf hgood
      intro o st hR hP
      obtain ⟨t, d, rfl, _, _, _, _, _, hdesc⟩ := hR
      obtain ⟨t', d', ht', _, _, _, _, hne, hlen⟩ := hP
      cases ht'
      unfold validateTask
      rw [hdesc]
      have h1 : (jsTrim (jsString t.description) == "") = false := by simpa using hne
      have h2 : ¬ jsLength (jsTrim (jsString t.description)) > 1000 := by omega
      simp only [h1, Bool.false_eq_true, if_false, if_neg h2]
    have hv : validateSchedule
        { _id := newId, userId := userId, startDate := start, endDate := stop,
          tasks := built } = .ok () := by
      unfold validateSchedule
      have h1 : (userId == "") = false := by simpa using hu
      have h2 : (!decide (stop ≥ start)) = false := by simpa using hle
      simp only [h1, Bool.false_eq_true, if_false, h2]
      exact (forM_ok_iff _ _).2 hvalid
    refine ⟨{ _id := newId, userId := userId, startDate := start, endDate := stop,
              tasks := built }, ?_, rfl, rfl, rfl, rfl, ?_⟩
    · simp only [createSpecialSchedule, hs, he, DateArg.truthy, Bool.not_true, Bool.or_self,
        Bool.false_eq_true, if_false, if_neg hnot, ht, hb, hv]
    · exact hf.imp (fun o st h => by
        obtain ⟨t, d, h1, h2, _, _, _, h3, h4⟩ := h
        exact ⟨t, d, h1, h2, h3, h4⟩)

/-- C26 (witness). A request whose second task is dated after the window creates nothing,
and the request with two tasks inside the window creates the schedule with both, the
first with its description trimmed. -/
theorem createSpecialSchedule_all_or_nothing_witness :
    (∃ msg, createSpecialSchedule [] "u1" "sch1" (fun k => toString k) exLateTaskBody
      = ⟨[], .error (.response 400 msg)⟩) ∧
    (createSpecialSchedule [] "u1" "sch1" (fun k => toString k) exTwoTasksBody).result
      = .ok ⟨"sch1", "u1", jan01, jan01 + 9 * dayMs,
          [⟨"0", jan01 + dayMs, "pack"⟩, ⟨"1", jan01 + 9 * dayMs, "leave"⟩]⟩ :=
  ⟨(createSpecialSchedule_all_or_nothing [] "u1" "sch1" (fun k => toString k) exLateTaskBody
      jan01 (jan01 + 9 * dayMs)
      [some ⟨.valid (jan01 + dayMs), .str "pack"⟩,
       some ⟨.valid (jan01 + 10 * dayMs), .str "leave"⟩]
      (by rfl) (by rfl) (by decide) (by rfl) (by decide)).1
      (some ⟨.valid (jan01 + 10 * dayMs), .str "leave"⟩) (by simp)
      (Or.inr ⟨_, rfl, Or.inr (Or.inr (Or.inr ⟨_, rfl, Or.inr (by decide)⟩))⟩),
   by rfl⟩

/-! ### Bounds of a special schedule -/

/-- Overwriting a document by an ordered one keeps the bounds ordered. -/
theorem boundsOrdered_replaceDoc (db : Store) (s : SpecialSchedule) (h : BoundsOrdered db)
    (hs : s.startDate ≤ s.endDate) : BoundsOrdered (replaceDoc db s) := by
  intro x hx
  unfold replaceDoc at hx
  obtain ⟨d, hd, rfl⟩ := List.mem_map.1 hx
  split
  · exact hs
  · exact h d hd

/-- The store that `createSpecialSchedule` leaves. -/
theorem createSpecialSchedule_db (db : Store) (userId newId : String)
    (taskIds : Nat → String) (body : CreateBody) :
    (createSpecialSchedule db userId newId taskIds body).db = db ∨
    ∃ schedule, (createSpecialSchedule db userId newId taskIds body).db = db ++ [schedule] ∧
      schedule.startDate ≤ schedule.endDate := by
  unfold createSpecialSchedule
  split
  · exact Or.inl rfl
  · split
    · rename_i start stop _ _
      split
      · exact Or.inl rfl
      · rename_i hle
        split
        · exact Or.inl rfl
        · dsimp only
          split
          · exact Or.inl rfl
          · exact Or.inr ⟨_, rfl, by simp only; omega⟩
    · exact Or.inl rfl

/-- The store that `updateSpecialSchedule` leaves. -/
theorem updateSpecialSchedule_db (db : Store) (userId id : String) (body : UpdateBody) :
    (updateSpecialSchedule db userId id body).db = db ∨
    ∃ schedule, (updateSpecialSchedule db userId id body).db = replaceDoc db schedule ∧
      schedule.startDate ≤ schedule.endDate := by
  unfold updateSpecialSchedule
  split
  · exact Or.inl rfl
  · split
    · exact Or.inl rfl
    · split
      · exact Or.inl rfl
      · dsimp only
        split
        · split
          · exact Or.inl rfl
          · split
            · exact Or.inl rfl
            · rename_i hle
              split
              · exact Or.inl rfl
              · rename_i db' hsv
                unfold save at hsv
                split at hsv
                · cases hsv
                · cases hsv
                  exact Or.inr ⟨_, rfl, by simp only; omega⟩
        · exact Or.inl rfl

/-- One call keeps the bounds ordered. -/
theorem run_boundsOrdered (db : Store) (c : ScheduleCall) (h : BoundsOrdered db) :
    BoundsOrdered (c.run db) := by
  cases c with
  | create userId newId taskIds body =>
    rcases createSpecialSchedule_db db userId newId taskIds body with h0 | ⟨s, h1, hs⟩
    · simp only [ScheduleCall.run, h0]; exact h
    · simp only [ScheduleCall.run, h1]
      intro x hx
      rcases List.mem_append.1 hx with hx | hx
      · exact h x hx
      · simp only [List.mem_singleton] at hx
        subst hx
        exact hs
  | update userId id body =>
    rcases updateSpecialSchedule_db db userId id body with h0 | ⟨s, h1, hs⟩
    · simp only [ScheduleCall.run, h0]; exact h
    · simp only [ScheduleCall.run, h1]
      exact boundsOrdered_replaceDoc db s h hs

/-- A sequence of calls keeps the bounds ordered. -/
theorem runCalls_boundsOrdered (calls : List ScheduleCall) :
    ∀ db : Store, BoundsOrdered db → BoundsOrdered (runCalls db calls) := by
  induction calls with
  | nil => intro db h; exact h
  | cons c rest ih =>
    intro db h
    exact ih _ (run_boundsOrdered db c h)

/-- C27. Every store that a sequence of `createSpecialSchedule` and
`updateSpecialSchedule` calls builds, from the empty store or from a store whose schedules
all have `startDate <= endDate`, holds only schedules with `startDate <= endDate`;
`createSpecialSchedule` rejects an `endDate` before the `startDate`; and
`updateSpecialSchedule` given only one of the two bounds compares it with the stored other
bound: it answers 400 'End date cannot be before start date' and changes nothing when the
resulting end precedes the resulting start, and otherwise saves the new bound and leaves
the other bound (and the tasks) as stored. -/
theorem special_schedule_bounds_ordered (db : Store) (calls : List ScheduleCall)
    (h : BoundsOrdered db) :
    BoundsOrdered (runCalls [] calls) ∧
    BoundsOrdered (runCalls db calls) ∧
    (∀ (userId newId : String) (taskIds : Nat → String) (body : CreateBody)
        (start stop : Int),
      body.startDate = .valid start → body.endDate = .valid stop → stop < start →
      createSpecialSchedule db userId newId taskIds body
        = ⟨db, .error (.response 400 "End date cannot be before start date")⟩) ∧
    (∀ (userId id : String) (schedule : SpecialSchedule) (ms : Int),
      findOne db id userId = some schedule →
      (schedule.endDate < ms →
        updateSpecialSchedule db userId id ⟨.valid ms, .falsy⟩
          = ⟨db, .error (.response 400 "End date cannot be before start date")⟩) ∧
      (ms < schedule.startDate →
        updateSpecialSchedule db userId id ⟨.falsy, .valid ms⟩
          = ⟨db, .error (.response 400 "End date cannot be before start date")⟩) ∧
      (validateSchedule schedule = .ok () → ms ≤ schedule.endDate →
        updateSpecialSchedule db userId id ⟨.valid ms, .falsy⟩
          = ⟨replaceDoc db { schedule with startDate := ms },
             .ok (some { schedule with startDate := ms })⟩) ∧
      (validateSchedule schedule = .ok () → schedule.startDate ≤ ms →
        updateSpecialSchedule db userId id ⟨.falsy, .valid ms⟩
          = ⟨replaceDoc db { schedule with endDate := ms },
             .ok (some { schedule with endDate := ms })⟩)) := by
  refine ⟨runCalls_boundsOrdered calls [] (fun s hs => by cases hs),
    runCalls_boundsOrdered calls db h, ?_, ?_⟩
  · intro userId newId taskIds body start stop hs he hlt
    simp only [createSpecialSchedule, hs, he, DateArg.truthy, Bool.not_true, Bool.or_self,
      Bool.false_eq_true, if_false, if_pos hlt]
  · intro userId id schedule ms hf
    have hvalid : ∀ s' : SpecialSchedule, validateSchedule schedule = .ok () →
        s'.userId = schedule.userId → s'.tasks = schedule.tasks →
        s'.startDate ≤ s'.endDate → validateSchedule s' = .ok () := by
      intro s' hv hu ht hle
      unfold validateSchedule at hv ⊢
      rw [hu, ht]
      split at hv
      · cases hv
      · rename_i hu'
        rw [if_neg hu']
        have : (!decide (s'.endDate ≥ s'.startDate)) = false := by simpa using hle
        simp only [this, Bool.false_eq_true, if_false]
        split at hv
        · cases hv
        · exact hv
    refine ⟨?_, ?_, ?_, ?_⟩
    · intro hlt
      simp only [updateSpecialSchedule, DateArg.truthy, Bool.not_true, Bool.not_false,
        Bool.false_and, Bool.and_true, Bool.false_eq_true, if_false, Option.isSome_some,
        Option.isSome_none, Bool.or_false, Bool.or_true, if_true, hf, Option.getD_some,
        Option.getD_none, if_pos hlt, reduceCtorEq, beq_iff_eq]
    · intro hlt
      simp only [updateSpecialSchedule, DateArg.truthy, Bool.not_true, Bool.not_false,
        Bool.false_and, Bool.and_true, Bool.and_false, Bool.false_eq_true, if_false,
        Option.isSome_some, Option.isSome_none, Bool.or_false, Bool.or_true, Bool.false_or,
        if_true, hf, Option.getD_some, Option.getD_none, if_pos hlt, reduceCtorEq,
        beq_iff_eq]
    · intro hv hle
      have hnot : ¬ schedule.endDate < ms := by omega
      have hv' := hvalid { schedule with startDate := ms } hv rfl rfl hle
      simp only [updateSpecialSchedule, DateArg.truthy, Bool.not_true, Bool.not_false,
        Bool.false_and, Bool.and_true, Bool.false_eq_true, if_false, Option.isSome_some,
        Option.isSome_none, Bool.or_false, Bool.or_true, if_true, hf, Option.getD_some,
        Option.getD_none, if_neg hnot, reduceCtorEq, beq_iff_eq, save, hv']
    · intro hv hle
      have hnot : ¬ ms < schedule.startDate := by omega
      have hv' := hvalid { schedule with endDate := ms } hv rfl rfl hle
      simp only [updateSpecialSchedule, DateArg.truthy, Bool.not_true, Bool.not_false,
        Bool.false_and, Bool.and_true, Bool.and_false, Bool.false_eq_true, if_false,
        Option.isSome_some, Option.isSome_none, Bool.or_false, Bool.or_true, Bool.false_or,
        if_true, hf, Option.getD_some, Option.getD_none, if_neg hnot, reduceCtorEq,
        beq_iff_eq, save, hv']

/-- C27 (witness). The example calls leave one schedule, from 2025-01-05 to 2025-01-05;
on the schedule 2025-01-01 .. 2025-01-10 a start after the end is refused. -/
theorem special_schedule_bounds_ordered_witness :
    runCalls [] exBoundCalls
      = [⟨"sch1", "u1", jan01 + 4 * dayMs, jan01 + 4 * dayMs, []⟩] ∧
    BoundsOrdered (runCalls [] exBoundCalls) ∧
    BoundsOrdered (runCalls exCreated exBoundCalls) ∧
    updateSpecialSchedule exCreated "u1" "sch1" ⟨.valid (jan01 + 12 * dayMs), .falsy⟩
      = ⟨exCreated, .error (.response 400 "End date cannot be before start date")⟩ :=
  ⟨by decide,
   (special_schedule_bounds_ordered exCreated exBoundCalls (by decide)).1,
   (special_schedule_bounds_ordered exCreated exBoundCalls (by decide)).2.1,
   ((special_schedule_bounds_ordered exCreated exBoundCalls (by decide)).2.2.2 "u1" "sch1"
      exSchedule (jan01 + 12 * dayMs) (by rfl)).1 (by decide)⟩

end SpecialScheduleModel

namespace LifePlanModel

/-! ### Ages of a life plan -/

/-- C28 (code at the failing input). `createLifePlan` stores the plan of `u2` with the ages
25 and 30; `updateLifePlan` with a body that has only `startAge: 50` then succeeds and the
stored plan has `startAge = 50` and `endAge = 30`; likewise a body that has only
`endAge: 20` succeeds and leaves `startAge = 25` and `endAge = 20`. Neither request is
answered with 'End age must be greater than start age'. -/
theorem updateLifePlan_single_age_unchecked :
    (createLifePlan [] "u2" "64b7f0c2a1d3e4f5a6b7c8e2" exCreatePlanBody).db = [exPlan] ∧
    exPlan.startAge = 25 ∧ exPlan.endAge = 30 ∧
    (updateLifePlan [exPlan] "u2" "64b7f0c2a1d3e4f5a6b7c8e2" exOnlyStartAge).result
      = .ok { exPlan with startAge := 50 } ∧
    (updateLifePlan [exPlan] "u2" "64b7f0c2a1d3e4f5a6b7c8e2" exOnlyStartAge).db
      = [{ exPlan with startAge := 50 }] ∧
    ¬ ((50 : Int) < exPlan.endAge) ∧
    (updateLifePlan [exPlan] "u2" "64b7f0c2a1d3e4f5a6b7c8e2" exOnlyEndAge).result
      = .ok { exPlan with endAge := 20 } ∧
    (updateLifePlan [exPlan] "u2" "64b7f0c2a1d3e4f5a6b7c8e2" exOnlyEndAge).db
      = [{ exPlan with endAge := 20 }] ∧
    ¬ (exPlan.startAge < (20 : Int)) ∧
    (createLifePlan [] "u2" "64b7f0c2a1d3e4f5a6b7c8e2"
        { exCreatePlanBody with startAge := some 50 }).result
      = .error (.response 400 "End age must be greater than start age") := by
  refine ⟨by decide, by rfl, by rfl, by rfl, by decide, by decide, by rfl, by decide,
    by decide, by rfl⟩

end LifePlanModel

namespace TransactionModel

/-! ### Balance and summary -/

/-- C30. The user `64b7f0c2a1d3e4f5a6b7c8b2` has three transactions in `exLedger` (an
expense of 250, an earning of 1000, an expense of 50; sums of such amounts are exact in
the arithmetic of the runtime). The query of `getDashboardStats` finds them and its fold
gives the balance 700, and the stages `$group` and `$project` on these three give the
totals 1000 and 300 with the counts 1 and 2. But `getTransactionSummary` answers with the
earnings 0, the expenses 0 and the count 0: its stage `$match` compares the stored
`ObjectId` with the uncast string `req.user.id`, which selects no transaction, here and
for every collection, user and range. -/
theorem getTransactionSummary_misses_every_transaction :
    findByUser exLedger "64b7f0c2a1d3e4f5a6b7c8b2" = .ok exLedgerOfUser ∧
    exLedgerOfUser.length = 3 ∧
    totalBalance exLedgerOfUser = 700 ∧
    groupByType exLedgerOfUser = [⟨"earning", 1000, 1⟩, ⟨"expense", 300, 2⟩] ∧
    totalOf (groupByType exLedgerOfUser) "earning"
      - totalOf (groupByType exLedgerOfUser) "expense" = 700 ∧
    matchStage exLedger "64b7f0c2a1d3e4f5a6b7c8b2" none = [] ∧
    getTransactionSummary exLedger "64b7f0c2a1d3e4f5a6b7c8b2" none = ⟨0, 0, 0⟩ ∧
    (∀ (db : Store) (userId : String) (range : Option (Int × Int)),
      getTransactionSummary db userId range = ⟨0, 0, 0⟩) := by
  refine ⟨by rfl, by rfl, by rfl, by decide, by decide, by rfl, by rfl, ?_⟩
  intro db userId range
  have hmatch : matchStage db userId range = [] := by
    unfold matchStage
    rw [List.filter_eq_nil_iff]
    intro t _
    simp [UserFilter.selects]
  simp only [getTransactionSummary, hmatch]
  rfl

end TransactionModel

end GoalOS
